import Mathlib

/-!
Verification of the go-sccp SCCP codec (github.com/wmnsk/go-sccp).

This file gives a shallow embedding of the encode/decode engine of the
repository: the parameter codecs of package `params` (ProtocolClass,
GlobalTitle, PartyAddress, Data, Segmentation, HopCounter, Importance,
Credit, EndOfOptionalParameters, and the optional-parameter block scanner),
the message codecs `UDT` and `XUDT`, and the `ParseMessage` dispatcher.

Bytes are modelled as natural numbers; every place where the Go code
performs 8-bit (`uint8`) arithmetic or an integer-to-byte conversion is
embedded with an explicit `% 256`.  Go slice expressions carry bounds
checks: an out-of-range slice or index is a runtime panic in Go and is
modelled by the `Res.crash` outcome.  A loop of the Go code that can fail
to make progress is given fuel; exhausted fuel is modelled by
`Res.diverge`.
-/

namespace Sccp

/-- Errors returned by the codec: `io.ErrUnexpectedEOF`,
`params.UnsupportedParameterError` and `sccp.UnsupportedTypeError`. -/
inductive PErr where
  | eof
  | unsupportedParam (tag : Nat)
  | unsupportedType (v : Nat)
deriving DecidableEq, Repr

/-- Outcome of running a piece of Go code: a normal return, a returned
error, a runtime crash (Go panic, e.g. a slice-bounds violation or a nil
dereference), or non-termination of a loop. -/
inductive Res (α : Type) where
  | ok : α → Res α
  | err : PErr → Res α
  | crash : Res α
  | diverge : Res α
deriving DecidableEq, Repr

/-- Sequencing of Go computations: errors, crashes and divergence
propagate. -/
def Res.bind {α β : Type} : Res α → (α → Res β) → Res β
  | .ok a, f => f a
  | .err e, _ => .err e
  | .crash, _ => .crash
  | .diverge, _ => .diverge

/-- Mapping over the value of a `Res`. -/
def Res.map {α β : Type} (f : α → β) : Res α → Res β
  | .ok a => .ok (f a)
  | .err e => .err e
  | .crash => .crash
  | .diverge => .diverge

/-- Whether a `Res` is a normal return. -/
def Res.isOk {α : Type} : Res α → Bool
  | .ok _ => true
  | _ => false

@[simp] theorem Res.bind_ok {α β : Type} (a : α) (f : α → Res β) :
    Res.bind (.ok a) f = f a := rfl

@[simp] theorem Res.bind_err {α β : Type} (e : PErr) (f : α → Res β) :
    Res.bind (.err e) f = .err e := rfl

@[simp] theorem Res.bind_crash {α β : Type} (f : α → Res β) :
    Res.bind .crash f = .crash := rfl

@[simp] theorem Res.bind_diverge {α β : Type} (f : α → Res β) :
    Res.bind .diverge f = .diverge := rfl

@[simp] theorem Res.map_ok {α β : Type} (f : α → β) (a : α) :
    Res.map f (.ok a) = .ok (f a) := rfl

theorem Res.bind_eq_ok {α β : Type} {r : Res α} {f : α → Res β} {b : β}
    (h : Res.bind r f = .ok b) : ∃ a, r = .ok a ∧ f a = .ok b := by
  cases r with
  | ok a => exact ⟨a, rfl, h⟩
  | err e => simp [Res.bind] at h
  | crash => simp [Res.bind] at h
  | diverge => simp [Res.bind] at h

/-- Go index expression `b[i]`: panics when out of range. -/
def goIdx (b : List Nat) (i : Nat) : Res Nat :=
  if h : i < b.length then .ok (b.get ⟨i, h⟩) else .crash

/-- Go slice expression `b[lo:hi]`: panics unless `lo ≤ hi ≤ len(b)`. -/
def goSlice (b : List Nat) (lo hi : Nat) : Res (List Nat) :=
  if lo ≤ hi ∧ hi ≤ b.length then .ok ((b.drop lo).take (hi - lo)) else .crash

/-- Go slice expression `b[lo:]`: panics unless `lo ≤ len(b)`. -/
def goSliceFrom (b : List Nat) (lo : Nat) : Res (List Nat) :=
  if lo ≤ b.length then .ok (b.drop lo) else .crash

/-- Go assignment `b[i] = v` into a buffer: panics when out of range. -/
def setByte (buf : List Nat) (i v : Nat) : Res (List Nat) :=
  if i < buf.length then .ok (buf.set i v) else .crash

/-- Writing the byte sequence `bs` into the buffer starting at `lo`
(the effect of a parameter's `Write` on the region `b[lo:...]`). -/
def setSlice (buf : List Nat) (lo : Nat) (bs : List Nat) : List Nat :=
  buf.take lo ++ bs ++ buf.drop (lo + bs.length)

@[simp] theorem goIdx_eq_ok {b : List Nat} {i : Nat} (h : i < b.length) :
    goIdx b i = .ok (b.getD i 0) := by
  simp [goIdx, h, List.getD_eq_getElem?_getD, List.getElem?_eq_getElem h]

theorem goSlice_eq_ok {b : List Nat} {lo hi : Nat} (h1 : lo ≤ hi)
    (h2 : hi ≤ b.length) :
    goSlice b lo hi = .ok ((b.drop lo).take (hi - lo)) := by
  simp [goSlice, h1, h2]

theorem goSliceFrom_eq_ok {b : List Nat} {lo : Nat} (h : lo ≤ b.length) :
    goSliceFrom b lo = .ok (b.drop lo) := by
  simp [goSliceFrom, h]

/-! ### Global Title (params/global-title.go) -/

/-- `GlobalTitle` with its four-shape layout selected by `GTI`. -/
structure GlobalTitle where
  GTI : Nat
  TranslationType : Nat
  NumberingPlan : Nat
  EncodingScheme : Nat
  NatureOfAddressIndicator : Nat
  AddressInformation : List Nat
deriving DecidableEq, Repr

namespace GlobalTitle

/-- A fresh `&GlobalTitle{GTI: gti}`. -/
def mk0 (gti : Nat) : GlobalTitle :=
  { GTI := gti, TranslationType := 0, NumberingPlan := 0, EncodingScheme := 0,
    NatureOfAddressIndicator := 0, AddressInformation := [] }

/-- `lenByGTI`: leading-field byte count selected by the GTI plus the
length of the address information. -/
def lenByGTI (g : GlobalTitle) : Nat :=
  (if g.GTI = 1 then 1
   else if g.GTI = 2 then 1
   else if g.GTI = 3 then 2
   else if g.GTI = 4 then 3
   else 0) + g.AddressInformation.length

/-- `MarshalLen`. -/
def MarshalLen (g : GlobalTitle) : Nat := g.lenByGTI

/-- The number of leading bytes mandated by a GTI value. -/
def leadLen (gti : Nat) : Nat :=
  if gti = 1 then 1 else if gti = 2 then 1 else if gti = 3 then 2
  else if gti = 4 then 3 else 0

theorem lenByGTI_eq (g : GlobalTitle) :
    g.lenByGTI = leadLen g.GTI + g.AddressInformation.length := rfl

/-- `GlobalTitle.Read`: branch on the receiver's GTI, consume the leading
fields, and take every remaining byte as AddressInformation, reporting the
whole slice as consumed. -/
def Read (g : GlobalTitle) (b : List Nat) : Res (GlobalTitle × Nat) :=
  if b.length < g.lenByGTI then .err .eof
  else if g.GTI = 1 then
    .ok ({ g with
            NatureOfAddressIndicator := b.getD 0 0,
            AddressInformation := b.drop 1 }, b.length)
  else if g.GTI = 2 then
    .ok ({ g with
            TranslationType := b.getD 0 0,
            AddressInformation := b.drop 1 }, b.length)
  else if g.GTI = 3 then
    .ok ({ g with
            TranslationType := b.getD 0 0,
            NumberingPlan := b.getD 1 0 / 16,
            EncodingScheme := b.getD 1 0 % 16,
            AddressInformation := b.drop 2 }, b.length)
  else if g.GTI = 4 then
    .ok ({ g with
            TranslationType := b.getD 0 0,
            NumberingPlan := b.getD 1 0 / 16,
            EncodingScheme := b.getD 1 0 % 16,
            NatureOfAddressIndicator := b.getD 2 0,
            AddressInformation := b.drop 3 }, b.length)
  else
    .ok ({ g with AddressInformation := b }, b.length)

/-- The bytes written by `GlobalTitle.Write`: the GTI-selected leading
fields followed by the address information.  The packed byte of shape 3/4
is `uint8(NumberingPlan)<<4 | uint8(EncodingScheme)`. -/
def writeBytes (g : GlobalTitle) : List Nat :=
  (if g.GTI = 1 then [g.NatureOfAddressIndicator]
   else if g.GTI = 2 then [g.TranslationType]
   else if g.GTI = 3 then
     [g.TranslationType, (g.NumberingPlan % 256 * 16 % 256) ||| (g.EncodingScheme % 256)]
   else if g.GTI = 4 then
     [g.TranslationType, (g.NumberingPlan % 256 * 16 % 256) ||| (g.EncodingScheme % 256),
      g.NatureOfAddressIndicator]
   else []) ++ g.AddressInformation

/-- `GlobalTitle.Write` into a destination region of `s` bytes: fails with
truncation when the region is shorter than `MarshalLen`; returns the count
of leading bytes written. -/
def Write (g : GlobalTitle) (s : Nat) : Res (List Nat × Nat) :=
  if s < g.MarshalLen then .err .eof
  else .ok (g.writeBytes, leadLen g.GTI)

theorem gt_writeBytes_length (g : GlobalTitle) :
    g.writeBytes.length = g.MarshalLen := by
  unfold writeBytes MarshalLen lenByGTI
  by_cases h1 : g.GTI = 1 <;> by_cases h2 : g.GTI = 2 <;>
    by_cases h3 : g.GTI = 3 <;> by_cases h4 : g.GTI = 4 <;>
    simp [h1, h2, h3, h4] <;> omega

end GlobalTitle

/-- `NewGlobalTitle`: sets only the fields selected by the GTI shape. -/
def NewGlobalTitle (gti tt np es nai : Nat) (addr : List Nat) : GlobalTitle :=
  let g0 := GlobalTitle.mk0 gti
  let g :=
    if gti = 1 then { g0 with NatureOfAddressIndicator := nai }
    else if gti = 2 then { g0 with TranslationType := tt }
    else if gti = 3 then
      { g0 with TranslationType := tt, NumberingPlan := np, EncodingScheme := es }
    else if gti = 4 then
      { g0 with
          TranslationType := tt,
          NumberingPlan := np,
          EncodingScheme := es,
          NatureOfAddressIndicator := nai }
    else g0
  { g with AddressInformation := addr }

/-! ### Parameter type and name codes (params, Q.713 tables) -/

/-- `PTypeF`, `PTypeV`, `PTypeO` of `ParameterType`. -/
def PTypeF : Nat := 0
def PTypeV : Nat := 1
def PTypeO : Nat := 2

/-- The `ParameterNameCode` constants used by the embedded codecs. -/
def PCodeEndOfOptionalParameters : Nat := 0
def PCodeCalledPartyAddress : Nat := 3
def PCodeCallingPartyAddress : Nat := 4
def PCodeProtocolClass : Nat := 5
def PCodeCredit : Nat := 9
def PCodeData : Nat := 15
def PCodeSegmentation : Nat := 16
def PCodeHopCounter : Nat := 17
def PCodeImportance : Nat := 18

/-! ### ProtocolClass -/

structure ProtocolClass where
  paramType : Nat
  code : Nat
  length : Nat
  value : Nat
deriving DecidableEq, Repr

namespace ProtocolClass

/-- A fresh `&ProtocolClass{}`. -/
def mk0 : ProtocolClass := { paramType := 0, code := 0, length := 0, value := 0 }

/-- `ProtocolClass.Read`. -/
def Read (p : ProtocolClass) (b : List Nat) : Res (ProtocolClass × Nat) :=
  if b.length < 1 then .err .eof
  else .ok ({ p with code := PCodeProtocolClass, length := 1, value := b.getD 0 0 }, 1)

/-- `ProtocolClass.Write` into a region of `s` bytes: writes `value` at
offset 0 and returns `length`. -/
def Write (p : ProtocolClass) (s : Nat) : Res (List Nat × Nat) :=
  if s < p.length then .err .eof
  else if s = 0 then .crash
  else .ok ([p.value], p.length)

/-- `MarshalLen`. -/
def MarshalLen (p : ProtocolClass) : Nat := p.length

end ProtocolClass

/-- `NewProtocolClass`: packs the class in the low nibble and the
return-on-error flag in the high bit (`uint8(cls | 0x80)`). -/
def NewProtocolClass (cls : Nat) (returnOnError : Bool) : ProtocolClass :=
  { paramType := PTypeF, code := PCodeProtocolClass, length := 1,
    value := if returnOnError then (cls ||| 0x80) % 256 else cls % 256 }

/-! ### HopCounter -/

structure HopCounter where
  paramType : Nat
  code : Nat
  length : Nat
  value : Nat
deriving DecidableEq, Repr

namespace HopCounter

/-- A fresh `&HopCounter{}`. -/
def mk0 : HopCounter := { paramType := 0, code := 0, length := 0, value := 0 }

/-- `HopCounter.read` (mandatory fixed form). -/
def read (h : HopCounter) (b : List Nat) : Res (HopCounter × Nat) :=
  if b.length < 1 then .err .eof
  else
    .ok ({ h with
            paramType := PTypeF,
            code := PCodeHopCounter,
            length := 1,
            value := b.getD 0 0 }, 1)

/-- `HopCounter.readOptional`: code and length bytes are taken from the
input without being enforced; consumes 3 bytes. -/
def readOptional (h : HopCounter) (b : List Nat) : Res (HopCounter × Nat) :=
  if b.length < 3 then .err .eof
  else
    .ok ({ h with
            code := b.getD 0 0,
            length := b.getD 1 0,
            value := b.getD 2 0 }, 3)

/-- `HopCounter.Read`. -/
def Read (h : HopCounter) (b : List Nat) : Res (HopCounter × Nat) :=
  if h.paramType = PTypeO then h.readOptional b else h.read b

/-- `HopCounter.Write` (fixed form, used by XUDT): writes `value` and
returns `length`. -/
def write (h : HopCounter) (s : Nat) : Res (List Nat × Nat) :=
  if s < h.length then .err .eof
  else if s = 0 then .crash
  else .ok ([h.value], h.length)

/-- `HopCounter.writeOptional`: writes code, length and value bytes. -/
def writeOptional (h : HopCounter) (s : Nat) : Res (List Nat × Nat) :=
  if s < h.length then .err .eof
  else if s < 3 then .crash
  else .ok ([h.code % 256, h.length % 256, h.value], h.length)

/-- `HopCounter.Write`. -/
def Write (h : HopCounter) (s : Nat) : Res (List Nat × Nat) :=
  if h.paramType = PTypeO then h.writeOptional s else h.write s

/-- `MarshalLen`. -/
def MarshalLen (h : HopCounter) : Nat :=
  if h.paramType = PTypeO then 2 + h.length else h.length

end HopCounter

/-- `NewHopCounter`. -/
def NewHopCounter (v : Nat) : HopCounter :=
  { paramType := PTypeF, code := PCodeHopCounter, length := 1, value := v }

/-! ### Credit -/

structure Credit where
  paramType : Nat
  code : Nat
  length : Nat
  value : Nat
deriving DecidableEq, Repr

namespace Credit

/-- `Credit.read` (mandatory fixed form). -/
def read (c : Credit) (b : List Nat) : Res (Credit × Nat) :=
  if b.length < 1 then .err .eof
  else
    .ok ({ c with
            paramType := PTypeF,
            code := PCodeCredit,
            length := 1,
            value := b.getD 0 0 }, 1)

/-- `Credit.readOptional`: with fewer than 3 bytes it returns success with
nothing consumed (`return 0, nil` in the source); otherwise code and
length bytes are taken from the input without being enforced. -/
def readOptional (c : Credit) (b : List Nat) : Res (Credit × Nat) :=
  if b.length < 3 then .ok (c, 0)
  else
    .ok ({ c with
            code := b.getD 0 0,
            length := b.getD 1 0,
            value := b.getD 2 0 }, 3)

/-- `Credit.Read`. -/
def Read (c : Credit) (b : List Nat) : Res (Credit × Nat) :=
  if c.paramType = PTypeO then c.readOptional b else c.read b

end Credit

/-! ### Data -/

structure Data where
  paramType : Nat
  code : Nat
  length : Nat
  value : List Nat
deriving DecidableEq, Repr

namespace Data

/-- A fresh `&Data{}`. -/
def mk0 : Data := { paramType := 0, code := 0, length := 0, value := [] }

/-- `Data.read` (variable form): one length byte then that many value
bytes; a zero length consumes a single byte; trailing bytes beyond the
declared length are not part of the value but the whole slice is reported
consumed. -/
def read (d : Data) (b : List Nat) : Res (Data × Nat) :=
  if b.length < 1 then .err .eof
  else
    let len := b.getD 0 0
    if len = 0 then .ok ({ d with code := PCodeData, length := 0, value := [] }, 1)
    else if b.length < len + 1 then .err .eof
    else .ok ({ d with code := PCodeData, length := len, value := (b.drop 1).take len },
              b.length)

/-- `Data.readOptional`: the code byte is taken from the input without
being enforced (`b[0]` is read unguarded in the source). -/
def readOptional (d : Data) (b : List Nat) : Res (Data × Nat) :=
  Res.bind (goIdx b 0) fun c =>
  Res.bind (read { d with code := c } (b.drop 1)) fun dm =>
  .ok (dm.1, b.length + dm.2)

/-- `Data.Read`: optional or (forced) variable form. -/
def Read (d : Data) (b : List Nat) : Res (Data × Nat) :=
  if d.paramType = PTypeO then d.readOptional b
  else (if d.paramType = PTypeF then { d with paramType := PTypeV } else d).read b

/-- The bytes written by `Data.write`: the stored length (as a byte) then
the first `length` bytes of the value. -/
def writeBytes (d : Data) : List Nat :=
  d.length % 256 :: d.value.take d.length

/-- `Data.write` into a region of `s` bytes. -/
def write (d : Data) (s : Nat) : Res (List Nat × Nat) :=
  if s < d.length + 1 then .err .eof
  else if d.length = 0 then .ok ([0], 1)
  else .ok (d.writeBytes, d.length)

/-- `MarshalLen`. -/
def MarshalLen (d : Data) : Nat :=
  if d.paramType = PTypeO then 2 + d.value.length else 1 + d.value.length

end Data

/-- `NewData`. -/
def NewData (v : List Nat) : Data :=
  { paramType := PTypeV, code := PCodeData, length := v.length, value := v }

/-! ### Segmentation -/

structure Segmentation where
  paramType : Nat
  code : Nat
  length : Nat
  FirstSegment : Bool
  Class : Nat
  RemainingSegments : Nat
  LocalReference : Nat
deriving DecidableEq, Repr

/-- Modelled from the spec: `utils.Uint24To32`, a 24-bit value stored
across exactly 3 bytes, big-endian (the `utils` package itself is not in
the sources). -/
def uint24To32 (b : List Nat) : Nat :=
  b.getD 0 0 * 65536 + b.getD 1 0 * 256 + b.getD 2 0

/-- Modelled from the spec: `utils.Uint32To24`, the 3-byte big-endian
encoding of the low 24 bits of a value. -/
def uint32To24 (v : Nat) : List Nat :=
  [v / 65536 % 256, v / 256 % 256, v % 256]

namespace Segmentation

/-- A fresh `&Segmentation{paramType: PTypeO}`. -/
def mk0 : Segmentation :=
  { paramType := PTypeO, code := 0, length := 0, FirstSegment := false,
    Class := 0, RemainingSegments := 0, LocalReference := 0 }

/-- `Segmentation.Read`: 6 bytes; code and length bytes are taken from the
input without being enforced; bit fields unpacked from the third byte. -/
def Read (sg : Segmentation) (b : List Nat) : Res (Segmentation × Nat) :=
  let sg := { sg with paramType := PTypeO }
  if b.length < 6 then .err .eof
  else
    .ok ({ sg with
            code := b.getD 0 0,
            length := b.getD 1 0,
            FirstSegment := b.getD 2 0 / 128 % 2 = 1,
            Class := b.getD 2 0 / 64 % 2,
            RemainingSegments := b.getD 2 0 % 16,
            LocalReference := uint24To32 ((b.drop 3).take 3) }, 6)

/-- The third byte written by `Segmentation.Write`: FirstSegment in bit 7,
Class in bit 6, and `RemainingSegments & 0b111` in the low bits (note the
3-bit mask on write against the 4-bit mask on read). -/
def flagsByte (sg : Segmentation) : Nat :=
  ((if sg.FirstSegment then 128 else 0) ||| (sg.Class % 2 * 64)) |||
    (sg.RemainingSegments % 8)

/-- `Segmentation.Write` into a region of `s` bytes. -/
def Write (sg : Segmentation) (s : Nat) : Res (List Nat × Nat) :=
  if s < sg.length + 2 then .err .eof
  else if s < 3 then .crash
  else .ok (sg.code % 256 :: sg.length % 256 :: sg.flagsByte ::
              (uint32To24 sg.LocalReference).take (s - 3), sg.length + 2)

/-- `MarshalLen`. -/
def MarshalLen (sg : Segmentation) : Nat := sg.length + 2

end Segmentation

/-- `NewSegmentation`: masks class to 1 bit, remaining segments to 4 bits
and the local reference to 24 bits. -/
def NewSegmentation (first : Bool) (cls rem lrn : Nat) : Segmentation :=
  { paramType := PTypeO, code := PCodeSegmentation, length := 4,
    FirstSegment := first, Class := cls % 2, RemainingSegments := rem % 16,
    LocalReference := lrn % 16777216 }

/-! ### Importance -/

structure Importance where
  paramType : Nat
  code : Nat
  length : Nat
  value : Nat
deriving DecidableEq, Repr

namespace Importance

/-- A fresh `&Importance{paramType: PTypeO}`. -/
def mk0 : Importance := { paramType := PTypeO, code := 0, length := 0, value := 0 }

/-- `Importance.Read`: 3 bytes; code and length bytes are taken from the
input without being enforced; the value is masked to 3 bits. -/
def Read (im : Importance) (b : List Nat) : Res (Importance × Nat) :=
  let im := { im with paramType := PTypeO }
  if b.length < 3 then .err .eof
  else
    .ok ({ im with
            code := b.getD 0 0,
            length := b.getD 1 0,
            value := b.getD 2 0 % 8 }, 3)

/-- `Importance.Write` into a region of `s` bytes. -/
def Write (im : Importance) (s : Nat) : Res (List Nat × Nat) :=
  if s < im.length + 2 then .err .eof
  else if s < 3 then .crash
  else .ok ([im.code % 256, im.length % 256, im.value], im.length + 2)

/-- `MarshalLen`. -/
def MarshalLen (im : Importance) : Nat := im.length + 2

end Importance

/-- `NewImportance`: masks the value to 3 bits. -/
def NewImportance (v : Nat) : Importance :=
  { paramType := PTypeO, code := PCodeImportance, length := 1, value := v % 8 }

/-! ### EndOfOptionalParameters -/

structure EndOfOptionalParameters where
  paramType : Nat
  code : Nat
  length : Nat
  value : Nat
deriving DecidableEq, Repr

namespace EndOfOptionalParameters

/-- A fresh `&EndOfOptionalParameters{paramType: PTypeO}`. -/
def mk0 : EndOfOptionalParameters :=
  { paramType := PTypeO, code := 0, length := 0, value := 0 }

/-- `EndOfOptionalParameters.Read`: one byte; a nonzero value is only
logged. -/
def Read (e : EndOfOptionalParameters) (b : List Nat) :
    Res (EndOfOptionalParameters × Nat) :=
  if b.length < 1 then .err .eof
  else
    .ok ({ e with
            paramType := PTypeO,
            code := PCodeEndOfOptionalParameters,
            length := 1,
            value := b.getD 0 0 }, 1)

/-- `EndOfOptionalParameters.Write` into a region of `s` bytes. -/
def Write (e : EndOfOptionalParameters) (s : Nat) : Res (List Nat × Nat) :=
  if s < e.length then .err .eof
  else if s = 0 then .crash
  else .ok ([e.value], e.length)

/-- `MarshalLen`. -/
def MarshalLen (e : EndOfOptionalParameters) : Nat := e.length

end EndOfOptionalParameters

/-- `NewEndOfOptionalParameters`. -/
def NewEndOfOptionalParameters : EndOfOptionalParameters :=
  { paramType := PTypeO, code := PCodeEndOfOptionalParameters, length := 1, value := 0 }

/-! ### PartyAddress -/

structure PartyAddress where
  paramType : Nat
  code : Nat
  length : Nat
  Indicator : Nat
  SignalingPointCode : Nat
  SubsystemNumber : Nat
  GlobalTitle : Option GlobalTitle
deriving DecidableEq, Repr

namespace PartyAddress

/-- A fresh `&PartyAddress{paramType: ptype, code: code}`. -/
def mk0 (ptype code : Nat) : PartyAddress :=
  { paramType := ptype, code := code, length := 0, Indicator := 0,
    SignalingPointCode := 0, SubsystemNumber := 0, GlobalTitle := none }

/-- `HasPC`: bit 0 of the indicator. -/
def HasPC (p : PartyAddress) : Prop := p.Indicator % 2 = 1

/-- `HasSSN`: bit 1 of the indicator. -/
def HasSSN (p : PartyAddress) : Prop := p.Indicator / 2 % 2 = 1

/-- `GTI`: bits 2–5 of the indicator. -/
def GTI (p : PartyAddress) : Nat := p.Indicator / 4 % 16

instance (p : PartyAddress) : Decidable p.HasPC := by unfold HasPC; infer_instance
instance (p : PartyAddress) : Decidable p.HasSSN := by unfold HasSSN; infer_instance

/-- `MarshalLen`. -/
def MarshalLen (p : PartyAddress) : Nat :=
  2 + (if p.HasPC then 2 else 0) + (if p.HasSSN then 1 else 0) +
    (match p.GlobalTitle with
     | some g => g.MarshalLen
     | none => 0)

/-- `SetLength`. -/
def SetLength (p : PartyAddress) : PartyAddress :=
  { p with length := p.MarshalLen - 1 }

/-- `PartyAddress.read` (variable, untagged form): reads the length and
indicator bytes, requires the declared length to equal the slice length
minus one, then the optional point code, subsystem number and global
title.  The subsystem-number read `b[n]` is unguarded in the source. -/
def read (p : PartyAddress) (b : List Nat) : Res (PartyAddress × Nat) :=
  if b.length < 2 then .err .eof
  else
    let p := { p with length := b.getD 0 0, Indicator := b.getD 1 0 }
    if p.length ≠ b.length - 1 then .err .eof
    else
      Res.bind
        (if p.HasPC then
          (if 4 ≥ b.length then .err .eof
           else .ok ({ p with SignalingPointCode := b.getD 2 0 * 256 + b.getD 3 0 }, 4))
         else .ok (p, 2)) fun pn =>
      Res.bind
        (if pn.1.HasSSN then
          Res.bind (goIdx b pn.2) fun v =>
            .ok ({ pn.1 with SubsystemNumber := v }, pn.2 + 1)
         else .ok pn) fun pn =>
      if pn.1.GTI = 0 then .ok pn
      else
        Res.bind (goSlice b pn.2 (pn.1.length + 1)) fun sub =>
        Res.bind ((GlobalTitle.mk0 pn.1.GTI).Read sub) fun gm =>
        .ok ({ pn.1 with GlobalTitle := some gm.1 }, pn.2 + gm.2)

/-- `PartyAddress.readOptional`: takes the code byte from the input
without enforcing it, then reads the remainder in variable form (the
returned count is the inner `read`'s count, as in the source). -/
def readOptional (p : PartyAddress) (b : List Nat) : Res (PartyAddress × Nat) :=
  if b.length < 3 then .err .eof
  else ({ p with code := b.getD 0 0 }).read (b.drop 1)

/-- `PartyAddress.Read`: optional form when the receiver is optional,
otherwise forced variable form. -/
def Read (p : PartyAddress) (b : List Nat) : Res (PartyAddress × Nat) :=
  if p.paramType = PTypeO then p.readOptional b
  else ({ p with paramType := PTypeV }).read b

/-- The bytes written by `PartyAddress.write`: length, indicator, then the
present optional fields. -/
def writeBytes (p : PartyAddress) : List Nat :=
  p.length % 256 :: p.Indicator ::
    ((if p.HasPC then [p.SignalingPointCode / 256 % 256, p.SignalingPointCode % 256]
      else []) ++
     (if p.HasSSN then [p.SubsystemNumber] else []) ++
     (match p.GlobalTitle with
      | some g => g.writeBytes
      | none => []))

/-- The count returned by `PartyAddress.write` (the embedded
`GlobalTitle.Write` reports only its leading bytes). -/
def writeCount (p : PartyAddress) : Nat :=
  2 + (if p.HasPC then 2 else 0) + (if p.HasSSN then 1 else 0) +
    (match p.GlobalTitle with
     | some g => GlobalTitle.leadLen g.GTI
     | none => 0)

/-- `PartyAddress.write` into a region of `s` bytes. -/
def write (p : PartyAddress) (s : Nat) : Res (List Nat × Nat) :=
  if s < p.MarshalLen then .err .eof
  else .ok (p.writeBytes, p.writeCount)

/-- `PartyAddress.writeOptional`: the tag byte then the variable form
written into the remaining region (which is re-checked against
`MarshalLen`, as in the source). -/
def writeOptional (p : PartyAddress) (s : Nat) : Res (List Nat × Nat) :=
  if s < p.MarshalLen then .err .eof
  else
    Res.bind (p.write (s - 1)) fun wn =>
    .ok (p.code % 256 :: wn.1, wn.2 + 1)

/-- `PartyAddress.Write`. -/
def Write (p : PartyAddress) (s : Nat) : Res (List Nat × Nat) :=
  if p.paramType = PTypeV then p.write s else p.writeOptional s

/-- `AsCalled`. -/
def AsCalled (p : PartyAddress) : PartyAddress :=
  { p with code := PCodeCalledPartyAddress }

/-- `AsCalling`. -/
def AsCalling (p : PartyAddress) : PartyAddress :=
  { p with code := PCodeCallingPartyAddress }

end PartyAddress

/-- `parsePartyAddress`. -/
def parsePartyAddress (ptype code : Nat) (b : List Nat) : Res (PartyAddress × Nat) :=
  (PartyAddress.mk0 ptype code).Read b

/-- `ParseCalledPartyAddress`. -/
def ParseCalledPartyAddress (b : List Nat) : Res (PartyAddress × Nat) :=
  parsePartyAddress PTypeV PCodeCalledPartyAddress b

/-- `ParseCallingPartyAddress`. -/
def ParseCallingPartyAddress (b : List Nat) : Res (PartyAddress × Nat) :=
  parsePartyAddress PTypeV PCodeCallingPartyAddress b

/-- `NewAddressIndicator`. -/
def NewAddressIndicator (hasPC hasSSN routeOnSSN : Bool) (gti : Nat) : Nat :=
  (((if hasPC then 1 else 0) ||| (if hasSSN then 2 else 0)) |||
    (if routeOnSSN then 64 else 0)) ||| (gti % 256 * 4 % 256)

/-- `NewPartyAddress` (newest form, with the called/calling code as first
argument): SPC and SSN are kept only when the corresponding indicator bit
is set. -/
def NewPartyAddress (cdcg ai spc ssn : Nat) (gt : Option GlobalTitle) : PartyAddress :=
  let p : PartyAddress :=
    { paramType := PTypeV, code := cdcg, length := 0, Indicator := ai,
      SignalingPointCode := 0, SubsystemNumber := 0, GlobalTitle := gt }
  let p := if p.HasPC then { p with SignalingPointCode := spc } else p
  let p := if p.HasSSN then { p with SubsystemNumber := ssn } else p
  p.SetLength

/-- `NewCalledPartyAddress`. -/
def NewCalledPartyAddress (ai spc ssn : Nat) (gt : Option GlobalTitle) : PartyAddress :=
  NewPartyAddress PCodeCalledPartyAddress ai spc ssn gt

/-- `NewCallingPartyAddress`. -/
def NewCallingPartyAddress (ai spc ssn : Nat) (gt : Option GlobalTitle) : PartyAddress :=
  NewPartyAddress PCodeCallingPartyAddress ai spc ssn gt

/-! ### Optional-parameter block scanner -/

/-- A parsed optional parameter (the concrete struct behind the Go
`Parameter` interface). -/
inductive Param where
  | eoo (e : EndOfOptionalParameters)
  | pa (p : PartyAddress)
  | credit (c : Credit)
  | data (d : Data)
  | seg (sg : Segmentation)
  | hop (h : HopCounter)
  | imp (im : Importance)
deriving DecidableEq, Repr

/-- `Parameter.Code()`: the stored code field. -/
def Param.Code : Param → Nat
  | .eoo e => e.code
  | .pa p => p.code
  | .credit c => c.code
  | .data d => d.code
  | .seg sg => sg.code
  | .hop h => h.code
  | .imp im => im.code

/-- `ParseOptionalParameter`: dispatch on the tag byte to the matching
parameter decoder; an unknown tag fails with `UnsupportedParameterError`
carrying the tag. -/
def ParseOptionalParameter (b : List Nat) : Res (Param × Nat) :=
  if b.length < 1 then .err .eof
  else
    let tag := b.getD 0 0
    if tag = PCodeEndOfOptionalParameters then
      Res.bind (EndOfOptionalParameters.mk0.Read b) fun en => .ok (.eoo en.1, en.2)
    else if tag = PCodeCalledPartyAddress then
      Res.bind ((PartyAddress.mk0 PTypeO PCodeCalledPartyAddress).Read b) fun pn =>
        .ok (.pa pn.1, pn.2)
    else if tag = PCodeCallingPartyAddress then
      Res.bind ((PartyAddress.mk0 PTypeO PCodeCallingPartyAddress).Read b) fun pn =>
        .ok (.pa pn.1, pn.2)
    else if tag = PCodeCredit then
      Res.bind (Credit.Read { paramType := PTypeO, code := 0, length := 0, value := 0 } b)
        fun cn => .ok (.credit cn.1, cn.2)
    else if tag = PCodeData then
      Res.bind (Data.Read { Data.mk0 with paramType := PTypeO } b) fun dn =>
        .ok (.data dn.1, dn.2)
    else if tag = PCodeSegmentation then
      Res.bind (Segmentation.mk0.Read b) fun sn => .ok (.seg sn.1, sn.2)
    else if tag = PCodeHopCounter then
      Res.bind (HopCounter.Read { HopCounter.mk0 with paramType := PTypeO } b) fun hn =>
        .ok (.hop hn.1, hn.2)
    else if tag = PCodeImportance then
      Res.bind (Importance.mk0.Read b) fun imn => .ok (.imp imn.1, imn.2)
    else .err (.unsupportedParam tag)

/-- The loop of `ParseOptionalParameters`: parse one parameter at the
current offset, stop after an End-of-Optional-Parameters, otherwise
advance by the consumed count.  The Go loop re-tests `len(b) > 0` (not the
remaining length) each iteration, so an iteration that consumes zero bytes
loops forever; the fuel models this. -/
def ParseOptionalParametersAux (b : List Nat) :
    Nat → Nat → List Param → Res (List Param × Nat)
  | 0, _, _ => .diverge
  | fuel + 1, offset, acc =>
    if b.length > 0 then
      Res.bind (goSliceFrom b offset) fun rest =>
      Res.bind (ParseOptionalParameter rest) fun pn =>
      if pn.1.Code = PCodeEndOfOptionalParameters then .ok (acc ++ [pn.1], offset)
      else ParseOptionalParametersAux b fuel (offset + pn.2) (acc ++ [pn.1])
    else .ok (acc, offset)

/-- `ParseOptionalParameters`. -/
def ParseOptionalParameters (b : List Nat) : Res (List Param × Nat) :=
  ParseOptionalParametersAux b (b.length + 2) 0 []

/-- `Data.writeOptional`. -/
def Data.writeOptional (d : Data) (s : Nat) : Res (List Nat × Nat) :=
  if s < d.length then .err .eof
  else if s < 2 then .crash
  else .ok (d.code % 256 :: d.length % 256 :: d.value.take (s - 2), d.length)

/-- `Data.Write`. -/
def Data.Write (d : Data) (s : Nat) : Res (List Nat × Nat) :=
  if d.paramType = PTypeO then d.writeOptional s else d.write s

/-- `ParseData`. -/
def ParseData (b : List Nat) : Res (Data × Nat) :=
  Data.Read Data.mk0 b

/-- Region length of the Go slice `b[lo:]` of a buffer of length `l`. -/
def sliceLenFrom (l lo : Nat) : Res Nat :=
  if lo ≤ l then .ok (l - lo) else .crash

/-- Region length of the Go slice `b[lo:hi]` of a buffer of length `l`. -/
def sliceLen2 (l lo hi : Nat) : Res Nat :=
  if lo ≤ hi ∧ hi ≤ l then .ok (hi - lo) else .crash

/-! ### UDT (udt.go, newest version) -/

structure UDT where
  MsgType : Nat
  ProtocolClass : Option ProtocolClass
  CalledPartyAddress : Option PartyAddress
  CallingPartyAddress : Option PartyAddress
  Data : Option Data
  ptr1 : Nat
  ptr2 : Nat
  ptr3 : Nat
deriving DecidableEq, Repr

namespace UDT

/-- `UDT.UnmarshalBinary`. -/
def UnmarshalBinary (b : List Nat) : Res UDT :=
  let l := b.length
  if l ≤ 5 then .err .eof
  else
    Res.bind (ProtocolClass.mk0.Read (b.drop 1)) fun pcn =>
    let offset := 1 + pcn.2
    Res.bind (goIdx b offset) fun ptr1 =>
    if l < ptr1 then .err .eof
    else
      Res.bind (goIdx b (offset + 1)) fun ptr2 =>
      if l < (ptr2 + 3) % 256 then .err .eof
      else
        Res.bind (goIdx b (offset + 2)) fun ptr3 =>
        if l < (ptr3 + 5) % 256 then .err .eof
        else
          let offset := offset + 3
          let cdpaEnd := (ptr2 + 3) % 256
          let cgpaEnd := (ptr3 + 4) % 256
          Res.bind (goSlice b offset cdpaEnd) fun s1 =>
          Res.bind (ParseCalledPartyAddress s1) fun cdn =>
          Res.bind (goSlice b cdpaEnd cgpaEnd) fun s2 =>
          Res.bind (ParseCallingPartyAddress s2) fun cgn =>
          Res.bind (goSliceFrom b cgpaEnd) fun s3 =>
          Res.bind (ParseData s3) fun dn =>
          .ok { MsgType := b.getD 0 0, ProtocolClass := some pcn.1,
                CalledPartyAddress := some cdn.1, CallingPartyAddress := some cgn.1,
                Data := some dn.1, ptr1 := ptr1, ptr2 := ptr2, ptr3 := ptr3 }

/-- `UDT.MarshalLen`: 5 header bytes, the pointer-implied address span,
and the data length. -/
def MarshalLen (u : UDT) : Nat :=
  5 + u.ptr3 - 1 +
    (match u.Data with
     | some d => d.MarshalLen
     | none => 0)

/-- `UDT.MarshalTo` into a buffer: writes header, pointer bytes (with the
same bound checks as the decoder) and the three variable fields at their
pointer-designated regions. -/
def MarshalTo (u : UDT) (buf : List Nat) : Res (List Nat) :=
  let l := buf.length
  if l < 5 then .err .eof
  else
    match u.ProtocolClass, u.CalledPartyAddress, u.CallingPartyAddress, u.Data with
    | some pc, some cd, some cg, some d =>
      Res.bind (setByte buf 0 (u.MsgType % 256)) fun buf =>
      Res.bind (pc.Write (l - 1)) fun pcw =>
      let buf := setSlice buf 1 pcw.1
      let n := 1 + pcw.2
      Res.bind (setByte buf n u.ptr1) fun buf =>
      if l < u.ptr1 then .err .eof
      else
        Res.bind (setByte buf (n + 1) u.ptr2) fun buf =>
        if l < (u.ptr2 + 3) % 256 then .err .eof
        else
          Res.bind (setByte buf (n + 2) u.ptr3) fun buf =>
          if l < (u.ptr3 + 5) % 256 then .err .eof
          else
            let n := n + 3
            let cdpaEnd := (u.ptr2 + 3) % 256
            let cgpaEnd := (u.ptr3 + 4) % 256
            Res.bind (sliceLen2 l n cdpaEnd) fun s =>
            Res.bind (cd.Write s) fun cdw =>
            let buf := setSlice buf n cdw.1
            Res.bind (sliceLen2 l cdpaEnd cgpaEnd) fun s =>
            Res.bind (cg.Write s) fun cgw =>
            let buf := setSlice buf cdpaEnd cgw.1
            Res.bind (sliceLenFrom l cgpaEnd) fun s =>
            Res.bind (d.Write s) fun dw =>
            .ok (setSlice buf cgpaEnd dw.1)
    | _, _, _, _ => .crash

/-- `UDT.MarshalBinary`: a fresh zero buffer of `MarshalLen` bytes filled
by `MarshalTo`. -/
def MarshalBinary (u : UDT) : Res (List Nat) :=
  u.MarshalTo (List.replicate u.MarshalLen 0)

end UDT

/-- `ParseUDT`. -/
def ParseUDT (b : List Nat) : Res UDT :=
  UDT.UnmarshalBinary b

/-- `NewUDT` (newest version): forces the called/calling codes and
computes the pointers from the address lengths in `uint8` arithmetic. -/
def NewUDT (pcls : Nat) (retOnErr : Bool) (cdpa cgpa : PartyAddress)
    (data : List Nat) : UDT :=
  let ptr1 : Nat := 3
  let ptr2 : Nat := (ptr1 + cdpa.MarshalLen % 256 + 255) % 256
  let ptr3 : Nat := (ptr2 + cgpa.MarshalLen % 256 + 255) % 256
  { MsgType := 9, ProtocolClass := some (NewProtocolClass pcls retOnErr),
    CalledPartyAddress := some cdpa.AsCalled,
    CallingPartyAddress := some cgpa.AsCalling,
    Data := some (NewData data), ptr1 := ptr1, ptr2 := ptr2, ptr3 := ptr3 }

/-! ### XUDT (newest version) -/

structure XUDT where
  MsgType : Nat
  ProtocolClass : Option ProtocolClass
  HopCounter : Option HopCounter
  CalledPartyAddress : Option PartyAddress
  CallingPartyAddress : Option PartyAddress
  Data : Option Data
  Segmentation : Option Segmentation
  Importance : Option Importance
  EndOfOptionalParameters : Option EndOfOptionalParameters
  ptr1 : Nat
  ptr2 : Nat
  ptr3 : Nat
  ptr4 : Nat
deriving DecidableEq, Repr

namespace XUDT

/-- The switch assigning a parsed optional parameter to an XUDT field
(`opt.(*params.Segmentation)` etc. are type assertions that panic when
the dynamic type does not match the code). -/
def assignOpt (x : XUDT) (p : Param) : Res XUDT :=
  if p.Code = PCodeSegmentation then
    match p with
    | .seg sg => .ok { x with Segmentation := some sg }
    | _ => .crash
  else if p.Code = PCodeImportance then
    match p with
    | .imp im => .ok { x with Importance := some im }
    | _ => .crash
  else if p.Code = PCodeEndOfOptionalParameters then
    match p with
    | .eoo e => .ok { x with EndOfOptionalParameters := some e }
    | _ => .crash
  else .ok x

/-- Folding `assignOpt` over a parameter list. -/
def assignOpts (x : XUDT) : List Param → Res XUDT
  | [] => .ok x
  | p :: ps => Res.bind (x.assignOpt p) fun x' => assignOpts x' ps

/-- `XUDT.UnmarshalBinary`. -/
def UnmarshalBinary (b : List Nat) : Res XUDT :=
  let l := b.length
  if l ≤ 5 then .err .eof
  else
    Res.bind (ProtocolClass.mk0.Read (b.drop 1)) fun pcn =>
    let offset := 1 + pcn.2
    Res.bind (HopCounter.Read HopCounter.mk0 (b.drop offset)) fun hn =>
    let offset := offset + hn.2
    Res.bind (goIdx b offset) fun ptr1 =>
    if l < ptr1 then .err .eof
    else
      Res.bind (goIdx b (offset + 1)) fun ptr2 =>
      if l < (ptr2 + 4) % 256 then .err .eof
      else
        Res.bind (goIdx b (offset + 2)) fun ptr3 =>
        if l < (ptr3 + 5) % 256 then .err .eof
        else
          Res.bind (goIdx b (offset + 3)) fun ptr4 =>
          if ptr4 ≠ 0 ∧ l < ptr4 + 7 then .err .eof
          else
            let offset := offset + 4
            let cdpaEnd := (ptr2 + 4) % 256
            let cgpaEnd := (ptr3 + 5) % 256
            let dataEnd := (ptr4 + 6) % 256
            Res.bind (goSlice b offset cdpaEnd) fun s1 =>
            Res.bind (ParseCalledPartyAddress s1) fun cdn =>
            Res.bind (goSlice b cdpaEnd cgpaEnd) fun s2 =>
            Res.bind (ParseCallingPartyAddress s2) fun cgn =>
            Res.bind (goSliceFrom b cgpaEnd) fun s3 =>
            Res.bind (ParseData s3) fun dn =>
            let x : XUDT :=
              { MsgType := b.getD 0 0, ProtocolClass := some pcn.1,
                HopCounter := some hn.1, CalledPartyAddress := some cdn.1,
                CallingPartyAddress := some cgn.1, Data := some dn.1,
                Segmentation := none, Importance := none,
                EndOfOptionalParameters := none,
                ptr1 := ptr1, ptr2 := ptr2, ptr3 := ptr3, ptr4 := ptr4 }
            if ptr4 = 0 then .ok x
            else
              Res.bind (goSliceFrom b dataEnd) fun s4 =>
              Res.bind (ParseOptionalParameters s4) fun opn =>
              assignOpts x opn.1

/-- `XUDT.MarshalLen`. -/
def MarshalLen (x : XUDT) : Nat :=
  if x.ptr4 ≠ 0 then
    7 + x.ptr4 - 1 +
      (match x.Segmentation with
       | some sg => sg.MarshalLen
       | none => 0) +
      (match x.Importance with
       | some im => im.MarshalLen
       | none => 0) +
      (match x.EndOfOptionalParameters with
       | some e => e.MarshalLen
       | none => 0)
  else
    7 + x.ptr3 - 2 +
      (match x.Data with
       | some d => d.MarshalLen
       | none => 0)

/-- `XUDT.MarshalTo`. -/
def MarshalTo (x : XUDT) (buf : List Nat) : Res (List Nat) :=
  let l := buf.length
  if l < 5 then .err .eof
  else
    match x.ProtocolClass, x.HopCounter, x.CalledPartyAddress,
        x.CallingPartyAddress, x.Data with
    | some pc, some hc, some cd, some cg, some d =>
      Res.bind (setByte buf 0 (x.MsgType % 256)) fun buf =>
      Res.bind (pc.Write (l - 1)) fun pcw =>
      let buf := setSlice buf 1 pcw.1
      let n := 1 + pcw.2
      Res.bind (sliceLenFrom l n) fun s =>
      Res.bind (hc.Write s) fun hcw =>
      let buf := setSlice buf n hcw.1
      let n := n + hcw.2
      Res.bind (setByte buf n x.ptr1) fun buf =>
      if l < x.ptr1 then .err .eof
      else
        Res.bind (setByte buf (n + 1) x.ptr2) fun buf =>
        if l < (x.ptr2 + 4) % 256 then .err .eof
        else
          Res.bind (setByte buf (n + 2) x.ptr3) fun buf =>
          if l < (x.ptr3 + 5) % 256 then .err .eof
          else
            Res.bind (setByte buf (n + 3) x.ptr4) fun buf =>
            if l < (x.ptr4 + 6) % 256 then .err .eof
            else
              let n := n + 4
              let cdpaEnd := (x.ptr2 + 4) % 256
              let cgpaEnd := (x.ptr3 + 5) % 256
              let dataEnd := (x.ptr4 + 6) % 256
              Res.bind (sliceLen2 l n cdpaEnd) fun s =>
              Res.bind (cd.Write s) fun cdw =>
              let buf := setSlice buf n cdw.1
              Res.bind (sliceLen2 l cdpaEnd cgpaEnd) fun s =>
              Res.bind (cg.Write s) fun cgw =>
              let buf := setSlice buf cdpaEnd cgw.1
              Res.bind (sliceLenFrom l cgpaEnd) fun s =>
              Res.bind (d.Write s) fun dw =>
              let buf := setSlice buf cgpaEnd dw.1
              if x.ptr4 = 0 then .ok buf
              else
                Res.bind
                  (match x.Segmentation with
                   | none => .ok (buf, dataEnd)
                   | some sg =>
                     Res.bind (sliceLenFrom l dataEnd) fun s =>
                     Res.bind (sg.Write s) fun sgw =>
                     .ok (setSlice buf dataEnd sgw.1, dataEnd + sgw.2)) fun bo =>
                Res.bind
                  (match x.Importance with
                   | none => .ok bo
                   | some im =>
                     Res.bind (sliceLenFrom l bo.2) fun s =>
                     Res.bind (im.Write s) fun imw =>
                     .ok (setSlice bo.1 bo.2 imw.1, bo.2 + imw.2)) fun bo =>
                match x.EndOfOptionalParameters with
                | none => .ok bo.1
                | some e =>
                  Res.bind (sliceLenFrom l bo.2) fun s =>
                  Res.bind (e.Write s) fun ew =>
                  .ok (setSlice bo.1 bo.2 ew.1)
    | _, _, _, _, _ => .crash

/-- `XUDT.MarshalBinary`. -/
def MarshalBinary (x : XUDT) : Res (List Nat) :=
  x.MarshalTo (List.replicate x.MarshalLen 0)

end XUDT

/-- `ParseXUDT`. -/
def ParseXUDT (b : List Nat) : Res XUDT :=
  XUDT.UnmarshalBinary b

/-- `NewXUDT`: pointers from the address lengths in `uint8` arithmetic; a
zero 4th pointer unless optional parameters are given, in which case the
4th pointer is set past the data and an End-of-Optional-Parameters is
added implicitly.  The option switch contains type assertions, hence the
`Res` result. -/
def NewXUDT (pcls : Nat) (retOnErr : Bool) (hc : Nat) (cdpa cgpa : PartyAddress)
    (data : List Nat) (opts : List Param) : Res XUDT :=
  let d := NewData data
  let ptr1 : Nat := 4
  let ptr2 : Nat := (ptr1 + cdpa.MarshalLen % 256 + 255) % 256
  let ptr3 : Nat := (ptr2 + cgpa.MarshalLen % 256 + 255) % 256
  let base : XUDT :=
    { MsgType := 17, ProtocolClass := some (NewProtocolClass pcls retOnErr),
      HopCounter := some (NewHopCounter hc), CalledPartyAddress := some cdpa,
      CallingPartyAddress := some cgpa, Data := some d,
      Segmentation := none, Importance := none, EndOfOptionalParameters := none,
      ptr1 := ptr1, ptr2 := ptr2, ptr3 := ptr3, ptr4 := 0 }
  Res.bind (XUDT.assignOpts base opts) fun x =>
  if opts.length > 0 then
    .ok { x with
            ptr4 := (x.ptr3 + d.MarshalLen % 256 + 255) % 256,
            EndOfOptionalParameters := some NewEndOfOptionalParameters }
  else .ok x

/-! ### ParseMessage (sccp.go) -/

/-- A parsed SCCP message (only UDT and XUDT are implemented). -/
inductive Msg where
  | udt (u : UDT)
  | xudt (x : XUDT)
deriving DecidableEq, Repr

/-- `MsgTypeUDT` and `MsgTypeXUDT` (9 and 17 in the `iota` enumeration). -/
def MsgTypeUDT : Nat := 9
def MsgTypeXUDT : Nat := 17

/-- `ParseMessage`: dispatch on byte 0 to the implemented message codecs;
any other first byte fails with `UnsupportedTypeError` carrying it. -/
def ParseMessage (b : List Nat) : Res Msg :=
  if b.length < 1 then .err .eof
  else if b.getD 0 0 = MsgTypeUDT then Res.map Msg.udt (UDT.UnmarshalBinary b)
  else if b.getD 0 0 = MsgTypeXUDT then Res.map Msg.xudt (XUDT.UnmarshalBinary b)
  else .err (.unsupportedType (b.getD 0 0))

/-! ### Well-formed values

The constructors of the source produce values of these shapes when given
consistent arguments: private fields agree with the public ones, encoded
fields fit their wire width, and the global-title shape matches the
indicator's GTI bits. -/

/-- Well-formed `GlobalTitle`: one of the four GTI shapes with the fields
outside the shape zero and the packed fields within width. -/
def GlobalTitle.wf (g : GlobalTitle) : Prop :=
  (g.GTI = 1 ∧ g.TranslationType = 0 ∧ g.NumberingPlan = 0 ∧
    g.EncodingScheme = 0 ∧ g.NatureOfAddressIndicator < 256) ∨
  (g.GTI = 2 ∧ g.TranslationType < 256 ∧ g.NumberingPlan = 0 ∧
    g.EncodingScheme = 0 ∧ g.NatureOfAddressIndicator = 0) ∨
  (g.GTI = 3 ∧ g.TranslationType < 256 ∧ g.NumberingPlan < 16 ∧
    g.EncodingScheme < 16 ∧ g.NatureOfAddressIndicator = 0) ∨
  (g.GTI = 4 ∧ g.TranslationType < 256 ∧ g.NumberingPlan < 16 ∧
    g.EncodingScheme < 16 ∧ g.NatureOfAddressIndicator < 256)

instance (g : GlobalTitle) : Decidable g.wf := by
  unfold GlobalTitle.wf; infer_instance

/-- The global-title part of a well-formed `PartyAddress`: a global title
is attached exactly when the GTI bits are nonzero, and then has that GTI. -/
def PartyAddress.gtWf (p : PartyAddress) : Prop :=
  match p.GlobalTitle with
  | some g => g.wf ∧ g.GTI = p.GTI
  | none => p.GTI = 0

instance (p : PartyAddress) : Decidable p.gtWf := by
  unfold PartyAddress.gtWf
  cases p.GlobalTitle <;> infer_instance

/-- Well-formed `PartyAddress` with the expected called/calling code. -/
def PartyAddress.wf (code : Nat) (p : PartyAddress) : Prop :=
  p.paramType = PTypeV ∧ p.code = code ∧
  p.length = p.MarshalLen - 1 ∧ p.MarshalLen ≤ 256 ∧
  p.Indicator < 256 ∧
  (if p.HasPC then p.SignalingPointCode < 65536 else p.SignalingPointCode = 0) ∧
  (if p.HasSSN then p.SubsystemNumber < 256 else p.SubsystemNumber = 0) ∧
  p.gtWf ∧
  (p.HasPC → p.HasSSN ∨ p.GTI ≠ 0)

instance (code : Nat) (p : PartyAddress) : Decidable (p.wf code) := by
  unfold PartyAddress.wf; infer_instance

/-- Well-formed `ProtocolClass`. -/
def ProtocolClass.wf (p : ProtocolClass) : Prop :=
  p.paramType = PTypeF ∧ p.code = PCodeProtocolClass ∧ p.length = 1 ∧ p.value < 256

instance (p : ProtocolClass) : Decidable p.wf := by
  unfold ProtocolClass.wf; infer_instance

/-- Well-formed `HopCounter` (mandatory fixed form). -/
def HopCounter.wf (h : HopCounter) : Prop :=
  h.paramType = PTypeF ∧ h.code = PCodeHopCounter ∧ h.length = 1 ∧ h.value < 256

instance (h : HopCounter) : Decidable h.wf := by
  unfold HopCounter.wf; infer_instance

/-- Well-formed `Data` (mandatory variable form). -/
def Data.wf (d : Data) : Prop :=
  d.paramType = PTypeV ∧ d.code = PCodeData ∧ d.length = d.value.length ∧
  d.value.length ≤ 255

instance (d : Data) : Decidable d.wf := by
  unfold Data.wf; infer_instance

/-- Well-formed `Segmentation`. -/
def Segmentation.wf (sg : Segmentation) : Prop :=
  sg.paramType = PTypeO ∧ sg.code = PCodeSegmentation ∧ sg.length = 4 ∧
  sg.Class < 2 ∧ sg.RemainingSegments < 8 ∧ sg.LocalReference < 16777216

instance (sg : Segmentation) : Decidable sg.wf := by
  unfold Segmentation.wf; infer_instance

/-- Well-formed `Importance`. -/
def Importance.wf (im : Importance) : Prop :=
  im.paramType = PTypeO ∧ im.code = PCodeImportance ∧ im.length = 1 ∧ im.value < 8

instance (im : Importance) : Decidable im.wf := by
  unfold Importance.wf; infer_instance

/-- Well-formed `UDT`: all fields present and consistent, pointers derived
from the address lengths, and the variable part small enough that no
8-bit pointer arithmetic wraps. -/
def UDT.wf (u : UDT) : Prop :=
  u.MsgType = 9 ∧ u.ptr1 = 3 ∧
  (match u.ProtocolClass, u.CalledPartyAddress, u.CallingPartyAddress, u.Data with
   | some pc, some cd, some cg, some d =>
     pc.wf ∧ cd.wf PCodeCalledPartyAddress ∧ cg.wf PCodeCallingPartyAddress ∧
     d.wf ∧ u.ptr2 = 2 + cd.MarshalLen ∧
     u.ptr3 = 1 + cd.MarshalLen + cg.MarshalLen ∧
     cd.MarshalLen + cg.MarshalLen ≤ 249
   | _, _, _, _ => False)

instance (u : UDT) : Decidable u.wf := by
  unfold UDT.wf
  cases u.ProtocolClass <;> cases u.CalledPartyAddress <;>
    cases u.CallingPartyAddress <;> cases u.Data <;> infer_instance

/-- Well-formed `XUDT`: as for UDT, with the hop counter, and the optional
part either absent (zero 4th pointer) or consisting of well-formed
Segmentation/Importance and the implicit End-of-Optional-Parameters. -/
def XUDT.wf (x : XUDT) : Prop :=
  x.MsgType = 17 ∧ x.ptr1 = 4 ∧
  (match x.ProtocolClass, x.HopCounter, x.CalledPartyAddress,
      x.CallingPartyAddress, x.Data with
   | some pc, some hc, some cd, some cg, some d =>
     pc.wf ∧ hc.wf ∧ cd.wf PCodeCalledPartyAddress ∧
     cg.wf PCodeCallingPartyAddress ∧ d.wf ∧
     x.ptr2 = 3 + cd.MarshalLen ∧
     x.ptr3 = 2 + cd.MarshalLen + cg.MarshalLen ∧
     ((x.ptr4 = 0 ∧ x.Segmentation = none ∧ x.Importance = none ∧
        x.EndOfOptionalParameters = none ∧
        cd.MarshalLen + cg.MarshalLen ≤ 248) ∨
      (x.ptr4 = x.ptr3 + d.value.length ∧
        x.EndOfOptionalParameters = some NewEndOfOptionalParameters ∧
        (match x.Segmentation with
         | some sg => sg.wf
         | none => True) ∧
        (match x.Importance with
         | some im => im.wf
         | none => True) ∧
        x.ptr3 + d.value.length ≤ 249))
   | _, _, _, _, _ => False)

instance (x : XUDT) : Decidable x.wf := by
  unfold XUDT.wf
  cases x.ProtocolClass <;> cases x.HopCounter <;> cases x.CalledPartyAddress <;>
    cases x.CallingPartyAddress <;> cases x.Data <;> cases x.Segmentation <;>
    cases x.Importance <;> infer_instance

/-! ### Canonical encodings -/

/-- The byte sequence produced by `UDT.MarshalBinary` on a well-formed
value. -/
def UDT.enc (u : UDT) : List Nat :=
  match u.ProtocolClass, u.CalledPartyAddress, u.CallingPartyAddress, u.Data with
  | some pc, some cd, some cg, some d =>
    u.MsgType % 256 :: pc.value :: u.ptr1 :: u.ptr2 :: u.ptr3 ::
      (cd.writeBytes ++ cg.writeBytes ++ d.writeBytes)
  | _, _, _, _ => []

/-- The optional-parameter block written by `XUDT.MarshalTo`:
Segmentation, Importance, then End-of-Optional-Parameters. -/
def XUDT.encBlock (x : XUDT) : List Nat :=
  (match x.Segmentation with
   | some sg => sg.code % 256 :: sg.length % 256 :: sg.flagsByte ::
       uint32To24 sg.LocalReference
   | none => []) ++
  (match x.Importance with
   | some im => [im.code % 256, im.length % 256, im.value]
   | none => []) ++
  (match x.EndOfOptionalParameters with
   | some e => [e.value]
   | none => [])

/-- The byte sequence produced by `XUDT.MarshalBinary` on a well-formed
value. -/
def XUDT.enc (x : XUDT) : List Nat :=
  match x.ProtocolClass, x.HopCounter, x.CalledPartyAddress,
      x.CallingPartyAddress, x.Data with
  | some pc, some hc, some cd, some cg, some d =>
    x.MsgType % 256 :: pc.value :: hc.value :: x.ptr1 :: x.ptr2 :: x.ptr3 :: x.ptr4 ::
      (cd.writeBytes ++ cg.writeBytes ++ d.writeBytes ++
        (if x.ptr4 = 0 then [] else x.encBlock))
  | _, _, _, _, _ => []

/-! ### Round-trip lemmas for the parameter codecs -/

theorem lorNibble (a b : Nat) (ha : a < 16) (hb : b < 16) :
    (a * 16) ||| b = a * 16 + b := by
  have h : ∀ (x y : Fin 16), ((x : Nat) * 16) ||| (y : Nat) = (x : Nat) * 16 + y := by
    decide
  exact h ⟨a, ha⟩ ⟨b, hb⟩

theorem GlobalTitle.Read_writeBytes (g : GlobalTitle) (h : g.wf) :
    (GlobalTitle.mk0 g.GTI).Read g.writeBytes = .ok (g, g.MarshalLen) := by
  obtain ⟨gt, tt, np, es, nai, ai⟩ := g
  rcases h with ⟨h1, hTT, hNP, hES, -⟩ | ⟨h1, hTT, hNP, hES, hNAI⟩ |
    ⟨h1, hTT, hNP, hES, hNAI⟩ | ⟨h1, hTT, hNP, hES, hNAI⟩ <;>
    simp only at h1 hTT hNP hES <;> subst h1
  · subst hTT; subst hNP; subst hES
    simp [GlobalTitle.Read, GlobalTitle.mk0, GlobalTitle.lenByGTI,
      GlobalTitle.MarshalLen, GlobalTitle.writeBytes, Nat.add_comm]
  · simp only at hNAI; subst hNP; subst hES; subst hNAI
    simp [GlobalTitle.Read, GlobalTitle.mk0, GlobalTitle.lenByGTI,
      GlobalTitle.MarshalLen, GlobalTitle.writeBytes, Nat.add_comm]
  · simp only at hNAI; subst hNAI
    have hp : np * 16 % 256 ||| es % 256 = np * 16 + es := by
      rw [Nat.mod_eq_of_lt (by omega), Nat.mod_eq_of_lt (by omega)]
      exact lorNibble _ _ hNP hES
    have hb : GlobalTitle.writeBytes ⟨3, tt, np, es, 0, ai⟩
        = tt :: (np * 16 + es) :: ai := by
      simp [GlobalTitle.writeBytes, hp]
    rw [hb]; clear hb hp
    simp [GlobalTitle.Read, GlobalTitle.mk0, GlobalTitle.lenByGTI,
      GlobalTitle.MarshalLen]
    rw [if_neg (by omega)]
    simp only [Res.ok.injEq, Prod.mk.injEq, GlobalTitle.mk.injEq, true_and, and_true]
    omega
  · have hp : np * 16 % 256 ||| es % 256 = np * 16 + es := by
      rw [Nat.mod_eq_of_lt (by omega), Nat.mod_eq_of_lt (by omega)]
      exact lorNibble _ _ hNP hES
    have hb : GlobalTitle.writeBytes ⟨4, tt, np, es, nai, ai⟩
        = tt :: (np * 16 + es) :: nai :: ai := by
      simp [GlobalTitle.writeBytes, hp]
    rw [hb]; clear hb hp
    simp [GlobalTitle.Read, GlobalTitle.mk0, GlobalTitle.lenByGTI,
      GlobalTitle.MarshalLen]
    rw [if_neg (by omega)]
    simp only [Res.ok.injEq, Prod.mk.injEq, GlobalTitle.mk.injEq, true_and, and_true]
    omega

theorem GlobalTitle.wf_MarshalLen_pos (g : GlobalTitle) (h : g.wf) :
    1 ≤ g.MarshalLen := by
  rcases h with ⟨h1, -⟩ | ⟨h1, -⟩ | ⟨h1, -⟩ | ⟨h1, -⟩ <;>
    simp [GlobalTitle.MarshalLen, GlobalTitle.lenByGTI, h1] <;> omega

theorem GlobalTitle.wf_GTI_ne_zero (g : GlobalTitle) (h : g.wf) : g.GTI ≠ 0 := by
  rcases h with ⟨h1, -⟩ | ⟨h1, -⟩ | ⟨h1, -⟩ | ⟨h1, -⟩ <;> omega

theorem PartyAddress.pa_writeBytes_length (p : PartyAddress) :
    p.writeBytes.length = p.MarshalLen := by
  obtain ⟨pt, pcode, plen, ind, spc, ssn, gto⟩ := p
  by_cases hPC : (PartyAddress.mk pt pcode plen ind spc ssn gto).HasPC <;>
    by_cases hSSN : (PartyAddress.mk pt pcode plen ind spc ssn gto).HasSSN <;>
    cases gto <;>
    simp [PartyAddress.writeBytes, PartyAddress.MarshalLen, hPC, hSSN,
      GlobalTitle.gt_writeBytes_length] <;> omega

theorem PartyAddress.pa_parse_writeBytes (p : PartyAddress) (code : Nat)
    (h : p.wf code) :
    ∃ n, parsePartyAddress PTypeV code p.writeBytes = .ok (p, n) := by
  obtain ⟨pt, pcode, plen, ind, spc, ssn, gto⟩ := p
  obtain ⟨hpt, hcode, hlen, hml, hind, hspc, hssn, hgt, hpc1⟩ := h
  simp only at hpt hcode hlen hind
  subst hpt; subst hcode
  simp only [PartyAddress.HasPC, PartyAddress.HasSSN, PartyAddress.GTI]
    at hspc hssn hpc1
  simp only [PartyAddress.gtWf] at hgt
  by_cases hPC : ind % 2 = 1 <;> by_cases hSSN : ind / 2 % 2 = 1
  all_goals (
    first
      | (rw [if_pos hPC] at hspc)
      | (rw [if_neg hPC] at hspc))
  all_goals (
    first
      | (rw [if_pos hSSN] at hssn)
      | (rw [if_neg hSSN] at hssn))
  -- case PC, SSN
  · cases gto with
    | none =>
      simp only [PartyAddress.GTI] at hgt
      have hM : (PartyAddress.mk PTypeV pcode plen ind spc ssn none).MarshalLen = 5 := by
        simp [PartyAddress.MarshalLen, PartyAddress.HasPC, PartyAddress.HasSSN,
          hPC, hSSN]
      rw [hM] at hlen hml
      have hB : PartyAddress.writeBytes (PartyAddress.mk PTypeV pcode plen ind spc ssn none)
          = [plen % 256, ind, spc / 256 % 256, spc % 256, ssn] := by
        simp [PartyAddress.writeBytes, PartyAddress.HasPC, PartyAddress.HasSSN,
          hPC, hSSN]
      rw [hB]
      have hplen : plen % 256 = plen := by omega
      refine ⟨5, ?_⟩
      simp only [parsePartyAddress, PartyAddress.Read, PartyAddress.mk0, PTypeV, PTypeO]
      rw [if_neg (by norm_num)]
      simp only [PartyAddress.read, List.length_cons, List.length_nil]
      rw [if_neg (by omega)]
      simp only [List.getD_cons_zero, List.getD_cons_succ, hplen]
      rw [if_neg (by omega)]
      simp only [PartyAddress.HasPC, PartyAddress.HasSSN, PartyAddress.GTI, hPC, hSSN,
        if_pos, if_true]
      rw [if_neg (by omega)]
      simp only [Res.bind_ok]
      rw [if_pos hSSN]
      rw [goIdx_eq_ok (by simp only [List.length_cons, List.length_nil]; omega)]
      simp only [List.getD_cons_zero, List.getD_cons_succ, Res.bind_ok]
      rw [if_pos hgt]
      simp only [Res.ok.injEq, Prod.mk.injEq, PartyAddress.mk.injEq, true_and,
        and_true]
      omega
    | some g =>
      simp only at hgt
      obtain ⟨hg, hgti⟩ := hgt
      simp only [PartyAddress.GTI] at hgti
      have hM : (PartyAddress.mk PTypeV pcode plen ind spc ssn (some g)).MarshalLen
          = 5 + g.MarshalLen := by
        simp [PartyAddress.MarshalLen, PartyAddress.HasPC, PartyAddress.HasSSN,
          hPC, hSSN]
      rw [hM] at hlen hml
      have hgml := g.wf_MarshalLen_pos hg
      have hB : PartyAddress.writeBytes (PartyAddress.mk PTypeV pcode plen ind spc ssn (some g))
          = plen % 256 :: ind :: spc / 256 % 256 :: spc % 256 :: ssn :: g.writeBytes := by
        simp [PartyAddress.writeBytes, PartyAddress.HasPC, PartyAddress.HasSSN,
          hPC, hSSN]
      rw [hB]
      have hplen : plen % 256 = plen := by omega
      have hgb := g.gt_writeBytes_length
      have hgti0 : ind / 4 % 16 ≠ 0 := hgti ▸ g.wf_GTI_ne_zero hg
      refine ⟨5 + g.MarshalLen, ?_⟩
      simp only [parsePartyAddress, PartyAddress.Read, PartyAddress.mk0, PTypeV, PTypeO]
      rw [if_neg (by norm_num)]
      simp only [PartyAddress.read, List.length_cons, hgb]
      rw [if_neg (by omega)]
      simp only [List.getD_cons_zero, List.getD_cons_succ, hplen]
      rw [if_neg (by omega)]
      simp only [PartyAddress.HasPC, PartyAddress.HasSSN, PartyAddress.GTI, hPC, hSSN,
        if_pos, if_true]
      rw [if_neg (by omega)]
      simp only [Res.bind_ok]
      rw [if_pos hSSN]
      rw [goIdx_eq_ok (by simp only [List.length_cons, hgb]; omega)]
      simp only [List.getD_cons_zero, List.getD_cons_succ, Res.bind_ok]
      rw [if_neg hgti0]
      rw [goSlice_eq_ok (by omega) (by simp only [List.length_cons, hgb]; omega)]
      have hsub : ((plen :: ind :: spc / 256 % 256 :: spc % 256 :: ssn ::
          g.writeBytes).drop 5).take (plen + 1 - 5) = g.writeBytes := by
        have h5 : plen + 1 - 5 = g.MarshalLen := by omega
        simp [h5, ← hgb]
      rw [hsub]
      rw [← hgti]
      simp only [Res.bind_ok]
      rw [GlobalTitle.Read_writeBytes g hg]
      simp only [Res.bind_ok, Res.ok.injEq, Prod.mk.injEq, PartyAddress.mk.injEq,
        true_and, and_true]
      omega
  -- case PC, no SSN
  · cases gto with
    | none =>
      simp only [PartyAddress.GTI] at hgt
      exact absurd (hpc1 hPC) (by simp [hSSN, hgt])
    | some g =>
      simp only at hgt
      obtain ⟨hg, hgti⟩ := hgt
      simp only [PartyAddress.GTI] at hgti
      have hM : (PartyAddress.mk PTypeV pcode plen ind spc ssn (some g)).MarshalLen
          = 4 + g.MarshalLen := by
        simp [PartyAddress.MarshalLen, PartyAddress.HasPC, PartyAddress.HasSSN,
          hPC, hSSN]
      rw [hM] at hlen hml
      have hgml := g.wf_MarshalLen_pos hg
      have hB : PartyAddress.writeBytes (PartyAddress.mk PTypeV pcode plen ind spc ssn (some g))
          = plen % 256 :: ind :: spc / 256 % 256 :: spc % 256 :: g.writeBytes := by
        simp [PartyAddress.writeBytes, PartyAddress.HasPC, PartyAddress.HasSSN,
          hPC, hSSN]
      rw [hB]
      have hplen : plen % 256 = plen := by omega
      have hgb := g.gt_writeBytes_length
      have hgti0 : ind / 4 % 16 ≠ 0 := hgti ▸ g.wf_GTI_ne_zero hg
      subst hssn
      refine ⟨4 + g.MarshalLen, ?_⟩
      simp only [parsePartyAddress, PartyAddress.Read, PartyAddress.mk0, PTypeV, PTypeO]
      rw [if_neg (by norm_num)]
      simp only [PartyAddress.read, List.length_cons, hgb]
      rw [if_neg (by omega)]
      simp only [List.getD_cons_zero, List.getD_cons_succ, hplen]
      rw [if_neg (by omega)]
      simp only [PartyAddress.HasPC, PartyAddress.HasSSN, PartyAddress.GTI, hPC, hSSN,
        if_pos, if_true]
      rw [if_neg (by omega)]
      simp only [Res.bind_ok]
      rw [if_neg hSSN]
      simp only [Res.bind_ok]
      rw [if_neg hgti0]
      rw [goSlice_eq_ok (by omega) (by simp only [List.length_cons, hgb]; omega)]
      have hsub : ((plen :: ind :: spc / 256 % 256 :: spc % 256 ::
          g.writeBytes).drop 4).take (plen + 1 - 4) = g.writeBytes := by
        have h4 : plen + 1 - 4 = g.MarshalLen := by omega
        simp [h4, ← hgb]
      rw [hsub]
      rw [← hgti]
      simp only [Res.bind_ok]
      rw [GlobalTitle.Read_writeBytes g hg]
      simp only [Res.bind_ok, Res.ok.injEq, Prod.mk.injEq, PartyAddress.mk.injEq,
        true_and, and_true]
      omega
  -- case no PC, SSN
  · cases gto with
    | none =>
      simp only [PartyAddress.GTI] at hgt
      subst hspc
      have hM : (PartyAddress.mk PTypeV pcode plen ind 0 ssn none).MarshalLen = 3 := by
        simp [PartyAddress.MarshalLen, PartyAddress.HasPC, PartyAddress.HasSSN,
          hPC, hSSN]
      rw [hM] at hlen hml
      have hB : PartyAddress.writeBytes (PartyAddress.mk PTypeV pcode plen ind 0 ssn none)
          = [plen % 256, ind, ssn] := by
        simp [PartyAddress.writeBytes, PartyAddress.HasPC, PartyAddress.HasSSN,
          hPC, hSSN]
      rw [hB]
      have hplen : plen % 256 = plen := by omega
      refine ⟨3, ?_⟩
      simp only [parsePartyAddress, PartyAddress.Read, PartyAddress.mk0, PTypeV, PTypeO]
      rw [if_neg (by norm_num)]
      simp only [PartyAddress.read, List.length_cons, List.length_nil]
      rw [if_neg (by omega)]
      simp only [List.getD_cons_zero, List.getD_cons_succ, hplen]
      rw [if_neg (by omega)]
      simp only [PartyAddress.HasPC, PartyAddress.HasSSN, PartyAddress.GTI]
      rw [if_neg hPC]
      simp only [Res.bind_ok]
      rw [if_pos hSSN]
      rw [goIdx_eq_ok (by simp only [List.length_cons, List.length_nil]; omega)]
      simp only [List.getD_cons_zero, List.getD_cons_succ, Res.bind_ok]
      rw [if_pos hgt]
    | some g =>
      simp only at hgt
      obtain ⟨hg, hgti⟩ := hgt
      simp only [PartyAddress.GTI] at hgti
      subst hspc
      have hM : (PartyAddress.mk PTypeV pcode plen ind 0 ssn (some g)).MarshalLen
          = 3 + g.MarshalLen := by
        simp [PartyAddress.MarshalLen, PartyAddress.HasPC, PartyAddress.HasSSN,
          hPC, hSSN]
      rw [hM] at hlen hml
      have hgml := g.wf_MarshalLen_pos hg
      have hB : PartyAddress.writeBytes (PartyAddress.mk PTypeV pcode plen ind 0 ssn (some g))
          = plen % 256 :: ind :: ssn :: g.writeBytes := by
        simp [PartyAddress.writeBytes, PartyAddress.HasPC, PartyAddress.HasSSN,
          hPC, hSSN]
      rw [hB]
      have hplen : plen % 256 = plen := by omega
      have hgb := g.gt_writeBytes_length
      have hgti0 : ind / 4 % 16 ≠ 0 := hgti ▸ g.wf_GTI_ne_zero hg
      refine ⟨3 + g.MarshalLen, ?_⟩
      simp only [parsePartyAddress, PartyAddress.Read, PartyAddress.mk0, PTypeV, PTypeO]
      rw [if_neg (by norm_num)]
      simp only [PartyAddress.read, List.length_cons, hgb]
      rw [if_neg (by omega)]
      simp only [List.getD_cons_zero, List.getD_cons_succ, hplen]
      rw [if_neg (by omega)]
      simp only [PartyAddress.HasPC, PartyAddress.HasSSN, PartyAddress.GTI]
      rw [if_neg hPC]
      simp only [Res.bind_ok]
      rw [if_pos hSSN]
      rw [goIdx_eq_ok (by simp only [List.length_cons, hgb]; omega)]
      simp only [List.getD_cons_zero, List.getD_cons_succ, Res.bind_ok]
      rw [if_neg hgti0]
      rw [goSlice_eq_ok (by omega) (by simp only [List.length_cons, hgb]; omega)]
      have hsub : ((plen :: ind :: ssn :: g.writeBytes).drop 3).take (plen + 1 - 3)
          = g.writeBytes := by
        have h3 : plen + 1 - 3 = g.MarshalLen := by omega
        simp [h3, ← hgb]
      rw [hsub]
      rw [← hgti]
      simp only [Res.bind_ok]
      rw [GlobalTitle.Read_writeBytes g hg]
      simp only [Res.bind_ok, Res.ok.injEq, Prod.mk.injEq, PartyAddress.mk.injEq,
        true_and, and_true]
  -- case no PC, no SSN
  · cases gto with
    | none =>
      simp only [PartyAddress.GTI] at hgt
      subst hspc; subst hssn
      have hM : (PartyAddress.mk PTypeV pcode plen ind 0 0 none).MarshalLen = 2 := by
        simp [PartyAddress.MarshalLen, PartyAddress.HasPC, PartyAddress.HasSSN,
          hPC, hSSN]
      rw [hM] at hlen hml
      have hB : PartyAddress.writeBytes (PartyAddress.mk PTypeV pcode plen ind 0 0 none)
          = [plen % 256, ind] := by
        simp [PartyAddress.writeBytes, PartyAddress.HasPC, PartyAddress.HasSSN,
          hPC, hSSN]
      rw [hB]
      have hplen : plen % 256 = plen := by omega
      refine ⟨2, ?_⟩
      simp [parsePartyAddress, PartyAddress.Read, PartyAddress.mk0, PTypeV, PTypeO,
        PartyAddress.read, hplen, PartyAddress.HasPC, PartyAddress.HasSSN,
        PartyAddress.GTI, hPC, hSSN, hgt]
      omega
    | some g =>
      simp only at hgt
      obtain ⟨hg, hgti⟩ := hgt
      simp only [PartyAddress.GTI] at hgti
      subst hspc; subst hssn
      have hM : (PartyAddress.mk PTypeV pcode plen ind 0 0 (some g)).MarshalLen
          = 2 + g.MarshalLen := by
        simp [PartyAddress.MarshalLen, PartyAddress.HasPC, PartyAddress.HasSSN,
          hPC, hSSN]
      rw [hM] at hlen hml
      have hgml := g.wf_MarshalLen_pos hg
      have hB : PartyAddress.writeBytes (PartyAddress.mk PTypeV pcode plen ind 0 0 (some g))
          = plen % 256 :: ind :: g.writeBytes := by
        simp [PartyAddress.writeBytes, PartyAddress.HasPC, PartyAddress.HasSSN,
          hPC, hSSN]
      rw [hB]
      have hplen : plen % 256 = plen := by omega
      have hgb := g.gt_writeBytes_length
      have hgti0 : ind / 4 % 16 ≠ 0 := hgti ▸ g.wf_GTI_ne_zero hg
      refine ⟨2 + g.MarshalLen, ?_⟩
      simp only [parsePartyAddress, PartyAddress.Read, PartyAddress.mk0, PTypeV, PTypeO]
      rw [if_neg (by norm_num)]
      simp only [PartyAddress.read, List.length_cons, hgb]
      rw [if_neg (by omega)]
      simp only [List.getD_cons_zero, List.getD_cons_succ, hplen]
      rw [if_neg (by omega)]
      simp only [PartyAddress.HasPC, PartyAddress.HasSSN, PartyAddress.GTI]
      rw [if_neg hPC]
      simp only [Res.bind_ok]
      rw [if_neg hSSN]
      simp only [Res.bind_ok]
      rw [if_neg hgti0]
      rw [goSlice_eq_ok (by omega) (by simp only [List.length_cons, hgb]; omega)]
      have hsub : ((plen :: ind :: g.writeBytes).drop 2).take (plen + 1 - 2)
          = g.writeBytes := by
        have h2 : plen + 1 - 2 = g.MarshalLen := by omega
        simp [h2, ← hgb]
      rw [hsub]
      rw [← hgti]
      simp only [Res.bind_ok]
      rw [GlobalTitle.Read_writeBytes g hg]
      simp only [Res.bind_ok, Res.ok.injEq, Prod.mk.injEq, PartyAddress.mk.injEq,
        true_and, and_true]

/-! ### Buffer-write lemmas and the Data codec round trip -/

theorem set_append_len (A B : List Nat) (v : Nat) :
    (A ++ B).set A.length v = A ++ B.set 0 v := by
  induction A with
  | nil => simp
  | cons a as ih => simp [List.set, ih]

theorem setByte_append (A : List Nat) (r v : Nat) (hr : 1 ≤ r) :
    setByte (A ++ List.replicate r 0) A.length v
      = .ok (A ++ v :: List.replicate (r - 1) 0) := by
  unfold setByte
  rw [if_pos (by simp; omega)]
  rw [set_append_len]
  congr 2
  cases r with
  | zero => omega
  | succ n => simp [List.replicate_succ]

theorem setSlice_append (A bs : List Nat) (r : Nat) :
    setSlice (A ++ List.replicate r 0) A.length bs
      = A ++ bs ++ List.replicate (r - bs.length) 0 := by
  unfold setSlice
  rw [List.take_left, List.drop_append bs.length, List.drop_replicate]

theorem Data.writeBytes_eq (d : Data) (h : d.wf) :
    d.writeBytes = d.length :: d.value := by
  obtain ⟨-, -, hlen, hb⟩ := h
  simp [Data.writeBytes, hlen,
    Nat.mod_eq_of_lt (show d.value.length < 256 by omega)]

theorem Data.data_parse_writeBytes (d : Data) (h : d.wf) (extra : List Nat) :
    ∃ n, ParseData (d.writeBytes ++ extra) = .ok (d, n) := by
  have hw := d.writeBytes_eq h
  obtain ⟨d0, d1, d2, d3⟩ := d
  obtain ⟨hpt, hcode, hlen, hb⟩ := h
  simp only at hpt hcode hlen hb hw
  subst hpt; subst hcode; subst hlen
  rw [hw]
  simp only [ParseData, Data.Read, Data.mk0, PTypeO, PTypeF]
  rw [if_neg (by norm_num)]
  simp only [Data.read]
  rw [if_neg (by simp)]
  by_cases h0 : d3.length = 0
  · refine ⟨1, ?_⟩
    rw [if_pos (by simp [List.getD_cons_zero, h0])]
    simp only [Res.ok.injEq, Prod.mk.injEq, Data.mk.injEq]
    have h3 : d3 = [] := List.length_eq_zero.mp h0
    simp [h3, h0, PTypeV, PCodeData]
  · refine ⟨(d3.length :: (d3 ++ extra)).length, ?_⟩
    rw [if_neg (by simp [List.getD_cons_zero, h0])]
    rw [if_neg (by simp [List.getD_cons_zero])]
    simp only [List.getD_cons_zero, List.drop_succ_cons, List.drop_zero,
      List.take_left, Res.ok.injEq, Prod.mk.injEq, Data.mk.injEq]
    simp [PTypeV, PCodeData]

/-! ### UDT marshalling equals the canonical encoding -/


theorem PartyAddress.two_le_MarshalLen (p : PartyAddress) : 2 ≤ p.MarshalLen := by
  simp only [PartyAddress.MarshalLen]
  omega

theorem UDT.udt_enc_length (u : UDT) (h : u.wf) : u.enc.length = u.MarshalLen := by
  obtain ⟨mt, pco, cdo, cgo, dto, p1, p2, p3⟩ := u
  obtain ⟨hmt, hp1, hrest⟩ := h
  cases pco with
  | none => simp at hrest
  | some pc =>
  cases cdo with
  | none => simp at hrest
  | some cd =>
  cases cgo with
  | none => simp at hrest
  | some cg =>
  cases dto with
  | none => simp at hrest
  | some d =>
  simp only at hrest
  obtain ⟨hpc, hcd, hcg, hd, hp2, hp3, hbound⟩ := hrest
  simp only at hp2 hp3 hmt hp1
  subst hp2; subst hp3; subst hmt; subst hp1
  simp only [UDT.enc, UDT.MarshalLen, List.length_cons, List.length_append,
    PartyAddress.pa_writeBytes_length, Data.MarshalLen]
  obtain ⟨hdpt, -, hdlen, -⟩ := hd
  simp [Data.writeBytes, hdlen, hdpt, PTypeV, PTypeO]
  omega

theorem UDT.udt_MarshalBinary_eq (u : UDT) (h : u.wf) :
    u.MarshalBinary = .ok u.enc := by
  obtain ⟨mt, pco, cdo, cgo, dto, p1, p2, p3⟩ := u
  obtain ⟨hmt, hp1, hrest⟩ := h
  cases pco with
  | none => simp at hrest
  | some pc =>
  cases cdo with
  | none => simp at hrest
  | some cd =>
  cases cgo with
  | none => simp at hrest
  | some cg =>
  cases dto with
  | none => simp at hrest
  | some d =>
  simp only at hrest
  obtain ⟨hpc, hcd, hcg, hd, hp2, hp3, hbound⟩ := hrest
  simp only at hp2 hp3 hmt hp1
  subst hp2; subst hp3; subst hmt; subst hp1
  obtain ⟨pc0, pc1, pc2, pcv⟩ := pc
  obtain ⟨hx0, hx1, hx2, hx3⟩ := hpc
  simp only at hx0 hx1 hx2 hx3
  subst hx0; subst hx1; subst hx2
  have hMcd := cd.two_le_MarshalLen
  have hMcg := cg.two_le_MarshalLen
  obtain ⟨hdpt, hdcode, hdlen, hdb⟩ := hd
  simp only [UDT.MarshalBinary, UDT.MarshalTo, UDT.MarshalLen, UDT.enc]
  simp only [List.length_replicate]
  rw [show d.MarshalLen = 1 + d.value.length by
    simp [Data.MarshalLen, hdpt, PTypeV, PTypeO]]
  rw [show 5 + (1 + cd.MarshalLen + cg.MarshalLen) - 1 + (1 + d.value.length)
      = 6 + cd.MarshalLen + cg.MarshalLen + d.value.length by omega]
  rw [show (2 + cd.MarshalLen + 3) % 256 = 5 + cd.MarshalLen by omega]
  rw [show (1 + cd.MarshalLen + cg.MarshalLen + 4) % 256
      = 5 + cd.MarshalLen + cg.MarshalLen by omega]
  rw [show (1 + cd.MarshalLen + cg.MarshalLen + 5) % 256
      = 6 + cd.MarshalLen + cg.MarshalLen by omega]
  rw [if_neg (by omega)]
  have s0 : setByte (List.replicate (6 + cd.MarshalLen + cg.MarshalLen + d.value.length) 0) 0 (9 % 256)
      = .ok ((9 % 256) :: List.replicate (5 + cd.MarshalLen + cg.MarshalLen + d.value.length) 0) := by
    have h := setByte_append [] (6 + cd.MarshalLen + cg.MarshalLen + d.value.length) (9 % 256) (by omega)
    simp only [List.nil_append, List.length_nil] at h
    rw [show 6 + cd.MarshalLen + cg.MarshalLen + d.value.length - 1
        = 5 + cd.MarshalLen + cg.MarshalLen + d.value.length by omega] at h
    exact h
  rw [s0]; simp only [Res.bind_ok]
  have s1 : ProtocolClass.Write ⟨PTypeF, PCodeProtocolClass, 1, pcv⟩
      (6 + cd.MarshalLen + cg.MarshalLen + d.value.length - 1) = .ok ([pcv], 1) := by
    simp only [ProtocolClass.Write]
    rw [if_neg (by omega), if_neg (by omega)]
  rw [s1]; simp only [Res.bind_ok]
  simp only [show (1:Nat)+1+3 = 5 from rfl, show (1:Nat)+1+2 = 4 from rfl,
    show (1:Nat)+1+1 = 3 from rfl, show (1:Nat)+1 = 2 from rfl]
  have s2 : setSlice (9 % 256 :: List.replicate (5 + cd.MarshalLen + cg.MarshalLen + d.value.length) 0) 1 [pcv]
      = 9 % 256 :: pcv :: List.replicate (4 + cd.MarshalLen + cg.MarshalLen + d.value.length) 0 := by
    have h := setSlice_append [9 % 256] [pcv] (5 + cd.MarshalLen + cg.MarshalLen + d.value.length)
    simp only [List.cons_append, List.nil_append, List.length_cons, List.length_nil,
      Nat.zero_add] at h
    rw [show 5 + cd.MarshalLen + cg.MarshalLen + d.value.length - 1
        = 4 + cd.MarshalLen + cg.MarshalLen + d.value.length by omega] at h
    exact h
  rw [s2]
  have s3 : setByte (9 % 256 :: pcv :: List.replicate (4 + cd.MarshalLen + cg.MarshalLen + d.value.length) 0) 2 3
      = .ok (9 % 256 :: pcv :: 3 :: List.replicate (3 + cd.MarshalLen + cg.MarshalLen + d.value.length) 0) := by
    have h := setByte_append [9 % 256, pcv] (4 + cd.MarshalLen + cg.MarshalLen + d.value.length) 3 (by omega)
    simp only [List.cons_append, List.nil_append, List.length_cons, List.length_nil,
      Nat.zero_add] at h
    rw [show 4 + cd.MarshalLen + cg.MarshalLen + d.value.length - 1
        = 3 + cd.MarshalLen + cg.MarshalLen + d.value.length by omega] at h
    exact h
  rw [s3]; simp only [Res.bind_ok]
  rw [if_neg (by omega)]
  have s4 : setByte (9 % 256 :: pcv :: 3 :: List.replicate (3 + cd.MarshalLen + cg.MarshalLen + d.value.length) 0) 3 (2 + cd.MarshalLen)
      = .ok (9 % 256 :: pcv :: 3 :: (2 + cd.MarshalLen) :: List.replicate (2 + cd.MarshalLen + cg.MarshalLen + d.value.length) 0) := by
    have h := setByte_append [9 % 256, pcv, 3] (3 + cd.MarshalLen + cg.MarshalLen + d.value.length) (2 + cd.MarshalLen) (by omega)
    simp only [List.cons_append, List.nil_append, List.length_cons, List.length_nil,
      Nat.zero_add] at h
    rw [show 3 + cd.MarshalLen + cg.MarshalLen + d.value.length - 1
        = 2 + cd.MarshalLen + cg.MarshalLen + d.value.length by omega] at h
    exact h
  rw [s4]; simp only [Res.bind_ok]
  rw [if_neg (by omega)]
  have s5 : setByte (9 % 256 :: pcv :: 3 :: (2 + cd.MarshalLen) :: List.replicate (2 + cd.MarshalLen + cg.MarshalLen + d.value.length) 0) 4 (1 + cd.MarshalLen + cg.MarshalLen)
      = .ok (9 % 256 :: pcv :: 3 :: (2 + cd.MarshalLen) :: (1 + cd.MarshalLen + cg.MarshalLen) :: List.replicate (1 + cd.MarshalLen + cg.MarshalLen + d.value.length) 0) := by
    have h := setByte_append [9 % 256, pcv, 3, 2 + cd.MarshalLen] (2 + cd.MarshalLen + cg.MarshalLen + d.value.length) (1 + cd.MarshalLen + cg.MarshalLen) (by omega)
    simp only [List.cons_append, List.nil_append, List.length_cons, List.length_nil,
      Nat.zero_add] at h
    rw [show 2 + cd.MarshalLen + cg.MarshalLen + d.value.length - 1
        = 1 + cd.MarshalLen + cg.MarshalLen + d.value.length by omega] at h
    exact h
  rw [s5]; simp only [Res.bind_ok]
  rw [if_neg (by omega)]
  have s6a : sliceLen2 (6 + cd.MarshalLen + cg.MarshalLen + d.value.length) 5 (5 + cd.MarshalLen)
      = .ok cd.MarshalLen := by
    simp only [sliceLen2]
    rw [if_pos ⟨by omega, by omega⟩]
    congr 1
    omega
  rw [s6a]; simp only [Res.bind_ok]
  have s6b : cd.Write cd.MarshalLen = .ok (cd.writeBytes, cd.writeCount) := by
    simp only [PartyAddress.Write, hcd.1, if_true, PartyAddress.write]
    rw [if_neg (by omega)]
  rw [s6b]; simp only [Res.bind_ok]
  have s7a : sliceLen2 (6 + cd.MarshalLen + cg.MarshalLen + d.value.length) (5 + cd.MarshalLen)
      (5 + cd.MarshalLen + cg.MarshalLen) = .ok cg.MarshalLen := by
    simp only [sliceLen2]
    rw [if_pos ⟨by omega, by omega⟩]
    congr 1
    omega
  rw [s7a]; simp only [Res.bind_ok]
  have s7b : cg.Write cg.MarshalLen = .ok (cg.writeBytes, cg.writeCount) := by
    simp only [PartyAddress.Write, hcg.1, if_true, PartyAddress.write]
    rw [if_neg (by omega)]
  rw [s7b]; simp only [Res.bind_ok]
  have s8a : sliceLenFrom (6 + cd.MarshalLen + cg.MarshalLen + d.value.length)
      (5 + cd.MarshalLen + cg.MarshalLen) = .ok (1 + d.value.length) := by
    simp only [sliceLenFrom]
    rw [if_pos (by omega)]
    congr 1
    omega
  rw [s8a]; simp only [Res.bind_ok]
  have s8b : d.Write (1 + d.value.length)
      = .ok (d.writeBytes, if d.value.length = 0 then 1 else d.value.length) := by
    simp only [Data.Write, hdpt, PTypeV, PTypeO]
    rw [if_neg (by norm_num)]
    simp only [Data.write, hdlen]
    rw [if_neg (by omega)]
    by_cases h0 : d.value.length = 0
    · rw [if_pos h0, if_pos h0]
      simp [Data.writeBytes, hdlen, h0]
    · rw [if_neg h0, if_neg h0]
  rw [s8b]; simp only [Res.bind_ok]
  have s9 : setSlice (9 % 256 :: pcv :: 3 :: (2 + cd.MarshalLen) :: (1 + cd.MarshalLen + cg.MarshalLen) ::
        List.replicate (1 + cd.MarshalLen + cg.MarshalLen + d.value.length) 0) 5 cd.writeBytes
      = 9 % 256 :: pcv :: 3 :: (2 + cd.MarshalLen) :: (1 + cd.MarshalLen + cg.MarshalLen) ::
        (cd.writeBytes ++ List.replicate (1 + cg.MarshalLen + d.value.length) 0) := by
    have h := setSlice_append [9 % 256, pcv, 3, 2 + cd.MarshalLen, 1 + cd.MarshalLen + cg.MarshalLen]
      cd.writeBytes (1 + cd.MarshalLen + cg.MarshalLen + d.value.length)
    simp only [List.cons_append, List.nil_append, List.length_cons, List.length_nil,
      Nat.zero_add, show (1:Nat)+1+1+1+1 = 5 from rfl] at h
    rw [PartyAddress.pa_writeBytes_length] at h
    rw [show 1 + cd.MarshalLen + cg.MarshalLen + d.value.length - cd.MarshalLen
        = 1 + cg.MarshalLen + d.value.length by omega] at h
    exact h
  rw [s9]
  have s10 : setSlice (9 % 256 :: pcv :: 3 :: (2 + cd.MarshalLen) :: (1 + cd.MarshalLen + cg.MarshalLen) ::
        (cd.writeBytes ++ List.replicate (1 + cg.MarshalLen + d.value.length) 0))
        (5 + cd.MarshalLen) cg.writeBytes
      = 9 % 256 :: pcv :: 3 :: (2 + cd.MarshalLen) :: (1 + cd.MarshalLen + cg.MarshalLen) ::
        (cd.writeBytes ++ cg.writeBytes ++ List.replicate (1 + d.value.length) 0) := by
    have h := setSlice_append ([9 % 256, pcv, 3, 2 + cd.MarshalLen, 1 + cd.MarshalLen + cg.MarshalLen]
        ++ cd.writeBytes) cg.writeBytes (1 + cg.MarshalLen + d.value.length)
    simp only [List.cons_append, List.nil_append, List.length_cons, List.length_nil,
      List.length_append, Nat.zero_add, show (1:Nat)+1+1+1+1 = 5 from rfl] at h
    rw [PartyAddress.pa_writeBytes_length, PartyAddress.pa_writeBytes_length] at h
    rw [show cd.MarshalLen + 1 + 1 + 1 + 1 + 1 = 5 + cd.MarshalLen by omega] at h
    rw [show 1 + cg.MarshalLen + d.value.length - cg.MarshalLen = 1 + d.value.length by omega] at h
    exact h
  rw [s10]
  have hdbl : d.writeBytes.length = 1 + d.value.length := by
    simp [Data.writeBytes, hdlen]
    omega
  have s11 : setSlice (9 % 256 :: pcv :: 3 :: (2 + cd.MarshalLen) :: (1 + cd.MarshalLen + cg.MarshalLen) ::
        (cd.writeBytes ++ cg.writeBytes ++ List.replicate (1 + d.value.length) 0))
        (5 + cd.MarshalLen + cg.MarshalLen) d.writeBytes
      = 9 % 256 :: pcv :: 3 :: (2 + cd.MarshalLen) :: (1 + cd.MarshalLen + cg.MarshalLen) ::
        (cd.writeBytes ++ cg.writeBytes ++ d.writeBytes) := by
    have h := setSlice_append ([9 % 256, pcv, 3, 2 + cd.MarshalLen, 1 + cd.MarshalLen + cg.MarshalLen]
        ++ cd.writeBytes ++ cg.writeBytes) d.writeBytes (1 + d.value.length)
    simp only [List.cons_append, List.nil_append, List.length_cons, List.length_nil,
      List.length_append, Nat.zero_add, show (1:Nat)+1+1+1+1 = 5 from rfl] at h
    rw [PartyAddress.pa_writeBytes_length, PartyAddress.pa_writeBytes_length, hdbl] at h
    rw [show cd.MarshalLen + cg.MarshalLen + 1 + 1 + 1 + 1 + 1 = 5 + cd.MarshalLen + cg.MarshalLen by omega] at h
    rw [show 1 + d.value.length - (1 + d.value.length) = 0 by omega] at h
    simp only [List.replicate_zero, List.append_nil] at h
    exact h
  rw [s11]


set_option maxHeartbeats 1000000

theorem UDT.udt_Unmarshal_enc (u : UDT) (h : u.wf) :
    UDT.UnmarshalBinary u.enc = .ok u := by
  obtain ⟨mt, pco, cdo, cgo, dto, p1, p2, p3⟩ := u
  obtain ⟨hmt, hp1, hrest⟩ := h
  cases pco with
  | none => simp at hrest
  | some pc =>
  cases cdo with
  | none => simp at hrest
  | some cd =>
  cases cgo with
  | none => simp at hrest
  | some cg =>
  cases dto with
  | none => simp at hrest
  | some d =>
  simp only at hrest
  obtain ⟨hpc, hcd, hcg, hd, hp2, hp3, hbound⟩ := hrest
  simp only at hp2 hp3 hmt hp1
  subst hp2; subst hp3; subst hmt; subst hp1
  obtain ⟨pc0, pc1, pc2, pcv⟩ := pc
  obtain ⟨hx0, hx1, hx2, hx3⟩ := hpc
  simp only at hx0 hx1 hx2 hx3
  subst hx0; subst hx1; subst hx2
  have hMcd := cd.two_le_MarshalLen
  have hMcg := cg.two_le_MarshalLen
  have hcdb := cd.pa_writeBytes_length
  have hcgb := cg.pa_writeBytes_length
  have hdbl : d.writeBytes.length = 1 + d.value.length := by
    obtain ⟨-, -, hdlen, -⟩ := hd
    simp [Data.writeBytes, hdlen]
    omega
  simp only [UDT.enc, UDT.UnmarshalBinary]
  have hlen : (9 % 256 :: pcv :: 3 :: (2 + cd.MarshalLen) :: (1 + cd.MarshalLen + cg.MarshalLen) ::
      (cd.writeBytes ++ cg.writeBytes ++ d.writeBytes)).length
      = 6 + cd.MarshalLen + cg.MarshalLen + d.value.length := by
    simp [hcdb, hcgb, hdbl]
    omega
  rw [hlen]
  rw [if_neg (by omega)]
  have spc : ProtocolClass.mk0.Read (List.drop 1 (9 % 256 :: pcv :: 3 :: (2 + cd.MarshalLen) :: (1 + cd.MarshalLen + cg.MarshalLen) :: (cd.writeBytes ++ cg.writeBytes ++ d.writeBytes)))
      = .ok (⟨PTypeF, PCodeProtocolClass, 1, pcv⟩, 1) := by
    simp only [List.drop_one, List.tail_cons, ProtocolClass.Read, List.length_cons]
    rw [if_neg (by omega)]
    simp [ProtocolClass.mk0, PTypeF]
  rw [spc]; simp only [Res.bind_ok]
  simp only [show (1:Nat)+1+3 = 5 from rfl, show (1:Nat)+1+2 = 4 from rfl,
    show (1:Nat)+1+1 = 3 from rfl, show (1:Nat)+1 = 2 from rfl]
  rw [goIdx_eq_ok (show 2 < ((9 % 256 :: pcv :: 3 :: (2 + cd.MarshalLen) :: (1 + cd.MarshalLen + cg.MarshalLen) :: (cd.writeBytes ++ cg.writeBytes ++ d.writeBytes))).length by rw [hlen]; omega)]
  simp only [Res.bind_ok]
  rw [show ((9 % 256 :: pcv :: 3 :: (2 + cd.MarshalLen) :: (1 + cd.MarshalLen + cg.MarshalLen) :: (cd.writeBytes ++ cg.writeBytes ++ d.writeBytes))).getD 2 0 = 3 from rfl]
  rw [if_neg (by omega)]
  rw [goIdx_eq_ok (show 3 < ((9 % 256 :: pcv :: 3 :: (2 + cd.MarshalLen) :: (1 + cd.MarshalLen + cg.MarshalLen) :: (cd.writeBytes ++ cg.writeBytes ++ d.writeBytes))).length by rw [hlen]; omega)]
  simp only [Res.bind_ok]
  rw [show ((9 % 256 :: pcv :: 3 :: (2 + cd.MarshalLen) :: (1 + cd.MarshalLen + cg.MarshalLen) :: (cd.writeBytes ++ cg.writeBytes ++ d.writeBytes))).getD 3 0 = 2 + cd.MarshalLen from rfl]
  rw [show (2 + cd.MarshalLen + 3) % 256 = 5 + cd.MarshalLen by omega]
  rw [if_neg (by omega)]
  rw [goIdx_eq_ok (show 4 < ((9 % 256 :: pcv :: 3 :: (2 + cd.MarshalLen) :: (1 + cd.MarshalLen + cg.MarshalLen) :: (cd.writeBytes ++ cg.writeBytes ++ d.writeBytes))).length by rw [hlen]; omega)]
  simp only [Res.bind_ok]
  rw [show ((9 % 256 :: pcv :: 3 :: (2 + cd.MarshalLen) :: (1 + cd.MarshalLen + cg.MarshalLen) :: (cd.writeBytes ++ cg.writeBytes ++ d.writeBytes))).getD 4 0 = 1 + cd.MarshalLen + cg.MarshalLen from rfl]
  rw [show (1 + cd.MarshalLen + cg.MarshalLen + 5) % 256
      = 6 + cd.MarshalLen + cg.MarshalLen by omega]
  rw [if_neg (by omega)]
  rw [show (1 + cd.MarshalLen + cg.MarshalLen + 4) % 256
      = 5 + cd.MarshalLen + cg.MarshalLen by omega]
  have sA : goSlice (9 % 256 :: pcv :: 3 :: (2 + cd.MarshalLen) :: (1 + cd.MarshalLen + cg.MarshalLen) :: (cd.writeBytes ++ cg.writeBytes ++ d.writeBytes)) 5 (5 + cd.MarshalLen) = .ok cd.writeBytes := by
    rw [goSlice_eq_ok (by omega) (by rw [hlen]; omega)]
    congr 1
    rw [show ((9 % 256 :: pcv :: 3 :: (2 + cd.MarshalLen) :: (1 + cd.MarshalLen + cg.MarshalLen) :: (cd.writeBytes ++ cg.writeBytes ++ d.writeBytes))).drop 5 = cd.writeBytes ++ cg.writeBytes ++ d.writeBytes from rfl]
    rw [show 5 + cd.MarshalLen - 5 = cd.MarshalLen by omega]
    rw [List.append_assoc]
    exact List.take_left' hcdb
  rw [sA]; simp only [Res.bind_ok]
  obtain ⟨n1, hcdp⟩ := cd.pa_parse_writeBytes PCodeCalledPartyAddress hcd
  have sB : ParseCalledPartyAddress cd.writeBytes = .ok (cd, n1) := by
    simpa [ParseCalledPartyAddress] using hcdp
  rw [sB]; simp only [Res.bind_ok]
  have hdrop1 : ((9 % 256 :: pcv :: 3 :: (2 + cd.MarshalLen) :: (1 + cd.MarshalLen + cg.MarshalLen) :: (cd.writeBytes ++ cg.writeBytes ++ d.writeBytes))).drop (5 + cd.MarshalLen) = cg.writeBytes ++ d.writeBytes := by
    rw [show (9 % 256 :: pcv :: 3 :: (2 + cd.MarshalLen) :: (1 + cd.MarshalLen + cg.MarshalLen) :: (cd.writeBytes ++ cg.writeBytes ++ d.writeBytes))
        = ([9 % 256, pcv, 3, 2 + cd.MarshalLen, 1 + cd.MarshalLen + cg.MarshalLen]
           ++ cd.writeBytes) ++ (cg.writeBytes ++ d.writeBytes) by simp]
    exact List.drop_left' (by simp [hcdb]; omega)
  have sC : goSlice (9 % 256 :: pcv :: 3 :: (2 + cd.MarshalLen) :: (1 + cd.MarshalLen + cg.MarshalLen) :: (cd.writeBytes ++ cg.writeBytes ++ d.writeBytes)) (5 + cd.MarshalLen) (5 + cd.MarshalLen + cg.MarshalLen)
      = .ok cg.writeBytes := by
    rw [goSlice_eq_ok (by omega) (by rw [hlen]; omega)]
    congr 1
    rw [hdrop1]
    rw [show 5 + cd.MarshalLen + cg.MarshalLen - (5 + cd.MarshalLen) = cg.MarshalLen by omega]
    exact List.take_left' hcgb
  rw [sC]; simp only [Res.bind_ok]
  obtain ⟨n2, hcgp⟩ := cg.pa_parse_writeBytes PCodeCallingPartyAddress hcg
  have sD : ParseCallingPartyAddress cg.writeBytes = .ok (cg, n2) := by
    simpa [ParseCallingPartyAddress] using hcgp
  rw [sD]; simp only [Res.bind_ok]
  have hlen2 : (cd.writeBytes ++ cg.writeBytes).length = cd.MarshalLen + cg.MarshalLen := by
    simp [hcdb, hcgb]
  have sE : goSliceFrom (9 % 256 :: pcv :: 3 :: (2 + cd.MarshalLen) :: (1 + cd.MarshalLen + cg.MarshalLen) :: (cd.writeBytes ++ cg.writeBytes ++ d.writeBytes)) (5 + cd.MarshalLen + cg.MarshalLen) = .ok d.writeBytes := by
    rw [goSliceFrom_eq_ok (by rw [hlen]; omega)]
    congr 1
    rw [show (9 % 256 :: pcv :: 3 :: (2 + cd.MarshalLen) :: (1 + cd.MarshalLen + cg.MarshalLen) :: (cd.writeBytes ++ cg.writeBytes ++ d.writeBytes))
        = ([9 % 256, pcv, 3, 2 + cd.MarshalLen, 1 + cd.MarshalLen + cg.MarshalLen]
           ++ cd.writeBytes ++ cg.writeBytes) ++ d.writeBytes by simp]
    exact List.drop_left' (by simp [hcdb, hcgb]; omega)
  rw [sE]; simp only [Res.bind_ok]
  obtain ⟨n3, hdp⟩ := d.data_parse_writeBytes hd []
  rw [List.append_nil] at hdp
  rw [hdp]; simp only [Res.bind_ok]
  simp



theorem XUDT.xudt_enc_length (x : XUDT) (h : x.wf) : x.enc.length = x.MarshalLen := by
  obtain ⟨mt, pco, hco, cdo, cgo, dto, sgo, imo, eoo, p1, p2, p3, p4⟩ := x
  obtain ⟨hmt, hp1, hrest⟩ := h
  cases pco with
  | none => simp at hrest
  | some pc =>
  cases hco with
  | none => simp at hrest
  | some hc =>
  cases cdo with
  | none => simp at hrest
  | some cd =>
  cases cgo with
  | none => simp at hrest
  | some cg =>
  cases dto with
  | none => simp at hrest
  | some d =>
  simp only at hrest
  obtain ⟨hpc, hhc, hcd, hcg, hd, hp2, hp3, hor⟩ := hrest
  simp only at hp2 hp3 hmt hp1
  subst hp2; subst hp3; subst hmt; subst hp1
  have hMcd := cd.two_le_MarshalLen
  have hMcg := cg.two_le_MarshalLen
  have hcdb := cd.pa_writeBytes_length
  have hcgb := cg.pa_writeBytes_length
  have hdbl : d.writeBytes.length = 1 + d.value.length := by
    obtain ⟨-, -, hdlen, -⟩ := hd
    simp [Data.writeBytes, hdlen]
    omega
  have hdml : d.MarshalLen = 1 + d.value.length := by
    obtain ⟨hdpt, -, -, -⟩ := hd
    simp [Data.MarshalLen, hdpt, PTypeV, PTypeO]
  rcases hor with ⟨hp4, hsg, him, heoo, hbound⟩ | ⟨hp4, heoo, hsgwf, himwf, hbound⟩
  · subst hp4; subst hsg; subst him; subst heoo
    simp only [XUDT.enc, XUDT.MarshalLen, XUDT.encBlock]
    simp [hcdb, hcgb, hdbl, hdml]
    omega
  · subst hp4; subst heoo
    cases sgo with
    | none =>
      cases imo with
      | none =>
        simp only [XUDT.enc, XUDT.MarshalLen, XUDT.encBlock]
        rw [if_neg (by omega)]
        simp [hcdb, hcgb, hdbl, hdml, NewEndOfOptionalParameters,
          EndOfOptionalParameters.MarshalLen]
        omega
      | some im =>
        obtain ⟨-, -, himlen, -⟩ := himwf
        simp only [XUDT.enc, XUDT.MarshalLen, XUDT.encBlock]
        rw [if_neg (by omega)]
        simp [hcdb, hcgb, hdbl, hdml, NewEndOfOptionalParameters,
          EndOfOptionalParameters.MarshalLen, Importance.MarshalLen, himlen]
        omega
    | some sg =>
      obtain ⟨-, -, hsglen, -⟩ := hsgwf
      cases imo with
      | none =>
        simp only [XUDT.enc, XUDT.MarshalLen, XUDT.encBlock]
        rw [if_neg (by omega)]
        simp [hcdb, hcgb, hdbl, hdml, NewEndOfOptionalParameters,
          EndOfOptionalParameters.MarshalLen, Segmentation.MarshalLen, hsglen,
          uint32To24]
        omega
      | some im =>
        obtain ⟨-, -, himlen, -⟩ := himwf
        simp only [XUDT.enc, XUDT.MarshalLen, XUDT.encBlock]
        rw [if_neg (by omega)]
        simp [hcdb, hcgb, hdbl, hdml, NewEndOfOptionalParameters,
          EndOfOptionalParameters.MarshalLen, Segmentation.MarshalLen, hsglen,
          Importance.MarshalLen, himlen, uint32To24]
        omega

/-! ### XUDT marshalling equals the canonical encoding -/

set_option maxHeartbeats 2000000 in


theorem XUDT.xudt_MarshalBinary_eq (x : XUDT) (h : x.wf) :
    x.MarshalBinary = .ok x.enc := by
  obtain ⟨mt, pco, hco, cdo, cgo, dto, sgo, imo, eoo, p1, p2, p3, p4⟩ := x
  obtain ⟨hmt, hp1, hrest⟩ := h
  cases pco with
  | none => simp at hrest
  | some pc =>
  cases hco with
  | none => simp at hrest
  | some hc =>
  cases cdo with
  | none => simp at hrest
  | some cd =>
  cases cgo with
  | none => simp at hrest
  | some cg =>
  cases dto with
  | none => simp at hrest
  | some d =>
  simp only at hrest
  obtain ⟨hpc, hhc, hcd, hcg, hd, hp2, hp3, hor⟩ := hrest
  simp only at hp2 hp3 hmt hp1
  subst hp2; subst hp3; subst hmt; subst hp1
  obtain ⟨pc0, pc1, pc2, pcv⟩ := pc
  obtain ⟨hx0, hx1, hx2, hx3⟩ := hpc
  simp only at hx0 hx1 hx2 hx3
  subst hx0; subst hx1; subst hx2
  obtain ⟨hc0, hc1, hc2, hcv⟩ := hc
  obtain ⟨hy0, hy1, hy2, hy3⟩ := hhc
  simp only at hy0 hy1 hy2 hy3
  subst hy0; subst hy1; subst hy2
  have hMcd := cd.two_le_MarshalLen
  have hMcg := cg.two_le_MarshalLen
  obtain ⟨hdpt, hdcode, hdlen, hdb⟩ := hd
  rcases hor with ⟨hp4, hsg, him, heoo, hbound⟩ | ⟨hp4, heoo, hsgwf, himwf, hbound⟩
  · subst hp4; subst hsg; subst him; subst heoo
    simp only [XUDT.MarshalBinary, XUDT.MarshalTo, XUDT.MarshalLen, XUDT.enc, XUDT.encBlock]
    simp only [List.length_replicate]
    simp only [if_neg (show ¬(0:Nat) ≠ 0 from by omega)]
    rw [show d.MarshalLen = 1 + d.value.length by
      simp [Data.MarshalLen, hdpt, PTypeV, PTypeO]]
    rw [show 7 + (2 + cd.MarshalLen + cg.MarshalLen) - 2 + (1 + d.value.length)
        = 8 + cd.MarshalLen + cg.MarshalLen + d.value.length by omega]
    rw [show (3 + cd.MarshalLen + 4) % 256 = 7 + cd.MarshalLen by omega]
    rw [show (2 + cd.MarshalLen + cg.MarshalLen + 5) % 256
        = 7 + cd.MarshalLen + cg.MarshalLen by omega]
    rw [show ((0:Nat) + 6) % 256 = 6 from rfl]
    rw [if_neg (by omega)]
    have t0 : setByte (List.replicate (8 + cd.MarshalLen + cg.MarshalLen + d.value.length) 0) 0 (17 % 256)
        = .ok ((17 % 256) :: List.replicate (7 + cd.MarshalLen + cg.MarshalLen + d.value.length) 0) := by
      have h := setByte_append [] (8 + cd.MarshalLen + cg.MarshalLen + d.value.length) (17 % 256) (by omega)
      simp only [List.nil_append, List.length_nil] at h
      rw [show 8 + cd.MarshalLen + cg.MarshalLen + d.value.length - 1
          = 7 + cd.MarshalLen + cg.MarshalLen + d.value.length by omega] at h
      exact h
    rw [t0]; simp only [Res.bind_ok]
    have t1 : ProtocolClass.Write ⟨PTypeF, PCodeProtocolClass, 1, pcv⟩
        (8 + cd.MarshalLen + cg.MarshalLen + d.value.length - 1) = .ok ([pcv], 1) := by
      simp only [ProtocolClass.Write]
      rw [if_neg (by omega), if_neg (by omega)]
    rw [t1]; simp only [Res.bind_ok]
    simp only [show (1:Nat)+1+1+4 = 7 from rfl, show (1:Nat)+1+1+3 = 6 from rfl,
      show (1:Nat)+1+1+2 = 5 from rfl, show (1:Nat)+1+1+1 = 4 from rfl,
      show (1:Nat)+1+1 = 3 from rfl, show (1:Nat)+1 = 2 from rfl]
    have t1b : sliceLenFrom (8 + cd.MarshalLen + cg.MarshalLen + d.value.length) 2
        = .ok (6 + cd.MarshalLen + cg.MarshalLen + d.value.length) := by
      simp only [sliceLenFrom]
      rw [if_pos (by omega)]
      congr 1
      omega
    rw [t1b]; simp only [Res.bind_ok]
    have t2 : HopCounter.Write ⟨PTypeF, PCodeHopCounter, 1, hcv⟩
        (6 + cd.MarshalLen + cg.MarshalLen + d.value.length) = .ok ([hcv], 1) := by
      simp only [HopCounter.Write, HopCounter.write, PTypeF, PTypeO]
      rw [if_neg (by norm_num)]
      rw [if_neg (by omega), if_neg (by omega)]
    rw [t2]; simp only [Res.bind_ok]
    simp only [show (1:Nat)+1+1+4 = 7 from rfl, show (1:Nat)+1+1+3 = 6 from rfl,
      show (1:Nat)+1+1+2 = 5 from rfl, show (1:Nat)+1+1+1 = 4 from rfl,
      show (1:Nat)+1+1 = 3 from rfl, show (1:Nat)+1 = 2 from rfl]
    have t3 : setSlice ((17 % 256) :: List.replicate (7 + cd.MarshalLen + cg.MarshalLen + d.value.length) 0) 1 [pcv]
        = 17 % 256 :: pcv :: List.replicate (6 + cd.MarshalLen + cg.MarshalLen + d.value.length) 0 := by
      have h := setSlice_append [17 % 256] [pcv] (7 + cd.MarshalLen + cg.MarshalLen + d.value.length)
      simp only [List.cons_append, List.nil_append, List.length_cons, List.length_nil,
        Nat.zero_add] at h
      rw [show 7 + cd.MarshalLen + cg.MarshalLen + d.value.length - 1
          = 6 + cd.MarshalLen + cg.MarshalLen + d.value.length by omega] at h
      exact h
    rw [t3]
    have t4 : setSlice (17 % 256 :: pcv :: List.replicate (6 + cd.MarshalLen + cg.MarshalLen + d.value.length) 0) 2 [hcv]
        = 17 % 256 :: pcv :: hcv :: List.replicate (5 + cd.MarshalLen + cg.MarshalLen + d.value.length) 0 := by
      have h := setSlice_append [17 % 256, pcv] [hcv] (6 + cd.MarshalLen + cg.MarshalLen + d.value.length)
      simp only [List.cons_append, List.nil_append, List.length_cons, List.length_nil,
        Nat.zero_add] at h
      rw [show 6 + cd.MarshalLen + cg.MarshalLen + d.value.length - 1
          = 5 + cd.MarshalLen + cg.MarshalLen + d.value.length by omega] at h
      exact h
    rw [t4]
    have t5 : setByte (17 % 256 :: pcv :: hcv :: List.replicate (5 + cd.MarshalLen + cg.MarshalLen + d.value.length) 0) 3 4
        = .ok (17 % 256 :: pcv :: hcv :: 4 :: List.replicate (4 + cd.MarshalLen + cg.MarshalLen + d.value.length) 0) := by
      have h := setByte_append [17 % 256, pcv, hcv] (5 + cd.MarshalLen + cg.MarshalLen + d.value.length) 4 (by omega)
      simp only [List.cons_append, List.nil_append, List.length_cons, List.length_nil,
        Nat.zero_add] at h
      rw [show 5 + cd.MarshalLen + cg.MarshalLen + d.value.length - 1
          = 4 + cd.MarshalLen + cg.MarshalLen + d.value.length by omega] at h
      exact h
    rw [t5]; simp only [Res.bind_ok]
    rw [if_neg (by omega)]
    have t6 : setByte (17 % 256 :: pcv :: hcv :: 4 :: List.replicate (4 + cd.MarshalLen + cg.MarshalLen + d.value.length) 0) 4 (3 + cd.MarshalLen)
        = .ok (17 % 256 :: pcv :: hcv :: 4 :: (3 + cd.MarshalLen) :: List.replicate (3 + cd.MarshalLen + cg.MarshalLen + d.value.length) 0) := by
      have h := setByte_append [17 % 256, pcv, hcv, 4] (4 + cd.MarshalLen + cg.MarshalLen + d.value.length) (3 + cd.MarshalLen) (by omega)
      simp only [List.cons_append, List.nil_append, List.length_cons, List.length_nil,
        Nat.zero_add] at h
      rw [show 4 + cd.MarshalLen + cg.MarshalLen + d.value.length - 1
          = 3 + cd.MarshalLen + cg.MarshalLen + d.value.length by omega] at h
      exact h
    rw [t6]; simp only [Res.bind_ok]
    rw [if_neg (by omega)]
    have t7 : setByte (17 % 256 :: pcv :: hcv :: 4 :: (3 + cd.MarshalLen) :: List.replicate (3 + cd.MarshalLen + cg.MarshalLen + d.value.length) 0) 5 (2 + cd.MarshalLen + cg.MarshalLen)
        = .ok (17 % 256 :: pcv :: hcv :: 4 :: (3 + cd.MarshalLen) :: (2 + cd.MarshalLen + cg.MarshalLen) :: List.replicate (2 + cd.MarshalLen + cg.MarshalLen + d.value.length) 0) := by
      have h := setByte_append [17 % 256, pcv, hcv, 4, 3 + cd.MarshalLen] (3 + cd.MarshalLen + cg.MarshalLen + d.value.length) (2 + cd.MarshalLen + cg.MarshalLen) (by omega)
      simp only [List.cons_append, List.nil_append, List.length_cons, List.length_nil,
        Nat.zero_add] at h
      rw [show 3 + cd.MarshalLen + cg.MarshalLen + d.value.length - 1
          = 2 + cd.MarshalLen + cg.MarshalLen + d.value.length by omega] at h
      exact h
    rw [t7]; simp only [Res.bind_ok]
    rw [if_neg (by omega)]
    have t8 : setByte (17 % 256 :: pcv :: hcv :: 4 :: (3 + cd.MarshalLen) :: (2 + cd.MarshalLen + cg.MarshalLen) :: List.replicate (2 + cd.MarshalLen + cg.MarshalLen + d.value.length) 0) 6 0
        = .ok (17 % 256 :: pcv :: hcv :: 4 :: (3 + cd.MarshalLen) :: (2 + cd.MarshalLen + cg.MarshalLen) :: 0 :: List.replicate (1 + cd.MarshalLen + cg.MarshalLen + d.value.length) 0) := by
      have h := setByte_append [17 % 256, pcv, hcv, 4, 3 + cd.MarshalLen, 2 + cd.MarshalLen + cg.MarshalLen] (2 + cd.MarshalLen + cg.MarshalLen + d.value.length) 0 (by omega)
      simp only [List.cons_append, List.nil_append, List.length_cons, List.length_nil,
        Nat.zero_add] at h
      rw [show 2 + cd.MarshalLen + cg.MarshalLen + d.value.length - 1
          = 1 + cd.MarshalLen + cg.MarshalLen + d.value.length by omega] at h
      exact h
    rw [t8]; simp only [Res.bind_ok]
    rw [if_neg (by omega)]
    have t9 : sliceLen2 (8 + cd.MarshalLen + cg.MarshalLen + d.value.length) 7 (7 + cd.MarshalLen)
        = .ok cd.MarshalLen := by
      simp only [sliceLen2]
      rw [if_pos ⟨by omega, by omega⟩]
      congr 1
      omega
    rw [t9]; simp only [Res.bind_ok]
    have t10 : cd.Write cd.MarshalLen = .ok (cd.writeBytes, cd.writeCount) := by
      simp only [PartyAddress.Write, hcd.1, if_true, PartyAddress.write]
      rw [if_neg (by omega)]
    rw [t10]; simp only [Res.bind_ok]
    have t11 : sliceLen2 (8 + cd.MarshalLen + cg.MarshalLen + d.value.length) (7 + cd.MarshalLen)
        (7 + cd.MarshalLen + cg.MarshalLen) = .ok cg.MarshalLen := by
      simp only [sliceLen2]
      rw [if_pos ⟨by omega, by omega⟩]
      congr 1
      omega
    rw [t11]; simp only [Res.bind_ok]
    have t12 : cg.Write cg.MarshalLen = .ok (cg.writeBytes, cg.writeCount) := by
      simp only [PartyAddress.Write, hcg.1, if_true, PartyAddress.write]
      rw [if_neg (by omega)]
    rw [t12]; simp only [Res.bind_ok]
    have t13 : sliceLenFrom (8 + cd.MarshalLen + cg.MarshalLen + d.value.length)
        (7 + cd.MarshalLen + cg.MarshalLen) = .ok (1 + d.value.length) := by
      simp only [sliceLenFrom]
      rw [if_pos (by omega)]
      congr 1
      omega
    rw [t13]; simp only [Res.bind_ok]
    have t14 : d.Write (1 + d.value.length)
        = .ok (d.writeBytes, if d.value.length = 0 then 1 else d.value.length) := by
      simp only [Data.Write, hdpt, PTypeV, PTypeO]
      rw [if_neg (by norm_num)]
      simp only [Data.write, hdlen]
      rw [if_neg (by omega)]
      by_cases h0 : d.value.length = 0
      · rw [if_pos h0, if_pos h0]
        simp [Data.writeBytes, hdlen, h0]
      · rw [if_neg h0, if_neg h0]
    rw [t14]; simp only [Res.bind_ok]
    simp only [if_true]
    have hcdb := cd.pa_writeBytes_length
    have hcgb := cg.pa_writeBytes_length
    have hdbl : d.writeBytes.length = 1 + d.value.length := by
      simp [Data.writeBytes, hdlen]
      omega
    have t15 : setSlice (17 % 256 :: pcv :: hcv :: 4 :: (3 + cd.MarshalLen) :: (2 + cd.MarshalLen + cg.MarshalLen) :: 0 ::
          List.replicate (1 + cd.MarshalLen + cg.MarshalLen + d.value.length) 0) 7 cd.writeBytes
        = 17 % 256 :: pcv :: hcv :: 4 :: (3 + cd.MarshalLen) :: (2 + cd.MarshalLen + cg.MarshalLen) :: 0 ::
          (cd.writeBytes ++ List.replicate (1 + cg.MarshalLen + d.value.length) 0) := by
      have h := setSlice_append [17 % 256, pcv, hcv, 4, 3 + cd.MarshalLen, 2 + cd.MarshalLen + cg.MarshalLen, 0]
        cd.writeBytes (1 + cd.MarshalLen + cg.MarshalLen + d.value.length)
      simp only [List.cons_append, List.nil_append, List.length_cons, List.length_nil,
        Nat.zero_add, show (1:Nat)+1+1+1+1+1+1 = 7 from rfl] at h
      rw [PartyAddress.pa_writeBytes_length] at h
      rw [show 1 + cd.MarshalLen + cg.MarshalLen + d.value.length - cd.MarshalLen
          = 1 + cg.MarshalLen + d.value.length by omega] at h
      exact h
    rw [t15]
    have t16 : setSlice (17 % 256 :: pcv :: hcv :: 4 :: (3 + cd.MarshalLen) :: (2 + cd.MarshalLen + cg.MarshalLen) :: 0 ::
          (cd.writeBytes ++ List.replicate (1 + cg.MarshalLen + d.value.length) 0))
          (7 + cd.MarshalLen) cg.writeBytes
        = 17 % 256 :: pcv :: hcv :: 4 :: (3 + cd.MarshalLen) :: (2 + cd.MarshalLen + cg.MarshalLen) :: 0 ::
          (cd.writeBytes ++ cg.writeBytes ++ List.replicate (1 + d.value.length) 0) := by
      have h := setSlice_append ([17 % 256, pcv, hcv, 4, 3 + cd.MarshalLen, 2 + cd.MarshalLen + cg.MarshalLen, 0]
          ++ cd.writeBytes) cg.writeBytes (1 + cg.MarshalLen + d.value.length)
      simp only [List.cons_append, List.nil_append, List.length_cons, List.length_nil,
        List.length_append, Nat.zero_add, show (1:Nat)+1+1+1+1+1+1 = 7 from rfl] at h
      rw [PartyAddress.pa_writeBytes_length, PartyAddress.pa_writeBytes_length] at h
      rw [show cd.MarshalLen + 1 + 1 + 1 + 1 + 1 + 1 + 1 = 7 + cd.MarshalLen by omega] at h
      rw [show 1 + cg.MarshalLen + d.value.length - cg.MarshalLen = 1 + d.value.length by omega] at h
      exact h
    rw [t16]
    have t17 : setSlice (17 % 256 :: pcv :: hcv :: 4 :: (3 + cd.MarshalLen) :: (2 + cd.MarshalLen + cg.MarshalLen) :: 0 ::
          (cd.writeBytes ++ cg.writeBytes ++ List.replicate (1 + d.value.length) 0))
          (7 + cd.MarshalLen + cg.MarshalLen) d.writeBytes
        = 17 % 256 :: pcv :: hcv :: 4 :: (3 + cd.MarshalLen) :: (2 + cd.MarshalLen + cg.MarshalLen) :: 0 ::
          (cd.writeBytes ++ cg.writeBytes ++ d.writeBytes) := by
      have h := setSlice_append ([17 % 256, pcv, hcv, 4, 3 + cd.MarshalLen, 2 + cd.MarshalLen + cg.MarshalLen, 0]
          ++ cd.writeBytes ++ cg.writeBytes) d.writeBytes (1 + d.value.length)
      simp only [List.cons_append, List.nil_append, List.length_cons, List.length_nil,
        List.length_append, Nat.zero_add, show (1:Nat)+1+1+1+1+1+1 = 7 from rfl] at h
      rw [PartyAddress.pa_writeBytes_length, PartyAddress.pa_writeBytes_length, hdbl] at h
      rw [show cd.MarshalLen + cg.MarshalLen + 1 + 1 + 1 + 1 + 1 + 1 + 1
          = 7 + cd.MarshalLen + cg.MarshalLen by omega] at h
      rw [show 1 + d.value.length - (1 + d.value.length) = 0 by omega] at h
      simp only [List.replicate_zero, List.append_nil] at h
      exact h
    rw [t17]
    simp
  · subst hp4; subst heoo
    simp only [XUDT.MarshalBinary]
    generalize hL : XUDT.MarshalLen
      ⟨17, some ⟨PTypeF, PCodeProtocolClass, 1, pcv⟩, some ⟨PTypeF, PCodeHopCounter, 1, hcv⟩,
       some cd, some cg, some d, sgo, imo, some NewEndOfOptionalParameters, 4,
       3 + cd.MarshalLen, 2 + cd.MarshalLen + cg.MarshalLen,
       2 + cd.MarshalLen + cg.MarshalLen + d.value.length⟩ = L
    have hL9 : 9 + cd.MarshalLen + cg.MarshalLen + d.value.length ≤ L := by
      rcases sgo with _ | sg <;> rcases imo with _ | im <;>
        simp only [XUDT.MarshalLen, Segmentation.MarshalLen, Importance.MarshalLen,
          NewEndOfOptionalParameters, EndOfOptionalParameters.MarshalLen] at hL <;>
        rw [if_pos (show (2 + cd.MarshalLen + cg.MarshalLen + d.value.length : Nat)
          ≠ 0 by omega)] at hL <;>
        omega
    simp only [XUDT.MarshalTo, XUDT.enc, XUDT.encBlock]
    simp only [List.length_replicate]
    rw [show (3 + cd.MarshalLen + 4) % 256 = 7 + cd.MarshalLen by omega]
    rw [show (2 + cd.MarshalLen + cg.MarshalLen + 5) % 256
        = 7 + cd.MarshalLen + cg.MarshalLen by omega]
    rw [if_neg (by omega)]
    have t0 : setByte (List.replicate L 0) 0 (17 % 256)
        = .ok ((17 % 256) :: List.replicate (L - 1) 0) := by
      have h := setByte_append [] L (17 % 256) (by omega)
      simp only [List.nil_append, List.length_nil] at h
      exact h
    rw [t0]; simp only [Res.bind_ok]
    have t1 : ProtocolClass.Write ⟨PTypeF, PCodeProtocolClass, 1, pcv⟩ (L - 1) = .ok ([pcv], 1) := by
      simp only [ProtocolClass.Write]
      rw [if_neg (by omega), if_neg (by omega)]
    rw [t1]; simp only [Res.bind_ok]
    simp only [show (1:Nat)+1+1+4 = 7 from rfl, show (1:Nat)+1+1+3 = 6 from rfl,
      show (1:Nat)+1+1+2 = 5 from rfl, show (1:Nat)+1+1+1 = 4 from rfl,
      show (1:Nat)+1+1 = 3 from rfl, show (1:Nat)+1 = 2 from rfl]
    have t1b : sliceLenFrom L 2 = .ok (L - 2) := by
      simp only [sliceLenFrom]
      rw [if_pos (by omega)]
    rw [t1b]; simp only [Res.bind_ok]
    have t2 : HopCounter.Write ⟨PTypeF, PCodeHopCounter, 1, hcv⟩ (L - 2) = .ok ([hcv], 1) := by
      simp only [HopCounter.Write, HopCounter.write, PTypeF, PTypeO]
      rw [if_neg (by norm_num)]
      rw [if_neg (by omega), if_neg (by omega)]
    rw [t2]; simp only [Res.bind_ok]
    simp only [show (1:Nat)+1+1+4 = 7 from rfl, show (1:Nat)+1+1+3 = 6 from rfl,
      show (1:Nat)+1+1+2 = 5 from rfl, show (1:Nat)+1+1+1 = 4 from rfl,
      show (1:Nat)+1+1 = 3 from rfl, show (1:Nat)+1 = 2 from rfl]
    have t3 : setSlice ((17 % 256) :: List.replicate (L - 1) 0) 1 [pcv]
        = 17 % 256 :: pcv :: List.replicate (L - 2) 0 := by
      have h := setSlice_append [17 % 256] [pcv] (L - 1)
      simp only [List.cons_append, List.nil_append, List.length_cons, List.length_nil,
        Nat.zero_add] at h
      rw [show L - 1 - 1 = L - 2 by omega] at h
      exact h
    rw [t3]
    have t4 : setSlice (17 % 256 :: pcv :: List.replicate (L - 2) 0) 2 [hcv]
        = 17 % 256 :: pcv :: hcv :: List.replicate (L - 3) 0 := by
      have h := setSlice_append [17 % 256, pcv] [hcv] (L - 2)
      simp only [List.cons_append, List.nil_append, List.length_cons, List.length_nil,
        Nat.zero_add] at h
      rw [show L - 2 - 1 = L - 3 by omega] at h
      exact h
    rw [t4]
    have t5 : setByte (17 % 256 :: pcv :: hcv :: List.replicate (L - 3) 0) 3 4
        = .ok (17 % 256 :: pcv :: hcv :: 4 :: List.replicate (L - 4) 0) := by
      have h := setByte_append [17 % 256, pcv, hcv] (L - 3) 4 (by omega)
      simp only [List.cons_append, List.nil_append, List.length_cons, List.length_nil,
        Nat.zero_add] at h
      rw [show L - 3 - 1 = L - 4 by omega] at h
      exact h
    rw [t5]; simp only [Res.bind_ok]
    rw [if_neg (by omega)]
    have t6 : setByte (17 % 256 :: pcv :: hcv :: 4 :: List.replicate (L - 4) 0) 4 (3 + cd.MarshalLen)
        = .ok (17 % 256 :: pcv :: hcv :: 4 :: (3 + cd.MarshalLen) :: List.replicate (L - 5) 0) := by
      have h := setByte_append [17 % 256, pcv, hcv, 4] (L - 4) (3 + cd.MarshalLen) (by omega)
      simp only [List.cons_append, List.nil_append, List.length_cons, List.length_nil,
        Nat.zero_add] at h
      rw [show L - 4 - 1 = L - 5 by omega] at h
      exact h
    rw [t6]; simp only [Res.bind_ok]
    rw [if_neg (by omega)]
    have t7 : setByte (17 % 256 :: pcv :: hcv :: 4 :: (3 + cd.MarshalLen) :: List.replicate (L - 5) 0) 5 (2 + cd.MarshalLen + cg.MarshalLen)
        = .ok (17 % 256 :: pcv :: hcv :: 4 :: (3 + cd.MarshalLen) :: (2 + cd.MarshalLen + cg.MarshalLen) :: List.replicate (L - 6) 0) := by
      have h := setByte_append [17 % 256, pcv, hcv, 4, 3 + cd.MarshalLen] (L - 5) (2 + cd.MarshalLen + cg.MarshalLen) (by omega)
      simp only [List.cons_append, List.nil_append, List.length_cons, List.length_nil,
        Nat.zero_add] at h
      rw [show L - 5 - 1 = L - 6 by omega] at h
      exact h
    rw [t7]; simp only [Res.bind_ok]
    rw [if_neg (by omega)]
    have t8 : setByte (17 % 256 :: pcv :: hcv :: 4 :: (3 + cd.MarshalLen) :: (2 + cd.MarshalLen + cg.MarshalLen) :: List.replicate (L - 6) 0) 6 (2 + cd.MarshalLen + cg.MarshalLen + d.value.length)
        = .ok (17 % 256 :: pcv :: hcv :: 4 :: (3 + cd.MarshalLen) :: (2 + cd.MarshalLen + cg.MarshalLen) :: (2 + cd.MarshalLen + cg.MarshalLen + d.value.length) :: List.replicate (L - 7) 0) := by
      have h := setByte_append [17 % 256, pcv, hcv, 4, 3 + cd.MarshalLen, 2 + cd.MarshalLen + cg.MarshalLen] (L - 6) (2 + cd.MarshalLen + cg.MarshalLen + d.value.length) (by omega)
      simp only [List.cons_append, List.nil_append, List.length_cons, List.length_nil,
        Nat.zero_add] at h
      rw [show L - 6 - 1 = L - 7 by omega] at h
      exact h
    rw [t8]; simp only [Res.bind_ok]
    rw [if_neg (by omega)]
    have t9 : sliceLen2 L 7 (7 + cd.MarshalLen) = .ok cd.MarshalLen := by
      simp only [sliceLen2]
      rw [if_pos ⟨by omega, by omega⟩]
      congr 1
      omega
    rw [t9]; simp only [Res.bind_ok]
    have t10 : cd.Write cd.MarshalLen = .ok (cd.writeBytes, cd.writeCount) := by
      simp only [PartyAddress.Write, hcd.1, if_true, PartyAddress.write]
      rw [if_neg (by omega)]
    rw [t10]; simp only [Res.bind_ok]
    have t11 : sliceLen2 L (7 + cd.MarshalLen) (7 + cd.MarshalLen + cg.MarshalLen)
        = .ok cg.MarshalLen := by
      simp only [sliceLen2]
      rw [if_pos ⟨by omega, by omega⟩]
      congr 1
      omega
    rw [t11]; simp only [Res.bind_ok]
    have t12 : cg.Write cg.MarshalLen = .ok (cg.writeBytes, cg.writeCount) := by
      simp only [PartyAddress.Write, hcg.1, if_true, PartyAddress.write]
      rw [if_neg (by omega)]
    rw [t12]; simp only [Res.bind_ok]
    have t13 : sliceLenFrom L (7 + cd.MarshalLen + cg.MarshalLen)
        = .ok (L - (7 + cd.MarshalLen + cg.MarshalLen)) := by
      simp only [sliceLenFrom]
      rw [if_pos (by omega)]
    rw [t13]; simp only [Res.bind_ok]
    have t14 : d.Write (L - (7 + cd.MarshalLen + cg.MarshalLen))
        = .ok (d.writeBytes, if d.value.length = 0 then 1 else d.value.length) := by
      simp only [Data.Write, hdpt, PTypeV, PTypeO]
      rw [if_neg (by norm_num)]
      simp only [Data.write, hdlen]
      rw [if_neg (by omega)]
      by_cases h0 : d.value.length = 0
      · rw [if_pos h0, if_pos h0]
        simp [Data.writeBytes, hdlen, h0]
      · rw [if_neg h0, if_neg h0]
    rw [t14]; simp only [Res.bind_ok]
    have hcdb := cd.pa_writeBytes_length
    have hcgb := cg.pa_writeBytes_length
    have hdbl : d.writeBytes.length = 1 + d.value.length := by
      simp [Data.writeBytes, hdlen]
      omega
    have t15 : setSlice (17 % 256 :: pcv :: hcv :: 4 :: (3 + cd.MarshalLen) :: (2 + cd.MarshalLen + cg.MarshalLen) :: (2 + cd.MarshalLen + cg.MarshalLen + d.value.length) ::
          List.replicate (L - 7) 0) 7 cd.writeBytes
        = 17 % 256 :: pcv :: hcv :: 4 :: (3 + cd.MarshalLen) :: (2 + cd.MarshalLen + cg.MarshalLen) :: (2 + cd.MarshalLen + cg.MarshalLen + d.value.length) ::
          (cd.writeBytes ++ List.replicate (L - (7 + cd.MarshalLen)) 0) := by
      have h := setSlice_append [17 % 256, pcv, hcv, 4, 3 + cd.MarshalLen, 2 + cd.MarshalLen + cg.MarshalLen, 2 + cd.MarshalLen + cg.MarshalLen + d.value.length]
        cd.writeBytes (L - 7)
      simp only [List.cons_append, List.nil_append, List.length_cons, List.length_nil,
        Nat.zero_add, show (1:Nat)+1+1+1+1+1+1 = 7 from rfl] at h
      rw [PartyAddress.pa_writeBytes_length] at h
      rw [show L - 7 - cd.MarshalLen = L - (7 + cd.MarshalLen) by omega] at h
      exact h
    rw [t15]
    have t16 : setSlice (17 % 256 :: pcv :: hcv :: 4 :: (3 + cd.MarshalLen) :: (2 + cd.MarshalLen + cg.MarshalLen) :: (2 + cd.MarshalLen + cg.MarshalLen + d.value.length) ::
          (cd.writeBytes ++ List.replicate (L - (7 + cd.MarshalLen)) 0))
          (7 + cd.MarshalLen) cg.writeBytes
        = 17 % 256 :: pcv :: hcv :: 4 :: (3 + cd.MarshalLen) :: (2 + cd.MarshalLen + cg.MarshalLen) :: (2 + cd.MarshalLen + cg.MarshalLen + d.value.length) ::
          (cd.writeBytes ++ cg.writeBytes ++ List.replicate (L - (7 + cd.MarshalLen + cg.MarshalLen)) 0) := by
      have h := setSlice_append ([17 % 256, pcv, hcv, 4, 3 + cd.MarshalLen, 2 + cd.MarshalLen + cg.MarshalLen, 2 + cd.MarshalLen + cg.MarshalLen + d.value.length]
          ++ cd.writeBytes) cg.writeBytes (L - (7 + cd.MarshalLen))
      simp only [List.cons_append, List.nil_append, List.length_cons, List.length_nil,
        List.length_append, Nat.zero_add, show (1:Nat)+1+1+1+1+1+1 = 7 from rfl] at h
      rw [PartyAddress.pa_writeBytes_length, PartyAddress.pa_writeBytes_length] at h
      rw [show cd.MarshalLen + 1 + 1 + 1 + 1 + 1 + 1 + 1 = 7 + cd.MarshalLen by omega] at h
      rw [show L - (7 + cd.MarshalLen) - cg.MarshalLen = L - (7 + cd.MarshalLen + cg.MarshalLen) by omega] at h
      exact h
    rw [t16]
    have t17 : setSlice (17 % 256 :: pcv :: hcv :: 4 :: (3 + cd.MarshalLen) :: (2 + cd.MarshalLen + cg.MarshalLen) :: (2 + cd.MarshalLen + cg.MarshalLen + d.value.length) ::
          (cd.writeBytes ++ cg.writeBytes ++ List.replicate (L - (7 + cd.MarshalLen + cg.MarshalLen)) 0))
          (7 + cd.MarshalLen + cg.MarshalLen) d.writeBytes
        = 17 % 256 :: pcv :: hcv :: 4 :: (3 + cd.MarshalLen) :: (2 + cd.MarshalLen + cg.MarshalLen) :: (2 + cd.MarshalLen + cg.MarshalLen + d.value.length) ::
          (cd.writeBytes ++ cg.writeBytes ++ d.writeBytes ++ List.replicate (L - (8 + cd.MarshalLen + cg.MarshalLen + d.value.length)) 0) := by
      have h := setSlice_append ([17 % 256, pcv, hcv, 4, 3 + cd.MarshalLen, 2 + cd.MarshalLen + cg.MarshalLen, 2 + cd.MarshalLen + cg.MarshalLen + d.value.length]
          ++ cd.writeBytes ++ cg.writeBytes) d.writeBytes (L - (7 + cd.MarshalLen + cg.MarshalLen))
      simp only [List.cons_append, List.nil_append, List.length_cons, List.length_nil,
        List.length_append, Nat.zero_add, show (1:Nat)+1+1+1+1+1+1 = 7 from rfl] at h
      rw [PartyAddress.pa_writeBytes_length, PartyAddress.pa_writeBytes_length, hdbl] at h
      rw [show cd.MarshalLen + cg.MarshalLen + 1 + 1 + 1 + 1 + 1 + 1 + 1
          = 7 + cd.MarshalLen + cg.MarshalLen by omega] at h
      rw [show L - (7 + cd.MarshalLen + cg.MarshalLen) - (1 + d.value.length)
          = L - (8 + cd.MarshalLen + cg.MarshalLen + d.value.length) by omega] at h
      exact h
    rw [t17]
    rw [if_neg (show ¬(2 + cd.MarshalLen + cg.MarshalLen + d.value.length = 0) by omega)]
    rw [show (2 + cd.MarshalLen + cg.MarshalLen + d.value.length + 6) % 256
        = 8 + cd.MarshalLen + cg.MarshalLen + d.value.length by omega]
    have hAlen : ([17 % 256, pcv, hcv, 4, 3 + cd.MarshalLen, 2 + cd.MarshalLen + cg.MarshalLen,
        2 + cd.MarshalLen + cg.MarshalLen + d.value.length] ++ cd.writeBytes ++ cg.writeBytes
        ++ d.writeBytes).length = 8 + cd.MarshalLen + cg.MarshalLen + d.value.length := by
      simp [hcdb, hcgb, hdbl]
      omega
    rcases sgo with _ | sg
    · rcases imo with _ | im
      · simp only [XUDT.MarshalLen, Segmentation.MarshalLen, Importance.MarshalLen,
          NewEndOfOptionalParameters, EndOfOptionalParameters.MarshalLen] at hL
        rw [if_pos (show (2 + cd.MarshalLen + cg.MarshalLen + d.value.length : Nat) ≠ 0 by omega)] at hL
        simp only [Res.bind_ok]
        have w1 : sliceLenFrom L (8 + cd.MarshalLen + cg.MarshalLen + d.value.length) = .ok 1 := by
          simp only [sliceLenFrom]
          rw [if_pos (by omega)]
          congr 1
          omega
        rw [w1]; simp only [Res.bind_ok]
        have w2 : NewEndOfOptionalParameters.Write 1 = .ok ([0], 1) := by
          simp only [NewEndOfOptionalParameters, EndOfOptionalParameters.Write]
          rw [if_neg (by omega), if_neg (by omega)]
        rw [w2]; simp only [Res.bind_ok]
        have h := setSlice_append ([17 % 256, pcv, hcv, 4, 3 + cd.MarshalLen,
            2 + cd.MarshalLen + cg.MarshalLen, 2 + cd.MarshalLen + cg.MarshalLen + d.value.length]
            ++ cd.writeBytes ++ cg.writeBytes ++ d.writeBytes) [0]
            (L - (8 + cd.MarshalLen + cg.MarshalLen + d.value.length))
        rw [hAlen] at h
        simp only [List.cons_append, List.nil_append, List.length_cons, List.length_nil,
          Nat.zero_add] at h
        rw [show L - (8 + cd.MarshalLen + cg.MarshalLen + d.value.length) - 1 = 0 by omega] at h
        simp only [List.replicate_zero, List.append_nil] at h
        rw [h]
        rw [if_neg (by omega)]
        simp [NewEndOfOptionalParameters, List.append_assoc]
      · obtain ⟨himpt, himcode, himlen, himval⟩ := himwf
        simp only [XUDT.MarshalLen, Segmentation.MarshalLen, Importance.MarshalLen,
          NewEndOfOptionalParameters, EndOfOptionalParameters.MarshalLen] at hL
        rw [if_pos (show (2 + cd.MarshalLen + cg.MarshalLen + d.value.length : Nat) ≠ 0 by omega)] at hL
        simp only [Res.bind_ok]
        have w1 : sliceLenFrom L (8 + cd.MarshalLen + cg.MarshalLen + d.value.length) = .ok 4 := by
          simp only [sliceLenFrom]
          rw [if_pos (by omega)]
          congr 1
          omega
        rw [w1]; simp only [Res.bind_ok]
        have w2 : im.Write 4 = .ok ([im.code % 256, im.length % 256, im.value], 3) := by
          simp only [Importance.Write]
          rw [if_neg (by omega), if_neg (by omega)]
          simp [himlen]
        rw [w2]; simp only [Res.bind_ok]
        have h := setSlice_append ([17 % 256, pcv, hcv, 4, 3 + cd.MarshalLen, 2 + cd.MarshalLen + cg.MarshalLen, 2 + cd.MarshalLen + cg.MarshalLen + d.value.length]
            ++ cd.writeBytes ++ cg.writeBytes ++ d.writeBytes) [im.code % 256, im.length % 256, im.value]
            (L - (8 + cd.MarshalLen + cg.MarshalLen + d.value.length))
        rw [hAlen] at h
        simp only [List.cons_append, List.nil_append, List.length_cons, List.length_nil,
          Nat.zero_add] at h
        rw [show L - (8 + cd.MarshalLen + cg.MarshalLen + d.value.length) - (1 + 1 + 1) = 1 by omega] at h
        rw [h]
        have w3 : sliceLenFrom L (8 + cd.MarshalLen + cg.MarshalLen + d.value.length + 3) = .ok 1 := by
          simp only [sliceLenFrom]
          rw [if_pos (by omega)]
          congr 1
          omega
        rw [w3]; simp only [Res.bind_ok]
        have w4 : NewEndOfOptionalParameters.Write 1 = .ok ([0], 1) := by
          simp only [NewEndOfOptionalParameters, EndOfOptionalParameters.Write]
          rw [if_neg (by omega), if_neg (by omega)]
        rw [w4]; simp only [Res.bind_ok]
        have hA2len : ([17 % 256, pcv, hcv, 4, 3 + cd.MarshalLen, 2 + cd.MarshalLen + cg.MarshalLen, 2 + cd.MarshalLen + cg.MarshalLen + d.value.length] ++ cd.writeBytes ++ cg.writeBytes ++ d.writeBytes
            ++ [im.code % 256, im.length % 256, im.value]).length = 8 + cd.MarshalLen + cg.MarshalLen + d.value.length + 3 := by
          simp [hcdb, hcgb, hdbl]
          omega
        have h2 := setSlice_append ([17 % 256, pcv, hcv, 4, 3 + cd.MarshalLen, 2 + cd.MarshalLen + cg.MarshalLen, 2 + cd.MarshalLen + cg.MarshalLen + d.value.length]
            ++ cd.writeBytes ++ cg.writeBytes ++ d.writeBytes ++ [im.code % 256, im.length % 256, im.value]) [0] 1
        rw [hA2len] at h2
        simp only [List.cons_append, List.nil_append, List.length_cons, List.length_nil,
          Nat.zero_add] at h2
        rw [show (1:Nat) - 1 = 0 from rfl] at h2
        simp only [List.replicate_zero, List.append_nil] at h2
        rw [show List.replicate 1 (0:Nat) = [0] from rfl] at h2
        rw [show List.replicate 1 (0:Nat) = [0] from rfl]
        rw [h2]
        rw [if_neg (by omega)]
        simp [NewEndOfOptionalParameters, List.append_assoc]
    · rcases imo with _ | im
      · obtain ⟨hsgpt, hsgcode, hsglen, hsgcls, hsgrem, hsglr⟩ := hsgwf
        simp only [XUDT.MarshalLen, Segmentation.MarshalLen, Importance.MarshalLen,
          NewEndOfOptionalParameters, EndOfOptionalParameters.MarshalLen] at hL
        rw [if_pos (show (2 + cd.MarshalLen + cg.MarshalLen + d.value.length : Nat) ≠ 0 by omega)] at hL
        simp only [Res.bind_ok]
        have hsgblen : (sg.code % 256 :: sg.length % 256 :: sg.flagsByte :: uint32To24 sg.LocalReference).length = 6 := by
          simp [uint32To24]
        have w1 : sliceLenFrom L (8 + cd.MarshalLen + cg.MarshalLen + d.value.length) = .ok 7 := by
          simp only [sliceLenFrom]
          rw [if_pos (by omega)]
          congr 1
          omega
        rw [w1]; simp only [Res.bind_ok]
        have w2 : sg.Write 7 = .ok (sg.code % 256 :: sg.length % 256 :: sg.flagsByte :: uint32To24 sg.LocalReference, 6) := by
          simp only [Segmentation.Write]
          rw [if_neg (by omega), if_neg (by omega)]
          rw [List.take_of_length_le (by simp [uint32To24])]
          simp [hsglen]
        rw [w2]; simp only [Res.bind_ok]
        have h := setSlice_append ([17 % 256, pcv, hcv, 4, 3 + cd.MarshalLen, 2 + cd.MarshalLen + cg.MarshalLen, 2 + cd.MarshalLen + cg.MarshalLen + d.value.length]
            ++ cd.writeBytes ++ cg.writeBytes ++ d.writeBytes) (sg.code % 256 :: sg.length % 256 :: sg.flagsByte :: uint32To24 sg.LocalReference)
            (L - (8 + cd.MarshalLen + cg.MarshalLen + d.value.length))
        rw [hAlen] at h
        rw [hsgblen] at h
        simp only [List.cons_append, List.nil_append] at h
        rw [show L - (8 + cd.MarshalLen + cg.MarshalLen + d.value.length) - 6 = 1 by omega] at h
        rw [h]
        have w3 : sliceLenFrom L (8 + cd.MarshalLen + cg.MarshalLen + d.value.length + 6) = .ok 1 := by
          simp only [sliceLenFrom]
          rw [if_pos (by omega)]
          congr 1
          omega
        rw [w3]; simp only [Res.bind_ok]
        have w4 : NewEndOfOptionalParameters.Write 1 = .ok ([0], 1) := by
          simp only [NewEndOfOptionalParameters, EndOfOptionalParameters.Write]
          rw [if_neg (by omega), if_neg (by omega)]
        rw [w4]; simp only [Res.bind_ok]
        have hA2len : ([17 % 256, pcv, hcv, 4, 3 + cd.MarshalLen, 2 + cd.MarshalLen + cg.MarshalLen, 2 + cd.MarshalLen + cg.MarshalLen + d.value.length] ++ cd.writeBytes ++ cg.writeBytes ++ d.writeBytes
            ++ (sg.code % 256 :: sg.length % 256 :: sg.flagsByte :: uint32To24 sg.LocalReference)).length = 8 + cd.MarshalLen + cg.MarshalLen + d.value.length + 6 := by
          simp [hcdb, hcgb, hdbl, uint32To24]
          omega
        have h2 := setSlice_append ([17 % 256, pcv, hcv, 4, 3 + cd.MarshalLen, 2 + cd.MarshalLen + cg.MarshalLen, 2 + cd.MarshalLen + cg.MarshalLen + d.value.length]
            ++ cd.writeBytes ++ cg.writeBytes ++ d.writeBytes ++ (sg.code % 256 :: sg.length % 256 :: sg.flagsByte :: uint32To24 sg.LocalReference)) [0] 1
        rw [hA2len] at h2
        simp only [List.cons_append, List.nil_append, List.length_cons, List.length_nil,
          Nat.zero_add] at h2
        rw [show (1:Nat) - 1 = 0 from rfl] at h2
        simp only [List.replicate_zero, List.append_nil] at h2
        rw [show List.replicate 1 (0:Nat) = [0] from rfl] at h2
        rw [show List.replicate 1 (0:Nat) = [0] from rfl]
        rw [h2]
        rw [if_neg (by omega)]
        simp [NewEndOfOptionalParameters, List.append_assoc]
      · obtain ⟨hsgpt, hsgcode, hsglen, hsgcls, hsgrem, hsglr⟩ := hsgwf
        obtain ⟨himpt, himcode, himlen, himval⟩ := himwf
        simp only [XUDT.MarshalLen, Segmentation.MarshalLen, Importance.MarshalLen,
          NewEndOfOptionalParameters, EndOfOptionalParameters.MarshalLen] at hL
        rw [if_pos (show (2 + cd.MarshalLen + cg.MarshalLen + d.value.length : Nat) ≠ 0 by omega)] at hL
        simp only [Res.bind_ok]
        have hsgblen : (sg.code % 256 :: sg.length % 256 :: sg.flagsByte :: uint32To24 sg.LocalReference).length = 6 := by
          simp [uint32To24]
        have w1 : sliceLenFrom L (8 + cd.MarshalLen + cg.MarshalLen + d.value.length) = .ok 10 := by
          simp only [sliceLenFrom]
          rw [if_pos (by omega)]
          congr 1
          omega
        rw [w1]; simp only [Res.bind_ok]
        have w2 : sg.Write 10 = .ok (sg.code % 256 :: sg.length % 256 :: sg.flagsByte :: uint32To24 sg.LocalReference, 6) := by
          simp only [Segmentation.Write]
          rw [if_neg (by omega), if_neg (by omega)]
          rw [List.take_of_length_le (by simp [uint32To24])]
          simp [hsglen]
        rw [w2]; simp only [Res.bind_ok]
        have h := setSlice_append ([17 % 256, pcv, hcv, 4, 3 + cd.MarshalLen, 2 + cd.MarshalLen + cg.MarshalLen, 2 + cd.MarshalLen + cg.MarshalLen + d.value.length]
            ++ cd.writeBytes ++ cg.writeBytes ++ d.writeBytes) (sg.code % 256 :: sg.length % 256 :: sg.flagsByte :: uint32To24 sg.LocalReference)
            (L - (8 + cd.MarshalLen + cg.MarshalLen + d.value.length))
        rw [hAlen] at h
        rw [hsgblen] at h
        simp only [List.cons_append, List.nil_append] at h
        rw [show L - (8 + cd.MarshalLen + cg.MarshalLen + d.value.length) - 6 = 4 by omega] at h
        rw [h]
        have w3 : sliceLenFrom L (8 + cd.MarshalLen + cg.MarshalLen + d.value.length + 6) = .ok 4 := by
          simp only [sliceLenFrom]
          rw [if_pos (by omega)]
          congr 1
          omega
        rw [w3]; simp only [Res.bind_ok]
        have w4 : im.Write 4 = .ok ([im.code % 256, im.length % 256, im.value], 3) := by
          simp only [Importance.Write]
          rw [if_neg (by omega), if_neg (by omega)]
          simp [himlen]
        rw [w4]; simp only [Res.bind_ok]
        have hA2len : ([17 % 256, pcv, hcv, 4, 3 + cd.MarshalLen, 2 + cd.MarshalLen + cg.MarshalLen, 2 + cd.MarshalLen + cg.MarshalLen + d.value.length] ++ cd.writeBytes ++ cg.writeBytes ++ d.writeBytes
            ++ (sg.code % 256 :: sg.length % 256 :: sg.flagsByte :: uint32To24 sg.LocalReference)).length = 8 + cd.MarshalLen + cg.MarshalLen + d.value.length + 6 := by
          simp [hcdb, hcgb, hdbl, uint32To24]
          omega
        have h2 := setSlice_append ([17 % 256, pcv, hcv, 4, 3 + cd.MarshalLen, 2 + cd.MarshalLen + cg.MarshalLen, 2 + cd.MarshalLen + cg.MarshalLen + d.value.length]
            ++ cd.writeBytes ++ cg.writeBytes ++ d.writeBytes ++ (sg.code % 256 :: sg.length % 256 :: sg.flagsByte :: uint32To24 sg.LocalReference)) [im.code % 256, im.length % 256, im.value] 4
        rw [hA2len] at h2
        simp only [List.cons_append, List.nil_append, List.length_cons, List.length_nil,
          Nat.zero_add] at h2
        rw [show (4:Nat) - (1 + 1 + 1) = 1 from rfl] at h2
        rw [h2]
        have w5 : sliceLenFrom L (8 + cd.MarshalLen + cg.MarshalLen + d.value.length + 6 + 3) = .ok 1 := by
          simp only [sliceLenFrom]
          rw [if_pos (by omega)]
          congr 1
          omega
        rw [w5]; simp only [Res.bind_ok]
        have w6 : NewEndOfOptionalParameters.Write 1 = .ok ([0], 1) := by
          simp only [NewEndOfOptionalParameters, EndOfOptionalParameters.Write]
          rw [if_neg (by omega), if_neg (by omega)]
        rw [w6]; simp only [Res.bind_ok]
        have hA3len : ([17 % 256, pcv, hcv, 4, 3 + cd.MarshalLen, 2 + cd.MarshalLen + cg.MarshalLen, 2 + cd.MarshalLen + cg.MarshalLen + d.value.length] ++ cd.writeBytes ++ cg.writeBytes ++ d.writeBytes
            ++ (sg.code % 256 :: sg.length % 256 :: sg.flagsByte :: uint32To24 sg.LocalReference) ++ [im.code % 256, im.length % 256, im.value]).length = 8 + cd.MarshalLen + cg.MarshalLen + d.value.length + 6 + 3 := by
          simp [hcdb, hcgb, hdbl, uint32To24]
          omega
        have h3 := setSlice_append ([17 % 256, pcv, hcv, 4, 3 + cd.MarshalLen, 2 + cd.MarshalLen + cg.MarshalLen, 2 + cd.MarshalLen + cg.MarshalLen + d.value.length]
            ++ cd.writeBytes ++ cg.writeBytes ++ d.writeBytes ++ (sg.code % 256 :: sg.length % 256 :: sg.flagsByte :: uint32To24 sg.LocalReference) ++ [im.code % 256, im.length % 256, im.value]) [0] 1
        rw [hA3len] at h3
        simp only [List.cons_append, List.nil_append, List.length_cons, List.length_nil,
          Nat.zero_add] at h3
        rw [show (1:Nat) - 1 = 0 from rfl] at h3
        simp only [List.replicate_zero, List.append_nil] at h3
        rw [show List.replicate 1 (0:Nat) = [0] from rfl] at h3
        rw [show List.replicate 1 (0:Nat) = [0] from rfl]
        rw [h3]
        rw [if_neg (by omega)]
        simp [NewEndOfOptionalParameters, List.append_assoc]

/-! ### Optional-parameter read round trips -/


theorem uint24_round (v : Nat) (h : v < 16777216) :
    uint24To32 (uint32To24 v) = v := by
  simp [uint24To32, uint32To24]
  omega

theorem segFlags (f : Bool) (c r : Nat) (hc : c < 2) (hr : r < 8) :
    (decide ((((if f then 128 else 0) ||| (c % 2 * 64)) ||| (r % 8)) / 128 % 2 = 1) = f)
    ∧ ((((if f then 128 else 0) ||| (c % 2 * 64)) ||| (r % 8)) / 64 % 2 = c)
    ∧ ((((if f then 128 else 0) ||| (c % 2 * 64)) ||| (r % 8)) % 16 = r) := by
  have key : ∀ (f : Bool) (c : Fin 2) (r : Fin 8),
      (decide ((((if f then 128 else 0) ||| (c.val % 2 * 64)) ||| (r.val % 8)) / 128 % 2 = 1) = f)
      ∧ ((((if f then 128 else 0) ||| (c.val % 2 * 64)) ||| (r.val % 8)) / 64 % 2 = c.val)
      ∧ ((((if f then 128 else 0) ||| (c.val % 2 * 64)) ||| (r.val % 8)) % 16 = r.val) := by
    decide
  exact key f ⟨c, hc⟩ ⟨r, hr⟩

theorem Segmentation.seg_Read_enc (sg : Segmentation) (h : sg.wf) (rest : List Nat) :
    Segmentation.mk0.Read (sg.code % 256 :: sg.length % 256 :: sg.flagsByte ::
      (uint32To24 sg.LocalReference ++ rest)) = .ok (sg, 6) := by
  obtain ⟨s0, s1, s2, sF, sC, sR, sL⟩ := sg
  obtain ⟨h0, h1, h2, hC, hR, hL⟩ := h
  simp only at h0 h1 h2 hC hR hL
  subst h0; subst h1; subst h2
  simp only [Segmentation.Read, Segmentation.mk0, Segmentation.flagsByte]
  rw [if_neg (by simp [uint32To24])]
  obtain ⟨kF, kC, kR⟩ := segFlags sF sC sR hC hR
  simp only [List.getD_cons_zero, List.getD_cons_succ]
  rw [List.drop_succ_cons, List.drop_succ_cons, List.drop_succ_cons, List.drop_zero]
  rw [List.take_left' (by simp [uint32To24])]
  rw [uint24_round _ hL]
  simp only [Res.ok.injEq, Prod.mk.injEq, Segmentation.mk.injEq, and_true, true_and]
  exact ⟨by norm_num [PCodeSegmentation], kF, kC, kR⟩

theorem Importance.imp_Read_enc (im : Importance) (h : im.wf) (rest : List Nat) :
    Importance.mk0.Read (im.code % 256 :: im.length % 256 :: im.value :: rest)
      = .ok (im, 3) := by
  obtain ⟨i0, i1, i2, i3⟩ := im
  obtain ⟨h0, h1, h2, h3⟩ := h
  simp only at h0 h1 h2 h3
  subst h0; subst h1; subst h2
  simp only [Importance.Read, Importance.mk0]
  rw [if_neg (by simp)]
  simp only [List.getD_cons_zero, List.getD_cons_succ]
  simp only [Res.ok.injEq, Prod.mk.injEq, Importance.mk.injEq, and_true, true_and]
  exact ⟨by norm_num [PCodeImportance], by omega⟩

theorem EndOfOptionalParameters.eoo_Read_enc (rest : List Nat) :
    EndOfOptionalParameters.mk0.Read (0 :: rest)
      = .ok (NewEndOfOptionalParameters, 1) := by
  simp [EndOfOptionalParameters.Read, EndOfOptionalParameters.mk0,
    NewEndOfOptionalParameters, PCodeEndOfOptionalParameters]

/-! ### Decoding the canonical encodings -/

set_option maxHeartbeats 4000000 in

theorem XUDT.xudt_Unmarshal_enc (x : XUDT) (h : x.wf) :
    XUDT.UnmarshalBinary x.enc = .ok x := by
  obtain ⟨mt, pco, hco, cdo, cgo, dto, sgo, imo, eoo, p1, p2, p3, p4⟩ := x
  obtain ⟨hmt, hp1, hrest⟩ := h
  cases pco with
  | none => simp at hrest
  | some pc =>
  cases hco with
  | none => simp at hrest
  | some hc =>
  cases cdo with
  | none => simp at hrest
  | some cd =>
  cases cgo with
  | none => simp at hrest
  | some cg =>
  cases dto with
  | none => simp at hrest
  | some d =>
  simp only at hrest
  obtain ⟨hpc, hhc, hcd, hcg, hd, hp2, hp3, hor⟩ := hrest
  simp only at hp2 hp3 hmt hp1
  subst hp2; subst hp3; subst hmt; subst hp1
  obtain ⟨pc0, pc1, pc2, pcv⟩ := pc
  obtain ⟨hx0, hx1, hx2, hx3⟩ := hpc
  simp only at hx0 hx1 hx2 hx3
  subst hx0; subst hx1; subst hx2
  obtain ⟨hc0, hc1, hc2, hcv⟩ := hc
  obtain ⟨hy0, hy1, hy2, hy3⟩ := hhc
  simp only at hy0 hy1 hy2 hy3
  subst hy0; subst hy1; subst hy2
  have hMcd := cd.two_le_MarshalLen
  have hMcg := cg.two_le_MarshalLen
  have hcdb := cd.pa_writeBytes_length
  have hcgb := cg.pa_writeBytes_length
  have hdbl : d.writeBytes.length = 1 + d.value.length := by
    obtain ⟨-, -, hdlen, -⟩ := hd
    simp [Data.writeBytes, hdlen]
    omega
  rcases hor with ⟨hp4, hsg, him, heoo, hbound⟩ | ⟨hp4, heoo, hsgwf, himwf, hbound⟩
  · subst hp4; subst hsg; subst him; subst heoo
    simp only [XUDT.enc, XUDT.UnmarshalBinary]
    simp only [if_true, List.append_nil]
    have hlen : (17 % 256 :: pcv :: hcv :: 4 :: (3 + cd.MarshalLen) :: (2 + cd.MarshalLen + cg.MarshalLen) :: 0 :: (cd.writeBytes ++ cg.writeBytes ++ d.writeBytes)).length
        = 8 + cd.MarshalLen + cg.MarshalLen + d.value.length := by
      simp [hcdb, hcgb, hdbl]
      omega
    rw [hlen]
    rw [if_neg (by omega)]
    have spc : ProtocolClass.mk0.Read (List.drop 1 (17 % 256 :: pcv :: hcv :: 4 :: (3 + cd.MarshalLen) :: (2 + cd.MarshalLen + cg.MarshalLen) :: 0 :: (cd.writeBytes ++ cg.writeBytes ++ d.writeBytes)))
        = .ok (⟨PTypeF, PCodeProtocolClass, 1, pcv⟩, 1) := by
      simp only [List.drop_one, List.tail_cons, ProtocolClass.Read, List.length_cons]
      rw [if_neg (by omega)]
      simp [ProtocolClass.mk0, PTypeF]
    rw [spc]; simp only [Res.bind_ok]
    simp only [show (1:Nat)+1+1+3 = 6 from rfl, show (1:Nat)+1+1+2 = 5 from rfl,
      show (1:Nat)+1+1+1 = 4 from rfl, show (1:Nat)+1+1 = 3 from rfl,
      show (1:Nat)+1 = 2 from rfl]
    have shp : HopCounter.Read HopCounter.mk0 (List.drop 2 (17 % 256 :: pcv :: hcv :: 4 :: (3 + cd.MarshalLen) :: (2 + cd.MarshalLen + cg.MarshalLen) :: 0 :: (cd.writeBytes ++ cg.writeBytes ++ d.writeBytes)))
        = .ok (⟨PTypeF, PCodeHopCounter, 1, hcv⟩, 1) := by
      rw [show List.drop 2 (17 % 256 :: pcv :: hcv :: 4 :: (3 + cd.MarshalLen) :: (2 + cd.MarshalLen + cg.MarshalLen) :: 0 :: (cd.writeBytes ++ cg.writeBytes ++ d.writeBytes))
          = hcv :: 4 :: (3 + cd.MarshalLen) :: (2 + cd.MarshalLen + cg.MarshalLen) :: 0 :: (cd.writeBytes ++ cg.writeBytes ++ d.writeBytes) from rfl]
      simp only [HopCounter.Read, HopCounter.mk0, HopCounter.read, PTypeF, PTypeO,
        List.length_cons]
      rw [if_neg (by norm_num)]
      rw [if_neg (by omega)]
      simp
    rw [shp]; simp only [Res.bind_ok]
    simp only [show (1:Nat)+1+1+3 = 6 from rfl, show (1:Nat)+1+1+2 = 5 from rfl,
      show (1:Nat)+1+1+1 = 4 from rfl, show (1:Nat)+1+1 = 3 from rfl,
      show (1:Nat)+1 = 2 from rfl]
    rw [goIdx_eq_ok (show 3 < ((17 % 256 :: pcv :: hcv :: 4 :: (3 + cd.MarshalLen) :: (2 + cd.MarshalLen + cg.MarshalLen) :: 0 :: (cd.writeBytes ++ cg.writeBytes ++ d.writeBytes))).length by rw [hlen]; omega)]
    simp only [Res.bind_ok]
    rw [show ((17 % 256 :: pcv :: hcv :: 4 :: (3 + cd.MarshalLen) :: (2 + cd.MarshalLen + cg.MarshalLen) :: 0 :: (cd.writeBytes ++ cg.writeBytes ++ d.writeBytes))).getD 3 0 = 4 from rfl]
    rw [if_neg (by omega)]
    rw [goIdx_eq_ok (show 4 < ((17 % 256 :: pcv :: hcv :: 4 :: (3 + cd.MarshalLen) :: (2 + cd.MarshalLen + cg.MarshalLen) :: 0 :: (cd.writeBytes ++ cg.writeBytes ++ d.writeBytes))).length by rw [hlen]; omega)]
    simp only [Res.bind_ok]
    rw [show ((17 % 256 :: pcv :: hcv :: 4 :: (3 + cd.MarshalLen) :: (2 + cd.MarshalLen + cg.MarshalLen) :: 0 :: (cd.writeBytes ++ cg.writeBytes ++ d.writeBytes))).getD 4 0 = 3 + cd.MarshalLen from rfl]
    rw [show (3 + cd.MarshalLen + 4) % 256 = 7 + cd.MarshalLen by omega]
    rw [if_neg (by omega)]
    rw [goIdx_eq_ok (show 5 < ((17 % 256 :: pcv :: hcv :: 4 :: (3 + cd.MarshalLen) :: (2 + cd.MarshalLen + cg.MarshalLen) :: 0 :: (cd.writeBytes ++ cg.writeBytes ++ d.writeBytes))).length by rw [hlen]; omega)]
    simp only [Res.bind_ok]
    rw [show ((17 % 256 :: pcv :: hcv :: 4 :: (3 + cd.MarshalLen) :: (2 + cd.MarshalLen + cg.MarshalLen) :: 0 :: (cd.writeBytes ++ cg.writeBytes ++ d.writeBytes))).getD 5 0 = 2 + cd.MarshalLen + cg.MarshalLen from rfl]
    rw [show (2 + cd.MarshalLen + cg.MarshalLen + 5) % 256
        = 7 + cd.MarshalLen + cg.MarshalLen by omega]
    rw [if_neg (by omega)]
    rw [goIdx_eq_ok (show 6 < ((17 % 256 :: pcv :: hcv :: 4 :: (3 + cd.MarshalLen) :: (2 + cd.MarshalLen + cg.MarshalLen) :: 0 :: (cd.writeBytes ++ cg.writeBytes ++ d.writeBytes))).length by rw [hlen]; omega)]
    simp only [Res.bind_ok]
    rw [show ((17 % 256 :: pcv :: hcv :: 4 :: (3 + cd.MarshalLen) :: (2 + cd.MarshalLen + cg.MarshalLen) :: 0 :: (cd.writeBytes ++ cg.writeBytes ++ d.writeBytes))).getD 6 0 = 0 from rfl]
    rw [if_neg (by simp)]
    have sA : goSlice (17 % 256 :: pcv :: hcv :: 4 :: (3 + cd.MarshalLen) :: (2 + cd.MarshalLen + cg.MarshalLen) :: 0 :: (cd.writeBytes ++ cg.writeBytes ++ d.writeBytes)) 7 (7 + cd.MarshalLen) = .ok cd.writeBytes := by
      rw [goSlice_eq_ok (by omega) (by rw [hlen]; omega)]
      congr 1
      rw [show ((17 % 256 :: pcv :: hcv :: 4 :: (3 + cd.MarshalLen) :: (2 + cd.MarshalLen + cg.MarshalLen) :: 0 :: (cd.writeBytes ++ cg.writeBytes ++ d.writeBytes))).drop 7 = cd.writeBytes ++ cg.writeBytes ++ d.writeBytes from rfl]
      rw [show 7 + cd.MarshalLen - 7 = cd.MarshalLen by omega]
      rw [List.append_assoc]
      exact List.take_left' hcdb
    rw [sA]; simp only [Res.bind_ok]
    obtain ⟨n1, hcdp⟩ := cd.pa_parse_writeBytes PCodeCalledPartyAddress hcd
    have sB : ParseCalledPartyAddress cd.writeBytes = .ok (cd, n1) := by
      simpa [ParseCalledPartyAddress] using hcdp
    rw [sB]; simp only [Res.bind_ok]
    have sC : goSlice (17 % 256 :: pcv :: hcv :: 4 :: (3 + cd.MarshalLen) :: (2 + cd.MarshalLen + cg.MarshalLen) :: 0 :: (cd.writeBytes ++ cg.writeBytes ++ d.writeBytes)) (7 + cd.MarshalLen) (7 + cd.MarshalLen + cg.MarshalLen)
        = .ok cg.writeBytes := by
      rw [goSlice_eq_ok (by omega) (by rw [hlen]; omega)]
      congr 1
      rw [show (17 % 256 :: pcv :: hcv :: 4 :: (3 + cd.MarshalLen) :: (2 + cd.MarshalLen + cg.MarshalLen) :: 0 :: (cd.writeBytes ++ cg.writeBytes ++ d.writeBytes))
          = ([17 % 256, pcv, hcv, 4, 3 + cd.MarshalLen, 2 + cd.MarshalLen + cg.MarshalLen, 0]
             ++ cd.writeBytes) ++ (cg.writeBytes ++ d.writeBytes) by simp]
      rw [List.drop_left' (by simp [hcdb]; omega)]
      rw [show 7 + cd.MarshalLen + cg.MarshalLen - (7 + cd.MarshalLen) = cg.MarshalLen by omega]
      exact List.take_left' hcgb
    rw [sC]; simp only [Res.bind_ok]
    obtain ⟨n2, hcgp⟩ := cg.pa_parse_writeBytes PCodeCallingPartyAddress hcg
    have sD : ParseCallingPartyAddress cg.writeBytes = .ok (cg, n2) := by
      simpa [ParseCallingPartyAddress] using hcgp
    rw [sD]; simp only [Res.bind_ok]
    have sE : goSliceFrom (17 % 256 :: pcv :: hcv :: 4 :: (3 + cd.MarshalLen) :: (2 + cd.MarshalLen + cg.MarshalLen) :: 0 :: (cd.writeBytes ++ cg.writeBytes ++ d.writeBytes)) (7 + cd.MarshalLen + cg.MarshalLen) = .ok d.writeBytes := by
      rw [goSliceFrom_eq_ok (by rw [hlen]; omega)]
      congr 1
      rw [show (17 % 256 :: pcv :: hcv :: 4 :: (3 + cd.MarshalLen) :: (2 + cd.MarshalLen + cg.MarshalLen) :: 0 :: (cd.writeBytes ++ cg.writeBytes ++ d.writeBytes))
          = ([17 % 256, pcv, hcv, 4, 3 + cd.MarshalLen, 2 + cd.MarshalLen + cg.MarshalLen, 0]
             ++ cd.writeBytes ++ cg.writeBytes) ++ d.writeBytes by simp]
      exact List.drop_left' (by simp [hcdb, hcgb]; omega)
    rw [sE]; simp only [Res.bind_ok]
    obtain ⟨n3, hdp⟩ := d.data_parse_writeBytes hd []
    rw [List.append_nil] at hdp
    rw [hdp]; simp only [Res.bind_ok]
    simp
  · subst hp4; subst heoo
    rcases sgo with _ | sg
    · rcases imo with _ | im
      · simp only [XUDT.enc, XUDT.UnmarshalBinary, XUDT.encBlock]
        rw [if_neg (show ¬(2 + cd.MarshalLen + cg.MarshalLen + d.value.length = 0) by omega)]
        simp only [show NewEndOfOptionalParameters.value = 0 from rfl, List.nil_append]
        have hlen : (17 % 256 :: pcv :: hcv :: 4 :: (3 + cd.MarshalLen) :: (2 + cd.MarshalLen + cg.MarshalLen) :: (2 + cd.MarshalLen + cg.MarshalLen + d.value.length) :: (cd.writeBytes ++ cg.writeBytes ++ d.writeBytes ++ [0])).length
            = 9 + cd.MarshalLen + cg.MarshalLen + d.value.length := by
          simp [hcdb, hcgb, hdbl]
          omega
        rw [hlen]
        rw [if_neg (by omega)]
        have spc : ProtocolClass.mk0.Read (List.drop 1 (17 % 256 :: pcv :: hcv :: 4 :: (3 + cd.MarshalLen) :: (2 + cd.MarshalLen + cg.MarshalLen) :: (2 + cd.MarshalLen + cg.MarshalLen + d.value.length) :: (cd.writeBytes ++ cg.writeBytes ++ d.writeBytes ++ [0])))
            = .ok (⟨PTypeF, PCodeProtocolClass, 1, pcv⟩, 1) := by
          simp only [List.drop_one, List.tail_cons, ProtocolClass.Read, List.length_cons]
          rw [if_neg (by omega)]
          simp [ProtocolClass.mk0, PTypeF]
        rw [spc]; simp only [Res.bind_ok]
        simp only [show (1:Nat)+1+1+3 = 6 from rfl, show (1:Nat)+1+1+2 = 5 from rfl,
          show (1:Nat)+1+1+1 = 4 from rfl, show (1:Nat)+1+1 = 3 from rfl,
          show (1:Nat)+1 = 2 from rfl]
        have shp : HopCounter.Read HopCounter.mk0 (List.drop 2 (17 % 256 :: pcv :: hcv :: 4 :: (3 + cd.MarshalLen) :: (2 + cd.MarshalLen + cg.MarshalLen) :: (2 + cd.MarshalLen + cg.MarshalLen + d.value.length) :: (cd.writeBytes ++ cg.writeBytes ++ d.writeBytes ++ [0])))
            = .ok (⟨PTypeF, PCodeHopCounter, 1, hcv⟩, 1) := by
          rw [show List.drop 2 (17 % 256 :: pcv :: hcv :: 4 :: (3 + cd.MarshalLen) :: (2 + cd.MarshalLen + cg.MarshalLen) :: (2 + cd.MarshalLen + cg.MarshalLen + d.value.length) :: (cd.writeBytes ++ cg.writeBytes ++ d.writeBytes ++ [0]))
              = hcv :: 4 :: (3 + cd.MarshalLen) :: (2 + cd.MarshalLen + cg.MarshalLen) :: (2 + cd.MarshalLen + cg.MarshalLen + d.value.length) :: (cd.writeBytes ++ cg.writeBytes ++ d.writeBytes ++ [0]) from rfl]
          simp only [HopCounter.Read, HopCounter.mk0, HopCounter.read, PTypeF, PTypeO,
            List.length_cons]
          rw [if_neg (by norm_num)]
          rw [if_neg (by omega)]
          simp
        rw [shp]; simp only [Res.bind_ok]
        simp only [show (1:Nat)+1+1+3 = 6 from rfl, show (1:Nat)+1+1+2 = 5 from rfl,
          show (1:Nat)+1+1+1 = 4 from rfl, show (1:Nat)+1+1 = 3 from rfl,
          show (1:Nat)+1 = 2 from rfl]
        rw [goIdx_eq_ok (show 3 < ((17 % 256 :: pcv :: hcv :: 4 :: (3 + cd.MarshalLen) :: (2 + cd.MarshalLen + cg.MarshalLen) :: (2 + cd.MarshalLen + cg.MarshalLen + d.value.length) :: (cd.writeBytes ++ cg.writeBytes ++ d.writeBytes ++ [0]))).length by rw [hlen]; omega)]
        simp only [Res.bind_ok]
        rw [show ((17 % 256 :: pcv :: hcv :: 4 :: (3 + cd.MarshalLen) :: (2 + cd.MarshalLen + cg.MarshalLen) :: (2 + cd.MarshalLen + cg.MarshalLen + d.value.length) :: (cd.writeBytes ++ cg.writeBytes ++ d.writeBytes ++ [0]))).getD 3 0 = 4 from rfl]
        rw [if_neg (by omega)]
        rw [goIdx_eq_ok (show 4 < ((17 % 256 :: pcv :: hcv :: 4 :: (3 + cd.MarshalLen) :: (2 + cd.MarshalLen + cg.MarshalLen) :: (2 + cd.MarshalLen + cg.MarshalLen + d.value.length) :: (cd.writeBytes ++ cg.writeBytes ++ d.writeBytes ++ [0]))).length by rw [hlen]; omega)]
        simp only [Res.bind_ok]
        rw [show ((17 % 256 :: pcv :: hcv :: 4 :: (3 + cd.MarshalLen) :: (2 + cd.MarshalLen + cg.MarshalLen) :: (2 + cd.MarshalLen + cg.MarshalLen + d.value.length) :: (cd.writeBytes ++ cg.writeBytes ++ d.writeBytes ++ [0]))).getD 4 0 = 3 + cd.MarshalLen from rfl]
        rw [show (3 + cd.MarshalLen + 4) % 256 = 7 + cd.MarshalLen by omega]
        rw [if_neg (by omega)]
        rw [goIdx_eq_ok (show 5 < ((17 % 256 :: pcv :: hcv :: 4 :: (3 + cd.MarshalLen) :: (2 + cd.MarshalLen + cg.MarshalLen) :: (2 + cd.MarshalLen + cg.MarshalLen + d.value.length) :: (cd.writeBytes ++ cg.writeBytes ++ d.writeBytes ++ [0]))).length by rw [hlen]; omega)]
        simp only [Res.bind_ok]
        rw [show ((17 % 256 :: pcv :: hcv :: 4 :: (3 + cd.MarshalLen) :: (2 + cd.MarshalLen + cg.MarshalLen) :: (2 + cd.MarshalLen + cg.MarshalLen + d.value.length) :: (cd.writeBytes ++ cg.writeBytes ++ d.writeBytes ++ [0]))).getD 5 0 = 2 + cd.MarshalLen + cg.MarshalLen from rfl]
        rw [show (2 + cd.MarshalLen + cg.MarshalLen + 5) % 256
            = 7 + cd.MarshalLen + cg.MarshalLen by omega]
        rw [if_neg (by omega)]
        rw [goIdx_eq_ok (show 6 < ((17 % 256 :: pcv :: hcv :: 4 :: (3 + cd.MarshalLen) :: (2 + cd.MarshalLen + cg.MarshalLen) :: (2 + cd.MarshalLen + cg.MarshalLen + d.value.length) :: (cd.writeBytes ++ cg.writeBytes ++ d.writeBytes ++ [0]))).length by rw [hlen]; omega)]
        simp only [Res.bind_ok]
        rw [show ((17 % 256 :: pcv :: hcv :: 4 :: (3 + cd.MarshalLen) :: (2 + cd.MarshalLen + cg.MarshalLen) :: (2 + cd.MarshalLen + cg.MarshalLen + d.value.length) :: (cd.writeBytes ++ cg.writeBytes ++ d.writeBytes ++ [0]))).getD 6 0 = 2 + cd.MarshalLen + cg.MarshalLen + d.value.length from rfl]
        rw [if_neg (show ¬(2 + cd.MarshalLen + cg.MarshalLen + d.value.length ≠ 0 ∧
            9 + cd.MarshalLen + cg.MarshalLen + d.value.length
              < 2 + cd.MarshalLen + cg.MarshalLen + d.value.length + 7) by rintro ⟨-, hx⟩; omega)]
        rw [show (2 + cd.MarshalLen + cg.MarshalLen + d.value.length + 6) % 256
            = 8 + cd.MarshalLen + cg.MarshalLen + d.value.length by omega]
        have sA : goSlice (17 % 256 :: pcv :: hcv :: 4 :: (3 + cd.MarshalLen) :: (2 + cd.MarshalLen + cg.MarshalLen) :: (2 + cd.MarshalLen + cg.MarshalLen + d.value.length) :: (cd.writeBytes ++ cg.writeBytes ++ d.writeBytes ++ [0])) 7 (7 + cd.MarshalLen) = .ok cd.writeBytes := by
          rw [goSlice_eq_ok (by omega) (by rw [hlen]; omega)]
          congr 1
          rw [show ((17 % 256 :: pcv :: hcv :: 4 :: (3 + cd.MarshalLen) :: (2 + cd.MarshalLen + cg.MarshalLen) :: (2 + cd.MarshalLen + cg.MarshalLen + d.value.length) :: (cd.writeBytes ++ cg.writeBytes ++ d.writeBytes ++ [0]))).drop 7 = cd.writeBytes ++ cg.writeBytes ++ d.writeBytes ++ [0] from rfl]
          rw [show 7 + cd.MarshalLen - 7 = cd.MarshalLen by omega]
          rw [List.append_assoc, List.append_assoc]
          exact List.take_left' hcdb
        rw [sA]; simp only [Res.bind_ok]
        obtain ⟨n1, hcdp⟩ := cd.pa_parse_writeBytes PCodeCalledPartyAddress hcd
        have sB : ParseCalledPartyAddress cd.writeBytes = .ok (cd, n1) := by
          simpa [ParseCalledPartyAddress] using hcdp
        rw [sB]; simp only [Res.bind_ok]
        have sC : goSlice (17 % 256 :: pcv :: hcv :: 4 :: (3 + cd.MarshalLen) :: (2 + cd.MarshalLen + cg.MarshalLen) :: (2 + cd.MarshalLen + cg.MarshalLen + d.value.length) :: (cd.writeBytes ++ cg.writeBytes ++ d.writeBytes ++ [0])) (7 + cd.MarshalLen) (7 + cd.MarshalLen + cg.MarshalLen)
            = .ok cg.writeBytes := by
          rw [goSlice_eq_ok (by omega) (by rw [hlen]; omega)]
          congr 1
          rw [show (17 % 256 :: pcv :: hcv :: 4 :: (3 + cd.MarshalLen) :: (2 + cd.MarshalLen + cg.MarshalLen) :: (2 + cd.MarshalLen + cg.MarshalLen + d.value.length) :: (cd.writeBytes ++ cg.writeBytes ++ d.writeBytes ++ [0]))
              = ([17 % 256, pcv, hcv, 4, 3 + cd.MarshalLen, 2 + cd.MarshalLen + cg.MarshalLen,
                  2 + cd.MarshalLen + cg.MarshalLen + d.value.length]
                 ++ cd.writeBytes) ++ (cg.writeBytes ++ (d.writeBytes ++ [0])) by simp]
          rw [List.drop_left' (by simp [hcdb]; omega)]
          rw [show 7 + cd.MarshalLen + cg.MarshalLen - (7 + cd.MarshalLen) = cg.MarshalLen by omega]
          exact List.take_left' hcgb
        rw [sC]; simp only [Res.bind_ok]
        obtain ⟨n2, hcgp⟩ := cg.pa_parse_writeBytes PCodeCallingPartyAddress hcg
        have sD : ParseCallingPartyAddress cg.writeBytes = .ok (cg, n2) := by
          simpa [ParseCallingPartyAddress] using hcgp
        rw [sD]; simp only [Res.bind_ok]
        have sE : goSliceFrom (17 % 256 :: pcv :: hcv :: 4 :: (3 + cd.MarshalLen) :: (2 + cd.MarshalLen + cg.MarshalLen) :: (2 + cd.MarshalLen + cg.MarshalLen + d.value.length) :: (cd.writeBytes ++ cg.writeBytes ++ d.writeBytes ++ [0])) (7 + cd.MarshalLen + cg.MarshalLen)
            = .ok (d.writeBytes ++ [0]) := by
          rw [goSliceFrom_eq_ok (by rw [hlen]; omega)]
          congr 1
          rw [show (17 % 256 :: pcv :: hcv :: 4 :: (3 + cd.MarshalLen) :: (2 + cd.MarshalLen + cg.MarshalLen) :: (2 + cd.MarshalLen + cg.MarshalLen + d.value.length) :: (cd.writeBytes ++ cg.writeBytes ++ d.writeBytes ++ [0]))
              = ([17 % 256, pcv, hcv, 4, 3 + cd.MarshalLen, 2 + cd.MarshalLen + cg.MarshalLen,
                  2 + cd.MarshalLen + cg.MarshalLen + d.value.length]
                 ++ cd.writeBytes ++ cg.writeBytes) ++ (d.writeBytes ++ [0]) by simp]
          exact List.drop_left' (by simp [hcdb, hcgb]; omega)
        rw [sE]; simp only [Res.bind_ok]
        obtain ⟨n3, hdp⟩ := d.data_parse_writeBytes hd [0]
        rw [hdp]; simp only [Res.bind_ok]
        rw [if_neg (by omega)]
        have sF : goSliceFrom (17 % 256 :: pcv :: hcv :: 4 :: (3 + cd.MarshalLen) :: (2 + cd.MarshalLen + cg.MarshalLen) :: (2 + cd.MarshalLen + cg.MarshalLen + d.value.length) :: (cd.writeBytes ++ cg.writeBytes ++ d.writeBytes ++ [0])) (8 + cd.MarshalLen + cg.MarshalLen + d.value.length)
            = .ok [0] := by
          rw [goSliceFrom_eq_ok (by rw [hlen]; omega)]
          congr 1
          rw [show (17 % 256 :: pcv :: hcv :: 4 :: (3 + cd.MarshalLen) :: (2 + cd.MarshalLen + cg.MarshalLen) :: (2 + cd.MarshalLen + cg.MarshalLen + d.value.length) :: (cd.writeBytes ++ cg.writeBytes ++ d.writeBytes ++ [0]))
              = ([17 % 256, pcv, hcv, 4, 3 + cd.MarshalLen, 2 + cd.MarshalLen + cg.MarshalLen,
                  2 + cd.MarshalLen + cg.MarshalLen + d.value.length]
                 ++ cd.writeBytes ++ cg.writeBytes ++ d.writeBytes) ++ [0] by simp]
          exact List.drop_left' (by simp [hcdb, hcgb, hdbl]; omega)
        rw [sF]; simp only [Res.bind_ok]
        have sG : ParseOptionalParameters [0] = .ok ([.eoo NewEndOfOptionalParameters], 0) := by
          simp only [ParseOptionalParameters, List.length_cons, List.length_nil]
          rw [show (0:Nat) + 1 + 2 = 2 + 1 from rfl]
          simp only [ParseOptionalParametersAux]
          rw [if_pos (by simp)]
          rw [goSliceFrom_eq_ok (by simp)]
          simp only [List.drop_zero, Res.bind_ok]
          simp only [ParseOptionalParameter, List.length_cons, List.length_nil]
          rw [if_neg (by omega)]
          simp only [List.getD_cons_zero, PCodeEndOfOptionalParameters]
          simp only [if_true]
          rw [EndOfOptionalParameters.eoo_Read_enc]
          simp only [Res.bind_ok]
          rw [if_pos (show Param.Code (.eoo NewEndOfOptionalParameters) = 0 from rfl)]
          simp
        rw [sG]; simp only [Res.bind_ok]
        simp [XUDT.assignOpts, XUDT.assignOpt, Param.Code, NewEndOfOptionalParameters,
          PCodeEndOfOptionalParameters, PCodeSegmentation, PCodeImportance]
      · have himwf2 := himwf
        obtain ⟨himpt, himcode, himlen, himval⟩ := himwf2
        simp only [XUDT.enc, XUDT.UnmarshalBinary, XUDT.encBlock]
        rw [if_neg (show ¬(2 + cd.MarshalLen + cg.MarshalLen + d.value.length = 0) by omega)]
        simp only [show NewEndOfOptionalParameters.value = 0 from rfl, List.nil_append,
          List.cons_append, List.append_nil]
        have hlen : (17 % 256 :: pcv :: hcv :: 4 :: (3 + cd.MarshalLen) :: (2 + cd.MarshalLen + cg.MarshalLen) :: (2 + cd.MarshalLen + cg.MarshalLen + d.value.length) :: (cd.writeBytes ++ cg.writeBytes ++ d.writeBytes ++ [im.code % 256, im.length % 256, im.value, 0])).length
            = 12 + cd.MarshalLen + cg.MarshalLen + d.value.length := by
          simp [hcdb, hcgb, hdbl, uint32To24]
          omega
        rw [hlen]
        rw [if_neg (by omega)]
        have spc : ProtocolClass.mk0.Read (List.drop 1 (17 % 256 :: pcv :: hcv :: 4 :: (3 + cd.MarshalLen) :: (2 + cd.MarshalLen + cg.MarshalLen) :: (2 + cd.MarshalLen + cg.MarshalLen + d.value.length) :: (cd.writeBytes ++ cg.writeBytes ++ d.writeBytes ++ [im.code % 256, im.length % 256, im.value, 0])))
            = .ok (⟨PTypeF, PCodeProtocolClass, 1, pcv⟩, 1) := by
          simp only [List.drop_one, List.tail_cons, ProtocolClass.Read, List.length_cons]
          rw [if_neg (by omega)]
          simp [ProtocolClass.mk0, PTypeF]
        rw [spc]; simp only [Res.bind_ok]
        simp only [show (1:Nat)+1+1+3 = 6 from rfl, show (1:Nat)+1+1+2 = 5 from rfl,
          show (1:Nat)+1+1+1 = 4 from rfl, show (1:Nat)+1+1 = 3 from rfl,
          show (1:Nat)+1 = 2 from rfl]
        have shp : HopCounter.Read HopCounter.mk0 (List.drop 2 (17 % 256 :: pcv :: hcv :: 4 :: (3 + cd.MarshalLen) :: (2 + cd.MarshalLen + cg.MarshalLen) :: (2 + cd.MarshalLen + cg.MarshalLen + d.value.length) :: (cd.writeBytes ++ cg.writeBytes ++ d.writeBytes ++ [im.code % 256, im.length % 256, im.value, 0])))
            = .ok (⟨PTypeF, PCodeHopCounter, 1, hcv⟩, 1) := by
          rw [show List.drop 2 (17 % 256 :: pcv :: hcv :: 4 :: (3 + cd.MarshalLen) :: (2 + cd.MarshalLen + cg.MarshalLen) :: (2 + cd.MarshalLen + cg.MarshalLen + d.value.length) :: (cd.writeBytes ++ cg.writeBytes ++ d.writeBytes ++ [im.code % 256, im.length % 256, im.value, 0]))
              = hcv :: 4 :: (3 + cd.MarshalLen) :: (2 + cd.MarshalLen + cg.MarshalLen) :: (2 + cd.MarshalLen + cg.MarshalLen + d.value.length) :: (cd.writeBytes ++ cg.writeBytes ++ d.writeBytes ++ [im.code % 256, im.length % 256, im.value, 0]) from rfl]
          simp only [HopCounter.Read, HopCounter.mk0, HopCounter.read, PTypeF, PTypeO,
            List.length_cons]
          rw [if_neg (by norm_num)]
          rw [if_neg (by omega)]
          simp
        rw [shp]; simp only [Res.bind_ok]
        simp only [show (1:Nat)+1+1+3 = 6 from rfl, show (1:Nat)+1+1+2 = 5 from rfl,
          show (1:Nat)+1+1+1 = 4 from rfl, show (1:Nat)+1+1 = 3 from rfl,
          show (1:Nat)+1 = 2 from rfl]
        rw [goIdx_eq_ok (show 3 < ((17 % 256 :: pcv :: hcv :: 4 :: (3 + cd.MarshalLen) :: (2 + cd.MarshalLen + cg.MarshalLen) :: (2 + cd.MarshalLen + cg.MarshalLen + d.value.length) :: (cd.writeBytes ++ cg.writeBytes ++ d.writeBytes ++ [im.code % 256, im.length % 256, im.value, 0]))).length by rw [hlen]; omega)]
        simp only [Res.bind_ok]
        rw [show ((17 % 256 :: pcv :: hcv :: 4 :: (3 + cd.MarshalLen) :: (2 + cd.MarshalLen + cg.MarshalLen) :: (2 + cd.MarshalLen + cg.MarshalLen + d.value.length) :: (cd.writeBytes ++ cg.writeBytes ++ d.writeBytes ++ [im.code % 256, im.length % 256, im.value, 0]))).getD 3 0 = 4 from rfl]
        rw [if_neg (by omega)]
        rw [goIdx_eq_ok (show 4 < ((17 % 256 :: pcv :: hcv :: 4 :: (3 + cd.MarshalLen) :: (2 + cd.MarshalLen + cg.MarshalLen) :: (2 + cd.MarshalLen + cg.MarshalLen + d.value.length) :: (cd.writeBytes ++ cg.writeBytes ++ d.writeBytes ++ [im.code % 256, im.length % 256, im.value, 0]))).length by rw [hlen]; omega)]
        simp only [Res.bind_ok]
        rw [show ((17 % 256 :: pcv :: hcv :: 4 :: (3 + cd.MarshalLen) :: (2 + cd.MarshalLen + cg.MarshalLen) :: (2 + cd.MarshalLen + cg.MarshalLen + d.value.length) :: (cd.writeBytes ++ cg.writeBytes ++ d.writeBytes ++ [im.code % 256, im.length % 256, im.value, 0]))).getD 4 0 = 3 + cd.MarshalLen from rfl]
        rw [show (3 + cd.MarshalLen + 4) % 256 = 7 + cd.MarshalLen by omega]
        rw [if_neg (by omega)]
        rw [goIdx_eq_ok (show 5 < ((17 % 256 :: pcv :: hcv :: 4 :: (3 + cd.MarshalLen) :: (2 + cd.MarshalLen + cg.MarshalLen) :: (2 + cd.MarshalLen + cg.MarshalLen + d.value.length) :: (cd.writeBytes ++ cg.writeBytes ++ d.writeBytes ++ [im.code % 256, im.length % 256, im.value, 0]))).length by rw [hlen]; omega)]
        simp only [Res.bind_ok]
        rw [show ((17 % 256 :: pcv :: hcv :: 4 :: (3 + cd.MarshalLen) :: (2 + cd.MarshalLen + cg.MarshalLen) :: (2 + cd.MarshalLen + cg.MarshalLen + d.value.length) :: (cd.writeBytes ++ cg.writeBytes ++ d.writeBytes ++ [im.code % 256, im.length % 256, im.value, 0]))).getD 5 0 = 2 + cd.MarshalLen + cg.MarshalLen from rfl]
        rw [show (2 + cd.MarshalLen + cg.MarshalLen + 5) % 256
            = 7 + cd.MarshalLen + cg.MarshalLen by omega]
        rw [if_neg (by omega)]
        rw [goIdx_eq_ok (show 6 < ((17 % 256 :: pcv :: hcv :: 4 :: (3 + cd.MarshalLen) :: (2 + cd.MarshalLen + cg.MarshalLen) :: (2 + cd.MarshalLen + cg.MarshalLen + d.value.length) :: (cd.writeBytes ++ cg.writeBytes ++ d.writeBytes ++ [im.code % 256, im.length % 256, im.value, 0]))).length by rw [hlen]; omega)]
        simp only [Res.bind_ok]
        rw [show ((17 % 256 :: pcv :: hcv :: 4 :: (3 + cd.MarshalLen) :: (2 + cd.MarshalLen + cg.MarshalLen) :: (2 + cd.MarshalLen + cg.MarshalLen + d.value.length) :: (cd.writeBytes ++ cg.writeBytes ++ d.writeBytes ++ [im.code % 256, im.length % 256, im.value, 0]))).getD 6 0 = 2 + cd.MarshalLen + cg.MarshalLen + d.value.length from rfl]
        rw [if_neg (show ¬(2 + cd.MarshalLen + cg.MarshalLen + d.value.length ≠ 0 ∧
            12 + cd.MarshalLen + cg.MarshalLen + d.value.length
              < 2 + cd.MarshalLen + cg.MarshalLen + d.value.length + 7) by rintro ⟨-, hx⟩; omega)]
        rw [show (2 + cd.MarshalLen + cg.MarshalLen + d.value.length + 6) % 256
            = 8 + cd.MarshalLen + cg.MarshalLen + d.value.length by omega]
        have sA : goSlice (17 % 256 :: pcv :: hcv :: 4 :: (3 + cd.MarshalLen) :: (2 + cd.MarshalLen + cg.MarshalLen) :: (2 + cd.MarshalLen + cg.MarshalLen + d.value.length) :: (cd.writeBytes ++ cg.writeBytes ++ d.writeBytes ++ [im.code % 256, im.length % 256, im.value, 0])) 7 (7 + cd.MarshalLen) = .ok cd.writeBytes := by
          rw [goSlice_eq_ok (by omega) (by rw [hlen]; omega)]
          congr 1
          rw [show ((17 % 256 :: pcv :: hcv :: 4 :: (3 + cd.MarshalLen) :: (2 + cd.MarshalLen + cg.MarshalLen) :: (2 + cd.MarshalLen + cg.MarshalLen + d.value.length) :: (cd.writeBytes ++ cg.writeBytes ++ d.writeBytes ++ [im.code % 256, im.length % 256, im.value, 0]))).drop 7 = cd.writeBytes ++ cg.writeBytes ++ d.writeBytes ++ [im.code % 256, im.length % 256, im.value, 0] from rfl]
          rw [show 7 + cd.MarshalLen - 7 = cd.MarshalLen by omega]
          rw [List.append_assoc, List.append_assoc]
          exact List.take_left' hcdb
        rw [sA]; simp only [Res.bind_ok]
        obtain ⟨n1, hcdp⟩ := cd.pa_parse_writeBytes PCodeCalledPartyAddress hcd
        have sB : ParseCalledPartyAddress cd.writeBytes = .ok (cd, n1) := by
          simpa [ParseCalledPartyAddress] using hcdp
        rw [sB]; simp only [Res.bind_ok]
        have sC : goSlice (17 % 256 :: pcv :: hcv :: 4 :: (3 + cd.MarshalLen) :: (2 + cd.MarshalLen + cg.MarshalLen) :: (2 + cd.MarshalLen + cg.MarshalLen + d.value.length) :: (cd.writeBytes ++ cg.writeBytes ++ d.writeBytes ++ [im.code % 256, im.length % 256, im.value, 0])) (7 + cd.MarshalLen) (7 + cd.MarshalLen + cg.MarshalLen)
            = .ok cg.writeBytes := by
          rw [goSlice_eq_ok (by omega) (by rw [hlen]; omega)]
          congr 1
          rw [show (17 % 256 :: pcv :: hcv :: 4 :: (3 + cd.MarshalLen) :: (2 + cd.MarshalLen + cg.MarshalLen) :: (2 + cd.MarshalLen + cg.MarshalLen + d.value.length) :: (cd.writeBytes ++ cg.writeBytes ++ d.writeBytes ++ [im.code % 256, im.length % 256, im.value, 0]))
              = ([17 % 256, pcv, hcv, 4, 3 + cd.MarshalLen, 2 + cd.MarshalLen + cg.MarshalLen,
                  2 + cd.MarshalLen + cg.MarshalLen + d.value.length]
                 ++ cd.writeBytes) ++ (cg.writeBytes ++ (d.writeBytes ++ [im.code % 256, im.length % 256, im.value, 0])) by simp]
          rw [List.drop_left' (by simp [hcdb]; omega)]
          rw [show 7 + cd.MarshalLen + cg.MarshalLen - (7 + cd.MarshalLen) = cg.MarshalLen by omega]
          exact List.take_left' hcgb
        rw [sC]; simp only [Res.bind_ok]
        obtain ⟨n2, hcgp⟩ := cg.pa_parse_writeBytes PCodeCallingPartyAddress hcg
        have sD : ParseCallingPartyAddress cg.writeBytes = .ok (cg, n2) := by
          simpa [ParseCallingPartyAddress] using hcgp
        rw [sD]; simp only [Res.bind_ok]
        have sE : goSliceFrom (17 % 256 :: pcv :: hcv :: 4 :: (3 + cd.MarshalLen) :: (2 + cd.MarshalLen + cg.MarshalLen) :: (2 + cd.MarshalLen + cg.MarshalLen + d.value.length) :: (cd.writeBytes ++ cg.writeBytes ++ d.writeBytes ++ [im.code % 256, im.length % 256, im.value, 0])) (7 + cd.MarshalLen + cg.MarshalLen)
            = .ok (d.writeBytes ++ [im.code % 256, im.length % 256, im.value, 0]) := by
          rw [goSliceFrom_eq_ok (by rw [hlen]; omega)]
          congr 1
          rw [show (17 % 256 :: pcv :: hcv :: 4 :: (3 + cd.MarshalLen) :: (2 + cd.MarshalLen + cg.MarshalLen) :: (2 + cd.MarshalLen + cg.MarshalLen + d.value.length) :: (cd.writeBytes ++ cg.writeBytes ++ d.writeBytes ++ [im.code % 256, im.length % 256, im.value, 0]))
              = ([17 % 256, pcv, hcv, 4, 3 + cd.MarshalLen, 2 + cd.MarshalLen + cg.MarshalLen,
                  2 + cd.MarshalLen + cg.MarshalLen + d.value.length]
                 ++ cd.writeBytes ++ cg.writeBytes) ++ (d.writeBytes ++ [im.code % 256, im.length % 256, im.value, 0]) by simp]
          exact List.drop_left' (by simp [hcdb, hcgb]; omega)
        rw [sE]; simp only [Res.bind_ok]
        obtain ⟨n3, hdp⟩ := d.data_parse_writeBytes hd [im.code % 256, im.length % 256, im.value, 0]
        rw [hdp]; simp only [Res.bind_ok]
        rw [if_neg (by omega)]
        have sF : goSliceFrom (17 % 256 :: pcv :: hcv :: 4 :: (3 + cd.MarshalLen) :: (2 + cd.MarshalLen + cg.MarshalLen) :: (2 + cd.MarshalLen + cg.MarshalLen + d.value.length) :: (cd.writeBytes ++ cg.writeBytes ++ d.writeBytes ++ [im.code % 256, im.length % 256, im.value, 0])) (8 + cd.MarshalLen + cg.MarshalLen + d.value.length)
            = .ok [im.code % 256, im.length % 256, im.value, 0] := by
          rw [goSliceFrom_eq_ok (by rw [hlen]; omega)]
          congr 1
          rw [show (17 % 256 :: pcv :: hcv :: 4 :: (3 + cd.MarshalLen) :: (2 + cd.MarshalLen + cg.MarshalLen) :: (2 + cd.MarshalLen + cg.MarshalLen + d.value.length) :: (cd.writeBytes ++ cg.writeBytes ++ d.writeBytes ++ [im.code % 256, im.length % 256, im.value, 0]))
              = ([17 % 256, pcv, hcv, 4, 3 + cd.MarshalLen, 2 + cd.MarshalLen + cg.MarshalLen,
                  2 + cd.MarshalLen + cg.MarshalLen + d.value.length]
                 ++ cd.writeBytes ++ cg.writeBytes ++ d.writeBytes) ++ [im.code % 256, im.length % 256, im.value, 0] by simp]
          exact List.drop_left' (by simp [hcdb, hcgb, hdbl]; omega)
        rw [sF]; simp only [Res.bind_ok]
        have sG : ParseOptionalParameters [im.code % 256, im.length % 256, im.value, 0]
            = .ok ([.imp im, .eoo NewEndOfOptionalParameters], 3) := by
          simp only [ParseOptionalParameters, List.length_cons, List.length_nil]
          rw [show (0:Nat) + 1 + 1 + 1 + 1 + 2 = 5 + 1 from rfl]
          simp only [ParseOptionalParametersAux]
          rw [if_pos (by simp)]
          rw [goSliceFrom_eq_ok (by simp)]
          simp only [List.drop_zero, Res.bind_ok]
          simp only [ParseOptionalParameter, List.length_cons, List.length_nil]
          rw [if_neg (by omega)]
          simp only [List.getD_cons_zero]
          rw [if_neg (by simp [himcode, PCodeImportance, PCodeEndOfOptionalParameters])]
          rw [if_neg (by simp [himcode, PCodeImportance, PCodeCalledPartyAddress])]
          rw [if_neg (by simp [himcode, PCodeImportance, PCodeCallingPartyAddress])]
          rw [if_neg (by simp [himcode, PCodeImportance, PCodeCredit])]
          rw [if_neg (by simp [himcode, PCodeImportance, PCodeData])]
          rw [if_neg (by simp [himcode, PCodeImportance, PCodeSegmentation])]
          rw [if_neg (by simp [himcode, PCodeImportance, PCodeHopCounter])]
          rw [if_pos (by simp [himcode, PCodeImportance])]
          rw [Importance.imp_Read_enc im himwf [0]]
          simp only [Res.bind_ok]
          rw [if_neg (show ¬(Param.Code (.imp im) = PCodeEndOfOptionalParameters) by
            simp [Param.Code, himcode, PCodeImportance, PCodeEndOfOptionalParameters])]
          simp only [List.nil_append]
          rw [if_pos (show 3 + 1 > 0 by norm_num)]
          rw [goSliceFrom_eq_ok (by simp)]
          simp only [Res.bind_ok]
          rw [show List.drop 3 [im.code % 256, im.length % 256, im.value, 0] = [0] from rfl]
          rw [if_neg (by simp)]
          simp only [List.getD_cons_zero, PCodeEndOfOptionalParameters]
          simp only [if_true]
          rw [EndOfOptionalParameters.eoo_Read_enc]
          simp only [Res.bind_ok]
          rw [if_pos (show Param.Code (.eoo NewEndOfOptionalParameters) = 0 from rfl)]
          simp
        rw [sG]; simp only [Res.bind_ok]
        simp [XUDT.assignOpts, XUDT.assignOpt, Param.Code, himcode, NewEndOfOptionalParameters,
          PCodeEndOfOptionalParameters, PCodeSegmentation, PCodeImportance]
    · rcases imo with _ | im
      · have hsgwf2 := hsgwf
        obtain ⟨hsgpt, hsgcode, hsglen, hsgcls, hsgrem, hsglr⟩ := hsgwf2
        simp only [XUDT.enc, XUDT.UnmarshalBinary, XUDT.encBlock]
        rw [if_neg (show ¬(2 + cd.MarshalLen + cg.MarshalLen + d.value.length = 0) by omega)]
        simp only [show NewEndOfOptionalParameters.value = 0 from rfl, List.nil_append,
          List.cons_append, List.append_nil]
        have hlen : (17 % 256 :: pcv :: hcv :: 4 :: (3 + cd.MarshalLen) :: (2 + cd.MarshalLen + cg.MarshalLen) :: (2 + cd.MarshalLen + cg.MarshalLen + d.value.length) :: (cd.writeBytes ++ cg.writeBytes ++ d.writeBytes ++ (sg.code % 256 :: sg.length % 256 :: sg.flagsByte :: (uint32To24 sg.LocalReference ++ [0])))).length
            = 15 + cd.MarshalLen + cg.MarshalLen + d.value.length := by
          simp [hcdb, hcgb, hdbl, uint32To24]
          omega
        rw [hlen]
        rw [if_neg (by omega)]
        have spc : ProtocolClass.mk0.Read (List.drop 1 (17 % 256 :: pcv :: hcv :: 4 :: (3 + cd.MarshalLen) :: (2 + cd.MarshalLen + cg.MarshalLen) :: (2 + cd.MarshalLen + cg.MarshalLen + d.value.length) :: (cd.writeBytes ++ cg.writeBytes ++ d.writeBytes ++ (sg.code % 256 :: sg.length % 256 :: sg.flagsByte :: (uint32To24 sg.LocalReference ++ [0])))))
            = .ok (⟨PTypeF, PCodeProtocolClass, 1, pcv⟩, 1) := by
          simp only [List.drop_one, List.tail_cons, ProtocolClass.Read, List.length_cons]
          rw [if_neg (by omega)]
          simp [ProtocolClass.mk0, PTypeF]
        rw [spc]; simp only [Res.bind_ok]
        simp only [show (1:Nat)+1+1+3 = 6 from rfl, show (1:Nat)+1+1+2 = 5 from rfl,
          show (1:Nat)+1+1+1 = 4 from rfl, show (1:Nat)+1+1 = 3 from rfl,
          show (1:Nat)+1 = 2 from rfl]
        have shp : HopCounter.Read HopCounter.mk0 (List.drop 2 (17 % 256 :: pcv :: hcv :: 4 :: (3 + cd.MarshalLen) :: (2 + cd.MarshalLen + cg.MarshalLen) :: (2 + cd.MarshalLen + cg.MarshalLen + d.value.length) :: (cd.writeBytes ++ cg.writeBytes ++ d.writeBytes ++ (sg.code % 256 :: sg.length % 256 :: sg.flagsByte :: (uint32To24 sg.LocalReference ++ [0])))))
            = .ok (⟨PTypeF, PCodeHopCounter, 1, hcv⟩, 1) := by
          rw [show List.drop 2 (17 % 256 :: pcv :: hcv :: 4 :: (3 + cd.MarshalLen) :: (2 + cd.MarshalLen + cg.MarshalLen) :: (2 + cd.MarshalLen + cg.MarshalLen + d.value.length) :: (cd.writeBytes ++ cg.writeBytes ++ d.writeBytes ++ (sg.code % 256 :: sg.length % 256 :: sg.flagsByte :: (uint32To24 sg.LocalReference ++ [0]))))
              = hcv :: 4 :: (3 + cd.MarshalLen) :: (2 + cd.MarshalLen + cg.MarshalLen) :: (2 + cd.MarshalLen + cg.MarshalLen + d.value.length) :: (cd.writeBytes ++ cg.writeBytes ++ d.writeBytes ++ (sg.code % 256 :: sg.length % 256 :: sg.flagsByte :: (uint32To24 sg.LocalReference ++ [0]))) from rfl]
          simp only [HopCounter.Read, HopCounter.mk0, HopCounter.read, PTypeF, PTypeO,
            List.length_cons]
          rw [if_neg (by norm_num)]
          rw [if_neg (by omega)]
          simp
        rw [shp]; simp only [Res.bind_ok]
        simp only [show (1:Nat)+1+1+3 = 6 from rfl, show (1:Nat)+1+1+2 = 5 from rfl,
          show (1:Nat)+1+1+1 = 4 from rfl, show (1:Nat)+1+1 = 3 from rfl,
          show (1:Nat)+1 = 2 from rfl]
        rw [goIdx_eq_ok (show 3 < ((17 % 256 :: pcv :: hcv :: 4 :: (3 + cd.MarshalLen) :: (2 + cd.MarshalLen + cg.MarshalLen) :: (2 + cd.MarshalLen + cg.MarshalLen + d.value.length) :: (cd.writeBytes ++ cg.writeBytes ++ d.writeBytes ++ (sg.code % 256 :: sg.length % 256 :: sg.flagsByte :: (uint32To24 sg.LocalReference ++ [0]))))).length by rw [hlen]; omega)]
        simp only [Res.bind_ok]
        rw [show ((17 % 256 :: pcv :: hcv :: 4 :: (3 + cd.MarshalLen) :: (2 + cd.MarshalLen + cg.MarshalLen) :: (2 + cd.MarshalLen + cg.MarshalLen + d.value.length) :: (cd.writeBytes ++ cg.writeBytes ++ d.writeBytes ++ (sg.code % 256 :: sg.length % 256 :: sg.flagsByte :: (uint32To24 sg.LocalReference ++ [0]))))).getD 3 0 = 4 from rfl]
        rw [if_neg (by omega)]
        rw [goIdx_eq_ok (show 4 < ((17 % 256 :: pcv :: hcv :: 4 :: (3 + cd.MarshalLen) :: (2 + cd.MarshalLen + cg.MarshalLen) :: (2 + cd.MarshalLen + cg.MarshalLen + d.value.length) :: (cd.writeBytes ++ cg.writeBytes ++ d.writeBytes ++ (sg.code % 256 :: sg.length % 256 :: sg.flagsByte :: (uint32To24 sg.LocalReference ++ [0]))))).length by rw [hlen]; omega)]
        simp only [Res.bind_ok]
        rw [show ((17 % 256 :: pcv :: hcv :: 4 :: (3 + cd.MarshalLen) :: (2 + cd.MarshalLen + cg.MarshalLen) :: (2 + cd.MarshalLen + cg.MarshalLen + d.value.length) :: (cd.writeBytes ++ cg.writeBytes ++ d.writeBytes ++ (sg.code % 256 :: sg.length % 256 :: sg.flagsByte :: (uint32To24 sg.LocalReference ++ [0]))))).getD 4 0 = 3 + cd.MarshalLen from rfl]
        rw [show (3 + cd.MarshalLen + 4) % 256 = 7 + cd.MarshalLen by omega]
        rw [if_neg (by omega)]
        rw [goIdx_eq_ok (show 5 < ((17 % 256 :: pcv :: hcv :: 4 :: (3 + cd.MarshalLen) :: (2 + cd.MarshalLen + cg.MarshalLen) :: (2 + cd.MarshalLen + cg.MarshalLen + d.value.length) :: (cd.writeBytes ++ cg.writeBytes ++ d.writeBytes ++ (sg.code % 256 :: sg.length % 256 :: sg.flagsByte :: (uint32To24 sg.LocalReference ++ [0]))))).length by rw [hlen]; omega)]
        simp only [Res.bind_ok]
        rw [show ((17 % 256 :: pcv :: hcv :: 4 :: (3 + cd.MarshalLen) :: (2 + cd.MarshalLen + cg.MarshalLen) :: (2 + cd.MarshalLen + cg.MarshalLen + d.value.length) :: (cd.writeBytes ++ cg.writeBytes ++ d.writeBytes ++ (sg.code % 256 :: sg.length % 256 :: sg.flagsByte :: (uint32To24 sg.LocalReference ++ [0]))))).getD 5 0 = 2 + cd.MarshalLen + cg.MarshalLen from rfl]
        rw [show (2 + cd.MarshalLen + cg.MarshalLen + 5) % 256
            = 7 + cd.MarshalLen + cg.MarshalLen by omega]
        rw [if_neg (by omega)]
        rw [goIdx_eq_ok (show 6 < ((17 % 256 :: pcv :: hcv :: 4 :: (3 + cd.MarshalLen) :: (2 + cd.MarshalLen + cg.MarshalLen) :: (2 + cd.MarshalLen + cg.MarshalLen + d.value.length) :: (cd.writeBytes ++ cg.writeBytes ++ d.writeBytes ++ (sg.code % 256 :: sg.length % 256 :: sg.flagsByte :: (uint32To24 sg.LocalReference ++ [0]))))).length by rw [hlen]; omega)]
        simp only [Res.bind_ok]
        rw [show ((17 % 256 :: pcv :: hcv :: 4 :: (3 + cd.MarshalLen) :: (2 + cd.MarshalLen + cg.MarshalLen) :: (2 + cd.MarshalLen + cg.MarshalLen + d.value.length) :: (cd.writeBytes ++ cg.writeBytes ++ d.writeBytes ++ (sg.code % 256 :: sg.length % 256 :: sg.flagsByte :: (uint32To24 sg.LocalReference ++ [0]))))).getD 6 0 = 2 + cd.MarshalLen + cg.MarshalLen + d.value.length from rfl]
        rw [if_neg (show ¬(2 + cd.MarshalLen + cg.MarshalLen + d.value.length ≠ 0 ∧
            15 + cd.MarshalLen + cg.MarshalLen + d.value.length
              < 2 + cd.MarshalLen + cg.MarshalLen + d.value.length + 7) by rintro ⟨-, hx⟩; omega)]
        rw [show (2 + cd.MarshalLen + cg.MarshalLen + d.value.length + 6) % 256
            = 8 + cd.MarshalLen + cg.MarshalLen + d.value.length by omega]
        have sA : goSlice (17 % 256 :: pcv :: hcv :: 4 :: (3 + cd.MarshalLen) :: (2 + cd.MarshalLen + cg.MarshalLen) :: (2 + cd.MarshalLen + cg.MarshalLen + d.value.length) :: (cd.writeBytes ++ cg.writeBytes ++ d.writeBytes ++ (sg.code % 256 :: sg.length % 256 :: sg.flagsByte :: (uint32To24 sg.LocalReference ++ [0])))) 7 (7 + cd.MarshalLen) = .ok cd.writeBytes := by
          rw [goSlice_eq_ok (by omega) (by rw [hlen]; omega)]
          congr 1
          rw [show ((17 % 256 :: pcv :: hcv :: 4 :: (3 + cd.MarshalLen) :: (2 + cd.MarshalLen + cg.MarshalLen) :: (2 + cd.MarshalLen + cg.MarshalLen + d.value.length) :: (cd.writeBytes ++ cg.writeBytes ++ d.writeBytes ++ (sg.code % 256 :: sg.length % 256 :: sg.flagsByte :: (uint32To24 sg.LocalReference ++ [0]))))).drop 7 = cd.writeBytes ++ cg.writeBytes ++ d.writeBytes ++ (sg.code % 256 :: sg.length % 256 :: sg.flagsByte :: (uint32To24 sg.LocalReference ++ [0])) from rfl]
          rw [show 7 + cd.MarshalLen - 7 = cd.MarshalLen by omega]
          rw [List.append_assoc, List.append_assoc]
          exact List.take_left' hcdb
        rw [sA]; simp only [Res.bind_ok]
        obtain ⟨n1, hcdp⟩ := cd.pa_parse_writeBytes PCodeCalledPartyAddress hcd
        have sB : ParseCalledPartyAddress cd.writeBytes = .ok (cd, n1) := by
          simpa [ParseCalledPartyAddress] using hcdp
        rw [sB]; simp only [Res.bind_ok]
        have sC : goSlice (17 % 256 :: pcv :: hcv :: 4 :: (3 + cd.MarshalLen) :: (2 + cd.MarshalLen + cg.MarshalLen) :: (2 + cd.MarshalLen + cg.MarshalLen + d.value.length) :: (cd.writeBytes ++ cg.writeBytes ++ d.writeBytes ++ (sg.code % 256 :: sg.length % 256 :: sg.flagsByte :: (uint32To24 sg.LocalReference ++ [0])))) (7 + cd.MarshalLen) (7 + cd.MarshalLen + cg.MarshalLen)
            = .ok cg.writeBytes := by
          rw [goSlice_eq_ok (by omega) (by rw [hlen]; omega)]
          congr 1
          rw [show (17 % 256 :: pcv :: hcv :: 4 :: (3 + cd.MarshalLen) :: (2 + cd.MarshalLen + cg.MarshalLen) :: (2 + cd.MarshalLen + cg.MarshalLen + d.value.length) :: (cd.writeBytes ++ cg.writeBytes ++ d.writeBytes ++ (sg.code % 256 :: sg.length % 256 :: sg.flagsByte :: (uint32To24 sg.LocalReference ++ [0]))))
              = ([17 % 256, pcv, hcv, 4, 3 + cd.MarshalLen, 2 + cd.MarshalLen + cg.MarshalLen,
                  2 + cd.MarshalLen + cg.MarshalLen + d.value.length]
                 ++ cd.writeBytes) ++ (cg.writeBytes ++ (d.writeBytes ++ (sg.code % 256 :: sg.length % 256 :: sg.flagsByte :: (uint32To24 sg.LocalReference ++ [0])))) by simp]
          rw [List.drop_left' (by simp [hcdb]; omega)]
          rw [show 7 + cd.MarshalLen + cg.MarshalLen - (7 + cd.MarshalLen) = cg.MarshalLen by omega]
          exact List.take_left' hcgb
        rw [sC]; simp only [Res.bind_ok]
        obtain ⟨n2, hcgp⟩ := cg.pa_parse_writeBytes PCodeCallingPartyAddress hcg
        have sD : ParseCallingPartyAddress cg.writeBytes = .ok (cg, n2) := by
          simpa [ParseCallingPartyAddress] using hcgp
        rw [sD]; simp only [Res.bind_ok]
        have sE : goSliceFrom (17 % 256 :: pcv :: hcv :: 4 :: (3 + cd.MarshalLen) :: (2 + cd.MarshalLen + cg.MarshalLen) :: (2 + cd.MarshalLen + cg.MarshalLen + d.value.length) :: (cd.writeBytes ++ cg.writeBytes ++ d.writeBytes ++ (sg.code % 256 :: sg.length % 256 :: sg.flagsByte :: (uint32To24 sg.LocalReference ++ [0])))) (7 + cd.MarshalLen + cg.MarshalLen)
            = .ok (d.writeBytes ++ (sg.code % 256 :: sg.length % 256 :: sg.flagsByte :: (uint32To24 sg.LocalReference ++ [0]))) := by
          rw [goSliceFrom_eq_ok (by rw [hlen]; omega)]
          congr 1
          rw [show (17 % 256 :: pcv :: hcv :: 4 :: (3 + cd.MarshalLen) :: (2 + cd.MarshalLen + cg.MarshalLen) :: (2 + cd.MarshalLen + cg.MarshalLen + d.value.length) :: (cd.writeBytes ++ cg.writeBytes ++ d.writeBytes ++ (sg.code % 256 :: sg.length % 256 :: sg.flagsByte :: (uint32To24 sg.LocalReference ++ [0]))))
              = ([17 % 256, pcv, hcv, 4, 3 + cd.MarshalLen, 2 + cd.MarshalLen + cg.MarshalLen,
                  2 + cd.MarshalLen + cg.MarshalLen + d.value.length]
                 ++ cd.writeBytes ++ cg.writeBytes) ++ (d.writeBytes ++ (sg.code % 256 :: sg.length % 256 :: sg.flagsByte :: (uint32To24 sg.LocalReference ++ [0]))) by simp]
          exact List.drop_left' (by simp [hcdb, hcgb]; omega)
        rw [sE]; simp only [Res.bind_ok]
        obtain ⟨n3, hdp⟩ := d.data_parse_writeBytes hd (sg.code % 256 :: sg.length % 256 :: sg.flagsByte :: (uint32To24 sg.LocalReference ++ [0]))
        rw [hdp]; simp only [Res.bind_ok]
        rw [if_neg (by omega)]
        have sF : goSliceFrom (17 % 256 :: pcv :: hcv :: 4 :: (3 + cd.MarshalLen) :: (2 + cd.MarshalLen + cg.MarshalLen) :: (2 + cd.MarshalLen + cg.MarshalLen + d.value.length) :: (cd.writeBytes ++ cg.writeBytes ++ d.writeBytes ++ (sg.code % 256 :: sg.length % 256 :: sg.flagsByte :: (uint32To24 sg.LocalReference ++ [0])))) (8 + cd.MarshalLen + cg.MarshalLen + d.value.length)
            = .ok (sg.code % 256 :: sg.length % 256 :: sg.flagsByte :: (uint32To24 sg.LocalReference ++ [0])) := by
          rw [goSliceFrom_eq_ok (by rw [hlen]; omega)]
          congr 1
          rw [show (17 % 256 :: pcv :: hcv :: 4 :: (3 + cd.MarshalLen) :: (2 + cd.MarshalLen + cg.MarshalLen) :: (2 + cd.MarshalLen + cg.MarshalLen + d.value.length) :: (cd.writeBytes ++ cg.writeBytes ++ d.writeBytes ++ (sg.code % 256 :: sg.length % 256 :: sg.flagsByte :: (uint32To24 sg.LocalReference ++ [0]))))
              = ([17 % 256, pcv, hcv, 4, 3 + cd.MarshalLen, 2 + cd.MarshalLen + cg.MarshalLen,
                  2 + cd.MarshalLen + cg.MarshalLen + d.value.length]
                 ++ cd.writeBytes ++ cg.writeBytes ++ d.writeBytes) ++ (sg.code % 256 :: sg.length % 256 :: sg.flagsByte :: (uint32To24 sg.LocalReference ++ [0])) by simp]
          exact List.drop_left' (by simp [hcdb, hcgb, hdbl]; omega)
        rw [sF]; simp only [Res.bind_ok]
        have sG : ParseOptionalParameters (sg.code % 256 :: sg.length % 256 :: sg.flagsByte :: (uint32To24 sg.LocalReference ++ [0]))
            = .ok ([.seg sg, .eoo NewEndOfOptionalParameters], 6) := by
          simp only [ParseOptionalParameters]
          have hblen : ((sg.code % 256 :: sg.length % 256 :: sg.flagsByte :: (uint32To24 sg.LocalReference ++ [0]))).length = 7 := by
            simp [uint32To24]
          rw [hblen]
          rw [show (7:Nat) + 2 = 8 + 1 from rfl]
          simp only [ParseOptionalParametersAux]
          rw [if_pos (by norm_num)]
          rw [goSliceFrom_eq_ok (by rw [hblen]; omega)]
          simp only [List.drop_zero, Res.bind_ok]
          simp only [ParseOptionalParameter, List.length_cons]
          rw [if_neg (by omega)]
          simp only [List.getD_cons_zero]
          rw [if_neg (by simp [hsgcode, PCodeSegmentation, PCodeEndOfOptionalParameters])]
          rw [if_neg (by simp [hsgcode, PCodeSegmentation, PCodeCalledPartyAddress])]
          rw [if_neg (by simp [hsgcode, PCodeSegmentation, PCodeCallingPartyAddress])]
          rw [if_neg (by simp [hsgcode, PCodeSegmentation, PCodeCredit])]
          rw [if_neg (by simp [hsgcode, PCodeSegmentation, PCodeData])]
          rw [if_pos (by simp [hsgcode, PCodeSegmentation])]
          rw [Segmentation.seg_Read_enc sg hsgwf [0]]
          simp only [Res.bind_ok]
          rw [if_neg (show ¬(Param.Code (.seg sg) = PCodeEndOfOptionalParameters) by
            simp [Param.Code, hsgcode, PCodeSegmentation, PCodeEndOfOptionalParameters])]
          simp only [List.nil_append]
          rw [if_pos (by norm_num)]
          rw [goSliceFrom_eq_ok (by rw [hblen]; omega)]
          simp only [Res.bind_ok]
          rw [show List.drop (0 + 6) (sg.code % 256 :: sg.length % 256 :: sg.flagsByte :: (uint32To24 sg.LocalReference ++ [0])) = [0] from rfl]
          rw [if_neg (by simp)]
          simp only [List.getD_cons_zero, PCodeEndOfOptionalParameters]
          simp only [if_true]
          rw [EndOfOptionalParameters.eoo_Read_enc]
          simp only [Res.bind_ok]
          rw [if_pos (show Param.Code (.eoo NewEndOfOptionalParameters) = 0 from rfl)]
          simp
        rw [sG]; simp only [Res.bind_ok]
        simp [XUDT.assignOpts, XUDT.assignOpt, Param.Code, hsgcode, NewEndOfOptionalParameters,
          PCodeEndOfOptionalParameters, PCodeSegmentation, PCodeImportance]
      · have hsgwf2 := hsgwf
        obtain ⟨hsgpt, hsgcode, hsglen, hsgcls, hsgrem, hsglr⟩ := hsgwf2
        have himwf2 := himwf
        obtain ⟨himpt, himcode, himlen, himval⟩ := himwf2
        simp only [XUDT.enc, XUDT.UnmarshalBinary, XUDT.encBlock]
        rw [if_neg (show ¬(2 + cd.MarshalLen + cg.MarshalLen + d.value.length = 0) by omega)]
        simp only [show NewEndOfOptionalParameters.value = 0 from rfl, List.nil_append,
          List.cons_append, List.append_nil]
        have hlen : (17 % 256 :: pcv :: hcv :: 4 :: (3 + cd.MarshalLen) :: (2 + cd.MarshalLen + cg.MarshalLen) :: (2 + cd.MarshalLen + cg.MarshalLen + d.value.length) :: (cd.writeBytes ++ cg.writeBytes ++ d.writeBytes ++ (sg.code % 256 :: sg.length % 256 :: sg.flagsByte :: ((uint32To24 sg.LocalReference ++ [im.code % 256, im.length % 256, im.value]) ++ [0])))).length
            = 18 + cd.MarshalLen + cg.MarshalLen + d.value.length := by
          simp [hcdb, hcgb, hdbl, uint32To24]
          omega
        rw [hlen]
        rw [if_neg (by omega)]
        have spc : ProtocolClass.mk0.Read (List.drop 1 (17 % 256 :: pcv :: hcv :: 4 :: (3 + cd.MarshalLen) :: (2 + cd.MarshalLen + cg.MarshalLen) :: (2 + cd.MarshalLen + cg.MarshalLen + d.value.length) :: (cd.writeBytes ++ cg.writeBytes ++ d.writeBytes ++ (sg.code % 256 :: sg.length % 256 :: sg.flagsByte :: ((uint32To24 sg.LocalReference ++ [im.code % 256, im.length % 256, im.value]) ++ [0])))))
            = .ok (⟨PTypeF, PCodeProtocolClass, 1, pcv⟩, 1) := by
          simp only [List.drop_one, List.tail_cons, ProtocolClass.Read, List.length_cons]
          rw [if_neg (by omega)]
          simp [ProtocolClass.mk0, PTypeF]
        rw [spc]; simp only [Res.bind_ok]
        simp only [show (1:Nat)+1+1+3 = 6 from rfl, show (1:Nat)+1+1+2 = 5 from rfl,
          show (1:Nat)+1+1+1 = 4 from rfl, show (1:Nat)+1+1 = 3 from rfl,
          show (1:Nat)+1 = 2 from rfl]
        have shp : HopCounter.Read HopCounter.mk0 (List.drop 2 (17 % 256 :: pcv :: hcv :: 4 :: (3 + cd.MarshalLen) :: (2 + cd.MarshalLen + cg.MarshalLen) :: (2 + cd.MarshalLen + cg.MarshalLen + d.value.length) :: (cd.writeBytes ++ cg.writeBytes ++ d.writeBytes ++ (sg.code % 256 :: sg.length % 256 :: sg.flagsByte :: ((uint32To24 sg.LocalReference ++ [im.code % 256, im.length % 256, im.value]) ++ [0])))))
            = .ok (⟨PTypeF, PCodeHopCounter, 1, hcv⟩, 1) := by
          rw [show List.drop 2 (17 % 256 :: pcv :: hcv :: 4 :: (3 + cd.MarshalLen) :: (2 + cd.MarshalLen + cg.MarshalLen) :: (2 + cd.MarshalLen + cg.MarshalLen + d.value.length) :: (cd.writeBytes ++ cg.writeBytes ++ d.writeBytes ++ (sg.code % 256 :: sg.length % 256 :: sg.flagsByte :: ((uint32To24 sg.LocalReference ++ [im.code % 256, im.length % 256, im.value]) ++ [0]))))
              = hcv :: 4 :: (3 + cd.MarshalLen) :: (2 + cd.MarshalLen + cg.MarshalLen) :: (2 + cd.MarshalLen + cg.MarshalLen + d.value.length) :: (cd.writeBytes ++ cg.writeBytes ++ d.writeBytes ++ (sg.code % 256 :: sg.length % 256 :: sg.flagsByte :: ((uint32To24 sg.LocalReference ++ [im.code % 256, im.length % 256, im.value]) ++ [0]))) from rfl]
          simp only [HopCounter.Read, HopCounter.mk0, HopCounter.read, PTypeF, PTypeO,
            List.length_cons]
          rw [if_neg (by norm_num)]
          rw [if_neg (by omega)]
          simp
        rw [shp]; simp only [Res.bind_ok]
        simp only [show (1:Nat)+1+1+3 = 6 from rfl, show (1:Nat)+1+1+2 = 5 from rfl,
          show (1:Nat)+1+1+1 = 4 from rfl, show (1:Nat)+1+1 = 3 from rfl,
          show (1:Nat)+1 = 2 from rfl]
        rw [goIdx_eq_ok (show 3 < ((17 % 256 :: pcv :: hcv :: 4 :: (3 + cd.MarshalLen) :: (2 + cd.MarshalLen + cg.MarshalLen) :: (2 + cd.MarshalLen + cg.MarshalLen + d.value.length) :: (cd.writeBytes ++ cg.writeBytes ++ d.writeBytes ++ (sg.code % 256 :: sg.length % 256 :: sg.flagsByte :: ((uint32To24 sg.LocalReference ++ [im.code % 256, im.length % 256, im.value]) ++ [0]))))).length by rw [hlen]; omega)]
        simp only [Res.bind_ok]
        rw [show ((17 % 256 :: pcv :: hcv :: 4 :: (3 + cd.MarshalLen) :: (2 + cd.MarshalLen + cg.MarshalLen) :: (2 + cd.MarshalLen + cg.MarshalLen + d.value.length) :: (cd.writeBytes ++ cg.writeBytes ++ d.writeBytes ++ (sg.code % 256 :: sg.length % 256 :: sg.flagsByte :: ((uint32To24 sg.LocalReference ++ [im.code % 256, im.length % 256, im.value]) ++ [0]))))).getD 3 0 = 4 from rfl]
        rw [if_neg (by omega)]
        rw [goIdx_eq_ok (show 4 < ((17 % 256 :: pcv :: hcv :: 4 :: (3 + cd.MarshalLen) :: (2 + cd.MarshalLen + cg.MarshalLen) :: (2 + cd.MarshalLen + cg.MarshalLen + d.value.length) :: (cd.writeBytes ++ cg.writeBytes ++ d.writeBytes ++ (sg.code % 256 :: sg.length % 256 :: sg.flagsByte :: ((uint32To24 sg.LocalReference ++ [im.code % 256, im.length % 256, im.value]) ++ [0]))))).length by rw [hlen]; omega)]
        simp only [Res.bind_ok]
        rw [show ((17 % 256 :: pcv :: hcv :: 4 :: (3 + cd.MarshalLen) :: (2 + cd.MarshalLen + cg.MarshalLen) :: (2 + cd.MarshalLen + cg.MarshalLen + d.value.length) :: (cd.writeBytes ++ cg.writeBytes ++ d.writeBytes ++ (sg.code % 256 :: sg.length % 256 :: sg.flagsByte :: ((uint32To24 sg.LocalReference ++ [im.code % 256, im.length % 256, im.value]) ++ [0]))))).getD 4 0 = 3 + cd.MarshalLen from rfl]
        rw [show (3 + cd.MarshalLen + 4) % 256 = 7 + cd.MarshalLen by omega]
        rw [if_neg (by omega)]
        rw [goIdx_eq_ok (show 5 < ((17 % 256 :: pcv :: hcv :: 4 :: (3 + cd.MarshalLen) :: (2 + cd.MarshalLen + cg.MarshalLen) :: (2 + cd.MarshalLen + cg.MarshalLen + d.value.length) :: (cd.writeBytes ++ cg.writeBytes ++ d.writeBytes ++ (sg.code % 256 :: sg.length % 256 :: sg.flagsByte :: ((uint32To24 sg.LocalReference ++ [im.code % 256, im.length % 256, im.value]) ++ [0]))))).length by rw [hlen]; omega)]
        simp only [Res.bind_ok]
        rw [show ((17 % 256 :: pcv :: hcv :: 4 :: (3 + cd.MarshalLen) :: (2 + cd.MarshalLen + cg.MarshalLen) :: (2 + cd.MarshalLen + cg.MarshalLen + d.value.length) :: (cd.writeBytes ++ cg.writeBytes ++ d.writeBytes ++ (sg.code % 256 :: sg.length % 256 :: sg.flagsByte :: ((uint32To24 sg.LocalReference ++ [im.code % 256, im.length % 256, im.value]) ++ [0]))))).getD 5 0 = 2 + cd.MarshalLen + cg.MarshalLen from rfl]
        rw [show (2 + cd.MarshalLen + cg.MarshalLen + 5) % 256
            = 7 + cd.MarshalLen + cg.MarshalLen by omega]
        rw [if_neg (by omega)]
        rw [goIdx_eq_ok (show 6 < ((17 % 256 :: pcv :: hcv :: 4 :: (3 + cd.MarshalLen) :: (2 + cd.MarshalLen + cg.MarshalLen) :: (2 + cd.MarshalLen + cg.MarshalLen + d.value.length) :: (cd.writeBytes ++ cg.writeBytes ++ d.writeBytes ++ (sg.code % 256 :: sg.length % 256 :: sg.flagsByte :: ((uint32To24 sg.LocalReference ++ [im.code % 256, im.length % 256, im.value]) ++ [0]))))).length by rw [hlen]; omega)]
        simp only [Res.bind_ok]
        rw [show ((17 % 256 :: pcv :: hcv :: 4 :: (3 + cd.MarshalLen) :: (2 + cd.MarshalLen + cg.MarshalLen) :: (2 + cd.MarshalLen + cg.MarshalLen + d.value.length) :: (cd.writeBytes ++ cg.writeBytes ++ d.writeBytes ++ (sg.code % 256 :: sg.length % 256 :: sg.flagsByte :: ((uint32To24 sg.LocalReference ++ [im.code % 256, im.length % 256, im.value]) ++ [0]))))).getD 6 0 = 2 + cd.MarshalLen + cg.MarshalLen + d.value.length from rfl]
        rw [if_neg (show ¬(2 + cd.MarshalLen + cg.MarshalLen + d.value.length ≠ 0 ∧
            18 + cd.MarshalLen + cg.MarshalLen + d.value.length
              < 2 + cd.MarshalLen + cg.MarshalLen + d.value.length + 7) by rintro ⟨-, hx⟩; omega)]
        rw [show (2 + cd.MarshalLen + cg.MarshalLen + d.value.length + 6) % 256
            = 8 + cd.MarshalLen + cg.MarshalLen + d.value.length by omega]
        have sA : goSlice (17 % 256 :: pcv :: hcv :: 4 :: (3 + cd.MarshalLen) :: (2 + cd.MarshalLen + cg.MarshalLen) :: (2 + cd.MarshalLen + cg.MarshalLen + d.value.length) :: (cd.writeBytes ++ cg.writeBytes ++ d.writeBytes ++ (sg.code % 256 :: sg.length % 256 :: sg.flagsByte :: ((uint32To24 sg.LocalReference ++ [im.code % 256, im.length % 256, im.value]) ++ [0])))) 7 (7 + cd.MarshalLen) = .ok cd.writeBytes := by
          rw [goSlice_eq_ok (by omega) (by rw [hlen]; omega)]
          congr 1
          rw [show ((17 % 256 :: pcv :: hcv :: 4 :: (3 + cd.MarshalLen) :: (2 + cd.MarshalLen + cg.MarshalLen) :: (2 + cd.MarshalLen + cg.MarshalLen + d.value.length) :: (cd.writeBytes ++ cg.writeBytes ++ d.writeBytes ++ (sg.code % 256 :: sg.length % 256 :: sg.flagsByte :: ((uint32To24 sg.LocalReference ++ [im.code % 256, im.length % 256, im.value]) ++ [0]))))).drop 7 = cd.writeBytes ++ cg.writeBytes ++ d.writeBytes ++ (sg.code % 256 :: sg.length % 256 :: sg.flagsByte :: ((uint32To24 sg.LocalReference ++ [im.code % 256, im.length % 256, im.value]) ++ [0])) from rfl]
          rw [show 7 + cd.MarshalLen - 7 = cd.MarshalLen by omega]
          rw [List.append_assoc, List.append_assoc]
          exact List.take_left' hcdb
        rw [sA]; simp only [Res.bind_ok]
        obtain ⟨n1, hcdp⟩ := cd.pa_parse_writeBytes PCodeCalledPartyAddress hcd
        have sB : ParseCalledPartyAddress cd.writeBytes = .ok (cd, n1) := by
          simpa [ParseCalledPartyAddress] using hcdp
        rw [sB]; simp only [Res.bind_ok]
        have sC : goSlice (17 % 256 :: pcv :: hcv :: 4 :: (3 + cd.MarshalLen) :: (2 + cd.MarshalLen + cg.MarshalLen) :: (2 + cd.MarshalLen + cg.MarshalLen + d.value.length) :: (cd.writeBytes ++ cg.writeBytes ++ d.writeBytes ++ (sg.code % 256 :: sg.length % 256 :: sg.flagsByte :: ((uint32To24 sg.LocalReference ++ [im.code % 256, im.length % 256, im.value]) ++ [0])))) (7 + cd.MarshalLen) (7 + cd.MarshalLen + cg.MarshalLen)
            = .ok cg.writeBytes := by
          rw [goSlice_eq_ok (by omega) (by rw [hlen]; omega)]
          congr 1
          rw [show (17 % 256 :: pcv :: hcv :: 4 :: (3 + cd.MarshalLen) :: (2 + cd.MarshalLen + cg.MarshalLen) :: (2 + cd.MarshalLen + cg.MarshalLen + d.value.length) :: (cd.writeBytes ++ cg.writeBytes ++ d.writeBytes ++ (sg.code % 256 :: sg.length % 256 :: sg.flagsByte :: ((uint32To24 sg.LocalReference ++ [im.code % 256, im.length % 256, im.value]) ++ [0]))))
              = ([17 % 256, pcv, hcv, 4, 3 + cd.MarshalLen, 2 + cd.MarshalLen + cg.MarshalLen,
                  2 + cd.MarshalLen + cg.MarshalLen + d.value.length]
                 ++ cd.writeBytes) ++ (cg.writeBytes ++ (d.writeBytes ++ (sg.code % 256 :: sg.length % 256 :: sg.flagsByte :: ((uint32To24 sg.LocalReference ++ [im.code % 256, im.length % 256, im.value]) ++ [0])))) by simp]
          rw [List.drop_left' (by simp [hcdb]; omega)]
          rw [show 7 + cd.MarshalLen + cg.MarshalLen - (7 + cd.MarshalLen) = cg.MarshalLen by omega]
          exact List.take_left' hcgb
        rw [sC]; simp only [Res.bind_ok]
        obtain ⟨n2, hcgp⟩ := cg.pa_parse_writeBytes PCodeCallingPartyAddress hcg
        have sD : ParseCallingPartyAddress cg.writeBytes = .ok (cg, n2) := by
          simpa [ParseCallingPartyAddress] using hcgp
        rw [sD]; simp only [Res.bind_ok]
        have sE : goSliceFrom (17 % 256 :: pcv :: hcv :: 4 :: (3 + cd.MarshalLen) :: (2 + cd.MarshalLen + cg.MarshalLen) :: (2 + cd.MarshalLen + cg.MarshalLen + d.value.length) :: (cd.writeBytes ++ cg.writeBytes ++ d.writeBytes ++ (sg.code % 256 :: sg.length % 256 :: sg.flagsByte :: ((uint32To24 sg.LocalReference ++ [im.code % 256, im.length % 256, im.value]) ++ [0])))) (7 + cd.MarshalLen + cg.MarshalLen)
            = .ok (d.writeBytes ++ (sg.code % 256 :: sg.length % 256 :: sg.flagsByte :: ((uint32To24 sg.LocalReference ++ [im.code % 256, im.length % 256, im.value]) ++ [0]))) := by
          rw [goSliceFrom_eq_ok (by rw [hlen]; omega)]
          congr 1
          rw [show (17 % 256 :: pcv :: hcv :: 4 :: (3 + cd.MarshalLen) :: (2 + cd.MarshalLen + cg.MarshalLen) :: (2 + cd.MarshalLen + cg.MarshalLen + d.value.length) :: (cd.writeBytes ++ cg.writeBytes ++ d.writeBytes ++ (sg.code % 256 :: sg.length % 256 :: sg.flagsByte :: ((uint32To24 sg.LocalReference ++ [im.code % 256, im.length % 256, im.value]) ++ [0]))))
              = ([17 % 256, pcv, hcv, 4, 3 + cd.MarshalLen, 2 + cd.MarshalLen + cg.MarshalLen,
                  2 + cd.MarshalLen + cg.MarshalLen + d.value.length]
                 ++ cd.writeBytes ++ cg.writeBytes) ++ (d.writeBytes ++ (sg.code % 256 :: sg.length % 256 :: sg.flagsByte :: ((uint32To24 sg.LocalReference ++ [im.code % 256, im.length % 256, im.value]) ++ [0]))) by simp]
          exact List.drop_left' (by simp [hcdb, hcgb]; omega)
        rw [sE]; simp only [Res.bind_ok]
        obtain ⟨n3, hdp⟩ := d.data_parse_writeBytes hd (sg.code % 256 :: sg.length % 256 :: sg.flagsByte :: ((uint32To24 sg.LocalReference ++ [im.code % 256, im.length % 256, im.value]) ++ [0]))
        rw [hdp]; simp only [Res.bind_ok]
        rw [if_neg (by omega)]
        have sF : goSliceFrom (17 % 256 :: pcv :: hcv :: 4 :: (3 + cd.MarshalLen) :: (2 + cd.MarshalLen + cg.MarshalLen) :: (2 + cd.MarshalLen + cg.MarshalLen + d.value.length) :: (cd.writeBytes ++ cg.writeBytes ++ d.writeBytes ++ (sg.code % 256 :: sg.length % 256 :: sg.flagsByte :: ((uint32To24 sg.LocalReference ++ [im.code % 256, im.length % 256, im.value]) ++ [0])))) (8 + cd.MarshalLen + cg.MarshalLen + d.value.length)
            = .ok (sg.code % 256 :: sg.length % 256 :: sg.flagsByte :: ((uint32To24 sg.LocalReference ++ [im.code % 256, im.length % 256, im.value]) ++ [0])) := by
          rw [goSliceFrom_eq_ok (by rw [hlen]; omega)]
          congr 1
          rw [show (17 % 256 :: pcv :: hcv :: 4 :: (3 + cd.MarshalLen) :: (2 + cd.MarshalLen + cg.MarshalLen) :: (2 + cd.MarshalLen + cg.MarshalLen + d.value.length) :: (cd.writeBytes ++ cg.writeBytes ++ d.writeBytes ++ (sg.code % 256 :: sg.length % 256 :: sg.flagsByte :: ((uint32To24 sg.LocalReference ++ [im.code % 256, im.length % 256, im.value]) ++ [0]))))
              = ([17 % 256, pcv, hcv, 4, 3 + cd.MarshalLen, 2 + cd.MarshalLen + cg.MarshalLen,
                  2 + cd.MarshalLen + cg.MarshalLen + d.value.length]
                 ++ cd.writeBytes ++ cg.writeBytes ++ d.writeBytes) ++ (sg.code % 256 :: sg.length % 256 :: sg.flagsByte :: ((uint32To24 sg.LocalReference ++ [im.code % 256, im.length % 256, im.value]) ++ [0])) by simp]
          exact List.drop_left' (by simp [hcdb, hcgb, hdbl]; omega)
        rw [sF]; simp only [Res.bind_ok]
        have sG : ParseOptionalParameters (sg.code % 256 :: sg.length % 256 :: sg.flagsByte :: ((uint32To24 sg.LocalReference ++ [im.code % 256, im.length % 256, im.value]) ++ [0]))
            = .ok ([.seg sg, .imp im, .eoo NewEndOfOptionalParameters], 9) := by
          rw [List.append_assoc]
          rw [show [im.code % 256, im.length % 256, im.value] ++ [0]
              = [im.code % 256, im.length % 256, im.value, 0] from rfl]
          simp only [ParseOptionalParameters]
          have hblen : ((sg.code % 256 :: sg.length % 256 :: sg.flagsByte :: (uint32To24 sg.LocalReference ++ [im.code % 256, im.length % 256, im.value, 0]))).length = 10 := by
            simp [uint32To24]
          rw [hblen]
          rw [show (10:Nat) + 2 = 11 + 1 from rfl]
          simp only [ParseOptionalParametersAux]
          rw [if_pos (by norm_num)]
          rw [goSliceFrom_eq_ok (by rw [hblen]; omega)]
          simp only [List.drop_zero, Res.bind_ok]
          simp only [ParseOptionalParameter, List.length_cons]
          rw [if_neg (by omega)]
          simp only [List.getD_cons_zero]
          rw [if_neg (by simp [hsgcode, PCodeSegmentation, PCodeEndOfOptionalParameters])]
          rw [if_neg (by simp [hsgcode, PCodeSegmentation, PCodeCalledPartyAddress])]
          rw [if_neg (by simp [hsgcode, PCodeSegmentation, PCodeCallingPartyAddress])]
          rw [if_neg (by simp [hsgcode, PCodeSegmentation, PCodeCredit])]
          rw [if_neg (by simp [hsgcode, PCodeSegmentation, PCodeData])]
          rw [if_pos (by simp [hsgcode, PCodeSegmentation])]
          rw [Segmentation.seg_Read_enc sg hsgwf [im.code % 256, im.length % 256, im.value, 0]]
          simp only [Res.bind_ok]
          rw [if_neg (show ¬(Param.Code (.seg sg) = PCodeEndOfOptionalParameters) by
            simp [Param.Code, hsgcode, PCodeSegmentation, PCodeEndOfOptionalParameters])]
          simp only [List.nil_append]
          rw [if_pos (by norm_num)]
          rw [goSliceFrom_eq_ok (by rw [hblen]; omega)]
          simp only [Res.bind_ok]
          rw [show List.drop (0 + 6) (sg.code % 256 :: sg.length % 256 :: sg.flagsByte :: (uint32To24 sg.LocalReference ++ [im.code % 256, im.length % 256, im.value, 0]))
              = [im.code % 256, im.length % 256, im.value, 0] from rfl]
          rw [if_neg (by simp)]
          simp only [List.getD_cons_zero]
          rw [if_neg (by simp [himcode, PCodeImportance, PCodeEndOfOptionalParameters])]
          rw [if_neg (by simp [himcode, PCodeImportance, PCodeCalledPartyAddress])]
          rw [if_neg (by simp [himcode, PCodeImportance, PCodeCallingPartyAddress])]
          rw [if_neg (by simp [himcode, PCodeImportance, PCodeCredit])]
          rw [if_neg (by simp [himcode, PCodeImportance, PCodeData])]
          rw [if_neg (by simp [himcode, PCodeImportance, PCodeSegmentation])]
          rw [if_neg (by simp [himcode, PCodeImportance, PCodeHopCounter])]
          rw [if_pos (by simp [himcode, PCodeImportance])]
          rw [Importance.imp_Read_enc im himwf [0]]
          simp only [Res.bind_ok]
          rw [if_neg (show ¬(Param.Code (.imp im) = PCodeEndOfOptionalParameters) by
            simp [Param.Code, himcode, PCodeImportance, PCodeEndOfOptionalParameters])]
          simp only [List.nil_append, List.cons_append]
          rw [if_pos (by norm_num)]
          rw [goSliceFrom_eq_ok (by rw [hblen]; omega)]
          simp only [Res.bind_ok]
          rw [show List.drop (0 + 6 + 3) (sg.code % 256 :: sg.length % 256 :: sg.flagsByte :: (uint32To24 sg.LocalReference ++ [im.code % 256, im.length % 256, im.value, 0])) = [0] from rfl]
          rw [if_neg (by simp)]
          simp only [List.getD_cons_zero, PCodeEndOfOptionalParameters]
          simp only [if_true]
          rw [EndOfOptionalParameters.eoo_Read_enc]
          simp only [Res.bind_ok]
          rw [if_pos (show Param.Code (.eoo NewEndOfOptionalParameters) = 0 from rfl)]
        rw [sG]; simp only [Res.bind_ok]
        simp [XUDT.assignOpts, XUDT.assignOpt, Param.Code, hsgcode, himcode,
          NewEndOfOptionalParameters, PCodeEndOfOptionalParameters, PCodeSegmentation,
          PCodeImportance]

/-! ### Strict prefixes of canonical encodings fail with eof -/

set_option maxHeartbeats 2000000 in

theorem Data.parse_take (d : Data) (h : d.wf) (k : Nat) (hk : k ≤ d.value.length) :
    ParseData (d.writeBytes.take k) = .err .eof := by
  obtain ⟨hpt, hcode, hlen, hb⟩ := h
  rw [d.writeBytes_eq ⟨hpt, hcode, hlen, hb⟩]
  cases k with
  | zero =>
    simp [ParseData, Data.Read, Data.mk0, PTypeO, PTypeF, Data.read]
  | succ k =>
    rw [List.take_succ_cons]
    simp only [ParseData, Data.Read, Data.mk0, PTypeO, PTypeF]
    rw [if_neg (by norm_num)]
    simp only [Data.read, List.length_cons]
    rw [if_neg (by omega)]
    simp only [List.getD_cons_zero]
    rw [hlen]
    rw [if_neg (by omega)]
    rw [if_pos (by simp [List.length_take]; omega)]

theorem UDT.udt_decode_prefix (u : UDT) (h : u.wf) (i : Nat) (hi : i < u.enc.length) :
    UDT.UnmarshalBinary (u.enc.take i) = .err .eof := by
  obtain ⟨mt, pco, cdo, cgo, dto, p1, p2, p3⟩ := u
  obtain ⟨hmt, hp1, hrest⟩ := h
  cases pco with
  | none => simp at hrest
  | some pc =>
  cases cdo with
  | none => simp at hrest
  | some cd =>
  cases cgo with
  | none => simp at hrest
  | some cg =>
  cases dto with
  | none => simp at hrest
  | some d =>
  simp only at hrest
  obtain ⟨hpc, hcd, hcg, hd, hp2, hp3, hbound⟩ := hrest
  simp only at hp2 hp3 hmt hp1
  subst hp2; subst hp3; subst hmt; subst hp1
  obtain ⟨pc0, pc1, pc2, pcv⟩ := pc
  obtain ⟨hx0, hx1, hx2, hx3⟩ := hpc
  simp only at hx0 hx1 hx2 hx3
  subst hx0; subst hx1; subst hx2
  have hMcd := cd.two_le_MarshalLen
  have hMcg := cg.two_le_MarshalLen
  have hcdb := cd.pa_writeBytes_length
  have hcgb := cg.pa_writeBytes_length
  have hdbl : d.writeBytes.length = 1 + d.value.length := by
    obtain ⟨-, -, hdlen, -⟩ := hd
    simp [Data.writeBytes, hdlen]
    omega
  simp only [UDT.enc] at hi ⊢
  have hlen : (9 % 256 :: pcv :: 3 :: (2 + cd.MarshalLen) :: (1 + cd.MarshalLen + cg.MarshalLen) ::
      (cd.writeBytes ++ cg.writeBytes ++ d.writeBytes)).length
      = 6 + cd.MarshalLen + cg.MarshalLen + d.value.length := by
    simp [hcdb, hcgb, hdbl]
    omega
  rw [hlen] at hi
  by_cases h5 : i ≤ 5
  · simp only [UDT.UnmarshalBinary]
    rw [List.length_take, hlen]
    rw [if_pos (by omega)]
  · obtain ⟨j, rfl⟩ : ∃ j, i = j + 6 := ⟨i - 6, by omega⟩
    rw [show j + 6 = (j+5)+1 from rfl, List.take_succ_cons,
        show j + 5 = (j+4)+1 from rfl, List.take_succ_cons,
        show j + 4 = (j+3)+1 from rfl, List.take_succ_cons,
        show j + 3 = (j+2)+1 from rfl, List.take_succ_cons,
        show j + 2 = (j+1)+1 from rfl, List.take_succ_cons]
    have hlen2 : (9 % 256 :: pcv :: 3 :: (2 + cd.MarshalLen) :: (1 + cd.MarshalLen + cg.MarshalLen) :: List.take (j + 1) (cd.writeBytes ++ cg.writeBytes ++ d.writeBytes)).length = j + 6 := by
      simp [List.length_take, hcdb, hcgb, hdbl]
      omega
    simp only [UDT.UnmarshalBinary]
    rw [hlen2]
    rw [if_neg (by omega)]
    have spc : ProtocolClass.mk0.Read (List.drop 1 (9 % 256 :: pcv :: 3 :: (2 + cd.MarshalLen) :: (1 + cd.MarshalLen + cg.MarshalLen) :: List.take (j + 1) (cd.writeBytes ++ cg.writeBytes ++ d.writeBytes)))
        = .ok (⟨PTypeF, PCodeProtocolClass, 1, pcv⟩, 1) := by
      simp only [List.drop_one, List.tail_cons, ProtocolClass.Read, List.length_cons]
      rw [if_neg (by omega)]
      simp [ProtocolClass.mk0, PTypeF]
    rw [spc]; simp only [Res.bind_ok]
    simp only [show (1:Nat)+1+3 = 5 from rfl, show (1:Nat)+1+2 = 4 from rfl,
      show (1:Nat)+1+1 = 3 from rfl, show (1:Nat)+1 = 2 from rfl]
    rw [goIdx_eq_ok (show 2 < ((9 % 256 :: pcv :: 3 :: (2 + cd.MarshalLen) :: (1 + cd.MarshalLen + cg.MarshalLen) :: List.take (j + 1) (cd.writeBytes ++ cg.writeBytes ++ d.writeBytes))).length by rw [hlen2]; omega)]
    simp only [Res.bind_ok]
    rw [show ((9 % 256 :: pcv :: 3 :: (2 + cd.MarshalLen) :: (1 + cd.MarshalLen + cg.MarshalLen) :: List.take (j + 1) (cd.writeBytes ++ cg.writeBytes ++ d.writeBytes))).getD 2 0 = 3 from rfl]
    rw [if_neg (by omega)]
    rw [goIdx_eq_ok (show 3 < ((9 % 256 :: pcv :: 3 :: (2 + cd.MarshalLen) :: (1 + cd.MarshalLen + cg.MarshalLen) :: List.take (j + 1) (cd.writeBytes ++ cg.writeBytes ++ d.writeBytes))).length by rw [hlen2]; omega)]
    simp only [Res.bind_ok]
    rw [show ((9 % 256 :: pcv :: 3 :: (2 + cd.MarshalLen) :: (1 + cd.MarshalLen + cg.MarshalLen) :: List.take (j + 1) (cd.writeBytes ++ cg.writeBytes ++ d.writeBytes))).getD 3 0 = 2 + cd.MarshalLen from rfl]
    rw [show (2 + cd.MarshalLen + 3) % 256 = 5 + cd.MarshalLen by omega]
    by_cases hA : j + 6 < 5 + cd.MarshalLen
    · rw [if_pos hA]
    rw [if_neg hA]
    rw [goIdx_eq_ok (show 4 < ((9 % 256 :: pcv :: 3 :: (2 + cd.MarshalLen) :: (1 + cd.MarshalLen + cg.MarshalLen) :: List.take (j + 1) (cd.writeBytes ++ cg.writeBytes ++ d.writeBytes))).length by rw [hlen2]; omega)]
    simp only [Res.bind_ok]
    rw [show ((9 % 256 :: pcv :: 3 :: (2 + cd.MarshalLen) :: (1 + cd.MarshalLen + cg.MarshalLen) :: List.take (j + 1) (cd.writeBytes ++ cg.writeBytes ++ d.writeBytes))).getD 4 0 = 1 + cd.MarshalLen + cg.MarshalLen from rfl]
    rw [show (1 + cd.MarshalLen + cg.MarshalLen + 5) % 256
        = 6 + cd.MarshalLen + cg.MarshalLen by omega]
    by_cases hB : j + 6 < 6 + cd.MarshalLen + cg.MarshalLen
    · rw [if_pos hB]
    rw [if_neg hB]
    rw [show (1 + cd.MarshalLen + cg.MarshalLen + 4) % 256
        = 5 + cd.MarshalLen + cg.MarshalLen by omega]
    have sA : goSlice (9 % 256 :: pcv :: 3 :: (2 + cd.MarshalLen) :: (1 + cd.MarshalLen + cg.MarshalLen) :: List.take (j + 1) (cd.writeBytes ++ cg.writeBytes ++ d.writeBytes)) 5 (5 + cd.MarshalLen) = .ok cd.writeBytes := by
      rw [goSlice_eq_ok (by omega) (by rw [hlen2]; omega)]
      congr 1
      rw [show ((9 % 256 :: pcv :: 3 :: (2 + cd.MarshalLen) :: (1 + cd.MarshalLen + cg.MarshalLen) :: List.take (j + 1) (cd.writeBytes ++ cg.writeBytes ++ d.writeBytes))).drop 5 = List.take (j + 1) (cd.writeBytes ++ cg.writeBytes ++ d.writeBytes) from rfl]
      rw [show 5 + cd.MarshalLen - 5 = cd.MarshalLen by omega]
      rw [List.take_take]
      rw [show min cd.MarshalLen (j + 1) = cd.MarshalLen by omega]
      rw [List.append_assoc]
      exact List.take_left' hcdb
    rw [sA]; simp only [Res.bind_ok]
    obtain ⟨n1, hcdp⟩ := cd.pa_parse_writeBytes PCodeCalledPartyAddress hcd
    have sB : ParseCalledPartyAddress cd.writeBytes = .ok (cd, n1) := by
      simpa [ParseCalledPartyAddress] using hcdp
    rw [sB]; simp only [Res.bind_ok]
    have hTdrop : ∀ m : Nat, ((9 % 256 :: pcv :: 3 :: (2 + cd.MarshalLen) :: (1 + cd.MarshalLen + cg.MarshalLen) :: List.take (j + 1) (cd.writeBytes ++ cg.writeBytes ++ d.writeBytes))).drop (5 + m)
        = List.take (j + 1 - m) ((cd.writeBytes ++ cg.writeBytes ++ d.writeBytes).drop m) := by
      intro m
      rw [show 5 + m = 5 + m from rfl, ← List.drop_drop]
      rw [show ((9 % 256 :: pcv :: 3 :: (2 + cd.MarshalLen) :: (1 + cd.MarshalLen + cg.MarshalLen) :: List.take (j + 1) (cd.writeBytes ++ cg.writeBytes ++ d.writeBytes))).drop 5 = List.take (j + 1) (cd.writeBytes ++ cg.writeBytes ++ d.writeBytes) from rfl]
      rw [List.drop_take]
    have sC : goSlice (9 % 256 :: pcv :: 3 :: (2 + cd.MarshalLen) :: (1 + cd.MarshalLen + cg.MarshalLen) :: List.take (j + 1) (cd.writeBytes ++ cg.writeBytes ++ d.writeBytes)) (5 + cd.MarshalLen) (5 + cd.MarshalLen + cg.MarshalLen)
        = .ok cg.writeBytes := by
      rw [goSlice_eq_ok (by omega) (by rw [hlen2]; omega)]
      congr 1
      rw [hTdrop cd.MarshalLen]
      rw [show (cd.writeBytes ++ cg.writeBytes ++ d.writeBytes)
          = cd.writeBytes ++ (cg.writeBytes ++ d.writeBytes) by simp]
      rw [List.drop_left' hcdb]
      rw [show 5 + cd.MarshalLen + cg.MarshalLen - (5 + cd.MarshalLen) = cg.MarshalLen by omega]
      rw [List.take_take]
      rw [show min cg.MarshalLen (j + 1 - cd.MarshalLen) = cg.MarshalLen by omega]
      exact List.take_left' hcgb
    rw [sC]; simp only [Res.bind_ok]
    obtain ⟨n2, hcgp⟩ := cg.pa_parse_writeBytes PCodeCallingPartyAddress hcg
    have sD : ParseCallingPartyAddress cg.writeBytes = .ok (cg, n2) := by
      simpa [ParseCallingPartyAddress] using hcgp
    rw [sD]; simp only [Res.bind_ok]
    have sE : goSliceFrom (9 % 256 :: pcv :: 3 :: (2 + cd.MarshalLen) :: (1 + cd.MarshalLen + cg.MarshalLen) :: List.take (j + 1) (cd.writeBytes ++ cg.writeBytes ++ d.writeBytes)) (5 + cd.MarshalLen + cg.MarshalLen)
        = .ok (d.writeBytes.take (j + 1 - cd.MarshalLen - cg.MarshalLen)) := by
      rw [goSliceFrom_eq_ok (by rw [hlen2]; omega)]
      congr 1
      rw [show 5 + cd.MarshalLen + cg.MarshalLen = 5 + (cd.MarshalLen + cg.MarshalLen) by omega]
      rw [hTdrop (cd.MarshalLen + cg.MarshalLen)]
      rw [List.drop_left' (by simp [hcdb, hcgb])]
      rw [show j + 1 - (cd.MarshalLen + cg.MarshalLen) = j + 1 - cd.MarshalLen - cg.MarshalLen by omega]
    rw [sE]; simp only [Res.bind_ok]
    rw [Data.parse_take d hd _ (by omega)]
    simp only [Res.bind_err]

set_option maxHeartbeats 4000000 in

theorem XUDT.xudt_decode_prefix (x : XUDT) (h : x.wf) (i : Nat) (hi : i < x.enc.length) :
    XUDT.UnmarshalBinary (x.enc.take i) = .err .eof := by
  obtain ⟨mt, pco, hco, cdo, cgo, dto, sgo, imo, eoo, p1, p2, p3, p4⟩ := x
  obtain ⟨hmt, hp1, hrest⟩ := h
  cases pco with
  | none => simp at hrest
  | some pc =>
  cases hco with
  | none => simp at hrest
  | some hc =>
  cases cdo with
  | none => simp at hrest
  | some cd =>
  cases cgo with
  | none => simp at hrest
  | some cg =>
  cases dto with
  | none => simp at hrest
  | some d =>
  simp only at hrest
  obtain ⟨hpc, hhc, hcd, hcg, hd, hp2, hp3, hor⟩ := hrest
  simp only at hp2 hp3 hmt hp1
  subst hp2; subst hp3; subst hmt; subst hp1
  obtain ⟨pc0, pc1, pc2, pcv⟩ := pc
  obtain ⟨hx0, hx1, hx2, hx3⟩ := hpc
  simp only at hx0 hx1 hx2 hx3
  subst hx0; subst hx1; subst hx2
  obtain ⟨hc0, hc1, hc2, hcv⟩ := hc
  obtain ⟨hy0, hy1, hy2, hy3⟩ := hhc
  simp only at hy0 hy1 hy2 hy3
  subst hy0; subst hy1; subst hy2
  have hMcd := cd.two_le_MarshalLen
  have hMcg := cg.two_le_MarshalLen
  have hcdb := cd.pa_writeBytes_length
  have hcgb := cg.pa_writeBytes_length
  have hdbl : d.writeBytes.length = 1 + d.value.length := by
    obtain ⟨-, -, hdlen, -⟩ := hd
    simp [Data.writeBytes, hdlen]
    omega
  rcases hor with ⟨hp4, hsg, him, heoo, hbound⟩ | ⟨hp4, heoo, hsgwf, himwf, hbound⟩
  · subst hp4; subst hsg; subst him; subst heoo
    simp only [XUDT.enc, if_true, List.append_nil] at hi ⊢
    have hlen : (17 % 256 :: pcv :: hcv :: 4 :: (3 + cd.MarshalLen) :: (2 + cd.MarshalLen + cg.MarshalLen) :: 0 ::
        (cd.writeBytes ++ cg.writeBytes ++ d.writeBytes)).length
        = 8 + cd.MarshalLen + cg.MarshalLen + d.value.length := by
      simp [hcdb, hcgb, hdbl]
      omega
    rw [hlen] at hi
    by_cases h5 : i ≤ 5
    · simp only [XUDT.UnmarshalBinary]
      rw [List.length_take, hlen]
      rw [if_pos (by omega)]
    by_cases h6 : i = 6
    · subst h6
      rw [show (6:Nat) = 5+1 from rfl, List.take_succ_cons,
          show (5:Nat) = 4+1 from rfl, List.take_succ_cons,
          show (4:Nat) = 3+1 from rfl, List.take_succ_cons,
          show (3:Nat) = 2+1 from rfl, List.take_succ_cons,
          show (2:Nat) = 1+1 from rfl, List.take_succ_cons,
          show (1:Nat) = 0+1 from rfl, List.take_succ_cons, List.take_zero]
      simp only [XUDT.UnmarshalBinary, List.length_cons, List.length_nil]
      rw [if_neg (by omega)]
      have spc : ProtocolClass.mk0.Read (List.drop 1 [17 % 256, pcv, hcv, 4, 3 + cd.MarshalLen, 2 + cd.MarshalLen + cg.MarshalLen])
          = .ok (⟨PTypeF, PCodeProtocolClass, 1, pcv⟩, 1) := by
        simp only [List.drop_one, List.tail_cons, ProtocolClass.Read, List.length_cons]
        rw [if_neg (by omega)]
        simp [ProtocolClass.mk0, PTypeF]
      rw [spc]; simp only [Res.bind_ok]
      simp only [show (1:Nat)+1+1 = 3 from rfl, show (1:Nat)+1 = 2 from rfl]
      have shp : HopCounter.Read HopCounter.mk0 (List.drop 2 [17 % 256, pcv, hcv, 4, 3 + cd.MarshalLen, 2 + cd.MarshalLen + cg.MarshalLen])
          = .ok (⟨PTypeF, PCodeHopCounter, 1, hcv⟩, 1) := by
        rw [show List.drop 2 [17 % 256, pcv, hcv, 4, 3 + cd.MarshalLen, 2 + cd.MarshalLen + cg.MarshalLen]
            = [hcv, 4, 3 + cd.MarshalLen, 2 + cd.MarshalLen + cg.MarshalLen] from rfl]
        simp only [HopCounter.Read, HopCounter.mk0, HopCounter.read, PTypeF, PTypeO,
          List.length_cons]
        rw [if_neg (by norm_num)]
        rw [if_neg (by omega)]
        simp
      rw [shp]; simp only [Res.bind_ok]
      simp only [show (1:Nat)+1+1 = 3 from rfl, show (1:Nat)+1 = 2 from rfl]
      rw [goIdx_eq_ok (show 3 < ([17 % 256, pcv, hcv, 4, 3 + cd.MarshalLen, 2 + cd.MarshalLen + cg.MarshalLen]).length by simp)]
      simp only [Res.bind_ok]
      rw [show ([17 % 256, pcv, hcv, 4, 3 + cd.MarshalLen, 2 + cd.MarshalLen + cg.MarshalLen]).getD 3 0 = 4 from rfl]
      rw [if_neg (by omega)]
      rw [goIdx_eq_ok (show 4 < ([17 % 256, pcv, hcv, 4, 3 + cd.MarshalLen, 2 + cd.MarshalLen + cg.MarshalLen]).length by simp)]
      simp only [Res.bind_ok]
      rw [show ([17 % 256, pcv, hcv, 4, 3 + cd.MarshalLen, 2 + cd.MarshalLen + cg.MarshalLen]).getD 4 0 = 3 + cd.MarshalLen from rfl]
      rw [show (3 + cd.MarshalLen + 4) % 256 = 7 + cd.MarshalLen by omega]
      rw [if_pos (by omega)]
    obtain ⟨j, rfl⟩ : ∃ j, i = j + 7 := ⟨i - 7, by omega⟩
    rw [show j + 7 = (j+6)+1 from rfl, List.take_succ_cons,
        show j + 6 = (j+5)+1 from rfl, List.take_succ_cons,
        show j + 5 = (j+4)+1 from rfl, List.take_succ_cons,
        show j + 4 = (j+3)+1 from rfl, List.take_succ_cons,
        show j + 3 = (j+2)+1 from rfl, List.take_succ_cons,
        show j + 2 = (j+1)+1 from rfl, List.take_succ_cons,
        show j + 1 = j+1 from rfl, List.take_succ_cons]
    have hlen2 : (17 % 256 :: pcv :: hcv :: 4 :: (3 + cd.MarshalLen) :: (2 + cd.MarshalLen + cg.MarshalLen) :: 0 :: List.take j (cd.writeBytes ++ cg.writeBytes ++ d.writeBytes)).length = j + 7 := by
      simp [List.length_take, hcdb, hcgb, hdbl]
      omega
    simp only [XUDT.UnmarshalBinary]
    rw [hlen2]
    rw [if_neg (by omega)]
    have spc : ProtocolClass.mk0.Read (List.drop 1 (17 % 256 :: pcv :: hcv :: 4 :: (3 + cd.MarshalLen) :: (2 + cd.MarshalLen + cg.MarshalLen) :: 0 :: List.take j (cd.writeBytes ++ cg.writeBytes ++ d.writeBytes)))
        = .ok (⟨PTypeF, PCodeProtocolClass, 1, pcv⟩, 1) := by
      simp only [List.drop_one, List.tail_cons, ProtocolClass.Read, List.length_cons]
      rw [if_neg (by omega)]
      simp [ProtocolClass.mk0, PTypeF]
    rw [spc]; simp only [Res.bind_ok]
    simp only [show (1:Nat)+1+1+3 = 6 from rfl, show (1:Nat)+1+1+2 = 5 from rfl,
      show (1:Nat)+1+1+1 = 4 from rfl, show (1:Nat)+1+1 = 3 from rfl,
      show (1:Nat)+1 = 2 from rfl]
    have shp : HopCounter.Read HopCounter.mk0 (List.drop 2 (17 % 256 :: pcv :: hcv :: 4 :: (3 + cd.MarshalLen) :: (2 + cd.MarshalLen + cg.MarshalLen) :: 0 :: List.take j (cd.writeBytes ++ cg.writeBytes ++ d.writeBytes)))
        = .ok (⟨PTypeF, PCodeHopCounter, 1, hcv⟩, 1) := by
      rw [show List.drop 2 (17 % 256 :: pcv :: hcv :: 4 :: (3 + cd.MarshalLen) :: (2 + cd.MarshalLen + cg.MarshalLen) :: 0 :: List.take j (cd.writeBytes ++ cg.writeBytes ++ d.writeBytes))
          = hcv :: 4 :: (3 + cd.MarshalLen) :: (2 + cd.MarshalLen + cg.MarshalLen) :: 0 :: List.take j (cd.writeBytes ++ cg.writeBytes ++ d.writeBytes) from rfl]
      simp only [HopCounter.Read, HopCounter.mk0, HopCounter.read, PTypeF, PTypeO,
        List.length_cons]
      rw [if_neg (by norm_num)]
      rw [if_neg (by omega)]
      simp
    rw [shp]; simp only [Res.bind_ok]
    simp only [show (1:Nat)+1+1+3 = 6 from rfl, show (1:Nat)+1+1+2 = 5 from rfl,
      show (1:Nat)+1+1+1 = 4 from rfl, show (1:Nat)+1+1 = 3 from rfl,
      show (1:Nat)+1 = 2 from rfl]
    rw [goIdx_eq_ok (show 3 < ((17 % 256 :: pcv :: hcv :: 4 :: (3 + cd.MarshalLen) :: (2 + cd.MarshalLen + cg.MarshalLen) :: 0 :: List.take j (cd.writeBytes ++ cg.writeBytes ++ d.writeBytes))).length by rw [hlen2]; omega)]
    simp only [Res.bind_ok]
    rw [show ((17 % 256 :: pcv :: hcv :: 4 :: (3 + cd.MarshalLen) :: (2 + cd.MarshalLen + cg.MarshalLen) :: 0 :: List.take j (cd.writeBytes ++ cg.writeBytes ++ d.writeBytes))).getD 3 0 = 4 from rfl]
    rw [if_neg (by omega)]
    rw [goIdx_eq_ok (show 4 < ((17 % 256 :: pcv :: hcv :: 4 :: (3 + cd.MarshalLen) :: (2 + cd.MarshalLen + cg.MarshalLen) :: 0 :: List.take j (cd.writeBytes ++ cg.writeBytes ++ d.writeBytes))).length by rw [hlen2]; omega)]
    simp only [Res.bind_ok]
    rw [show ((17 % 256 :: pcv :: hcv :: 4 :: (3 + cd.MarshalLen) :: (2 + cd.MarshalLen + cg.MarshalLen) :: 0 :: List.take j (cd.writeBytes ++ cg.writeBytes ++ d.writeBytes))).getD 4 0 = 3 + cd.MarshalLen from rfl]
    rw [show (3 + cd.MarshalLen + 4) % 256 = 7 + cd.MarshalLen by omega]
    by_cases hA : j + 7 < 7 + cd.MarshalLen
    · rw [if_pos hA]
    rw [if_neg hA]
    rw [goIdx_eq_ok (show 5 < ((17 % 256 :: pcv :: hcv :: 4 :: (3 + cd.MarshalLen) :: (2 + cd.MarshalLen + cg.MarshalLen) :: 0 :: List.take j (cd.writeBytes ++ cg.writeBytes ++ d.writeBytes))).length by rw [hlen2]; omega)]
    simp only [Res.bind_ok]
    rw [show ((17 % 256 :: pcv :: hcv :: 4 :: (3 + cd.MarshalLen) :: (2 + cd.MarshalLen + cg.MarshalLen) :: 0 :: List.take j (cd.writeBytes ++ cg.writeBytes ++ d.writeBytes))).getD 5 0 = 2 + cd.MarshalLen + cg.MarshalLen from rfl]
    rw [show (2 + cd.MarshalLen + cg.MarshalLen + 5) % 256
        = 7 + cd.MarshalLen + cg.MarshalLen by omega]
    by_cases hB : j + 7 < 7 + cd.MarshalLen + cg.MarshalLen
    · rw [if_pos hB]
    rw [if_neg hB]
    rw [goIdx_eq_ok (show 6 < ((17 % 256 :: pcv :: hcv :: 4 :: (3 + cd.MarshalLen) :: (2 + cd.MarshalLen + cg.MarshalLen) :: 0 :: List.take j (cd.writeBytes ++ cg.writeBytes ++ d.writeBytes))).length by rw [hlen2]; omega)]
    simp only [Res.bind_ok]
    rw [show ((17 % 256 :: pcv :: hcv :: 4 :: (3 + cd.MarshalLen) :: (2 + cd.MarshalLen + cg.MarshalLen) :: 0 :: List.take j (cd.writeBytes ++ cg.writeBytes ++ d.writeBytes))).getD 6 0 = 0 from rfl]
    rw [if_neg (by simp)]
    have sA : goSlice (17 % 256 :: pcv :: hcv :: 4 :: (3 + cd.MarshalLen) :: (2 + cd.MarshalLen + cg.MarshalLen) :: 0 :: List.take j (cd.writeBytes ++ cg.writeBytes ++ d.writeBytes)) 7 (7 + cd.MarshalLen) = .ok cd.writeBytes := by
      rw [goSlice_eq_ok (by omega) (by rw [hlen2]; omega)]
      congr 1
      rw [show ((17 % 256 :: pcv :: hcv :: 4 :: (3 + cd.MarshalLen) :: (2 + cd.MarshalLen + cg.MarshalLen) :: 0 :: List.take j (cd.writeBytes ++ cg.writeBytes ++ d.writeBytes))).drop 7 = List.take j (cd.writeBytes ++ cg.writeBytes ++ d.writeBytes) from rfl]
      rw [show 7 + cd.MarshalLen - 7 = cd.MarshalLen by omega]
      rw [List.take_take]
      rw [show min cd.MarshalLen j = cd.MarshalLen by omega]
      rw [List.append_assoc]
      exact List.take_left' hcdb
    rw [sA]; simp only [Res.bind_ok]
    obtain ⟨n1, hcdp⟩ := cd.pa_parse_writeBytes PCodeCalledPartyAddress hcd
    have sB : ParseCalledPartyAddress cd.writeBytes = .ok (cd, n1) := by
      simpa [ParseCalledPartyAddress] using hcdp
    rw [sB]; simp only [Res.bind_ok]
    have hTdrop : ∀ m : Nat, ((17 % 256 :: pcv :: hcv :: 4 :: (3 + cd.MarshalLen) :: (2 + cd.MarshalLen + cg.MarshalLen) :: 0 :: List.take j (cd.writeBytes ++ cg.writeBytes ++ d.writeBytes))).drop (7 + m)
        = List.take (j - m) ((cd.writeBytes ++ cg.writeBytes ++ d.writeBytes).drop m) := by
      intro m
      rw [← List.drop_drop]
      rw [show ((17 % 256 :: pcv :: hcv :: 4 :: (3 + cd.MarshalLen) :: (2 + cd.MarshalLen + cg.MarshalLen) :: 0 :: List.take j (cd.writeBytes ++ cg.writeBytes ++ d.writeBytes))).drop 7 = List.take j (cd.writeBytes ++ cg.writeBytes ++ d.writeBytes) from rfl]
      rw [List.drop_take]
    have sC : goSlice (17 % 256 :: pcv :: hcv :: 4 :: (3 + cd.MarshalLen) :: (2 + cd.MarshalLen + cg.MarshalLen) :: 0 :: List.take j (cd.writeBytes ++ cg.writeBytes ++ d.writeBytes)) (7 + cd.MarshalLen) (7 + cd.MarshalLen + cg.MarshalLen)
        = .ok cg.writeBytes := by
      rw [goSlice_eq_ok (by omega) (by rw [hlen2]; omega)]
      congr 1
      rw [hTdrop cd.MarshalLen]
      rw [show (cd.writeBytes ++ cg.writeBytes ++ d.writeBytes) = cd.writeBytes ++ (cg.writeBytes ++ d.writeBytes) by simp]
      rw [List.drop_left' hcdb]
      rw [show 7 + cd.MarshalLen + cg.MarshalLen - (7 + cd.MarshalLen) = cg.MarshalLen by omega]
      rw [List.take_take]
      rw [show min cg.MarshalLen (j - cd.MarshalLen) = cg.MarshalLen by omega]
      exact List.take_left' hcgb
    rw [sC]; simp only [Res.bind_ok]
    obtain ⟨n2, hcgp⟩ := cg.pa_parse_writeBytes PCodeCallingPartyAddress hcg
    have sD : ParseCallingPartyAddress cg.writeBytes = .ok (cg, n2) := by
      simpa [ParseCallingPartyAddress] using hcgp
    rw [sD]; simp only [Res.bind_ok]
    have sE : goSliceFrom (17 % 256 :: pcv :: hcv :: 4 :: (3 + cd.MarshalLen) :: (2 + cd.MarshalLen + cg.MarshalLen) :: 0 :: List.take j (cd.writeBytes ++ cg.writeBytes ++ d.writeBytes)) (7 + cd.MarshalLen + cg.MarshalLen)
        = .ok (d.writeBytes.take (j - cd.MarshalLen - cg.MarshalLen)) := by
      rw [goSliceFrom_eq_ok (by rw [hlen2]; omega)]
      congr 1
      rw [show 7 + cd.MarshalLen + cg.MarshalLen = 7 + (cd.MarshalLen + cg.MarshalLen) by omega]
      rw [hTdrop (cd.MarshalLen + cg.MarshalLen)]
      rw [List.drop_left' (by simp [hcdb, hcgb])]
      rw [show j - (cd.MarshalLen + cg.MarshalLen) = j - cd.MarshalLen - cg.MarshalLen by omega]
    rw [sE]; simp only [Res.bind_ok]
    rw [Sccp.Data.parse_take d hd _ (by omega)]
    simp only [Res.bind_err]
  · subst hp4; subst heoo
    rcases sgo with _ | sg
    · rcases imo with _ | im
      ·
        simp only [XUDT.enc, XUDT.encBlock] at hi ⊢
        rw [if_neg (show ¬(2 + cd.MarshalLen + cg.MarshalLen + d.value.length = 0) by omega)] at hi ⊢
        simp only [show NewEndOfOptionalParameters.value = 0 from rfl, List.nil_append,
          List.cons_append, List.append_nil] at hi ⊢
        have hlenF : (17 % 256 :: pcv :: hcv :: 4 :: (3 + cd.MarshalLen) :: (2 + cd.MarshalLen + cg.MarshalLen) :: (2 + cd.MarshalLen + cg.MarshalLen + d.value.length) :: (cd.writeBytes ++ cg.writeBytes ++ d.writeBytes ++ [0])).length
            = 9 + cd.MarshalLen + cg.MarshalLen + d.value.length := by
          simp [hcdb, hcgb, hdbl, uint32To24]
          omega
        rw [hlenF] at hi
        by_cases h5 : i ≤ 5
        · simp only [XUDT.UnmarshalBinary]
          rw [List.length_take, hlenF]
          rw [if_pos (by omega)]
        by_cases h6 : i = 6
        · subst h6
          rw [show (6:Nat) = 5+1 from rfl, List.take_succ_cons,
              show (5:Nat) = 4+1 from rfl, List.take_succ_cons,
              show (4:Nat) = 3+1 from rfl, List.take_succ_cons,
              show (3:Nat) = 2+1 from rfl, List.take_succ_cons,
              show (2:Nat) = 1+1 from rfl, List.take_succ_cons,
              show (1:Nat) = 0+1 from rfl, List.take_succ_cons, List.take_zero]
          simp only [XUDT.UnmarshalBinary, List.length_cons, List.length_nil]
          rw [if_neg (by omega)]
          have spc : ProtocolClass.mk0.Read (List.drop 1 [17 % 256, pcv, hcv, 4, 3 + cd.MarshalLen, 2 + cd.MarshalLen + cg.MarshalLen])
              = .ok (⟨PTypeF, PCodeProtocolClass, 1, pcv⟩, 1) := by
            simp only [List.drop_one, List.tail_cons, ProtocolClass.Read, List.length_cons]
            rw [if_neg (by omega)]
            simp [ProtocolClass.mk0, PTypeF]
          rw [spc]; simp only [Res.bind_ok]
          simp only [show (1:Nat)+1+1 = 3 from rfl, show (1:Nat)+1 = 2 from rfl]
          have shp : HopCounter.Read HopCounter.mk0 (List.drop 2 [17 % 256, pcv, hcv, 4, 3 + cd.MarshalLen, 2 + cd.MarshalLen + cg.MarshalLen])
              = .ok (⟨PTypeF, PCodeHopCounter, 1, hcv⟩, 1) := by
            rw [show List.drop 2 [17 % 256, pcv, hcv, 4, 3 + cd.MarshalLen, 2 + cd.MarshalLen + cg.MarshalLen]
                = [hcv, 4, 3 + cd.MarshalLen, 2 + cd.MarshalLen + cg.MarshalLen] from rfl]
            simp only [HopCounter.Read, HopCounter.mk0, HopCounter.read, PTypeF, PTypeO,
              List.length_cons]
            rw [if_neg (by norm_num)]
            rw [if_neg (by omega)]
            simp
          rw [shp]; simp only [Res.bind_ok]
          simp only [show (1:Nat)+1+1 = 3 from rfl, show (1:Nat)+1 = 2 from rfl]
          rw [goIdx_eq_ok (show 3 < ([17 % 256, pcv, hcv, 4, 3 + cd.MarshalLen, 2 + cd.MarshalLen + cg.MarshalLen]).length by simp)]
          simp only [Res.bind_ok]
          rw [show ([17 % 256, pcv, hcv, 4, 3 + cd.MarshalLen, 2 + cd.MarshalLen + cg.MarshalLen]).getD 3 0 = 4 from rfl]
          rw [if_neg (by omega)]
          rw [goIdx_eq_ok (show 4 < ([17 % 256, pcv, hcv, 4, 3 + cd.MarshalLen, 2 + cd.MarshalLen + cg.MarshalLen]).length by simp)]
          simp only [Res.bind_ok]
          rw [show ([17 % 256, pcv, hcv, 4, 3 + cd.MarshalLen, 2 + cd.MarshalLen + cg.MarshalLen]).getD 4 0 = 3 + cd.MarshalLen from rfl]
          rw [show (3 + cd.MarshalLen + 4) % 256 = 7 + cd.MarshalLen by omega]
          rw [if_pos (by omega)]
        obtain ⟨j, rfl⟩ : ∃ j, i = j + 7 := ⟨i - 7, by omega⟩
        rw [show j + 7 = (j+6)+1 from rfl, List.take_succ_cons,
            show j + 6 = (j+5)+1 from rfl, List.take_succ_cons,
            show j + 5 = (j+4)+1 from rfl, List.take_succ_cons,
            show j + 4 = (j+3)+1 from rfl, List.take_succ_cons,
            show j + 3 = (j+2)+1 from rfl, List.take_succ_cons,
            show j + 2 = (j+1)+1 from rfl, List.take_succ_cons,
            show j + 1 = j+1 from rfl, List.take_succ_cons]
        have hlen2 : (17 % 256 :: pcv :: hcv :: 4 :: (3 + cd.MarshalLen) :: (2 + cd.MarshalLen + cg.MarshalLen) :: (2 + cd.MarshalLen + cg.MarshalLen + d.value.length) :: List.take j (cd.writeBytes ++ cg.writeBytes ++ d.writeBytes ++ [0])).length = j + 7 := by
          simp [List.length_take, hcdb, hcgb, hdbl, uint32To24]
          omega
        simp only [XUDT.UnmarshalBinary]
        rw [hlen2]
        rw [if_neg (by omega)]
        have spc : ProtocolClass.mk0.Read (List.drop 1 (17 % 256 :: pcv :: hcv :: 4 :: (3 + cd.MarshalLen) :: (2 + cd.MarshalLen + cg.MarshalLen) :: (2 + cd.MarshalLen + cg.MarshalLen + d.value.length) :: List.take j (cd.writeBytes ++ cg.writeBytes ++ d.writeBytes ++ [0])))
            = .ok (⟨PTypeF, PCodeProtocolClass, 1, pcv⟩, 1) := by
          simp only [List.drop_one, List.tail_cons, ProtocolClass.Read, List.length_cons]
          rw [if_neg (by omega)]
          simp [ProtocolClass.mk0, PTypeF]
        rw [spc]; simp only [Res.bind_ok]
        simp only [show (1:Nat)+1+1+3 = 6 from rfl, show (1:Nat)+1+1+2 = 5 from rfl,
          show (1:Nat)+1+1+1 = 4 from rfl, show (1:Nat)+1+1 = 3 from rfl,
          show (1:Nat)+1 = 2 from rfl]
        have shp : HopCounter.Read HopCounter.mk0 (List.drop 2 (17 % 256 :: pcv :: hcv :: 4 :: (3 + cd.MarshalLen) :: (2 + cd.MarshalLen + cg.MarshalLen) :: (2 + cd.MarshalLen + cg.MarshalLen + d.value.length) :: List.take j (cd.writeBytes ++ cg.writeBytes ++ d.writeBytes ++ [0])))
            = .ok (⟨PTypeF, PCodeHopCounter, 1, hcv⟩, 1) := by
          rw [show List.drop 2 (17 % 256 :: pcv :: hcv :: 4 :: (3 + cd.MarshalLen) :: (2 + cd.MarshalLen + cg.MarshalLen) :: (2 + cd.MarshalLen + cg.MarshalLen + d.value.length) :: List.take j (cd.writeBytes ++ cg.writeBytes ++ d.writeBytes ++ [0]))
              = hcv :: 4 :: (3 + cd.MarshalLen) :: (2 + cd.MarshalLen + cg.MarshalLen) :: (2 + cd.MarshalLen + cg.MarshalLen + d.value.length) :: List.take j (cd.writeBytes ++ cg.writeBytes ++ d.writeBytes ++ [0]) from rfl]
          simp only [HopCounter.Read, HopCounter.mk0, HopCounter.read, PTypeF, PTypeO,
            List.length_cons]
          rw [if_neg (by norm_num)]
          rw [if_neg (by omega)]
          simp
        rw [shp]; simp only [Res.bind_ok]
        simp only [show (1:Nat)+1+1+3 = 6 from rfl, show (1:Nat)+1+1+2 = 5 from rfl,
          show (1:Nat)+1+1+1 = 4 from rfl, show (1:Nat)+1+1 = 3 from rfl,
          show (1:Nat)+1 = 2 from rfl]
        rw [goIdx_eq_ok (show 3 < ((17 % 256 :: pcv :: hcv :: 4 :: (3 + cd.MarshalLen) :: (2 + cd.MarshalLen + cg.MarshalLen) :: (2 + cd.MarshalLen + cg.MarshalLen + d.value.length) :: List.take j (cd.writeBytes ++ cg.writeBytes ++ d.writeBytes ++ [0]))).length by rw [hlen2]; omega)]
        simp only [Res.bind_ok]
        rw [show ((17 % 256 :: pcv :: hcv :: 4 :: (3 + cd.MarshalLen) :: (2 + cd.MarshalLen + cg.MarshalLen) :: (2 + cd.MarshalLen + cg.MarshalLen + d.value.length) :: List.take j (cd.writeBytes ++ cg.writeBytes ++ d.writeBytes ++ [0]))).getD 3 0 = 4 from rfl]
        rw [if_neg (by omega)]
        rw [goIdx_eq_ok (show 4 < ((17 % 256 :: pcv :: hcv :: 4 :: (3 + cd.MarshalLen) :: (2 + cd.MarshalLen + cg.MarshalLen) :: (2 + cd.MarshalLen + cg.MarshalLen + d.value.length) :: List.take j (cd.writeBytes ++ cg.writeBytes ++ d.writeBytes ++ [0]))).length by rw [hlen2]; omega)]
        simp only [Res.bind_ok]
        rw [show ((17 % 256 :: pcv :: hcv :: 4 :: (3 + cd.MarshalLen) :: (2 + cd.MarshalLen + cg.MarshalLen) :: (2 + cd.MarshalLen + cg.MarshalLen + d.value.length) :: List.take j (cd.writeBytes ++ cg.writeBytes ++ d.writeBytes ++ [0]))).getD 4 0 = 3 + cd.MarshalLen from rfl]
        rw [show (3 + cd.MarshalLen + 4) % 256 = 7 + cd.MarshalLen by omega]
        by_cases hA : j + 7 < 7 + cd.MarshalLen
        · rw [if_pos hA]
        rw [if_neg hA]
        rw [goIdx_eq_ok (show 5 < ((17 % 256 :: pcv :: hcv :: 4 :: (3 + cd.MarshalLen) :: (2 + cd.MarshalLen + cg.MarshalLen) :: (2 + cd.MarshalLen + cg.MarshalLen + d.value.length) :: List.take j (cd.writeBytes ++ cg.writeBytes ++ d.writeBytes ++ [0]))).length by rw [hlen2]; omega)]
        simp only [Res.bind_ok]
        rw [show ((17 % 256 :: pcv :: hcv :: 4 :: (3 + cd.MarshalLen) :: (2 + cd.MarshalLen + cg.MarshalLen) :: (2 + cd.MarshalLen + cg.MarshalLen + d.value.length) :: List.take j (cd.writeBytes ++ cg.writeBytes ++ d.writeBytes ++ [0]))).getD 5 0 = 2 + cd.MarshalLen + cg.MarshalLen from rfl]
        rw [show (2 + cd.MarshalLen + cg.MarshalLen + 5) % 256
            = 7 + cd.MarshalLen + cg.MarshalLen by omega]
        by_cases hB : j + 7 < 7 + cd.MarshalLen + cg.MarshalLen
        · rw [if_pos hB]
        rw [if_neg hB]
        rw [goIdx_eq_ok (show 6 < ((17 % 256 :: pcv :: hcv :: 4 :: (3 + cd.MarshalLen) :: (2 + cd.MarshalLen + cg.MarshalLen) :: (2 + cd.MarshalLen + cg.MarshalLen + d.value.length) :: List.take j (cd.writeBytes ++ cg.writeBytes ++ d.writeBytes ++ [0]))).length by rw [hlen2]; omega)]
        simp only [Res.bind_ok]
        rw [show ((17 % 256 :: pcv :: hcv :: 4 :: (3 + cd.MarshalLen) :: (2 + cd.MarshalLen + cg.MarshalLen) :: (2 + cd.MarshalLen + cg.MarshalLen + d.value.length) :: List.take j (cd.writeBytes ++ cg.writeBytes ++ d.writeBytes ++ [0]))).getD 6 0 = 2 + cd.MarshalLen + cg.MarshalLen + d.value.length from rfl]
        by_cases hC : j + 7 < 2 + cd.MarshalLen + cg.MarshalLen + d.value.length + 7
        · rw [if_pos ⟨by omega, hC⟩]
        exact absurd hi (by omega)
      · have himwf2 := himwf
        obtain ⟨himpt, himcode, himlen, himval⟩ := himwf2
        simp only [XUDT.enc, XUDT.encBlock] at hi ⊢
        rw [if_neg (show ¬(2 + cd.MarshalLen + cg.MarshalLen + d.value.length = 0) by omega)] at hi ⊢
        simp only [show NewEndOfOptionalParameters.value = 0 from rfl, List.nil_append,
          List.cons_append, List.append_nil] at hi ⊢
        have hlenF : (17 % 256 :: pcv :: hcv :: 4 :: (3 + cd.MarshalLen) :: (2 + cd.MarshalLen + cg.MarshalLen) :: (2 + cd.MarshalLen + cg.MarshalLen + d.value.length) :: (cd.writeBytes ++ cg.writeBytes ++ d.writeBytes ++ [im.code % 256, im.length % 256, im.value, 0])).length
            = 12 + cd.MarshalLen + cg.MarshalLen + d.value.length := by
          simp [hcdb, hcgb, hdbl, uint32To24]
          omega
        rw [hlenF] at hi
        by_cases h5 : i ≤ 5
        · simp only [XUDT.UnmarshalBinary]
          rw [List.length_take, hlenF]
          rw [if_pos (by omega)]
        by_cases h6 : i = 6
        · subst h6
          rw [show (6:Nat) = 5+1 from rfl, List.take_succ_cons,
              show (5:Nat) = 4+1 from rfl, List.take_succ_cons,
              show (4:Nat) = 3+1 from rfl, List.take_succ_cons,
              show (3:Nat) = 2+1 from rfl, List.take_succ_cons,
              show (2:Nat) = 1+1 from rfl, List.take_succ_cons,
              show (1:Nat) = 0+1 from rfl, List.take_succ_cons, List.take_zero]
          simp only [XUDT.UnmarshalBinary, List.length_cons, List.length_nil]
          rw [if_neg (by omega)]
          have spc : ProtocolClass.mk0.Read (List.drop 1 [17 % 256, pcv, hcv, 4, 3 + cd.MarshalLen, 2 + cd.MarshalLen + cg.MarshalLen])
              = .ok (⟨PTypeF, PCodeProtocolClass, 1, pcv⟩, 1) := by
            simp only [List.drop_one, List.tail_cons, ProtocolClass.Read, List.length_cons]
            rw [if_neg (by omega)]
            simp [ProtocolClass.mk0, PTypeF]
          rw [spc]; simp only [Res.bind_ok]
          simp only [show (1:Nat)+1+1 = 3 from rfl, show (1:Nat)+1 = 2 from rfl]
          have shp : HopCounter.Read HopCounter.mk0 (List.drop 2 [17 % 256, pcv, hcv, 4, 3 + cd.MarshalLen, 2 + cd.MarshalLen + cg.MarshalLen])
              = .ok (⟨PTypeF, PCodeHopCounter, 1, hcv⟩, 1) := by
            rw [show List.drop 2 [17 % 256, pcv, hcv, 4, 3 + cd.MarshalLen, 2 + cd.MarshalLen + cg.MarshalLen]
                = [hcv, 4, 3 + cd.MarshalLen, 2 + cd.MarshalLen + cg.MarshalLen] from rfl]
            simp only [HopCounter.Read, HopCounter.mk0, HopCounter.read, PTypeF, PTypeO,
              List.length_cons]
            rw [if_neg (by norm_num)]
            rw [if_neg (by omega)]
            simp
          rw [shp]; simp only [Res.bind_ok]
          simp only [show (1:Nat)+1+1 = 3 from rfl, show (1:Nat)+1 = 2 from rfl]
          rw [goIdx_eq_ok (show 3 < ([17 % 256, pcv, hcv, 4, 3 + cd.MarshalLen, 2 + cd.MarshalLen + cg.MarshalLen]).length by simp)]
          simp only [Res.bind_ok]
          rw [show ([17 % 256, pcv, hcv, 4, 3 + cd.MarshalLen, 2 + cd.MarshalLen + cg.MarshalLen]).getD 3 0 = 4 from rfl]
          rw [if_neg (by omega)]
          rw [goIdx_eq_ok (show 4 < ([17 % 256, pcv, hcv, 4, 3 + cd.MarshalLen, 2 + cd.MarshalLen + cg.MarshalLen]).length by simp)]
          simp only [Res.bind_ok]
          rw [show ([17 % 256, pcv, hcv, 4, 3 + cd.MarshalLen, 2 + cd.MarshalLen + cg.MarshalLen]).getD 4 0 = 3 + cd.MarshalLen from rfl]
          rw [show (3 + cd.MarshalLen + 4) % 256 = 7 + cd.MarshalLen by omega]
          rw [if_pos (by omega)]
        obtain ⟨j, rfl⟩ : ∃ j, i = j + 7 := ⟨i - 7, by omega⟩
        rw [show j + 7 = (j+6)+1 from rfl, List.take_succ_cons,
            show j + 6 = (j+5)+1 from rfl, List.take_succ_cons,
            show j + 5 = (j+4)+1 from rfl, List.take_succ_cons,
            show j + 4 = (j+3)+1 from rfl, List.take_succ_cons,
            show j + 3 = (j+2)+1 from rfl, List.take_succ_cons,
            show j + 2 = (j+1)+1 from rfl, List.take_succ_cons,
            show j + 1 = j+1 from rfl, List.take_succ_cons]
        have hlen2 : (17 % 256 :: pcv :: hcv :: 4 :: (3 + cd.MarshalLen) :: (2 + cd.MarshalLen + cg.MarshalLen) :: (2 + cd.MarshalLen + cg.MarshalLen + d.value.length) :: List.take j (cd.writeBytes ++ cg.writeBytes ++ d.writeBytes ++ [im.code % 256, im.length % 256, im.value, 0])).length = j + 7 := by
          simp [List.length_take, hcdb, hcgb, hdbl, uint32To24]
          omega
        simp only [XUDT.UnmarshalBinary]
        rw [hlen2]
        rw [if_neg (by omega)]
        have spc : ProtocolClass.mk0.Read (List.drop 1 (17 % 256 :: pcv :: hcv :: 4 :: (3 + cd.MarshalLen) :: (2 + cd.MarshalLen + cg.MarshalLen) :: (2 + cd.MarshalLen + cg.MarshalLen + d.value.length) :: List.take j (cd.writeBytes ++ cg.writeBytes ++ d.writeBytes ++ [im.code % 256, im.length % 256, im.value, 0])))
            = .ok (⟨PTypeF, PCodeProtocolClass, 1, pcv⟩, 1) := by
          simp only [List.drop_one, List.tail_cons, ProtocolClass.Read, List.length_cons]
          rw [if_neg (by omega)]
          simp [ProtocolClass.mk0, PTypeF]
        rw [spc]; simp only [Res.bind_ok]
        simp only [show (1:Nat)+1+1+3 = 6 from rfl, show (1:Nat)+1+1+2 = 5 from rfl,
          show (1:Nat)+1+1+1 = 4 from rfl, show (1:Nat)+1+1 = 3 from rfl,
          show (1:Nat)+1 = 2 from rfl]
        have shp : HopCounter.Read HopCounter.mk0 (List.drop 2 (17 % 256 :: pcv :: hcv :: 4 :: (3 + cd.MarshalLen) :: (2 + cd.MarshalLen + cg.MarshalLen) :: (2 + cd.MarshalLen + cg.MarshalLen + d.value.length) :: List.take j (cd.writeBytes ++ cg.writeBytes ++ d.writeBytes ++ [im.code % 256, im.length % 256, im.value, 0])))
            = .ok (⟨PTypeF, PCodeHopCounter, 1, hcv⟩, 1) := by
          rw [show List.drop 2 (17 % 256 :: pcv :: hcv :: 4 :: (3 + cd.MarshalLen) :: (2 + cd.MarshalLen + cg.MarshalLen) :: (2 + cd.MarshalLen + cg.MarshalLen + d.value.length) :: List.take j (cd.writeBytes ++ cg.writeBytes ++ d.writeBytes ++ [im.code % 256, im.length % 256, im.value, 0]))
              = hcv :: 4 :: (3 + cd.MarshalLen) :: (2 + cd.MarshalLen + cg.MarshalLen) :: (2 + cd.MarshalLen + cg.MarshalLen + d.value.length) :: List.take j (cd.writeBytes ++ cg.writeBytes ++ d.writeBytes ++ [im.code % 256, im.length % 256, im.value, 0]) from rfl]
          simp only [HopCounter.Read, HopCounter.mk0, HopCounter.read, PTypeF, PTypeO,
            List.length_cons]
          rw [if_neg (by norm_num)]
          rw [if_neg (by omega)]
          simp
        rw [shp]; simp only [Res.bind_ok]
        simp only [show (1:Nat)+1+1+3 = 6 from rfl, show (1:Nat)+1+1+2 = 5 from rfl,
          show (1:Nat)+1+1+1 = 4 from rfl, show (1:Nat)+1+1 = 3 from rfl,
          show (1:Nat)+1 = 2 from rfl]
        rw [goIdx_eq_ok (show 3 < ((17 % 256 :: pcv :: hcv :: 4 :: (3 + cd.MarshalLen) :: (2 + cd.MarshalLen + cg.MarshalLen) :: (2 + cd.MarshalLen + cg.MarshalLen + d.value.length) :: List.take j (cd.writeBytes ++ cg.writeBytes ++ d.writeBytes ++ [im.code % 256, im.length % 256, im.value, 0]))).length by rw [hlen2]; omega)]
        simp only [Res.bind_ok]
        rw [show ((17 % 256 :: pcv :: hcv :: 4 :: (3 + cd.MarshalLen) :: (2 + cd.MarshalLen + cg.MarshalLen) :: (2 + cd.MarshalLen + cg.MarshalLen + d.value.length) :: List.take j (cd.writeBytes ++ cg.writeBytes ++ d.writeBytes ++ [im.code % 256, im.length % 256, im.value, 0]))).getD 3 0 = 4 from rfl]
        rw [if_neg (by omega)]
        rw [goIdx_eq_ok (show 4 < ((17 % 256 :: pcv :: hcv :: 4 :: (3 + cd.MarshalLen) :: (2 + cd.MarshalLen + cg.MarshalLen) :: (2 + cd.MarshalLen + cg.MarshalLen + d.value.length) :: List.take j (cd.writeBytes ++ cg.writeBytes ++ d.writeBytes ++ [im.code % 256, im.length % 256, im.value, 0]))).length by rw [hlen2]; omega)]
        simp only [Res.bind_ok]
        rw [show ((17 % 256 :: pcv :: hcv :: 4 :: (3 + cd.MarshalLen) :: (2 + cd.MarshalLen + cg.MarshalLen) :: (2 + cd.MarshalLen + cg.MarshalLen + d.value.length) :: List.take j (cd.writeBytes ++ cg.writeBytes ++ d.writeBytes ++ [im.code % 256, im.length % 256, im.value, 0]))).getD 4 0 = 3 + cd.MarshalLen from rfl]
        rw [show (3 + cd.MarshalLen + 4) % 256 = 7 + cd.MarshalLen by omega]
        by_cases hA : j + 7 < 7 + cd.MarshalLen
        · rw [if_pos hA]
        rw [if_neg hA]
        rw [goIdx_eq_ok (show 5 < ((17 % 256 :: pcv :: hcv :: 4 :: (3 + cd.MarshalLen) :: (2 + cd.MarshalLen + cg.MarshalLen) :: (2 + cd.MarshalLen + cg.MarshalLen + d.value.length) :: List.take j (cd.writeBytes ++ cg.writeBytes ++ d.writeBytes ++ [im.code % 256, im.length % 256, im.value, 0]))).length by rw [hlen2]; omega)]
        simp only [Res.bind_ok]
        rw [show ((17 % 256 :: pcv :: hcv :: 4 :: (3 + cd.MarshalLen) :: (2 + cd.MarshalLen + cg.MarshalLen) :: (2 + cd.MarshalLen + cg.MarshalLen + d.value.length) :: List.take j (cd.writeBytes ++ cg.writeBytes ++ d.writeBytes ++ [im.code % 256, im.length % 256, im.value, 0]))).getD 5 0 = 2 + cd.MarshalLen + cg.MarshalLen from rfl]
        rw [show (2 + cd.MarshalLen + cg.MarshalLen + 5) % 256
            = 7 + cd.MarshalLen + cg.MarshalLen by omega]
        by_cases hB : j + 7 < 7 + cd.MarshalLen + cg.MarshalLen
        · rw [if_pos hB]
        rw [if_neg hB]
        rw [goIdx_eq_ok (show 6 < ((17 % 256 :: pcv :: hcv :: 4 :: (3 + cd.MarshalLen) :: (2 + cd.MarshalLen + cg.MarshalLen) :: (2 + cd.MarshalLen + cg.MarshalLen + d.value.length) :: List.take j (cd.writeBytes ++ cg.writeBytes ++ d.writeBytes ++ [im.code % 256, im.length % 256, im.value, 0]))).length by rw [hlen2]; omega)]
        simp only [Res.bind_ok]
        rw [show ((17 % 256 :: pcv :: hcv :: 4 :: (3 + cd.MarshalLen) :: (2 + cd.MarshalLen + cg.MarshalLen) :: (2 + cd.MarshalLen + cg.MarshalLen + d.value.length) :: List.take j (cd.writeBytes ++ cg.writeBytes ++ d.writeBytes ++ [im.code % 256, im.length % 256, im.value, 0]))).getD 6 0 = 2 + cd.MarshalLen + cg.MarshalLen + d.value.length from rfl]
        by_cases hC : j + 7 < 2 + cd.MarshalLen + cg.MarshalLen + d.value.length + 7
        · rw [if_pos ⟨by omega, hC⟩]
        rw [if_neg (by rintro ⟨-, hx⟩; omega)]
        rw [show (2 + cd.MarshalLen + cg.MarshalLen + d.value.length + 6) % 256
            = 8 + cd.MarshalLen + cg.MarshalLen + d.value.length by omega]
        have sA : goSlice (17 % 256 :: pcv :: hcv :: 4 :: (3 + cd.MarshalLen) :: (2 + cd.MarshalLen + cg.MarshalLen) :: (2 + cd.MarshalLen + cg.MarshalLen + d.value.length) :: List.take j (cd.writeBytes ++ cg.writeBytes ++ d.writeBytes ++ [im.code % 256, im.length % 256, im.value, 0])) 7 (7 + cd.MarshalLen) = .ok cd.writeBytes := by
          rw [goSlice_eq_ok (by omega) (by rw [hlen2]; omega)]
          congr 1
          rw [show ((17 % 256 :: pcv :: hcv :: 4 :: (3 + cd.MarshalLen) :: (2 + cd.MarshalLen + cg.MarshalLen) :: (2 + cd.MarshalLen + cg.MarshalLen + d.value.length) :: List.take j (cd.writeBytes ++ cg.writeBytes ++ d.writeBytes ++ [im.code % 256, im.length % 256, im.value, 0]))).drop 7 = List.take j (cd.writeBytes ++ cg.writeBytes ++ d.writeBytes ++ [im.code % 256, im.length % 256, im.value, 0]) from rfl]
          rw [show 7 + cd.MarshalLen - 7 = cd.MarshalLen by omega]
          rw [List.take_take]
          rw [show min cd.MarshalLen j = cd.MarshalLen by omega]
          rw [show (cd.writeBytes ++ cg.writeBytes ++ d.writeBytes ++ [im.code % 256, im.length % 256, im.value, 0]) = cd.writeBytes ++ (cg.writeBytes ++ (d.writeBytes ++ [im.code % 256, im.length % 256, im.value, 0])) by simp]
          exact List.take_left' hcdb
        rw [sA]; simp only [Res.bind_ok]
        obtain ⟨n1, hcdp⟩ := cd.pa_parse_writeBytes PCodeCalledPartyAddress hcd
        have sB : ParseCalledPartyAddress cd.writeBytes = .ok (cd, n1) := by
          simpa [ParseCalledPartyAddress] using hcdp
        rw [sB]; simp only [Res.bind_ok]
        have hTdrop : ∀ m : Nat, ((17 % 256 :: pcv :: hcv :: 4 :: (3 + cd.MarshalLen) :: (2 + cd.MarshalLen + cg.MarshalLen) :: (2 + cd.MarshalLen + cg.MarshalLen + d.value.length) :: List.take j (cd.writeBytes ++ cg.writeBytes ++ d.writeBytes ++ [im.code % 256, im.length % 256, im.value, 0]))).drop (7 + m)
            = List.take (j - m) ((cd.writeBytes ++ cg.writeBytes ++ d.writeBytes ++ [im.code % 256, im.length % 256, im.value, 0]).drop m) := by
          intro m
          rw [← List.drop_drop]
          rw [show ((17 % 256 :: pcv :: hcv :: 4 :: (3 + cd.MarshalLen) :: (2 + cd.MarshalLen + cg.MarshalLen) :: (2 + cd.MarshalLen + cg.MarshalLen + d.value.length) :: List.take j (cd.writeBytes ++ cg.writeBytes ++ d.writeBytes ++ [im.code % 256, im.length % 256, im.value, 0]))).drop 7 = List.take j (cd.writeBytes ++ cg.writeBytes ++ d.writeBytes ++ [im.code % 256, im.length % 256, im.value, 0]) from rfl]
          rw [List.drop_take]
        have sC : goSlice (17 % 256 :: pcv :: hcv :: 4 :: (3 + cd.MarshalLen) :: (2 + cd.MarshalLen + cg.MarshalLen) :: (2 + cd.MarshalLen + cg.MarshalLen + d.value.length) :: List.take j (cd.writeBytes ++ cg.writeBytes ++ d.writeBytes ++ [im.code % 256, im.length % 256, im.value, 0])) (7 + cd.MarshalLen) (7 + cd.MarshalLen + cg.MarshalLen)
            = .ok cg.writeBytes := by
          rw [goSlice_eq_ok (by omega) (by rw [hlen2]; omega)]
          congr 1
          rw [hTdrop cd.MarshalLen]
          rw [show (cd.writeBytes ++ cg.writeBytes ++ d.writeBytes ++ [im.code % 256, im.length % 256, im.value, 0]) = cd.writeBytes ++ (cg.writeBytes ++ (d.writeBytes ++ [im.code % 256, im.length % 256, im.value, 0])) by simp]
          rw [List.drop_left' hcdb]
          rw [show 7 + cd.MarshalLen + cg.MarshalLen - (7 + cd.MarshalLen) = cg.MarshalLen by omega]
          rw [List.take_take]
          rw [show min cg.MarshalLen (j - cd.MarshalLen) = cg.MarshalLen by omega]
          exact List.take_left' hcgb
        rw [sC]; simp only [Res.bind_ok]
        obtain ⟨n2, hcgp⟩ := cg.pa_parse_writeBytes PCodeCallingPartyAddress hcg
        have sD : ParseCallingPartyAddress cg.writeBytes = .ok (cg, n2) := by
          simpa [ParseCallingPartyAddress] using hcgp
        rw [sD]; simp only [Res.bind_ok]
        have sE : goSliceFrom (17 % 256 :: pcv :: hcv :: 4 :: (3 + cd.MarshalLen) :: (2 + cd.MarshalLen + cg.MarshalLen) :: (2 + cd.MarshalLen + cg.MarshalLen + d.value.length) :: List.take j (cd.writeBytes ++ cg.writeBytes ++ d.writeBytes ++ [im.code % 256, im.length % 256, im.value, 0])) (7 + cd.MarshalLen + cg.MarshalLen)
            = .ok (d.writeBytes ++ List.take (j - cd.MarshalLen - cg.MarshalLen - (1 + d.value.length)) [im.code % 256, im.length % 256, im.value, 0]) := by
          rw [goSliceFrom_eq_ok (by rw [hlen2]; omega)]
          congr 1
          rw [show 7 + cd.MarshalLen + cg.MarshalLen = 7 + (cd.MarshalLen + cg.MarshalLen) by omega]
          rw [hTdrop (cd.MarshalLen + cg.MarshalLen)]
          rw [show (cd.writeBytes ++ cg.writeBytes ++ d.writeBytes ++ [im.code % 256, im.length % 256, im.value, 0]) = (cd.writeBytes ++ cg.writeBytes) ++ (d.writeBytes ++ [im.code % 256, im.length % 256, im.value, 0]) by simp]
          rw [List.drop_left' (by simp [hcdb, hcgb])]
          rw [List.take_append_eq_append_take]
          rw [List.take_of_length_le (by rw [hdbl]; omega)]
          rw [hdbl]
          rw [show j - (cd.MarshalLen + cg.MarshalLen) - (1 + d.value.length)
              = j - cd.MarshalLen - cg.MarshalLen - (1 + d.value.length) by omega]
        rw [sE]; simp only [Res.bind_ok]
        obtain ⟨n3, hdp⟩ := d.data_parse_writeBytes hd (List.take (j - cd.MarshalLen - cg.MarshalLen - (1 + d.value.length)) [im.code % 256, im.length % 256, im.value, 0])
        rw [hdp]; simp only [Res.bind_ok]
        rw [if_neg (by omega)]
        have sF : goSliceFrom (17 % 256 :: pcv :: hcv :: 4 :: (3 + cd.MarshalLen) :: (2 + cd.MarshalLen + cg.MarshalLen) :: (2 + cd.MarshalLen + cg.MarshalLen + d.value.length) :: List.take j (cd.writeBytes ++ cg.writeBytes ++ d.writeBytes ++ [im.code % 256, im.length % 256, im.value, 0])) (8 + cd.MarshalLen + cg.MarshalLen + d.value.length)
            = .ok (List.take (j - (1 + cd.MarshalLen + cg.MarshalLen + d.value.length)) [im.code % 256, im.length % 256, im.value, 0]) := by
          rw [goSliceFrom_eq_ok (by rw [hlen2]; omega)]
          congr 1
          rw [show 8 + cd.MarshalLen + cg.MarshalLen + d.value.length
              = 7 + (1 + cd.MarshalLen + cg.MarshalLen + d.value.length) by omega]
          rw [hTdrop (1 + cd.MarshalLen + cg.MarshalLen + d.value.length)]
          rw [show (cd.writeBytes ++ cg.writeBytes ++ d.writeBytes ++ [im.code % 256, im.length % 256, im.value, 0]) = (cd.writeBytes ++ cg.writeBytes ++ d.writeBytes) ++ [im.code % 256, im.length % 256, im.value, 0] by simp]
          rw [List.drop_left' (by simp [hcdb, hcgb, hdbl]; omega)]
        rw [sF]; simp only [Res.bind_ok]
        obtain ⟨k4, hk4⟩ : ∃ k4, j - (1 + cd.MarshalLen + cg.MarshalLen + d.value.length) = k4 := ⟨_, rfl⟩
        rw [hk4]
        have hk41 : 1 ≤ k4 := by omega
        have hk4u : k4 < 4 := by omega
        have hk4c : k4 = 1 ∨ k4 = 2 ∨ k4 = 3 := by omega
        rcases hk4c with rfl | rfl | rfl
        · rw [show List.take 1 [im.code % 256, im.length % 256, im.value, 0] = [im.code % 256] from rfl]
          have sG : ParseOptionalParameters [im.code % 256] = .err .eof := by
            simp only [ParseOptionalParameters, List.length_cons, List.length_nil]
            rw [show (0:Nat) + 1 + 2 = 2 + 1 from rfl]
            simp only [ParseOptionalParametersAux]
            rw [if_pos (by norm_num)]
            rw [goSliceFrom_eq_ok (by simp)]
            simp only [List.drop_zero, Res.bind_ok]
            simp only [ParseOptionalParameter, List.length_cons, List.length_nil]
            rw [if_neg (by omega)]
            simp only [List.getD_cons_zero]
            rw [if_neg (by simp [himcode, PCodeImportance, PCodeEndOfOptionalParameters])]
            rw [if_neg (by simp [himcode, PCodeImportance, PCodeCalledPartyAddress])]
            rw [if_neg (by simp [himcode, PCodeImportance, PCodeCallingPartyAddress])]
            rw [if_neg (by simp [himcode, PCodeImportance, PCodeCredit])]
            rw [if_neg (by simp [himcode, PCodeImportance, PCodeData])]
            rw [if_neg (by simp [himcode, PCodeImportance, PCodeSegmentation])]
            rw [if_neg (by simp [himcode, PCodeImportance, PCodeHopCounter])]
            rw [if_pos (by simp [himcode, PCodeImportance])]
            simp only [Importance.Read, Importance.mk0, List.length_cons, List.length_nil]
            rw [if_pos (by omega)]
            simp
          rw [sG]
          simp only [Res.bind_err]
        · rw [show List.take 2 [im.code % 256, im.length % 256, im.value, 0] = [im.code % 256, im.length % 256] from rfl]
          have sG : ParseOptionalParameters [im.code % 256, im.length % 256] = .err .eof := by
            simp only [ParseOptionalParameters, List.length_cons, List.length_nil]
            rw [show (0:Nat) + 1 + 1 + 2 = 3 + 1 from rfl]
            simp only [ParseOptionalParametersAux]
            rw [if_pos (by norm_num)]
            rw [goSliceFrom_eq_ok (by simp)]
            simp only [List.drop_zero, Res.bind_ok]
            simp only [ParseOptionalParameter, List.length_cons, List.length_nil]
            rw [if_neg (by omega)]
            simp only [List.getD_cons_zero]
            rw [if_neg (by simp [himcode, PCodeImportance, PCodeEndOfOptionalParameters])]
            rw [if_neg (by simp [himcode, PCodeImportance, PCodeCalledPartyAddress])]
            rw [if_neg (by simp [himcode, PCodeImportance, PCodeCallingPartyAddress])]
            rw [if_neg (by simp [himcode, PCodeImportance, PCodeCredit])]
            rw [if_neg (by simp [himcode, PCodeImportance, PCodeData])]
            rw [if_neg (by simp [himcode, PCodeImportance, PCodeSegmentation])]
            rw [if_neg (by simp [himcode, PCodeImportance, PCodeHopCounter])]
            rw [if_pos (by simp [himcode, PCodeImportance])]
            simp only [Importance.Read, Importance.mk0, List.length_cons, List.length_nil]
            rw [if_pos (by omega)]
            simp
          rw [sG]
          simp only [Res.bind_err]
        · rw [show List.take 3 [im.code % 256, im.length % 256, im.value, 0] = [im.code % 256, im.length % 256, im.value] from rfl]
          have sG : ParseOptionalParameters [im.code % 256, im.length % 256, im.value] = .err .eof := by
            simp only [ParseOptionalParameters, List.length_cons, List.length_nil]
            rw [show (0:Nat) + 1 + 1 + 1 + 2 = 4 + 1 from rfl]
            simp only [ParseOptionalParametersAux]
            rw [if_pos (by norm_num)]
            rw [goSliceFrom_eq_ok (by simp)]
            simp only [List.drop_zero, Res.bind_ok]
            simp only [ParseOptionalParameter, List.length_cons, List.length_nil]
            rw [if_neg (by omega)]
            simp only [List.getD_cons_zero]
            rw [if_neg (by simp [himcode, PCodeImportance, PCodeEndOfOptionalParameters])]
            rw [if_neg (by simp [himcode, PCodeImportance, PCodeCalledPartyAddress])]
            rw [if_neg (by simp [himcode, PCodeImportance, PCodeCallingPartyAddress])]
            rw [if_neg (by simp [himcode, PCodeImportance, PCodeCredit])]
            rw [if_neg (by simp [himcode, PCodeImportance, PCodeData])]
            rw [if_neg (by simp [himcode, PCodeImportance, PCodeSegmentation])]
            rw [if_neg (by simp [himcode, PCodeImportance, PCodeHopCounter])]
            rw [if_pos (by simp [himcode, PCodeImportance])]
            rw [Importance.imp_Read_enc im himwf []]
            simp only [Res.bind_ok]
            rw [if_neg (show ¬(Param.Code (.imp im) = PCodeEndOfOptionalParameters) by
              simp [Param.Code, himcode, PCodeImportance, PCodeEndOfOptionalParameters])]
            rw [if_pos (by norm_num)]
            rw [goSliceFrom_eq_ok (by simp)]
            simp only [Res.bind_ok]
            rw [show List.drop (0 + 3) [im.code % 256, im.length % 256, im.value] = [] from rfl]
            simp
          rw [sG]
          simp only [Res.bind_err]
    · rcases imo with _ | im
      · have hsgwf2 := hsgwf
        obtain ⟨hsgpt, hsgcode, hsglen, hsgcls, hsgrem, hsglr⟩ := hsgwf2
        simp only [XUDT.enc, XUDT.encBlock] at hi ⊢
        rw [if_neg (show ¬(2 + cd.MarshalLen + cg.MarshalLen + d.value.length = 0) by omega)] at hi ⊢
        simp only [show NewEndOfOptionalParameters.value = 0 from rfl, List.nil_append,
          List.cons_append, List.append_nil] at hi ⊢
        have hlenF : (17 % 256 :: pcv :: hcv :: 4 :: (3 + cd.MarshalLen) :: (2 + cd.MarshalLen + cg.MarshalLen) :: (2 + cd.MarshalLen + cg.MarshalLen + d.value.length) :: (cd.writeBytes ++ cg.writeBytes ++ d.writeBytes ++ (sg.code % 256 :: sg.length % 256 :: sg.flagsByte :: (uint32To24 sg.LocalReference ++ [0])))).length
            = 15 + cd.MarshalLen + cg.MarshalLen + d.value.length := by
          simp [hcdb, hcgb, hdbl, uint32To24]
          omega
        rw [hlenF] at hi
        by_cases h5 : i ≤ 5
        · simp only [XUDT.UnmarshalBinary]
          rw [List.length_take, hlenF]
          rw [if_pos (by omega)]
        by_cases h6 : i = 6
        · subst h6
          rw [show (6:Nat) = 5+1 from rfl, List.take_succ_cons,
              show (5:Nat) = 4+1 from rfl, List.take_succ_cons,
              show (4:Nat) = 3+1 from rfl, List.take_succ_cons,
              show (3:Nat) = 2+1 from rfl, List.take_succ_cons,
              show (2:Nat) = 1+1 from rfl, List.take_succ_cons,
              show (1:Nat) = 0+1 from rfl, List.take_succ_cons, List.take_zero]
          simp only [XUDT.UnmarshalBinary, List.length_cons, List.length_nil]
          rw [if_neg (by omega)]
          have spc : ProtocolClass.mk0.Read (List.drop 1 [17 % 256, pcv, hcv, 4, 3 + cd.MarshalLen, 2 + cd.MarshalLen + cg.MarshalLen])
              = .ok (⟨PTypeF, PCodeProtocolClass, 1, pcv⟩, 1) := by
            simp only [List.drop_one, List.tail_cons, ProtocolClass.Read, List.length_cons]
            rw [if_neg (by omega)]
            simp [ProtocolClass.mk0, PTypeF]
          rw [spc]; simp only [Res.bind_ok]
          simp only [show (1:Nat)+1+1 = 3 from rfl, show (1:Nat)+1 = 2 from rfl]
          have shp : HopCounter.Read HopCounter.mk0 (List.drop 2 [17 % 256, pcv, hcv, 4, 3 + cd.MarshalLen, 2 + cd.MarshalLen + cg.MarshalLen])
              = .ok (⟨PTypeF, PCodeHopCounter, 1, hcv⟩, 1) := by
            rw [show List.drop 2 [17 % 256, pcv, hcv, 4, 3 + cd.MarshalLen, 2 + cd.MarshalLen + cg.MarshalLen]
                = [hcv, 4, 3 + cd.MarshalLen, 2 + cd.MarshalLen + cg.MarshalLen] from rfl]
            simp only [HopCounter.Read, HopCounter.mk0, HopCounter.read, PTypeF, PTypeO,
              List.length_cons]
            rw [if_neg (by norm_num)]
            rw [if_neg (by omega)]
            simp
          rw [shp]; simp only [Res.bind_ok]
          simp only [show (1:Nat)+1+1 = 3 from rfl, show (1:Nat)+1 = 2 from rfl]
          rw [goIdx_eq_ok (show 3 < ([17 % 256, pcv, hcv, 4, 3 + cd.MarshalLen, 2 + cd.MarshalLen + cg.MarshalLen]).length by simp)]
          simp only [Res.bind_ok]
          rw [show ([17 % 256, pcv, hcv, 4, 3 + cd.MarshalLen, 2 + cd.MarshalLen + cg.MarshalLen]).getD 3 0 = 4 from rfl]
          rw [if_neg (by omega)]
          rw [goIdx_eq_ok (show 4 < ([17 % 256, pcv, hcv, 4, 3 + cd.MarshalLen, 2 + cd.MarshalLen + cg.MarshalLen]).length by simp)]
          simp only [Res.bind_ok]
          rw [show ([17 % 256, pcv, hcv, 4, 3 + cd.MarshalLen, 2 + cd.MarshalLen + cg.MarshalLen]).getD 4 0 = 3 + cd.MarshalLen from rfl]
          rw [show (3 + cd.MarshalLen + 4) % 256 = 7 + cd.MarshalLen by omega]
          rw [if_pos (by omega)]
        obtain ⟨j, rfl⟩ : ∃ j, i = j + 7 := ⟨i - 7, by omega⟩
        rw [show j + 7 = (j+6)+1 from rfl, List.take_succ_cons,
            show j + 6 = (j+5)+1 from rfl, List.take_succ_cons,
            show j + 5 = (j+4)+1 from rfl, List.take_succ_cons,
            show j + 4 = (j+3)+1 from rfl, List.take_succ_cons,
            show j + 3 = (j+2)+1 from rfl, List.take_succ_cons,
            show j + 2 = (j+1)+1 from rfl, List.take_succ_cons,
            show j + 1 = j+1 from rfl, List.take_succ_cons]
        have hlen2 : (17 % 256 :: pcv :: hcv :: 4 :: (3 + cd.MarshalLen) :: (2 + cd.MarshalLen + cg.MarshalLen) :: (2 + cd.MarshalLen + cg.MarshalLen + d.value.length) :: List.take j (cd.writeBytes ++ cg.writeBytes ++ d.writeBytes ++ (sg.code % 256 :: sg.length % 256 :: sg.flagsByte :: (uint32To24 sg.LocalReference ++ [0])))).length = j + 7 := by
          simp [List.length_take, hcdb, hcgb, hdbl, uint32To24]
          omega
        simp only [XUDT.UnmarshalBinary]
        rw [hlen2]
        rw [if_neg (by omega)]
        have spc : ProtocolClass.mk0.Read (List.drop 1 (17 % 256 :: pcv :: hcv :: 4 :: (3 + cd.MarshalLen) :: (2 + cd.MarshalLen + cg.MarshalLen) :: (2 + cd.MarshalLen + cg.MarshalLen + d.value.length) :: List.take j (cd.writeBytes ++ cg.writeBytes ++ d.writeBytes ++ (sg.code % 256 :: sg.length % 256 :: sg.flagsByte :: (uint32To24 sg.LocalReference ++ [0])))))
            = .ok (⟨PTypeF, PCodeProtocolClass, 1, pcv⟩, 1) := by
          simp only [List.drop_one, List.tail_cons, ProtocolClass.Read, List.length_cons]
          rw [if_neg (by omega)]
          simp [ProtocolClass.mk0, PTypeF]
        rw [spc]; simp only [Res.bind_ok]
        simp only [show (1:Nat)+1+1+3 = 6 from rfl, show (1:Nat)+1+1+2 = 5 from rfl,
          show (1:Nat)+1+1+1 = 4 from rfl, show (1:Nat)+1+1 = 3 from rfl,
          show (1:Nat)+1 = 2 from rfl]
        have shp : HopCounter.Read HopCounter.mk0 (List.drop 2 (17 % 256 :: pcv :: hcv :: 4 :: (3 + cd.MarshalLen) :: (2 + cd.MarshalLen + cg.MarshalLen) :: (2 + cd.MarshalLen + cg.MarshalLen + d.value.length) :: List.take j (cd.writeBytes ++ cg.writeBytes ++ d.writeBytes ++ (sg.code % 256 :: sg.length % 256 :: sg.flagsByte :: (uint32To24 sg.LocalReference ++ [0])))))
            = .ok (⟨PTypeF, PCodeHopCounter, 1, hcv⟩, 1) := by
          rw [show List.drop 2 (17 % 256 :: pcv :: hcv :: 4 :: (3 + cd.MarshalLen) :: (2 + cd.MarshalLen + cg.MarshalLen) :: (2 + cd.MarshalLen + cg.MarshalLen + d.value.length) :: List.take j (cd.writeBytes ++ cg.writeBytes ++ d.writeBytes ++ (sg.code % 256 :: sg.length % 256 :: sg.flagsByte :: (uint32To24 sg.LocalReference ++ [0]))))
              = hcv :: 4 :: (3 + cd.MarshalLen) :: (2 + cd.MarshalLen + cg.MarshalLen) :: (2 + cd.MarshalLen + cg.MarshalLen + d.value.length) :: List.take j (cd.writeBytes ++ cg.writeBytes ++ d.writeBytes ++ (sg.code % 256 :: sg.length % 256 :: sg.flagsByte :: (uint32To24 sg.LocalReference ++ [0]))) from rfl]
          simp only [HopCounter.Read, HopCounter.mk0, HopCounter.read, PTypeF, PTypeO,
            List.length_cons]
          rw [if_neg (by norm_num)]
          rw [if_neg (by omega)]
          simp
        rw [shp]; simp only [Res.bind_ok]
        simp only [show (1:Nat)+1+1+3 = 6 from rfl, show (1:Nat)+1+1+2 = 5 from rfl,
          show (1:Nat)+1+1+1 = 4 from rfl, show (1:Nat)+1+1 = 3 from rfl,
          show (1:Nat)+1 = 2 from rfl]
        rw [goIdx_eq_ok (show 3 < ((17 % 256 :: pcv :: hcv :: 4 :: (3 + cd.MarshalLen) :: (2 + cd.MarshalLen + cg.MarshalLen) :: (2 + cd.MarshalLen + cg.MarshalLen + d.value.length) :: List.take j (cd.writeBytes ++ cg.writeBytes ++ d.writeBytes ++ (sg.code % 256 :: sg.length % 256 :: sg.flagsByte :: (uint32To24 sg.LocalReference ++ [0]))))).length by rw [hlen2]; omega)]
        simp only [Res.bind_ok]
        rw [show ((17 % 256 :: pcv :: hcv :: 4 :: (3 + cd.MarshalLen) :: (2 + cd.MarshalLen + cg.MarshalLen) :: (2 + cd.MarshalLen + cg.MarshalLen + d.value.length) :: List.take j (cd.writeBytes ++ cg.writeBytes ++ d.writeBytes ++ (sg.code % 256 :: sg.length % 256 :: sg.flagsByte :: (uint32To24 sg.LocalReference ++ [0]))))).getD 3 0 = 4 from rfl]
        rw [if_neg (by omega)]
        rw [goIdx_eq_ok (show 4 < ((17 % 256 :: pcv :: hcv :: 4 :: (3 + cd.MarshalLen) :: (2 + cd.MarshalLen + cg.MarshalLen) :: (2 + cd.MarshalLen + cg.MarshalLen + d.value.length) :: List.take j (cd.writeBytes ++ cg.writeBytes ++ d.writeBytes ++ (sg.code % 256 :: sg.length % 256 :: sg.flagsByte :: (uint32To24 sg.LocalReference ++ [0]))))).length by rw [hlen2]; omega)]
        simp only [Res.bind_ok]
        rw [show ((17 % 256 :: pcv :: hcv :: 4 :: (3 + cd.MarshalLen) :: (2 + cd.MarshalLen + cg.MarshalLen) :: (2 + cd.MarshalLen + cg.MarshalLen + d.value.length) :: List.take j (cd.writeBytes ++ cg.writeBytes ++ d.writeBytes ++ (sg.code % 256 :: sg.length % 256 :: sg.flagsByte :: (uint32To24 sg.LocalReference ++ [0]))))).getD 4 0 = 3 + cd.MarshalLen from rfl]
        rw [show (3 + cd.MarshalLen + 4) % 256 = 7 + cd.MarshalLen by omega]
        by_cases hA : j + 7 < 7 + cd.MarshalLen
        · rw [if_pos hA]
        rw [if_neg hA]
        rw [goIdx_eq_ok (show 5 < ((17 % 256 :: pcv :: hcv :: 4 :: (3 + cd.MarshalLen) :: (2 + cd.MarshalLen + cg.MarshalLen) :: (2 + cd.MarshalLen + cg.MarshalLen + d.value.length) :: List.take j (cd.writeBytes ++ cg.writeBytes ++ d.writeBytes ++ (sg.code % 256 :: sg.length % 256 :: sg.flagsByte :: (uint32To24 sg.LocalReference ++ [0]))))).length by rw [hlen2]; omega)]
        simp only [Res.bind_ok]
        rw [show ((17 % 256 :: pcv :: hcv :: 4 :: (3 + cd.MarshalLen) :: (2 + cd.MarshalLen + cg.MarshalLen) :: (2 + cd.MarshalLen + cg.MarshalLen + d.value.length) :: List.take j (cd.writeBytes ++ cg.writeBytes ++ d.writeBytes ++ (sg.code % 256 :: sg.length % 256 :: sg.flagsByte :: (uint32To24 sg.LocalReference ++ [0]))))).getD 5 0 = 2 + cd.MarshalLen + cg.MarshalLen from rfl]
        rw [show (2 + cd.MarshalLen + cg.MarshalLen + 5) % 256
            = 7 + cd.MarshalLen + cg.MarshalLen by omega]
        by_cases hB : j + 7 < 7 + cd.MarshalLen + cg.MarshalLen
        · rw [if_pos hB]
        rw [if_neg hB]
        rw [goIdx_eq_ok (show 6 < ((17 % 256 :: pcv :: hcv :: 4 :: (3 + cd.MarshalLen) :: (2 + cd.MarshalLen + cg.MarshalLen) :: (2 + cd.MarshalLen + cg.MarshalLen + d.value.length) :: List.take j (cd.writeBytes ++ cg.writeBytes ++ d.writeBytes ++ (sg.code % 256 :: sg.length % 256 :: sg.flagsByte :: (uint32To24 sg.LocalReference ++ [0]))))).length by rw [hlen2]; omega)]
        simp only [Res.bind_ok]
        rw [show ((17 % 256 :: pcv :: hcv :: 4 :: (3 + cd.MarshalLen) :: (2 + cd.MarshalLen + cg.MarshalLen) :: (2 + cd.MarshalLen + cg.MarshalLen + d.value.length) :: List.take j (cd.writeBytes ++ cg.writeBytes ++ d.writeBytes ++ (sg.code % 256 :: sg.length % 256 :: sg.flagsByte :: (uint32To24 sg.LocalReference ++ [0]))))).getD 6 0 = 2 + cd.MarshalLen + cg.MarshalLen + d.value.length from rfl]
        by_cases hC : j + 7 < 2 + cd.MarshalLen + cg.MarshalLen + d.value.length + 7
        · rw [if_pos ⟨by omega, hC⟩]
        rw [if_neg (by rintro ⟨-, hx⟩; omega)]
        rw [show (2 + cd.MarshalLen + cg.MarshalLen + d.value.length + 6) % 256
            = 8 + cd.MarshalLen + cg.MarshalLen + d.value.length by omega]
        have sA : goSlice (17 % 256 :: pcv :: hcv :: 4 :: (3 + cd.MarshalLen) :: (2 + cd.MarshalLen + cg.MarshalLen) :: (2 + cd.MarshalLen + cg.MarshalLen + d.value.length) :: List.take j (cd.writeBytes ++ cg.writeBytes ++ d.writeBytes ++ (sg.code % 256 :: sg.length % 256 :: sg.flagsByte :: (uint32To24 sg.LocalReference ++ [0])))) 7 (7 + cd.MarshalLen) = .ok cd.writeBytes := by
          rw [goSlice_eq_ok (by omega) (by rw [hlen2]; omega)]
          congr 1
          rw [show ((17 % 256 :: pcv :: hcv :: 4 :: (3 + cd.MarshalLen) :: (2 + cd.MarshalLen + cg.MarshalLen) :: (2 + cd.MarshalLen + cg.MarshalLen + d.value.length) :: List.take j (cd.writeBytes ++ cg.writeBytes ++ d.writeBytes ++ (sg.code % 256 :: sg.length % 256 :: sg.flagsByte :: (uint32To24 sg.LocalReference ++ [0]))))).drop 7 = List.take j (cd.writeBytes ++ cg.writeBytes ++ d.writeBytes ++ (sg.code % 256 :: sg.length % 256 :: sg.flagsByte :: (uint32To24 sg.LocalReference ++ [0]))) from rfl]
          rw [show 7 + cd.MarshalLen - 7 = cd.MarshalLen by omega]
          rw [List.take_take]
          rw [show min cd.MarshalLen j = cd.MarshalLen by omega]
          rw [show (cd.writeBytes ++ cg.writeBytes ++ d.writeBytes ++ (sg.code % 256 :: sg.length % 256 :: sg.flagsByte :: (uint32To24 sg.LocalReference ++ [0]))) = cd.writeBytes ++ (cg.writeBytes ++ (d.writeBytes ++ (sg.code % 256 :: sg.length % 256 :: sg.flagsByte :: (uint32To24 sg.LocalReference ++ [0])))) by simp]
          exact List.take_left' hcdb
        rw [sA]; simp only [Res.bind_ok]
        obtain ⟨n1, hcdp⟩ := cd.pa_parse_writeBytes PCodeCalledPartyAddress hcd
        have sB : ParseCalledPartyAddress cd.writeBytes = .ok (cd, n1) := by
          simpa [ParseCalledPartyAddress] using hcdp
        rw [sB]; simp only [Res.bind_ok]
        have hTdrop : ∀ m : Nat, ((17 % 256 :: pcv :: hcv :: 4 :: (3 + cd.MarshalLen) :: (2 + cd.MarshalLen + cg.MarshalLen) :: (2 + cd.MarshalLen + cg.MarshalLen + d.value.length) :: List.take j (cd.writeBytes ++ cg.writeBytes ++ d.writeBytes ++ (sg.code % 256 :: sg.length % 256 :: sg.flagsByte :: (uint32To24 sg.LocalReference ++ [0]))))).drop (7 + m)
            = List.take (j - m) ((cd.writeBytes ++ cg.writeBytes ++ d.writeBytes ++ (sg.code % 256 :: sg.length % 256 :: sg.flagsByte :: (uint32To24 sg.LocalReference ++ [0]))).drop m) := by
          intro m
          rw [← List.drop_drop]
          rw [show ((17 % 256 :: pcv :: hcv :: 4 :: (3 + cd.MarshalLen) :: (2 + cd.MarshalLen + cg.MarshalLen) :: (2 + cd.MarshalLen + cg.MarshalLen + d.value.length) :: List.take j (cd.writeBytes ++ cg.writeBytes ++ d.writeBytes ++ (sg.code % 256 :: sg.length % 256 :: sg.flagsByte :: (uint32To24 sg.LocalReference ++ [0]))))).drop 7 = List.take j (cd.writeBytes ++ cg.writeBytes ++ d.writeBytes ++ (sg.code % 256 :: sg.length % 256 :: sg.flagsByte :: (uint32To24 sg.LocalReference ++ [0]))) from rfl]
          rw [List.drop_take]
        have sC : goSlice (17 % 256 :: pcv :: hcv :: 4 :: (3 + cd.MarshalLen) :: (2 + cd.MarshalLen + cg.MarshalLen) :: (2 + cd.MarshalLen + cg.MarshalLen + d.value.length) :: List.take j (cd.writeBytes ++ cg.writeBytes ++ d.writeBytes ++ (sg.code % 256 :: sg.length % 256 :: sg.flagsByte :: (uint32To24 sg.LocalReference ++ [0])))) (7 + cd.MarshalLen) (7 + cd.MarshalLen + cg.MarshalLen)
            = .ok cg.writeBytes := by
          rw [goSlice_eq_ok (by omega) (by rw [hlen2]; omega)]
          congr 1
          rw [hTdrop cd.MarshalLen]
          rw [show (cd.writeBytes ++ cg.writeBytes ++ d.writeBytes ++ (sg.code % 256 :: sg.length % 256 :: sg.flagsByte :: (uint32To24 sg.LocalReference ++ [0]))) = cd.writeBytes ++ (cg.writeBytes ++ (d.writeBytes ++ (sg.code % 256 :: sg.length % 256 :: sg.flagsByte :: (uint32To24 sg.LocalReference ++ [0])))) by simp]
          rw [List.drop_left' hcdb]
          rw [show 7 + cd.MarshalLen + cg.MarshalLen - (7 + cd.MarshalLen) = cg.MarshalLen by omega]
          rw [List.take_take]
          rw [show min cg.MarshalLen (j - cd.MarshalLen) = cg.MarshalLen by omega]
          exact List.take_left' hcgb
        rw [sC]; simp only [Res.bind_ok]
        obtain ⟨n2, hcgp⟩ := cg.pa_parse_writeBytes PCodeCallingPartyAddress hcg
        have sD : ParseCallingPartyAddress cg.writeBytes = .ok (cg, n2) := by
          simpa [ParseCallingPartyAddress] using hcgp
        rw [sD]; simp only [Res.bind_ok]
        have sE : goSliceFrom (17 % 256 :: pcv :: hcv :: 4 :: (3 + cd.MarshalLen) :: (2 + cd.MarshalLen + cg.MarshalLen) :: (2 + cd.MarshalLen + cg.MarshalLen + d.value.length) :: List.take j (cd.writeBytes ++ cg.writeBytes ++ d.writeBytes ++ (sg.code % 256 :: sg.length % 256 :: sg.flagsByte :: (uint32To24 sg.LocalReference ++ [0])))) (7 + cd.MarshalLen + cg.MarshalLen)
            = .ok (d.writeBytes ++ List.take (j - cd.MarshalLen - cg.MarshalLen - (1 + d.value.length)) (sg.code % 256 :: sg.length % 256 :: sg.flagsByte :: (uint32To24 sg.LocalReference ++ [0]))) := by
          rw [goSliceFrom_eq_ok (by rw [hlen2]; omega)]
          congr 1
          rw [show 7 + cd.MarshalLen + cg.MarshalLen = 7 + (cd.MarshalLen + cg.MarshalLen) by omega]
          rw [hTdrop (cd.MarshalLen + cg.MarshalLen)]
          rw [show (cd.writeBytes ++ cg.writeBytes ++ d.writeBytes ++ (sg.code % 256 :: sg.length % 256 :: sg.flagsByte :: (uint32To24 sg.LocalReference ++ [0]))) = (cd.writeBytes ++ cg.writeBytes) ++ (d.writeBytes ++ (sg.code % 256 :: sg.length % 256 :: sg.flagsByte :: (uint32To24 sg.LocalReference ++ [0]))) by simp]
          rw [List.drop_left' (by simp [hcdb, hcgb])]
          rw [List.take_append_eq_append_take]
          rw [List.take_of_length_le (by rw [hdbl]; omega)]
          rw [hdbl]
          rw [show j - (cd.MarshalLen + cg.MarshalLen) - (1 + d.value.length)
              = j - cd.MarshalLen - cg.MarshalLen - (1 + d.value.length) by omega]
        rw [sE]; simp only [Res.bind_ok]
        obtain ⟨n3, hdp⟩ := d.data_parse_writeBytes hd (List.take (j - cd.MarshalLen - cg.MarshalLen - (1 + d.value.length)) (sg.code % 256 :: sg.length % 256 :: sg.flagsByte :: (uint32To24 sg.LocalReference ++ [0])))
        rw [hdp]; simp only [Res.bind_ok]
        rw [if_neg (by omega)]
        have sF : goSliceFrom (17 % 256 :: pcv :: hcv :: 4 :: (3 + cd.MarshalLen) :: (2 + cd.MarshalLen + cg.MarshalLen) :: (2 + cd.MarshalLen + cg.MarshalLen + d.value.length) :: List.take j (cd.writeBytes ++ cg.writeBytes ++ d.writeBytes ++ (sg.code % 256 :: sg.length % 256 :: sg.flagsByte :: (uint32To24 sg.LocalReference ++ [0])))) (8 + cd.MarshalLen + cg.MarshalLen + d.value.length)
            = .ok (List.take (j - (1 + cd.MarshalLen + cg.MarshalLen + d.value.length)) (sg.code % 256 :: sg.length % 256 :: sg.flagsByte :: (uint32To24 sg.LocalReference ++ [0]))) := by
          rw [goSliceFrom_eq_ok (by rw [hlen2]; omega)]
          congr 1
          rw [show 8 + cd.MarshalLen + cg.MarshalLen + d.value.length
              = 7 + (1 + cd.MarshalLen + cg.MarshalLen + d.value.length) by omega]
          rw [hTdrop (1 + cd.MarshalLen + cg.MarshalLen + d.value.length)]
          rw [show (cd.writeBytes ++ cg.writeBytes ++ d.writeBytes ++ (sg.code % 256 :: sg.length % 256 :: sg.flagsByte :: (uint32To24 sg.LocalReference ++ [0]))) = (cd.writeBytes ++ cg.writeBytes ++ d.writeBytes) ++ (sg.code % 256 :: sg.length % 256 :: sg.flagsByte :: (uint32To24 sg.LocalReference ++ [0])) by simp]
          rw [List.drop_left' (by simp [hcdb, hcgb, hdbl]; omega)]
        rw [sF]; simp only [Res.bind_ok]
        obtain ⟨k4, hk4⟩ : ∃ k4, j - (1 + cd.MarshalLen + cg.MarshalLen + d.value.length) = k4 := ⟨_, rfl⟩
        rw [hk4]
        have hk41 : 1 ≤ k4 := by omega
        have hk4u : k4 < 7 := by omega
        by_cases hk6 : k4 = 6
        · subst hk6
          rw [show List.take 6 (sg.code % 256 :: sg.length % 256 :: sg.flagsByte :: (uint32To24 sg.LocalReference ++ [0])) = (sg.code % 256 :: sg.length % 256 :: sg.flagsByte :: uint32To24 sg.LocalReference) from rfl]
          have hseg := Segmentation.seg_Read_enc sg hsgwf []
          rw [List.append_nil] at hseg
          have hEk : ((sg.code % 256 :: sg.length % 256 :: sg.flagsByte :: uint32To24 sg.LocalReference)).length = 6 := by
            simp [uint32To24]
          have sG : ParseOptionalParameters (sg.code % 256 :: sg.length % 256 :: sg.flagsByte :: uint32To24 sg.LocalReference) = .err .eof := by
            simp only [ParseOptionalParameters]
            rw [hEk]
            rw [show (6:Nat) + 2 = 7 + 1 from rfl]
            simp only [ParseOptionalParametersAux]
            rw [if_pos (by rw [hEk]; omega)]
            rw [goSliceFrom_eq_ok (by rw [hEk]; omega)]
            simp only [List.drop_zero, Res.bind_ok]
            simp only [ParseOptionalParameter]
            rw [if_neg (by rw [hEk]; omega)]
            simp only [List.getD_cons_zero]
            rw [if_neg (by simp [hsgcode, PCodeSegmentation, PCodeEndOfOptionalParameters])]
            rw [if_neg (by simp [hsgcode, PCodeSegmentation, PCodeCalledPartyAddress])]
            rw [if_neg (by simp [hsgcode, PCodeSegmentation, PCodeCallingPartyAddress])]
            rw [if_neg (by simp [hsgcode, PCodeSegmentation, PCodeCredit])]
            rw [if_neg (by simp [hsgcode, PCodeSegmentation, PCodeData])]
            rw [if_pos (by simp [hsgcode, PCodeSegmentation])]
            rw [hseg]
            simp only [Res.bind_ok]
            rw [if_neg (show ¬(Param.Code (.seg sg) = PCodeEndOfOptionalParameters) by
              simp [Param.Code, hsgcode, PCodeSegmentation, PCodeEndOfOptionalParameters])]
            rw [if_pos (by rw [hEk]; omega)]
            rw [goSliceFrom_eq_ok (by rw [hEk])]
            simp only [Res.bind_ok]
            rw [show List.drop (0 + 6) (sg.code % 256 :: sg.length % 256 :: sg.flagsByte :: uint32To24 sg.LocalReference) = [] from rfl]
            simp only [List.nil_append]
            rw [if_pos (by simp)]
            simp only [Res.bind_err]
          rw [sG]
          simp only [Res.bind_err]
        · obtain ⟨kp, rfl⟩ : ∃ kp, k4 = kp + 1 := ⟨k4 - 1, by omega⟩
          rw [show kp + 1 = kp + 1 from rfl, List.take_succ_cons]
          have hEk : (sg.code % 256 :: List.take kp (sg.length % 256 :: sg.flagsByte :: (uint32To24 sg.LocalReference ++ [0]))).length = kp + 1 := by
            simp [List.length_take, uint32To24]
            omega
          have sG : ParseOptionalParameters (sg.code % 256 :: List.take kp (sg.length % 256 :: sg.flagsByte :: (uint32To24 sg.LocalReference ++ [0]))) = .err .eof := by
            simp only [ParseOptionalParameters]
            rw [hEk]
            rw [show kp + 1 + 2 = (kp + 2) + 1 from rfl]
            simp only [ParseOptionalParametersAux]
            rw [if_pos (by rw [hEk]; omega)]
            rw [goSliceFrom_eq_ok (by rw [hEk]; omega)]
            simp only [List.drop_zero, Res.bind_ok]
            simp only [ParseOptionalParameter]
            rw [if_neg (by rw [hEk]; omega)]
            simp only [List.getD_cons_zero]
            rw [if_neg (by simp [hsgcode, PCodeSegmentation, PCodeEndOfOptionalParameters])]
            rw [if_neg (by simp [hsgcode, PCodeSegmentation, PCodeCalledPartyAddress])]
            rw [if_neg (by simp [hsgcode, PCodeSegmentation, PCodeCallingPartyAddress])]
            rw [if_neg (by simp [hsgcode, PCodeSegmentation, PCodeCredit])]
            rw [if_neg (by simp [hsgcode, PCodeSegmentation, PCodeData])]
            rw [if_pos (by simp [hsgcode, PCodeSegmentation])]
            simp only [Segmentation.Read, Segmentation.mk0]
            rw [if_pos (by rw [hEk]; omega)]
            simp only [Res.bind_err]
          rw [sG]
          simp only [Res.bind_err]
      · have hsgwf2 := hsgwf
        obtain ⟨hsgpt, hsgcode, hsglen, hsgcls, hsgrem, hsglr⟩ := hsgwf2
        have himwf2 := himwf
        obtain ⟨himpt, himcode, himlen, himval⟩ := himwf2
        simp only [XUDT.enc, XUDT.encBlock] at hi ⊢
        rw [if_neg (show ¬(2 + cd.MarshalLen + cg.MarshalLen + d.value.length = 0) by omega)] at hi ⊢
        simp only [show NewEndOfOptionalParameters.value = 0 from rfl, List.nil_append,
          List.cons_append, List.append_nil] at hi ⊢
        have hlenF : (17 % 256 :: pcv :: hcv :: 4 :: (3 + cd.MarshalLen) :: (2 + cd.MarshalLen + cg.MarshalLen) :: (2 + cd.MarshalLen + cg.MarshalLen + d.value.length) :: (cd.writeBytes ++ cg.writeBytes ++ d.writeBytes ++ (sg.code % 256 :: sg.length % 256 :: sg.flagsByte :: ((uint32To24 sg.LocalReference ++ [im.code % 256, im.length % 256, im.value]) ++ [0])))).length
            = 18 + cd.MarshalLen + cg.MarshalLen + d.value.length := by
          simp [hcdb, hcgb, hdbl, uint32To24]
          omega
        rw [hlenF] at hi
        by_cases h5 : i ≤ 5
        · simp only [XUDT.UnmarshalBinary]
          rw [List.length_take, hlenF]
          rw [if_pos (by omega)]
        by_cases h6 : i = 6
        · subst h6
          rw [show (6:Nat) = 5+1 from rfl, List.take_succ_cons,
              show (5:Nat) = 4+1 from rfl, List.take_succ_cons,
              show (4:Nat) = 3+1 from rfl, List.take_succ_cons,
              show (3:Nat) = 2+1 from rfl, List.take_succ_cons,
              show (2:Nat) = 1+1 from rfl, List.take_succ_cons,
              show (1:Nat) = 0+1 from rfl, List.take_succ_cons, List.take_zero]
          simp only [XUDT.UnmarshalBinary, List.length_cons, List.length_nil]
          rw [if_neg (by omega)]
          have spc : ProtocolClass.mk0.Read (List.drop 1 [17 % 256, pcv, hcv, 4, 3 + cd.MarshalLen, 2 + cd.MarshalLen + cg.MarshalLen])
              = .ok (⟨PTypeF, PCodeProtocolClass, 1, pcv⟩, 1) := by
            simp only [List.drop_one, List.tail_cons, ProtocolClass.Read, List.length_cons]
            rw [if_neg (by omega)]
            simp [ProtocolClass.mk0, PTypeF]
          rw [spc]; simp only [Res.bind_ok]
          simp only [show (1:Nat)+1+1 = 3 from rfl, show (1:Nat)+1 = 2 from rfl]
          have shp : HopCounter.Read HopCounter.mk0 (List.drop 2 [17 % 256, pcv, hcv, 4, 3 + cd.MarshalLen, 2 + cd.MarshalLen + cg.MarshalLen])
              = .ok (⟨PTypeF, PCodeHopCounter, 1, hcv⟩, 1) := by
            rw [show List.drop 2 [17 % 256, pcv, hcv, 4, 3 + cd.MarshalLen, 2 + cd.MarshalLen + cg.MarshalLen]
                = [hcv, 4, 3 + cd.MarshalLen, 2 + cd.MarshalLen + cg.MarshalLen] from rfl]
            simp only [HopCounter.Read, HopCounter.mk0, HopCounter.read, PTypeF, PTypeO,
              List.length_cons]
            rw [if_neg (by norm_num)]
            rw [if_neg (by omega)]
            simp
          rw [shp]; simp only [Res.bind_ok]
          simp only [show (1:Nat)+1+1 = 3 from rfl, show (1:Nat)+1 = 2 from rfl]
          rw [goIdx_eq_ok (show 3 < ([17 % 256, pcv, hcv, 4, 3 + cd.MarshalLen, 2 + cd.MarshalLen + cg.MarshalLen]).length by simp)]
          simp only [Res.bind_ok]
          rw [show ([17 % 256, pcv, hcv, 4, 3 + cd.MarshalLen, 2 + cd.MarshalLen + cg.MarshalLen]).getD 3 0 = 4 from rfl]
          rw [if_neg (by omega)]
          rw [goIdx_eq_ok (show 4 < ([17 % 256, pcv, hcv, 4, 3 + cd.MarshalLen, 2 + cd.MarshalLen + cg.MarshalLen]).length by simp)]
          simp only [Res.bind_ok]
          rw [show ([17 % 256, pcv, hcv, 4, 3 + cd.MarshalLen, 2 + cd.MarshalLen + cg.MarshalLen]).getD 4 0 = 3 + cd.MarshalLen from rfl]
          rw [show (3 + cd.MarshalLen + 4) % 256 = 7 + cd.MarshalLen by omega]
          rw [if_pos (by omega)]
        obtain ⟨j, rfl⟩ : ∃ j, i = j + 7 := ⟨i - 7, by omega⟩
        rw [show j + 7 = (j+6)+1 from rfl, List.take_succ_cons,
            show j + 6 = (j+5)+1 from rfl, List.take_succ_cons,
            show j + 5 = (j+4)+1 from rfl, List.take_succ_cons,
            show j + 4 = (j+3)+1 from rfl, List.take_succ_cons,
            show j + 3 = (j+2)+1 from rfl, List.take_succ_cons,
            show j + 2 = (j+1)+1 from rfl, List.take_succ_cons,
            show j + 1 = j+1 from rfl, List.take_succ_cons]
        have hlen2 : (17 % 256 :: pcv :: hcv :: 4 :: (3 + cd.MarshalLen) :: (2 + cd.MarshalLen + cg.MarshalLen) :: (2 + cd.MarshalLen + cg.MarshalLen + d.value.length) :: List.take j (cd.writeBytes ++ cg.writeBytes ++ d.writeBytes ++ (sg.code % 256 :: sg.length % 256 :: sg.flagsByte :: ((uint32To24 sg.LocalReference ++ [im.code % 256, im.length % 256, im.value]) ++ [0])))).length = j + 7 := by
          simp [List.length_take, hcdb, hcgb, hdbl, uint32To24]
          omega
        simp only [XUDT.UnmarshalBinary]
        rw [hlen2]
        rw [if_neg (by omega)]
        have spc : ProtocolClass.mk0.Read (List.drop 1 (17 % 256 :: pcv :: hcv :: 4 :: (3 + cd.MarshalLen) :: (2 + cd.MarshalLen + cg.MarshalLen) :: (2 + cd.MarshalLen + cg.MarshalLen + d.value.length) :: List.take j (cd.writeBytes ++ cg.writeBytes ++ d.writeBytes ++ (sg.code % 256 :: sg.length % 256 :: sg.flagsByte :: ((uint32To24 sg.LocalReference ++ [im.code % 256, im.length % 256, im.value]) ++ [0])))))
            = .ok (⟨PTypeF, PCodeProtocolClass, 1, pcv⟩, 1) := by
          simp only [List.drop_one, List.tail_cons, ProtocolClass.Read, List.length_cons]
          rw [if_neg (by omega)]
          simp [ProtocolClass.mk0, PTypeF]
        rw [spc]; simp only [Res.bind_ok]
        simp only [show (1:Nat)+1+1+3 = 6 from rfl, show (1:Nat)+1+1+2 = 5 from rfl,
          show (1:Nat)+1+1+1 = 4 from rfl, show (1:Nat)+1+1 = 3 from rfl,
          show (1:Nat)+1 = 2 from rfl]
        have shp : HopCounter.Read HopCounter.mk0 (List.drop 2 (17 % 256 :: pcv :: hcv :: 4 :: (3 + cd.MarshalLen) :: (2 + cd.MarshalLen + cg.MarshalLen) :: (2 + cd.MarshalLen + cg.MarshalLen + d.value.length) :: List.take j (cd.writeBytes ++ cg.writeBytes ++ d.writeBytes ++ (sg.code % 256 :: sg.length % 256 :: sg.flagsByte :: ((uint32To24 sg.LocalReference ++ [im.code % 256, im.length % 256, im.value]) ++ [0])))))
            = .ok (⟨PTypeF, PCodeHopCounter, 1, hcv⟩, 1) := by
          rw [show List.drop 2 (17 % 256 :: pcv :: hcv :: 4 :: (3 + cd.MarshalLen) :: (2 + cd.MarshalLen + cg.MarshalLen) :: (2 + cd.MarshalLen + cg.MarshalLen + d.value.length) :: List.take j (cd.writeBytes ++ cg.writeBytes ++ d.writeBytes ++ (sg.code % 256 :: sg.length % 256 :: sg.flagsByte :: ((uint32To24 sg.LocalReference ++ [im.code % 256, im.length % 256, im.value]) ++ [0]))))
              = hcv :: 4 :: (3 + cd.MarshalLen) :: (2 + cd.MarshalLen + cg.MarshalLen) :: (2 + cd.MarshalLen + cg.MarshalLen + d.value.length) :: List.take j (cd.writeBytes ++ cg.writeBytes ++ d.writeBytes ++ (sg.code % 256 :: sg.length % 256 :: sg.flagsByte :: ((uint32To24 sg.LocalReference ++ [im.code % 256, im.length % 256, im.value]) ++ [0]))) from rfl]
          simp only [HopCounter.Read, HopCounter.mk0, HopCounter.read, PTypeF, PTypeO,
            List.length_cons]
          rw [if_neg (by norm_num)]
          rw [if_neg (by omega)]
          simp
        rw [shp]; simp only [Res.bind_ok]
        simp only [show (1:Nat)+1+1+3 = 6 from rfl, show (1:Nat)+1+1+2 = 5 from rfl,
          show (1:Nat)+1+1+1 = 4 from rfl, show (1:Nat)+1+1 = 3 from rfl,
          show (1:Nat)+1 = 2 from rfl]
        rw [goIdx_eq_ok (show 3 < ((17 % 256 :: pcv :: hcv :: 4 :: (3 + cd.MarshalLen) :: (2 + cd.MarshalLen + cg.MarshalLen) :: (2 + cd.MarshalLen + cg.MarshalLen + d.value.length) :: List.take j (cd.writeBytes ++ cg.writeBytes ++ d.writeBytes ++ (sg.code % 256 :: sg.length % 256 :: sg.flagsByte :: ((uint32To24 sg.LocalReference ++ [im.code % 256, im.length % 256, im.value]) ++ [0]))))).length by rw [hlen2]; omega)]
        simp only [Res.bind_ok]
        rw [show ((17 % 256 :: pcv :: hcv :: 4 :: (3 + cd.MarshalLen) :: (2 + cd.MarshalLen + cg.MarshalLen) :: (2 + cd.MarshalLen + cg.MarshalLen + d.value.length) :: List.take j (cd.writeBytes ++ cg.writeBytes ++ d.writeBytes ++ (sg.code % 256 :: sg.length % 256 :: sg.flagsByte :: ((uint32To24 sg.LocalReference ++ [im.code % 256, im.length % 256, im.value]) ++ [0]))))).getD 3 0 = 4 from rfl]
        rw [if_neg (by omega)]
        rw [goIdx_eq_ok (show 4 < ((17 % 256 :: pcv :: hcv :: 4 :: (3 + cd.MarshalLen) :: (2 + cd.MarshalLen + cg.MarshalLen) :: (2 + cd.MarshalLen + cg.MarshalLen + d.value.length) :: List.take j (cd.writeBytes ++ cg.writeBytes ++ d.writeBytes ++ (sg.code % 256 :: sg.length % 256 :: sg.flagsByte :: ((uint32To24 sg.LocalReference ++ [im.code % 256, im.length % 256, im.value]) ++ [0]))))).length by rw [hlen2]; omega)]
        simp only [Res.bind_ok]
        rw [show ((17 % 256 :: pcv :: hcv :: 4 :: (3 + cd.MarshalLen) :: (2 + cd.MarshalLen + cg.MarshalLen) :: (2 + cd.MarshalLen + cg.MarshalLen + d.value.length) :: List.take j (cd.writeBytes ++ cg.writeBytes ++ d.writeBytes ++ (sg.code % 256 :: sg.length % 256 :: sg.flagsByte :: ((uint32To24 sg.LocalReference ++ [im.code % 256, im.length % 256, im.value]) ++ [0]))))).getD 4 0 = 3 + cd.MarshalLen from rfl]
        rw [show (3 + cd.MarshalLen + 4) % 256 = 7 + cd.MarshalLen by omega]
        by_cases hA : j + 7 < 7 + cd.MarshalLen
        · rw [if_pos hA]
        rw [if_neg hA]
        rw [goIdx_eq_ok (show 5 < ((17 % 256 :: pcv :: hcv :: 4 :: (3 + cd.MarshalLen) :: (2 + cd.MarshalLen + cg.MarshalLen) :: (2 + cd.MarshalLen + cg.MarshalLen + d.value.length) :: List.take j (cd.writeBytes ++ cg.writeBytes ++ d.writeBytes ++ (sg.code % 256 :: sg.length % 256 :: sg.flagsByte :: ((uint32To24 sg.LocalReference ++ [im.code % 256, im.length % 256, im.value]) ++ [0]))))).length by rw [hlen2]; omega)]
        simp only [Res.bind_ok]
        rw [show ((17 % 256 :: pcv :: hcv :: 4 :: (3 + cd.MarshalLen) :: (2 + cd.MarshalLen + cg.MarshalLen) :: (2 + cd.MarshalLen + cg.MarshalLen + d.value.length) :: List.take j (cd.writeBytes ++ cg.writeBytes ++ d.writeBytes ++ (sg.code % 256 :: sg.length % 256 :: sg.flagsByte :: ((uint32To24 sg.LocalReference ++ [im.code % 256, im.length % 256, im.value]) ++ [0]))))).getD 5 0 = 2 + cd.MarshalLen + cg.MarshalLen from rfl]
        rw [show (2 + cd.MarshalLen + cg.MarshalLen + 5) % 256
            = 7 + cd.MarshalLen + cg.MarshalLen by omega]
        by_cases hB : j + 7 < 7 + cd.MarshalLen + cg.MarshalLen
        · rw [if_pos hB]
        rw [if_neg hB]
        rw [goIdx_eq_ok (show 6 < ((17 % 256 :: pcv :: hcv :: 4 :: (3 + cd.MarshalLen) :: (2 + cd.MarshalLen + cg.MarshalLen) :: (2 + cd.MarshalLen + cg.MarshalLen + d.value.length) :: List.take j (cd.writeBytes ++ cg.writeBytes ++ d.writeBytes ++ (sg.code % 256 :: sg.length % 256 :: sg.flagsByte :: ((uint32To24 sg.LocalReference ++ [im.code % 256, im.length % 256, im.value]) ++ [0]))))).length by rw [hlen2]; omega)]
        simp only [Res.bind_ok]
        rw [show ((17 % 256 :: pcv :: hcv :: 4 :: (3 + cd.MarshalLen) :: (2 + cd.MarshalLen + cg.MarshalLen) :: (2 + cd.MarshalLen + cg.MarshalLen + d.value.length) :: List.take j (cd.writeBytes ++ cg.writeBytes ++ d.writeBytes ++ (sg.code % 256 :: sg.length % 256 :: sg.flagsByte :: ((uint32To24 sg.LocalReference ++ [im.code % 256, im.length % 256, im.value]) ++ [0]))))).getD 6 0 = 2 + cd.MarshalLen + cg.MarshalLen + d.value.length from rfl]
        by_cases hC : j + 7 < 2 + cd.MarshalLen + cg.MarshalLen + d.value.length + 7
        · rw [if_pos ⟨by omega, hC⟩]
        rw [if_neg (by rintro ⟨-, hx⟩; omega)]
        rw [show (2 + cd.MarshalLen + cg.MarshalLen + d.value.length + 6) % 256
            = 8 + cd.MarshalLen + cg.MarshalLen + d.value.length by omega]
        have sA : goSlice (17 % 256 :: pcv :: hcv :: 4 :: (3 + cd.MarshalLen) :: (2 + cd.MarshalLen + cg.MarshalLen) :: (2 + cd.MarshalLen + cg.MarshalLen + d.value.length) :: List.take j (cd.writeBytes ++ cg.writeBytes ++ d.writeBytes ++ (sg.code % 256 :: sg.length % 256 :: sg.flagsByte :: ((uint32To24 sg.LocalReference ++ [im.code % 256, im.length % 256, im.value]) ++ [0])))) 7 (7 + cd.MarshalLen) = .ok cd.writeBytes := by
          rw [goSlice_eq_ok (by omega) (by rw [hlen2]; omega)]
          congr 1
          rw [show ((17 % 256 :: pcv :: hcv :: 4 :: (3 + cd.MarshalLen) :: (2 + cd.MarshalLen + cg.MarshalLen) :: (2 + cd.MarshalLen + cg.MarshalLen + d.value.length) :: List.take j (cd.writeBytes ++ cg.writeBytes ++ d.writeBytes ++ (sg.code % 256 :: sg.length % 256 :: sg.flagsByte :: ((uint32To24 sg.LocalReference ++ [im.code % 256, im.length % 256, im.value]) ++ [0]))))).drop 7 = List.take j (cd.writeBytes ++ cg.writeBytes ++ d.writeBytes ++ (sg.code % 256 :: sg.length % 256 :: sg.flagsByte :: ((uint32To24 sg.LocalReference ++ [im.code % 256, im.length % 256, im.value]) ++ [0]))) from rfl]
          rw [show 7 + cd.MarshalLen - 7 = cd.MarshalLen by omega]
          rw [List.take_take]
          rw [show min cd.MarshalLen j = cd.MarshalLen by omega]
          rw [show (cd.writeBytes ++ cg.writeBytes ++ d.writeBytes ++ (sg.code % 256 :: sg.length % 256 :: sg.flagsByte :: ((uint32To24 sg.LocalReference ++ [im.code % 256, im.length % 256, im.value]) ++ [0]))) = cd.writeBytes ++ (cg.writeBytes ++ (d.writeBytes ++ (sg.code % 256 :: sg.length % 256 :: sg.flagsByte :: ((uint32To24 sg.LocalReference ++ [im.code % 256, im.length % 256, im.value]) ++ [0])))) by simp]
          exact List.take_left' hcdb
        rw [sA]; simp only [Res.bind_ok]
        obtain ⟨n1, hcdp⟩ := cd.pa_parse_writeBytes PCodeCalledPartyAddress hcd
        have sB : ParseCalledPartyAddress cd.writeBytes = .ok (cd, n1) := by
          simpa [ParseCalledPartyAddress] using hcdp
        rw [sB]; simp only [Res.bind_ok]
        have hTdrop : ∀ m : Nat, ((17 % 256 :: pcv :: hcv :: 4 :: (3 + cd.MarshalLen) :: (2 + cd.MarshalLen + cg.MarshalLen) :: (2 + cd.MarshalLen + cg.MarshalLen + d.value.length) :: List.take j (cd.writeBytes ++ cg.writeBytes ++ d.writeBytes ++ (sg.code % 256 :: sg.length % 256 :: sg.flagsByte :: ((uint32To24 sg.LocalReference ++ [im.code % 256, im.length % 256, im.value]) ++ [0]))))).drop (7 + m)
            = List.take (j - m) ((cd.writeBytes ++ cg.writeBytes ++ d.writeBytes ++ (sg.code % 256 :: sg.length % 256 :: sg.flagsByte :: ((uint32To24 sg.LocalReference ++ [im.code % 256, im.length % 256, im.value]) ++ [0]))).drop m) := by
          intro m
          rw [← List.drop_drop]
          rw [show ((17 % 256 :: pcv :: hcv :: 4 :: (3 + cd.MarshalLen) :: (2 + cd.MarshalLen + cg.MarshalLen) :: (2 + cd.MarshalLen + cg.MarshalLen + d.value.length) :: List.take j (cd.writeBytes ++ cg.writeBytes ++ d.writeBytes ++ (sg.code % 256 :: sg.length % 256 :: sg.flagsByte :: ((uint32To24 sg.LocalReference ++ [im.code % 256, im.length % 256, im.value]) ++ [0]))))).drop 7 = List.take j (cd.writeBytes ++ cg.writeBytes ++ d.writeBytes ++ (sg.code % 256 :: sg.length % 256 :: sg.flagsByte :: ((uint32To24 sg.LocalReference ++ [im.code % 256, im.length % 256, im.value]) ++ [0]))) from rfl]
          rw [List.drop_take]
        have sC : goSlice (17 % 256 :: pcv :: hcv :: 4 :: (3 + cd.MarshalLen) :: (2 + cd.MarshalLen + cg.MarshalLen) :: (2 + cd.MarshalLen + cg.MarshalLen + d.value.length) :: List.take j (cd.writeBytes ++ cg.writeBytes ++ d.writeBytes ++ (sg.code % 256 :: sg.length % 256 :: sg.flagsByte :: ((uint32To24 sg.LocalReference ++ [im.code % 256, im.length % 256, im.value]) ++ [0])))) (7 + cd.MarshalLen) (7 + cd.MarshalLen + cg.MarshalLen)
            = .ok cg.writeBytes := by
          rw [goSlice_eq_ok (by omega) (by rw [hlen2]; omega)]
          congr 1
          rw [hTdrop cd.MarshalLen]
          rw [show (cd.writeBytes ++ cg.writeBytes ++ d.writeBytes ++ (sg.code % 256 :: sg.length % 256 :: sg.flagsByte :: ((uint32To24 sg.LocalReference ++ [im.code % 256, im.length % 256, im.value]) ++ [0]))) = cd.writeBytes ++ (cg.writeBytes ++ (d.writeBytes ++ (sg.code % 256 :: sg.length % 256 :: sg.flagsByte :: ((uint32To24 sg.LocalReference ++ [im.code % 256, im.length % 256, im.value]) ++ [0])))) by simp]
          rw [List.drop_left' hcdb]
          rw [show 7 + cd.MarshalLen + cg.MarshalLen - (7 + cd.MarshalLen) = cg.MarshalLen by omega]
          rw [List.take_take]
          rw [show min cg.MarshalLen (j - cd.MarshalLen) = cg.MarshalLen by omega]
          exact List.take_left' hcgb
        rw [sC]; simp only [Res.bind_ok]
        obtain ⟨n2, hcgp⟩ := cg.pa_parse_writeBytes PCodeCallingPartyAddress hcg
        have sD : ParseCallingPartyAddress cg.writeBytes = .ok (cg, n2) := by
          simpa [ParseCallingPartyAddress] using hcgp
        rw [sD]; simp only [Res.bind_ok]
        have sE : goSliceFrom (17 % 256 :: pcv :: hcv :: 4 :: (3 + cd.MarshalLen) :: (2 + cd.MarshalLen + cg.MarshalLen) :: (2 + cd.MarshalLen + cg.MarshalLen + d.value.length) :: List.take j (cd.writeBytes ++ cg.writeBytes ++ d.writeBytes ++ (sg.code % 256 :: sg.length % 256 :: sg.flagsByte :: ((uint32To24 sg.LocalReference ++ [im.code % 256, im.length % 256, im.value]) ++ [0])))) (7 + cd.MarshalLen + cg.MarshalLen)
            = .ok (d.writeBytes ++ List.take (j - cd.MarshalLen - cg.MarshalLen - (1 + d.value.length)) (sg.code % 256 :: sg.length % 256 :: sg.flagsByte :: ((uint32To24 sg.LocalReference ++ [im.code % 256, im.length % 256, im.value]) ++ [0]))) := by
          rw [goSliceFrom_eq_ok (by rw [hlen2]; omega)]
          congr 1
          rw [show 7 + cd.MarshalLen + cg.MarshalLen = 7 + (cd.MarshalLen + cg.MarshalLen) by omega]
          rw [hTdrop (cd.MarshalLen + cg.MarshalLen)]
          rw [show (cd.writeBytes ++ cg.writeBytes ++ d.writeBytes ++ (sg.code % 256 :: sg.length % 256 :: sg.flagsByte :: ((uint32To24 sg.LocalReference ++ [im.code % 256, im.length % 256, im.value]) ++ [0]))) = (cd.writeBytes ++ cg.writeBytes) ++ (d.writeBytes ++ (sg.code % 256 :: sg.length % 256 :: sg.flagsByte :: ((uint32To24 sg.LocalReference ++ [im.code % 256, im.length % 256, im.value]) ++ [0]))) by simp]
          rw [List.drop_left' (by simp [hcdb, hcgb])]
          rw [List.take_append_eq_append_take]
          rw [List.take_of_length_le (by rw [hdbl]; omega)]
          rw [hdbl]
          rw [show j - (cd.MarshalLen + cg.MarshalLen) - (1 + d.value.length)
              = j - cd.MarshalLen - cg.MarshalLen - (1 + d.value.length) by omega]
        rw [sE]; simp only [Res.bind_ok]
        obtain ⟨n3, hdp⟩ := d.data_parse_writeBytes hd (List.take (j - cd.MarshalLen - cg.MarshalLen - (1 + d.value.length)) (sg.code % 256 :: sg.length % 256 :: sg.flagsByte :: ((uint32To24 sg.LocalReference ++ [im.code % 256, im.length % 256, im.value]) ++ [0])))
        rw [hdp]; simp only [Res.bind_ok]
        rw [if_neg (by omega)]
        have sF : goSliceFrom (17 % 256 :: pcv :: hcv :: 4 :: (3 + cd.MarshalLen) :: (2 + cd.MarshalLen + cg.MarshalLen) :: (2 + cd.MarshalLen + cg.MarshalLen + d.value.length) :: List.take j (cd.writeBytes ++ cg.writeBytes ++ d.writeBytes ++ (sg.code % 256 :: sg.length % 256 :: sg.flagsByte :: ((uint32To24 sg.LocalReference ++ [im.code % 256, im.length % 256, im.value]) ++ [0])))) (8 + cd.MarshalLen + cg.MarshalLen + d.value.length)
            = .ok (List.take (j - (1 + cd.MarshalLen + cg.MarshalLen + d.value.length)) (sg.code % 256 :: sg.length % 256 :: sg.flagsByte :: ((uint32To24 sg.LocalReference ++ [im.code % 256, im.length % 256, im.value]) ++ [0]))) := by
          rw [goSliceFrom_eq_ok (by rw [hlen2]; omega)]
          congr 1
          rw [show 8 + cd.MarshalLen + cg.MarshalLen + d.value.length
              = 7 + (1 + cd.MarshalLen + cg.MarshalLen + d.value.length) by omega]
          rw [hTdrop (1 + cd.MarshalLen + cg.MarshalLen + d.value.length)]
          rw [show (cd.writeBytes ++ cg.writeBytes ++ d.writeBytes ++ (sg.code % 256 :: sg.length % 256 :: sg.flagsByte :: ((uint32To24 sg.LocalReference ++ [im.code % 256, im.length % 256, im.value]) ++ [0]))) = (cd.writeBytes ++ cg.writeBytes ++ d.writeBytes) ++ (sg.code % 256 :: sg.length % 256 :: sg.flagsByte :: ((uint32To24 sg.LocalReference ++ [im.code % 256, im.length % 256, im.value]) ++ [0])) by simp]
          rw [List.drop_left' (by simp [hcdb, hcgb, hdbl]; omega)]
        rw [sF]; simp only [Res.bind_ok]
        obtain ⟨k4, hk4⟩ : ∃ k4, j - (1 + cd.MarshalLen + cg.MarshalLen + d.value.length) = k4 := ⟨_, rfl⟩
        rw [hk4]
        have hk41 : 1 ≤ k4 := by omega
        have hk4u : k4 < 10 := by omega
        by_cases hk6 : k4 < 6
        · obtain ⟨kp, rfl⟩ : ∃ kp, k4 = kp + 1 := ⟨k4 - 1, by omega⟩
          rw [show kp + 1 = kp + 1 from rfl, List.take_succ_cons]
          have hEk : (sg.code % 256 :: List.take kp (sg.length % 256 :: sg.flagsByte :: ((uint32To24 sg.LocalReference ++ [im.code % 256, im.length % 256, im.value]) ++ [0]))).length = kp + 1 := by
            simp [List.length_take, uint32To24]
            omega
          have sG : ParseOptionalParameters (sg.code % 256 :: List.take kp (sg.length % 256 :: sg.flagsByte :: ((uint32To24 sg.LocalReference ++ [im.code % 256, im.length % 256, im.value]) ++ [0]))) = .err .eof := by
            simp only [ParseOptionalParameters]
            rw [hEk]
            rw [show kp + 1 + 2 = (kp + 2) + 1 from rfl]
            simp only [ParseOptionalParametersAux]
            rw [if_pos (by rw [hEk]; omega)]
            rw [goSliceFrom_eq_ok (by rw [hEk]; omega)]
            simp only [List.drop_zero, Res.bind_ok]
            simp only [ParseOptionalParameter]
            rw [if_neg (by rw [hEk]; omega)]
            simp only [List.getD_cons_zero]
            rw [if_neg (by simp [hsgcode, PCodeSegmentation, PCodeEndOfOptionalParameters])]
            rw [if_neg (by simp [hsgcode, PCodeSegmentation, PCodeCalledPartyAddress])]
            rw [if_neg (by simp [hsgcode, PCodeSegmentation, PCodeCallingPartyAddress])]
            rw [if_neg (by simp [hsgcode, PCodeSegmentation, PCodeCredit])]
            rw [if_neg (by simp [hsgcode, PCodeSegmentation, PCodeData])]
            rw [if_pos (by simp [hsgcode, PCodeSegmentation])]
            simp only [Segmentation.Read, Segmentation.mk0]
            rw [if_pos (by rw [hEk]; omega)]
            simp only [Res.bind_err]
          rw [sG]
          simp only [Res.bind_err]
        · have hk4c : k4 = 6 ∨ k4 = 7 ∨ k4 = 8 ∨ k4 = 9 := by omega
          rcases hk4c with rfl | rfl | rfl | rfl
          · rw [show List.take 6 (sg.code % 256 :: sg.length % 256 :: sg.flagsByte :: ((uint32To24 sg.LocalReference ++ [im.code % 256, im.length % 256, im.value]) ++ [0])) = (sg.code % 256 :: sg.length % 256 :: sg.flagsByte :: uint32To24 sg.LocalReference) from rfl]
            have hseg := Segmentation.seg_Read_enc sg hsgwf []
            rw [List.append_nil] at hseg
            have hEk : ((sg.code % 256 :: sg.length % 256 :: sg.flagsByte :: uint32To24 sg.LocalReference)).length = 6 := by
              simp [uint32To24]
            have sG : ParseOptionalParameters (sg.code % 256 :: sg.length % 256 :: sg.flagsByte :: uint32To24 sg.LocalReference) = .err .eof := by
              simp only [ParseOptionalParameters]
              rw [hEk]
              rw [show (6:Nat) + 2 = 7 + 1 from rfl]
              simp only [ParseOptionalParametersAux]
              rw [if_pos (by rw [hEk]; omega)]
              rw [goSliceFrom_eq_ok (by rw [hEk]; omega)]
              simp only [List.drop_zero, Res.bind_ok]
              simp only [ParseOptionalParameter]
              rw [if_neg (by rw [hEk]; omega)]
              simp only [List.getD_cons_zero]
              rw [if_neg (by simp [hsgcode, PCodeSegmentation, PCodeEndOfOptionalParameters])]
              rw [if_neg (by simp [hsgcode, PCodeSegmentation, PCodeCalledPartyAddress])]
              rw [if_neg (by simp [hsgcode, PCodeSegmentation, PCodeCallingPartyAddress])]
              rw [if_neg (by simp [hsgcode, PCodeSegmentation, PCodeCredit])]
              rw [if_neg (by simp [hsgcode, PCodeSegmentation, PCodeData])]
              rw [if_pos (by simp [hsgcode, PCodeSegmentation])]
              rw [hseg]
              simp only [Res.bind_ok]
              rw [if_neg (show ¬(Param.Code (.seg sg) = PCodeEndOfOptionalParameters) by
                simp [Param.Code, hsgcode, PCodeSegmentation, PCodeEndOfOptionalParameters])]
              simp only [List.nil_append]
              rw [if_pos (by rw [hEk]; omega)]
              rw [goSliceFrom_eq_ok (by rw [hEk])]
              simp only [Res.bind_ok]
              rw [show List.drop (0 + 6) (sg.code % 256 :: sg.length % 256 :: sg.flagsByte :: uint32To24 sg.LocalReference) = [] from rfl]
              rw [if_pos (by simp)]
              simp only [Res.bind_err]
            rw [sG]
            simp only [Res.bind_err]

          · rw [show List.take 7 (sg.code % 256 :: sg.length % 256 :: sg.flagsByte :: ((uint32To24 sg.LocalReference ++ [im.code % 256, im.length % 256, im.value]) ++ [0])) = (sg.code % 256 :: sg.length % 256 :: sg.flagsByte :: (uint32To24 sg.LocalReference ++ [im.code % 256])) from rfl]
            have hseg := Segmentation.seg_Read_enc sg hsgwf [im.code % 256]
  
            have hEk : ((sg.code % 256 :: sg.length % 256 :: sg.flagsByte :: (uint32To24 sg.LocalReference ++ [im.code % 256]))).length = 7 := by
              simp [uint32To24]
            have sG : ParseOptionalParameters (sg.code % 256 :: sg.length % 256 :: sg.flagsByte :: (uint32To24 sg.LocalReference ++ [im.code % 256])) = .err .eof := by
              simp only [ParseOptionalParameters]
              rw [hEk]
              rw [show (7:Nat) + 2 = 8 + 1 from rfl]
              simp only [ParseOptionalParametersAux]
              rw [if_pos (by rw [hEk]; omega)]
              rw [goSliceFrom_eq_ok (by rw [hEk]; omega)]
              simp only [List.drop_zero, Res.bind_ok]
              simp only [ParseOptionalParameter]
              rw [if_neg (by rw [hEk]; omega)]
              simp only [List.getD_cons_zero]
              rw [if_neg (by simp [hsgcode, PCodeSegmentation, PCodeEndOfOptionalParameters])]
              rw [if_neg (by simp [hsgcode, PCodeSegmentation, PCodeCalledPartyAddress])]
              rw [if_neg (by simp [hsgcode, PCodeSegmentation, PCodeCallingPartyAddress])]
              rw [if_neg (by simp [hsgcode, PCodeSegmentation, PCodeCredit])]
              rw [if_neg (by simp [hsgcode, PCodeSegmentation, PCodeData])]
              rw [if_pos (by simp [hsgcode, PCodeSegmentation])]
              rw [hseg]
              simp only [Res.bind_ok]
              rw [if_neg (show ¬(Param.Code (.seg sg) = PCodeEndOfOptionalParameters) by
                simp [Param.Code, hsgcode, PCodeSegmentation, PCodeEndOfOptionalParameters])]
              simp only [List.nil_append]
              rw [if_pos (by rw [hEk]; omega)]
              rw [goSliceFrom_eq_ok (by rw [hEk]; omega)]
              simp only [Res.bind_ok]
              rw [show List.drop (0 + 6) (sg.code % 256 :: sg.length % 256 :: sg.flagsByte :: (uint32To24 sg.LocalReference ++ [im.code % 256])) = [im.code % 256] from rfl]
              rw [if_neg (by simp)]
              simp only [List.getD_cons_zero]
              rw [if_neg (by simp [himcode, PCodeImportance, PCodeEndOfOptionalParameters])]
              rw [if_neg (by simp [himcode, PCodeImportance, PCodeCalledPartyAddress])]
              rw [if_neg (by simp [himcode, PCodeImportance, PCodeCallingPartyAddress])]
              rw [if_neg (by simp [himcode, PCodeImportance, PCodeCredit])]
              rw [if_neg (by simp [himcode, PCodeImportance, PCodeData])]
              rw [if_neg (by simp [himcode, PCodeImportance, PCodeSegmentation])]
              rw [if_neg (by simp [himcode, PCodeImportance, PCodeHopCounter])]
              rw [if_pos (by simp [himcode, PCodeImportance])]
              simp only [Importance.Read, Importance.mk0, List.length_cons, List.length_nil]
              rw [if_pos (by omega)]
              simp only [Res.bind_err]
            rw [sG]
            simp only [Res.bind_err]

          · rw [show List.take 8 (sg.code % 256 :: sg.length % 256 :: sg.flagsByte :: ((uint32To24 sg.LocalReference ++ [im.code % 256, im.length % 256, im.value]) ++ [0])) = (sg.code % 256 :: sg.length % 256 :: sg.flagsByte :: (uint32To24 sg.LocalReference ++ [im.code % 256, im.length % 256])) from rfl]
            have hseg := Segmentation.seg_Read_enc sg hsgwf [im.code % 256, im.length % 256]
  
            have hEk : ((sg.code % 256 :: sg.length % 256 :: sg.flagsByte :: (uint32To24 sg.LocalReference ++ [im.code % 256, im.length % 256]))).length = 8 := by
              simp [uint32To24]
            have sG : ParseOptionalParameters (sg.code % 256 :: sg.length % 256 :: sg.flagsByte :: (uint32To24 sg.LocalReference ++ [im.code % 256, im.length % 256])) = .err .eof := by
              simp only [ParseOptionalParameters]
              rw [hEk]
              rw [show (8:Nat) + 2 = 9 + 1 from rfl]
              simp only [ParseOptionalParametersAux]
              rw [if_pos (by rw [hEk]; omega)]
              rw [goSliceFrom_eq_ok (by rw [hEk]; omega)]
              simp only [List.drop_zero, Res.bind_ok]
              simp only [ParseOptionalParameter]
              rw [if_neg (by rw [hEk]; omega)]
              simp only [List.getD_cons_zero]
              rw [if_neg (by simp [hsgcode, PCodeSegmentation, PCodeEndOfOptionalParameters])]
              rw [if_neg (by simp [hsgcode, PCodeSegmentation, PCodeCalledPartyAddress])]
              rw [if_neg (by simp [hsgcode, PCodeSegmentation, PCodeCallingPartyAddress])]
              rw [if_neg (by simp [hsgcode, PCodeSegmentation, PCodeCredit])]
              rw [if_neg (by simp [hsgcode, PCodeSegmentation, PCodeData])]
              rw [if_pos (by simp [hsgcode, PCodeSegmentation])]
              rw [hseg]
              simp only [Res.bind_ok]
              rw [if_neg (show ¬(Param.Code (.seg sg) = PCodeEndOfOptionalParameters) by
                simp [Param.Code, hsgcode, PCodeSegmentation, PCodeEndOfOptionalParameters])]
              simp only [List.nil_append]
              rw [if_pos (by rw [hEk]; omega)]
              rw [goSliceFrom_eq_ok (by rw [hEk]; omega)]
              simp only [Res.bind_ok]
              rw [show List.drop (0 + 6) (sg.code % 256 :: sg.length % 256 :: sg.flagsByte :: (uint32To24 sg.LocalReference ++ [im.code % 256, im.length % 256])) = [im.code % 256, im.length % 256] from rfl]
              rw [if_neg (by simp)]
              simp only [List.getD_cons_zero]
              rw [if_neg (by simp [himcode, PCodeImportance, PCodeEndOfOptionalParameters])]
              rw [if_neg (by simp [himcode, PCodeImportance, PCodeCalledPartyAddress])]
              rw [if_neg (by simp [himcode, PCodeImportance, PCodeCallingPartyAddress])]
              rw [if_neg (by simp [himcode, PCodeImportance, PCodeCredit])]
              rw [if_neg (by simp [himcode, PCodeImportance, PCodeData])]
              rw [if_neg (by simp [himcode, PCodeImportance, PCodeSegmentation])]
              rw [if_neg (by simp [himcode, PCodeImportance, PCodeHopCounter])]
              rw [if_pos (by simp [himcode, PCodeImportance])]
              simp only [Importance.Read, Importance.mk0, List.length_cons, List.length_nil]
              rw [if_pos (by omega)]
              simp only [Res.bind_err]
            rw [sG]
            simp only [Res.bind_err]

          · rw [show List.take 9 (sg.code % 256 :: sg.length % 256 :: sg.flagsByte :: ((uint32To24 sg.LocalReference ++ [im.code % 256, im.length % 256, im.value]) ++ [0])) = (sg.code % 256 :: sg.length % 256 :: sg.flagsByte :: (uint32To24 sg.LocalReference ++ [im.code % 256, im.length % 256, im.value])) from rfl]
            have hseg := Segmentation.seg_Read_enc sg hsgwf [im.code % 256, im.length % 256, im.value]
  
            have hEk : ((sg.code % 256 :: sg.length % 256 :: sg.flagsByte :: (uint32To24 sg.LocalReference ++ [im.code % 256, im.length % 256, im.value]))).length = 9 := by
              simp [uint32To24]
            have sG : ParseOptionalParameters (sg.code % 256 :: sg.length % 256 :: sg.flagsByte :: (uint32To24 sg.LocalReference ++ [im.code % 256, im.length % 256, im.value])) = .err .eof := by
              simp only [ParseOptionalParameters]
              rw [hEk]
              rw [show (9:Nat) + 2 = 10 + 1 from rfl]
              simp only [ParseOptionalParametersAux]
              rw [if_pos (by rw [hEk]; omega)]
              rw [goSliceFrom_eq_ok (by rw [hEk]; omega)]
              simp only [List.drop_zero, Res.bind_ok]
              simp only [ParseOptionalParameter]
              rw [if_neg (by rw [hEk]; omega)]
              simp only [List.getD_cons_zero]
              rw [if_neg (by simp [hsgcode, PCodeSegmentation, PCodeEndOfOptionalParameters])]
              rw [if_neg (by simp [hsgcode, PCodeSegmentation, PCodeCalledPartyAddress])]
              rw [if_neg (by simp [hsgcode, PCodeSegmentation, PCodeCallingPartyAddress])]
              rw [if_neg (by simp [hsgcode, PCodeSegmentation, PCodeCredit])]
              rw [if_neg (by simp [hsgcode, PCodeSegmentation, PCodeData])]
              rw [if_pos (by simp [hsgcode, PCodeSegmentation])]
              rw [hseg]
              simp only [Res.bind_ok]
              rw [if_neg (show ¬(Param.Code (.seg sg) = PCodeEndOfOptionalParameters) by
                simp [Param.Code, hsgcode, PCodeSegmentation, PCodeEndOfOptionalParameters])]
              simp only [List.nil_append]
              rw [if_pos (by rw [hEk]; omega)]
              rw [goSliceFrom_eq_ok (by rw [hEk]; omega)]
              simp only [Res.bind_ok]
              rw [show List.drop (0 + 6) (sg.code % 256 :: sg.length % 256 :: sg.flagsByte :: (uint32To24 sg.LocalReference ++ [im.code % 256, im.length % 256, im.value])) = [im.code % 256, im.length % 256, im.value] from rfl]
              rw [if_neg (by simp)]
              simp only [List.getD_cons_zero]
              rw [if_neg (by simp [himcode, PCodeImportance, PCodeEndOfOptionalParameters])]
              rw [if_neg (by simp [himcode, PCodeImportance, PCodeCalledPartyAddress])]
              rw [if_neg (by simp [himcode, PCodeImportance, PCodeCallingPartyAddress])]
              rw [if_neg (by simp [himcode, PCodeImportance, PCodeCredit])]
              rw [if_neg (by simp [himcode, PCodeImportance, PCodeData])]
              rw [if_neg (by simp [himcode, PCodeImportance, PCodeSegmentation])]
              rw [if_neg (by simp [himcode, PCodeImportance, PCodeHopCounter])]
              rw [if_pos (by simp [himcode, PCodeImportance])]
              rw [Importance.imp_Read_enc im himwf []]
              simp only [Res.bind_ok]
              rw [if_neg (show ¬(Param.Code (.imp im) = PCodeEndOfOptionalParameters) by
                simp [Param.Code, himcode, PCodeImportance, PCodeEndOfOptionalParameters])]
              rw [if_pos (by rw [hEk]; omega)]
              rw [goSliceFrom_eq_ok (by rw [hEk])]
              simp only [Res.bind_ok]
              rw [show List.drop (0 + 6 + 3) (sg.code % 256 :: sg.length % 256 :: sg.flagsByte :: (uint32To24 sg.LocalReference ++ [im.code % 256, im.length % 256, im.value])) = [] from rfl]
              rw [if_pos (by simp)]
              simp only [Res.bind_err]
            rw [sG]
            simp only [Res.bind_err]


/-! ## Supporting lemmas for the claims about the optional-block pointer -/

/-- `assignOpt` only sets the Segmentation, Importance or
End-of-Optional-Parameters field and leaves the fourth pointer alone. -/
theorem XUDT.assignOpt_ptr4 (x x' : XUDT) (p : Param)
    (h : x.assignOpt p = .ok x') : x'.ptr4 = x.ptr4 := by
  simp only [XUDT.assignOpt] at h
  split at h
  · cases p <;> first | exact Res.noConfusion h | (injection h with h; rw [← h])
  · split at h
    · cases p <;> first | exact Res.noConfusion h | (injection h with h; rw [← h])
    · split at h
      · cases p <;> first | exact Res.noConfusion h | (injection h with h; rw [← h])
      · injection h with h; rw [← h]

/-- `assignOpts` leaves the fourth pointer alone. -/
theorem XUDT.assignOpts_ptr4 (ps : List Param) (x x' : XUDT)
    (h : XUDT.assignOpts x ps = .ok x') : x'.ptr4 = x.ptr4 := by
  induction ps generalizing x with
  | nil => simp only [XUDT.assignOpts, Res.ok.injEq] at h; rw [← h]
  | cons p ps ih =>
    obtain ⟨a, ha, hrest⟩ := Res.bind_eq_ok h
    rw [ih a hrest, XUDT.assignOpt_ptr4 x a p ha]

/-- Inversion of a successful `XUDT.UnmarshalBinary`: a zero fourth
pointer leaves the three optional fields absent, and a nonzero one means
the optional block at the pointer-designated offset was sliced and parsed
successfully. -/
theorem XUDT.decode_ptr4 (b : List Nat) (x : XUDT)
    (h : XUDT.UnmarshalBinary b = .ok x) :
    (x.ptr4 = 0 → x.Segmentation = none ∧ x.Importance = none ∧
      x.EndOfOptionalParameters = none) ∧
    (x.ptr4 ≠ 0 → ∃ s pn, goSliceFrom b ((x.ptr4 + 6) % 256) = .ok s ∧
      ParseOptionalParameters s = .ok pn) := by
  simp only [XUDT.UnmarshalBinary] at h
  split at h
  · exact absurd h (by simp)
  obtain ⟨pcn, h1, h⟩ := Res.bind_eq_ok h
  obtain ⟨hn, h2, h⟩ := Res.bind_eq_ok h
  obtain ⟨ptr1, h3, h⟩ := Res.bind_eq_ok h
  split at h
  · exact absurd h (by simp)
  obtain ⟨ptr2, h4, h⟩ := Res.bind_eq_ok h
  split at h
  · exact absurd h (by simp)
  obtain ⟨ptr3, h5, h⟩ := Res.bind_eq_ok h
  split at h
  · exact absurd h (by simp)
  obtain ⟨ptr4, h6, h⟩ := Res.bind_eq_ok h
  split at h
  · exact absurd h (by simp)
  obtain ⟨s1, h7, h⟩ := Res.bind_eq_ok h
  obtain ⟨cdn, h8, h⟩ := Res.bind_eq_ok h
  obtain ⟨s2, h9, h⟩ := Res.bind_eq_ok h
  obtain ⟨cgn, h10, h⟩ := Res.bind_eq_ok h
  obtain ⟨s3, h11, h⟩ := Res.bind_eq_ok h
  obtain ⟨dn, h12, h⟩ := Res.bind_eq_ok h
  split at h
  next hz =>
    simp only [Res.ok.injEq] at h
    subst h
    constructor
    · intro; exact ⟨rfl, rfl, rfl⟩
    · intro hnz; exact absurd hz hnz
  next hz =>
    obtain ⟨s4, h13, h⟩ := Res.bind_eq_ok h
    obtain ⟨opn, h14, h⟩ := Res.bind_eq_ok h
    have hp4 := XUDT.assignOpts_ptr4 opn.1 _ x h
    simp only at hp4
    constructor
    · intro h0; rw [h0] at hp4; exact absurd hp4.symm hz
    · intro _
      refine ⟨s4, opn, ?_, ?_⟩
      · rw [hp4]; exact h13
      · rw [← h14]

/-! ## Sample values used by the claim witnesses -/

/-- A small well-formed UDT message (1-byte addresses, 1-byte data). -/
def sampleUDT : UDT :=
  { MsgType := 9, ProtocolClass := some ⟨0, 5, 1, 129⟩,
    CalledPartyAddress := some ⟨1, 3, 1, 0, 0, 0, none⟩,
    CallingPartyAddress := some ⟨1, 4, 1, 0, 0, 0, none⟩,
    Data := some ⟨1, 15, 1, [255]⟩, ptr1 := 3, ptr2 := 4, ptr3 := 5 }

/-- A small well-formed XUDT message without optional parameters. -/
def sampleXUDT : XUDT :=
  { MsgType := 17, ProtocolClass := some ⟨0, 5, 1, 129⟩,
    HopCounter := some ⟨0, 17, 1, 5⟩,
    CalledPartyAddress := some ⟨1, 3, 1, 0, 0, 0, none⟩,
    CallingPartyAddress := some ⟨1, 4, 1, 0, 0, 0, none⟩,
    Data := some ⟨1, 15, 1, [255]⟩,
    Segmentation := none, Importance := none, EndOfOptionalParameters := none,
    ptr1 := 4, ptr2 := 5, ptr3 := 6, ptr4 := 0 }

/-! ## The claims -/

/-- Claim C1: round trip. For every well-formed message (the shape
produced by the constructors on valid inputs and by successful decodes of
canonical encodings), `MarshalBinary` succeeds and `UnmarshalBinary`
decodes the produced bytes back to the original message, for both UDT and
XUDT. (The spec's other direction, `encode(decode(bytes)) = bytes` for
every accepted `bytes`, is refuted by the counterexample: the decoders
tolerate trailing bytes that re-encoding does not reproduce.) -/
theorem C1_roundtrip :
    (∀ u : UDT, u.wf → ∃ bs, u.MarshalBinary = .ok bs ∧
      UDT.UnmarshalBinary bs = .ok u) ∧
    (∀ x : XUDT, x.wf → ∃ bs, x.MarshalBinary = .ok bs ∧
      XUDT.UnmarshalBinary bs = .ok x) :=
  ⟨fun u h => ⟨u.enc, u.udt_MarshalBinary_eq h, u.udt_Unmarshal_enc h⟩,
   fun x h => ⟨x.enc, x.xudt_MarshalBinary_eq h, x.xudt_Unmarshal_enc h⟩⟩

/-- Witness for C1 at the sample messages. -/
theorem C1_roundtrip_witness :
    (sampleUDT.wf ∧ ∃ bs, sampleUDT.MarshalBinary = .ok bs ∧
      UDT.UnmarshalBinary bs = .ok sampleUDT) ∧
    (sampleXUDT.wf ∧ ∃ bs, sampleXUDT.MarshalBinary = .ok bs ∧
      XUDT.UnmarshalBinary bs = .ok sampleXUDT) :=
  ⟨⟨by decide, C1_roundtrip.1 sampleUDT (by decide)⟩,
   ⟨by decide, C1_roundtrip.2 sampleXUDT (by decide)⟩⟩

/-- Counterexample to C1's second direction: a byte sequence with a
trailing byte after a zero-length Data decodes successfully, but
re-serializing the decoded message drops the trailing byte. -/
theorem C1_roundtrip_cex :
    UDT.UnmarshalBinary [9, 129, 3, 4, 5, 1, 0, 1, 0, 0, 255] =
      .ok ⟨9, some ⟨0, 5, 1, 129⟩, some ⟨1, 3, 1, 0, 0, 0, none⟩,
        some ⟨1, 4, 1, 0, 0, 0, none⟩, some ⟨1, 15, 0, []⟩, 3, 4, 5⟩ ∧
    (UDT.mk 9 (some ⟨0, 5, 1, 129⟩) (some ⟨1, 3, 1, 0, 0, 0, none⟩)
        (some ⟨1, 4, 1, 0, 0, 0, none⟩) (some ⟨1, 15, 0, []⟩) 3 4 5).MarshalBinary =
      .ok [9, 129, 3, 4, 5, 1, 0, 1, 0, 0] ∧
    ([9, 129, 3, 4, 5, 1, 0, 1, 0, 0] : List Nat) ≠
      [9, 129, 3, 4, 5, 1, 0, 1, 0, 0, 255] :=
  ⟨rfl, rfl, by decide⟩

/-- Claim C2: truncation monotonicity. Every strict prefix of a canonical
encoding of a well-formed UDT or XUDT message fails to decode with the
truncation error. (For arbitrary accepted byte sequences the spec's claim
is refuted by the counterexample: an accepted sequence with trailing
bytes has an accepted strict prefix.) -/
theorem C2_truncation :
    (∀ u : UDT, u.wf → ∀ i, i < u.enc.length →
      UDT.UnmarshalBinary (u.enc.take i) = .err .eof) ∧
    (∀ x : XUDT, x.wf → ∀ i, i < x.enc.length →
      XUDT.UnmarshalBinary (x.enc.take i) = .err .eof) :=
  ⟨fun u h i hi => u.udt_decode_prefix h i hi, fun x h i hi => x.xudt_decode_prefix h i hi⟩

/-- Witness for C2 at the sample messages, prefix length 3. -/
theorem C2_truncation_witness :
    (sampleUDT.wf ∧ 3 < sampleUDT.enc.length ∧
      UDT.UnmarshalBinary (sampleUDT.enc.take 3) = .err .eof) ∧
    (sampleXUDT.wf ∧ 3 < sampleXUDT.enc.length ∧
      XUDT.UnmarshalBinary (sampleXUDT.enc.take 3) = .err .eof) :=
  ⟨⟨by decide, by decide, C2_truncation.1 sampleUDT (by decide) 3 (by decide)⟩,
   ⟨by decide, by decide, C2_truncation.2 sampleXUDT (by decide) 3 (by decide)⟩⟩

/-- Counterexample to C2 read over all accepted inputs: an accepted
11-byte sequence whose strict 10-byte prefix is also accepted. -/
theorem C2_truncation_cex :
    UDT.UnmarshalBinary [9, 129, 3, 4, 5, 1, 0, 1, 0, 0, 255] =
      .ok ⟨9, some ⟨0, 5, 1, 129⟩, some ⟨1, 3, 1, 0, 0, 0, none⟩,
        some ⟨1, 4, 1, 0, 0, 0, none⟩, some ⟨1, 15, 0, []⟩, 3, 4, 5⟩ ∧
    UDT.UnmarshalBinary (([9, 129, 3, 4, 5, 1, 0, 1, 0, 0, 255] : List Nat).take 10) =
      .ok ⟨9, some ⟨0, 5, 1, 129⟩, some ⟨1, 3, 1, 0, 0, 0, none⟩,
        some ⟨1, 4, 1, 0, 0, 0, none⟩, some ⟨1, 15, 0, []⟩, 3, 4, 5⟩ ∧
    10 < ([9, 129, 3, 4, 5, 1, 0, 1, 0, 0, 255] : List Nat).length :=
  ⟨rfl, rfl, by decide⟩

/-- Claim C3: the decoders are not panic-free. On buffers whose pointer
bytes make the 8-bit sums wrap around modulo 256, the pointer-designated
field end precedes its start and the Go slice expression `b[lo:hi]`
faults: `UnmarshalBinary` and `ParseMessage` crash instead of returning
an error. -/
theorem C3_pointer_wrap_crash :
    UDT.UnmarshalBinary [9, 129, 0, 255, 0, 0] = .crash ∧
    XUDT.UnmarshalBinary [17, 129, 0, 0, 255, 0, 0] = .crash ∧
    ParseMessage [9, 129, 0, 255, 0, 0] = .crash :=
  ⟨rfl, rfl, rfl⟩

/-- Claim C4: fourth-pointer semantics. `NewXUDT` with no optional
parameters yields a zero fourth pointer; a successful decode with a zero
fourth pointer leaves Segmentation, Importance and
End-of-Optional-Parameters absent; with a nonzero fourth pointer the
optional block at the designated offset `(ptr4 + 6) mod 256` was sliced
and parsed successfully. -/
theorem C4_ptr4_semantics :
    (∀ pcls roe hc cdpa cgpa data,
      ∃ x, NewXUDT pcls roe hc cdpa cgpa data [] = .ok x ∧ x.ptr4 = 0) ∧
    (∀ b x, XUDT.UnmarshalBinary b = .ok x →
      (x.ptr4 = 0 → x.Segmentation = none ∧ x.Importance = none ∧
        x.EndOfOptionalParameters = none) ∧
      (x.ptr4 ≠ 0 → ∃ s pn, goSliceFrom b ((x.ptr4 + 6) % 256) = .ok s ∧
        ParseOptionalParameters s = .ok pn)) := by
  constructor
  · intro pcls roe hc cdpa cgpa data
    exact ⟨_, rfl, rfl⟩
  · intro b x h
    exact XUDT.decode_ptr4 b x h

/-- Witness for C4: a decode without optional block leaves the three
optional fields absent, and a decode with a nonzero fourth pointer has a
parseable optional block at the designated offset. -/
theorem C4_ptr4_semantics_witness :
    (XUDT.UnmarshalBinary [17, 129, 5, 4, 5, 6, 0, 1, 0, 1, 0, 1, 255] =
      .ok ⟨17, some ⟨0, 5, 1, 129⟩, some ⟨0, 17, 1, 5⟩, some ⟨1, 3, 1, 0, 0, 0, none⟩,
        some ⟨1, 4, 1, 0, 0, 0, none⟩, some ⟨1, 15, 1, [255]⟩, none, none, none, 4, 5, 6, 0⟩) ∧
    ((XUDT.mk 17 (some ⟨0, 5, 1, 129⟩) (some ⟨0, 17, 1, 5⟩) (some ⟨1, 3, 1, 0, 0, 0, none⟩)
        (some ⟨1, 4, 1, 0, 0, 0, none⟩) (some ⟨1, 15, 1, [255]⟩) none none none
        4 5 6 0).Segmentation = none ∧
     (XUDT.mk 17 (some ⟨0, 5, 1, 129⟩) (some ⟨0, 17, 1, 5⟩) (some ⟨1, 3, 1, 0, 0, 0, none⟩)
        (some ⟨1, 4, 1, 0, 0, 0, none⟩) (some ⟨1, 15, 1, [255]⟩) none none none
        4 5 6 0).Importance = none ∧
     (XUDT.mk 17 (some ⟨0, 5, 1, 129⟩) (some ⟨0, 17, 1, 5⟩) (some ⟨1, 3, 1, 0, 0, 0, none⟩)
        (some ⟨1, 4, 1, 0, 0, 0, none⟩) (some ⟨1, 15, 1, [255]⟩) none none none
        4 5 6 0).EndOfOptionalParameters = none) ∧
    (∃ s pn, goSliceFrom [17, 129, 5, 4, 5, 6, 7, 1, 0, 1, 0, 1, 255, 0]
        (((XUDT.mk 17 (some ⟨0, 5, 1, 129⟩) (some ⟨0, 17, 1, 5⟩) (some ⟨1, 3, 1, 0, 0, 0, none⟩)
          (some ⟨1, 4, 1, 0, 0, 0, none⟩) (some ⟨1, 15, 1, [255]⟩) none none
          (some ⟨2, 0, 1, 0⟩) 4 5 6 7).ptr4 + 6) % 256) = .ok s ∧
      ParseOptionalParameters s = .ok pn) :=
  ⟨rfl,
   (C4_ptr4_semantics.2 [17, 129, 5, 4, 5, 6, 0, 1, 0, 1, 0, 1, 255] _ rfl).1 rfl,
   (C4_ptr4_semantics.2 [17, 129, 5, 4, 5, 6, 7, 1, 0, 1, 0, 1, 255, 0]
     ⟨17, some ⟨0, 5, 1, 129⟩, some ⟨0, 17, 1, 5⟩, some ⟨1, 3, 1, 0, 0, 0, none⟩,
      some ⟨1, 4, 1, 0, 0, 0, none⟩, some ⟨1, 15, 1, [255]⟩, none, none,
      some ⟨2, 0, 1, 0⟩, 4, 5, 6, 7⟩ rfl).2 (by decide)⟩

/-- Claim C5: variable-form Party Address length validation. Whenever the
leading length byte differs from the slice length minus one — too short
or merely longer — the decode fails with the truncation error, and a
successful decode forces the length byte to be exactly consistent. -/
theorem C5_length_validation :
    ∀ (code : Nat) (b : List Nat),
      (b.getD 0 0 ≠ b.length - 1 → parsePartyAddress PTypeV code b = .err .eof) ∧
      (∀ p n, parsePartyAddress PTypeV code b = .ok (p, n) →
        b.getD 0 0 = b.length - 1) := by
  intro code b
  have key : b.getD 0 0 ≠ b.length - 1 → parsePartyAddress PTypeV code b = .err .eof := by
    intro hne
    simp only [parsePartyAddress, PartyAddress.Read, PartyAddress.mk0, PTypeV, PTypeO]
    rw [if_neg (by norm_num)]
    simp only [PartyAddress.read]
    by_cases hl : b.length < 2
    · rw [if_pos hl]
    · rw [if_neg hl]
      rw [if_pos hne]
  refine ⟨key, ?_⟩
  intro p n hok
  by_contra hne
  rw [key hne] at hok
  exact Res.noConfusion hok

/-- Witness for C5: a 3-byte slice declaring length 5 is rejected. -/
theorem C5_length_validation_witness :
    (([5, 0, 0] : List Nat).getD 0 0 ≠ ([5, 0, 0] : List Nat).length - 1) ∧
    parsePartyAddress PTypeV 3 [5, 0, 0] = .err .eof :=
  ⟨by decide, (C5_length_validation 3 [5, 0, 0]).1 (by decide)⟩

/-- Claim C6: GlobalTitle.Read consumes 1/1/2/3 leading bytes for GTI
1/2/3/4, takes every remaining byte as AddressInformation, reports the
whole slice consumed, and fails with the truncation error when the buffer
is shorter than the GTI-mandated leading fields. -/
theorem C6_global_title_read :
    (∀ gti b, (gti = 1 ∨ gti = 2 ∨ gti = 3 ∨ gti = 4) →
      (GlobalTitle.leadLen gti ≤ b.length →
        ∃ g, (GlobalTitle.mk0 gti).Read b = .ok (g, b.length) ∧
          g.AddressInformation = b.drop (GlobalTitle.leadLen gti)) ∧
      (b.length < GlobalTitle.leadLen gti →
        (GlobalTitle.mk0 gti).Read b = .err .eof)) ∧
    GlobalTitle.leadLen 1 = 1 ∧ GlobalTitle.leadLen 2 = 1 ∧
    GlobalTitle.leadLen 3 = 2 ∧ GlobalTitle.leadLen 4 = 3 := by
  refine ⟨?_, rfl, rfl, rfl, rfl⟩
  intro gti b hgti
  rcases hgti with h | h | h | h <;> subst h <;> constructor
  · intro hL
    rw [show GlobalTitle.leadLen 1 = 1 from rfl] at hL
    refine ⟨⟨1, 0, 0, 0, b.getD 0 0, b.drop 1⟩, ?_, rfl⟩
    simp only [GlobalTitle.Read]
    rw [show (GlobalTitle.mk0 1).lenByGTI = 1 from rfl]
    rw [if_neg (by omega)]
    rw [if_pos (by decide)]
    rfl
  · intro hL
    rw [show GlobalTitle.leadLen 1 = 1 from rfl] at hL
    simp only [GlobalTitle.Read]
    rw [show (GlobalTitle.mk0 1).lenByGTI = 1 from rfl]
    rw [if_pos (by omega)]
  · intro hL
    rw [show GlobalTitle.leadLen 2 = 1 from rfl] at hL
    refine ⟨⟨2, b.getD 0 0, 0, 0, 0, b.drop 1⟩, ?_, rfl⟩
    simp only [GlobalTitle.Read]
    rw [show (GlobalTitle.mk0 2).lenByGTI = 1 from rfl]
    rw [if_neg (by omega)]
    rw [if_neg (by decide)]
    rw [if_pos (by decide)]
    rfl
  · intro hL
    rw [show GlobalTitle.leadLen 2 = 1 from rfl] at hL
    simp only [GlobalTitle.Read]
    rw [show (GlobalTitle.mk0 2).lenByGTI = 1 from rfl]
    rw [if_pos (by omega)]
  · intro hL
    rw [show GlobalTitle.leadLen 3 = 2 from rfl] at hL
    refine ⟨⟨3, b.getD 0 0, b.getD 1 0 / 16, b.getD 1 0 % 16, 0, b.drop 2⟩, ?_, rfl⟩
    simp only [GlobalTitle.Read]
    rw [show (GlobalTitle.mk0 3).lenByGTI = 2 from rfl]
    rw [if_neg (by omega)]
    rw [if_neg (by decide)]
    rw [if_neg (by decide)]
    rw [if_pos (by decide)]
    rfl
  · intro hL
    rw [show GlobalTitle.leadLen 3 = 2 from rfl] at hL
    simp only [GlobalTitle.Read]
    rw [show (GlobalTitle.mk0 3).lenByGTI = 2 from rfl]
    rw [if_pos (by omega)]
  · intro hL
    rw [show GlobalTitle.leadLen 4 = 3 from rfl] at hL
    refine ⟨⟨4, b.getD 0 0, b.getD 1 0 / 16, b.getD 1 0 % 16, b.getD 2 0, b.drop 3⟩, ?_, rfl⟩
    simp only [GlobalTitle.Read]
    rw [show (GlobalTitle.mk0 4).lenByGTI = 3 from rfl]
    rw [if_neg (by omega)]
    rw [if_neg (by decide)]
    rw [if_neg (by decide)]
    rw [if_neg (by decide)]
    rw [if_pos (by decide)]
    rfl
  · intro hL
    rw [show GlobalTitle.leadLen 4 = 3 from rfl] at hL
    simp only [GlobalTitle.Read]
    rw [show (GlobalTitle.mk0 4).lenByGTI = 3 from rfl]
    rw [if_pos (by omega)]

/-- Witness for C6 at GTI 3 with a 4-byte buffer, and the truncation case
on a 1-byte buffer. -/
theorem C6_global_title_read_witness :
    ((3 : Nat) = 1 ∨ (3 : Nat) = 2 ∨ (3 : Nat) = 3 ∨ (3 : Nat) = 4) ∧
    GlobalTitle.leadLen 3 ≤ ([1, 2, 3, 4] : List Nat).length ∧
    (∃ g, (GlobalTitle.mk0 3).Read [1, 2, 3, 4] =
        .ok (g, ([1, 2, 3, 4] : List Nat).length) ∧
      g.AddressInformation = ([1, 2, 3, 4] : List Nat).drop (GlobalTitle.leadLen 3)) ∧
    (GlobalTitle.mk0 3).Read [0] = .err .eof :=
  ⟨by norm_num, by decide,
   (C6_global_title_read.1 3 [1, 2, 3, 4] (by norm_num)).1 (by decide),
   (C6_global_title_read.1 3 [0] (by norm_num)).2 (by decide)⟩

/-- Claim C7: an unknown tag byte in the optional block is fatal: the
single-parameter dispatch and the whole block scan both fail with the
unsupported-parameter error carrying the tag. -/
theorem C7_unknown_tag (b : List Nat) (hb : 1 ≤ b.length)
    (h0 : b.getD 0 0 ≠ PCodeEndOfOptionalParameters)
    (h3 : b.getD 0 0 ≠ PCodeCalledPartyAddress)
    (h4 : b.getD 0 0 ≠ PCodeCallingPartyAddress)
    (h9 : b.getD 0 0 ≠ PCodeCredit)
    (h15 : b.getD 0 0 ≠ PCodeData)
    (h16 : b.getD 0 0 ≠ PCodeSegmentation)
    (h17 : b.getD 0 0 ≠ PCodeHopCounter)
    (h18 : b.getD 0 0 ≠ PCodeImportance) :
    ParseOptionalParameter b = .err (.unsupportedParam (b.getD 0 0)) ∧
    ParseOptionalParameters b = .err (.unsupportedParam (b.getD 0 0)) := by
  have key : ParseOptionalParameter b = .err (.unsupportedParam (b.getD 0 0)) := by
    simp only [ParseOptionalParameter]
    rw [if_neg (by omega)]
    rw [if_neg h0, if_neg h3, if_neg h4, if_neg h9, if_neg h15, if_neg h16,
      if_neg h17, if_neg h18]
  refine ⟨key, ?_⟩
  simp only [ParseOptionalParameters]
  rw [show b.length + 2 = (b.length + 1) + 1 from rfl]
  simp only [ParseOptionalParametersAux]
  rw [if_pos (by omega)]
  rw [show goSliceFrom b 0 = .ok b from by simp [goSliceFrom]]
  simp only [Res.bind_ok]
  rw [key]
  rfl

/-- Witness for C7 at the unknown tag 99. -/
theorem C7_unknown_tag_witness :
    (1 ≤ ([99] : List Nat).length) ∧
    (ParseOptionalParameter [99] = .err (.unsupportedParam (([99] : List Nat).getD 0 0)) ∧
     ParseOptionalParameters [99] = .err (.unsupportedParam (([99] : List Nat).getD 0 0))) :=
  ⟨by decide,
   C7_unknown_tag [99] (by decide) (by decide) (by decide) (by decide) (by decide)
     (by decide) (by decide) (by decide) (by decide)⟩

/-- Claim C8: ParseMessage dispatches on byte 0 to the UDT or XUDT codec
and fails with the unsupported-type error carrying the byte on any other
first byte. -/
theorem C8_dispatch (b : List Nat) (hb : 1 ≤ b.length) :
    (b.getD 0 0 = MsgTypeUDT → ParseMessage b = Res.map Msg.udt (UDT.UnmarshalBinary b)) ∧
    (b.getD 0 0 = MsgTypeXUDT → ParseMessage b = Res.map Msg.xudt (XUDT.UnmarshalBinary b)) ∧
    (b.getD 0 0 ≠ MsgTypeUDT → b.getD 0 0 ≠ MsgTypeXUDT →
      ParseMessage b = .err (.unsupportedType (b.getD 0 0))) := by
  refine ⟨?_, ?_, ?_⟩
  · intro h
    simp only [ParseMessage]
    rw [if_neg (by omega), if_pos h]
  · intro h
    simp only [ParseMessage]
    rw [if_neg (by omega)]
    rw [if_neg (by rw [h]; decide), if_pos h]
  · intro h1 h2
    simp only [ParseMessage]
    rw [if_neg (by omega), if_neg h1, if_neg h2]

/-- Witness for C8 at the unimplemented message type 3. -/
theorem C8_dispatch_witness :
    (1 ≤ ([3] : List Nat).length) ∧
    (([3] : List Nat).getD 0 0 ≠ MsgTypeUDT) ∧
    (([3] : List Nat).getD 0 0 ≠ MsgTypeXUDT) ∧
    ParseMessage [3] = .err (.unsupportedType (([3] : List Nat).getD 0 0)) :=
  ⟨by decide, by decide, by decide,
   (C8_dispatch [3] (by decide)).2.2 (by decide) (by decide)⟩

/-- Claim C9: length consistency. For every well-formed message,
`MarshalTo` succeeds on a fresh buffer of exactly `MarshalLen` bytes (this
is what `MarshalBinary` runs) and the produced byte sequence has length
`MarshalLen`. (For arbitrary successfully decoded messages the claim is
refuted by the counterexample: a decoded message whose first pointer
exceeds `MarshalLen` cannot be re-marshalled at all.) -/
theorem C9_marshal_len :
    (∀ u : UDT, u.wf → ∃ bs, u.MarshalTo (List.replicate u.MarshalLen 0) = .ok bs ∧
      u.MarshalBinary = .ok bs ∧ bs.length = u.MarshalLen) ∧
    (∀ x : XUDT, x.wf → ∃ bs, x.MarshalTo (List.replicate x.MarshalLen 0) = .ok bs ∧
      x.MarshalBinary = .ok bs ∧ bs.length = x.MarshalLen) :=
  ⟨fun u h => ⟨u.enc, u.udt_MarshalBinary_eq h, u.udt_MarshalBinary_eq h, u.udt_enc_length h⟩,
   fun x h => ⟨x.enc, x.xudt_MarshalBinary_eq h, x.xudt_MarshalBinary_eq h, x.xudt_enc_length h⟩⟩

/-- Witness for C9 at the sample messages. -/
theorem C9_marshal_len_witness :
    (sampleUDT.wf ∧ ∃ bs, sampleUDT.MarshalTo (List.replicate sampleUDT.MarshalLen 0) = .ok bs ∧
      sampleUDT.MarshalBinary = .ok bs ∧ bs.length = sampleUDT.MarshalLen) ∧
    (sampleXUDT.wf ∧ ∃ bs, sampleXUDT.MarshalTo (List.replicate sampleXUDT.MarshalLen 0) = .ok bs ∧
      sampleXUDT.MarshalBinary = .ok bs ∧ bs.length = sampleXUDT.MarshalLen) :=
  ⟨⟨by decide, C9_marshal_len.1 sampleUDT (by decide)⟩,
   ⟨by decide, C9_marshal_len.2 sampleXUDT (by decide)⟩⟩

/-- Counterexample to C9 over all successfully decoded messages: a decode
with an oversized first pointer succeeds, but re-marshalling the decoded
message into its `MarshalLen`-sized buffer fails. -/
theorem C9_marshal_len_cex :
    UDT.UnmarshalBinary [9, 129, 11, 4, 5, 1, 0, 1, 0, 0, 255] =
      .ok ⟨9, some ⟨0, 5, 1, 129⟩, some ⟨1, 3, 1, 0, 0, 0, none⟩,
        some ⟨1, 4, 1, 0, 0, 0, none⟩, some ⟨1, 15, 0, []⟩, 11, 4, 5⟩ ∧
    (UDT.mk 9 (some ⟨0, 5, 1, 129⟩) (some ⟨1, 3, 1, 0, 0, 0, none⟩)
        (some ⟨1, 4, 1, 0, 0, 0, none⟩) (some ⟨1, 15, 0, []⟩) 11 4 5).MarshalLen = 10 ∧
    (UDT.mk 9 (some ⟨0, 5, 1, 129⟩) (some ⟨1, 3, 1, 0, 0, 0, none⟩)
        (some ⟨1, 4, 1, 0, 0, 0, none⟩) (some ⟨1, 15, 0, []⟩) 11 4 5).MarshalBinary =
      .err .eof :=
  ⟨rfl, rfl, rfl⟩

/-- Claim C10: soft inconsistency. The optional-form decoders for Hop
Counter, Credit, Importance, Segmentation and Party Address accept any
leading code byte and any length byte, take the field values from the
actual bytes present, and consume their fixed expected count (for the
Party Address, the tag byte is taken unchecked and the rest read in
variable form). -/
theorem C10_soft_inconsistency (b : List Nat) (hb : 3 ≤ b.length) :
    HopCounter.Read { HopCounter.mk0 with paramType := PTypeO } b =
      .ok (⟨PTypeO, b.getD 0 0, b.getD 1 0, b.getD 2 0⟩, 3) ∧
    Credit.Read ⟨PTypeO, 0, 0, 0⟩ b =
      .ok (⟨PTypeO, b.getD 0 0, b.getD 1 0, b.getD 2 0⟩, 3) ∧
    Importance.mk0.Read b =
      .ok (⟨PTypeO, b.getD 0 0, b.getD 1 0, b.getD 2 0 % 8⟩, 3) ∧
    (6 ≤ b.length → Segmentation.mk0.Read b =
      .ok (⟨PTypeO, b.getD 0 0, b.getD 1 0, b.getD 2 0 / 128 % 2 = 1,
            b.getD 2 0 / 64 % 2, b.getD 2 0 % 16,
            uint24To32 ((b.drop 3).take 3)⟩, 6)) ∧
    (∀ p : PartyAddress, p.readOptional b =
      ({ p with code := b.getD 0 0 }).read (b.drop 1)) := by
  refine ⟨?_, ?_, ?_, ?_, ?_⟩
  · simp only [HopCounter.Read, HopCounter.mk0, HopCounter.readOptional]
    rw [if_pos (by decide), if_neg (by omega)]
  · simp only [Credit.Read, Credit.readOptional]
    rw [if_pos (by decide), if_neg (by omega)]
  · simp only [Importance.Read, Importance.mk0]
    rw [if_neg (by omega)]
  · intro h6
    simp only [Segmentation.Read, Segmentation.mk0]
    rw [if_neg (by omega)]
  · intro p
    simp only [PartyAddress.readOptional]
    rw [if_neg (by omega)]

/-- Witness for C10 on a 6-byte buffer with reserved code byte 200 and
inconsistent length byte 99. -/
theorem C10_soft_inconsistency_witness :
    (3 ≤ ([200, 99, 7, 1, 2, 3] : List Nat).length) ∧
    (HopCounter.Read { HopCounter.mk0 with paramType := PTypeO } [200, 99, 7, 1, 2, 3] =
       .ok (⟨PTypeO, 200, 99, 7⟩, 3) ∧
     Credit.Read ⟨PTypeO, 0, 0, 0⟩ [200, 99, 7, 1, 2, 3] = .ok (⟨PTypeO, 200, 99, 7⟩, 3) ∧
     Importance.mk0.Read [200, 99, 7, 1, 2, 3] = .ok (⟨PTypeO, 200, 99, 7⟩, 3) ∧
     (6 ≤ ([200, 99, 7, 1, 2, 3] : List Nat).length →
       Segmentation.mk0.Read [200, 99, 7, 1, 2, 3] =
         .ok (⟨PTypeO, 200, 99, false, 0, 7, 66051⟩, 6)) ∧
     (∀ p : PartyAddress, p.readOptional [200, 99, 7, 1, 2, 3] =
       ({ p with code := 200 }).read [99, 7, 1, 2, 3])) :=
  ⟨by decide, C10_soft_inconsistency [200, 99, 7, 1, 2, 3] (by decide)⟩

end Sccp
